import Mathlib

/-! # Drive snapshot module

A shallow embedding of `vice/src/drive/drive-snapshot.c`: the writer and the
reader of the `DRIVE` module and of the three disk-image modules (`IMAGEk` /
`NOIMAGEk`, `GCRIMAGEk`, `P64IMAGEk`).

Conventions of the embedding:

* the file is compiled either with or without `__LIBRETRO__`; the flag is the
  field `libretro` of `Cfg`, and every `#ifdef` of the source is an `if` on it;
* constants that come from headers which are not part of the sources
  (`MAX_GCR_TRACKS`, `DRIVE_TYPE_1571`, ...) are fields of `Cfg`;
* functions defined in other translation units are recorded as an `Event` in
  the trace of the `World`; what they return is supplied by `Ext`;
* C integers are `Int`; a cast to an unsigned type of `n` bits is `castU n`.
-/

namespace DriveSnapshot

set_option autoImplicit false

/-! ## The snapshot container -/

/-- One byte of a module payload. -/
abbrev Byte := Fin 256

/-- Module names built by the source: the literal `"DRIVE"` and the results of
`sprintf(snap_module_name, "NOIMAGE%u", dnr)`, `"IMAGE%u"`, `"GCRIMAGE%u"`,
`"P64IMAGE%u"`. -/
inductive ModName where
  | DRIVE
  | NOIMAGE (dnr : Nat)
  | IMAGE (dnr : Nat)
  | GCRIMAGE (dnr : Nat)
  | P64IMAGE (dnr : Nat)
  deriving DecidableEq, Repr

/-- Modelled from the spec: the container primitives (snapshot.c) are not among
the sources. A module is a named, versioned sub-block holding a byte payload. -/
structure SnapModule where
  name : ModName
  major : Nat
  minor : Nat
  data : List Byte
  deriving DecidableEq, Repr

/-- Modelled from the spec: a snapshot container is an ordered sequence of
modules. -/
abbrev Snapshot := List SnapModule

/-- Error codes handed to `snapshot_set_error`. -/
inductive SnapError where
  | SNAPSHOT_MODULE_HIGHER_VERSION
  | SNAPSHOT_MODULE_INCOMPATIBLE
  deriving DecidableEq, Repr

/-- Modelled from the spec: `snapshot_version_is_bigger` (snapshot.c, not among
the sources): the incoming (major, minor) exceeds the required one. -/
def snapshot_version_is_bigger (major minor major_required minor_required : Nat) : Bool :=
  if major > major_required then true
  else if major = major_required ∧ minor > minor_required then true
  else false

/-- Modelled from the spec: `snapshot_version_is_smaller` (snapshot.c, not among
the sources): the incoming (major, minor) is below the required one. -/
def snapshot_version_is_smaller (major minor major_required minor_required : Nat) : Bool :=
  if major < major_required then true
  else if major = major_required ∧ minor < minor_required then true
  else false

/-- Modelled from the spec: `snapshot_version_is_equal` (snapshot.c, not among
the sources): exact (major, minor) match. -/
def snapshot_version_is_equal (major minor major_required minor_required : Nat) : Bool :=
  decide (major = major_required ∧ minor = minor_required)

/-- Little-endian bytes of the `n` low-order bytes of `v`. -/
def leBytes : Nat → Nat → List Byte
  | 0, _ => []
  | n + 1, v => ⟨v % 256, Nat.mod_lt _ (by decide)⟩ :: leBytes n (v / 256)

/-- Value of a little-endian byte sequence. -/
def leNat : List Byte → Nat
  | [] => 0
  | b :: bs => b.val + 256 * leNat bs

/-- C cast of an integer to an unsigned type of `bits` bits. -/
def castU (bits : Nat) (v : Int) : Nat := (v % (2 ^ bits : Int)).toNat

/-- C cast of a 32-bit unsigned value to `int`. -/
def toInt32 (v : Nat) : Int := if v < 2 ^ 31 then (v : Int) else (v : Int) - 2 ^ 32

/-! ## Build configuration and header constants -/

/-- The preprocessor flag and the constants of headers that are not among the
sources (drive.h, gcr.h, diskconstants.h, libretro-core.h). -/
structure Cfg where
  libretro : Bool
  DRIVE_HALFTRACKS_1571 : Int
  MAX_TRACKS_1571 : Nat
  MAX_GCR_TRACKS : Nat
  NUM_MAX_MEM_BYTES_TRACK : Nat
  DRIVE_PC_NUM : Nat
  RETRO_PATH_MAX : Nat
  D81_FILE_SIZE : Int
  D80_FILE_SIZE : Int
  D82_FILE_SIZE : Int
  DRIVE_TYPE_NONE : Int
  DRIVE_TYPE_1540 : Int
  DRIVE_TYPE_1541 : Int
  DRIVE_TYPE_1541II : Int
  DRIVE_TYPE_1551 : Int
  DRIVE_TYPE_1570 : Int
  DRIVE_TYPE_1571 : Int
  DRIVE_TYPE_1571CR : Int
  DRIVE_TYPE_1581 : Int
  DRIVE_TYPE_2000 : Int
  DRIVE_TYPE_4000 : Int
  DRIVE_TYPE_CMDHD : Int
  DRIVE_TYPE_2031 : Int
  DRIVE_TYPE_1001 : Int
  DRIVE_TYPE_2040 : Int
  DRIVE_TYPE_3040 : Int
  DRIVE_TYPE_4040 : Int
  DRIVE_TYPE_8050 : Int
  DRIVE_TYPE_8250 : Int
  DRIVE_TYPE_9000 : Int

/-- Modelled from the spec: `NUM_DISK_UNITS` (drive.h, not among the sources).
The units sit at bus addresses 8..11 and the reconstruction code addresses
`diskunit_context[0]` .. `diskunit_context[3]`. -/
def NUM_DISK_UNITS : Nat := 4

def DRIVE_SNAP_MAJOR : Nat := 1
def DRIVE_SNAP_MINOR : Nat := 5
def IMAGE_SNAP_MAJOR : Nat := 1
def IMAGE_SNAP_MINOR : Nat := 0
def GCRIMAGE_SNAP_MAJOR : Nat := 3
def GCRIMAGE_SNAP_MINOR : Nat := 1
def P64IMAGE_SNAP_MAJOR : Nat := 1
def P64IMAGE_SNAP_MINOR : Nat := 0

/-! ## Drive units -/

/-- Scalar members of `diskunit_context_t` (`enable`, `type`, `clock_frequency`,
`idling_method`, `parallel_cable`) and of its `drives[0]` (all others) that the
source reads or writes, addressed by member name. -/
inductive Field where
  | enable
  | type
  | clock_frequency
  | idling_method
  | parallel_cable
  | attach_clk
  | detach_clk
  | attach_detach_clk
  | byte_ready_level
  | byte_ready_edge
  | byte_ready_active
  | current_half_track
  | side
  | extend_image_policy
  | GCR_head_offset
  | GCR_read
  | GCR_write_value
  | read_only
  | GCR_image_loaded
  | P64_image_loaded
  | complicated_image_loaded
  | snap_accum
  | snap_rotation_last_clk
  | snap_bit_counter
  | snap_zero_count
  | snap_last_read_data
  | snap_last_write_data
  | snap_seed
  | snap_speed_zone
  | snap_ue7_dcba
  | snap_ue7_counter
  | snap_uf4_counter
  | snap_fr_randcount
  | snap_filter_counter
  | snap_filter_state
  | snap_filter_last_state
  | snap_write_flux
  | snap_PulseHeadPosition
  | snap_xorShift32
  | snap_so_delay
  | snap_cycle_index
  | snap_ref_advance
  | snap_req_ref_cycles
  deriving DecidableEq, Repr

/-- Modelled from the spec: a flat sector image (diskimage.c is not among the
sources). `content` lists the tracks from track 1 on, each track being the list
of its sectors from sector 0 on; a sector outside of it cannot be read or
written. -/
structure DiskImage where
  type : Nat
  tracks : Int
  sectors : Int
  content : List (List (List Byte))
  deriving DecidableEq, Repr

/-- One entry of `drive->gcr->tracks[]`: the buffer (`none` is `NULL`) and its
recorded size. -/
structure GcrTrack where
  data : Option (List Byte)
  size : Int
  deriving DecidableEq, Repr

/-- Modelled from the spec: the flux image behind `drive->p64` is an opaque
object owned by the P64 codec (p64.c is not among the sources). -/
structure P64Image where
  blob : List Byte
  deriving DecidableEq, Repr

/-- One `diskunit_context[i]` together with its `drives[0]`. -/
structure DiskUnit where
  sc : Field → Int
  image : Option DiskImage
  gcr : Nat → GcrTrack
  p64 : Option P64Image

/-- Assignment to a scalar member. -/
def DiskUnit.set (u : DiskUnit) (f : Field) (v : Int) : DiskUnit :=
  { u with sc := fun g => if g = f then v else u.sc g }

/-- Assignment to `drive->gcr->tracks[i]`. -/
def DiskUnit.setTrack (u : DiskUnit) (i : Nat) (t : GcrTrack) : DiskUnit :=
  { u with gcr := fun j => if j = i then t else u.gcr j }

/-- Names of the resources the source reads or sets; `DriveIdleMethod a` is the
resource `"Drive<a>IdleMethod"`. -/
inductive Resource where
  | DriveTrueEmulation
  | MachineVideoStandard
  | DriveIdleMethod (addr : Nat)
  deriving DecidableEq, Repr

/-- Calls that leave this translation unit, in the order they are made. -/
inductive Event where
  | snapshot_module_open (name : ModName) (found : Bool)
  | snapshot_module_create (name : ModName) (major minor : Nat)
  | snapshot_module_read (name : ModName) (nbytes : Nat)
  | snapshot_module_close (name : ModName)
  | snapshot_set_error (err : SnapError)
  | resources_set_int (r : Resource) (v : Int)
  | drive_gcr_data_writeback_all
  | rotation_table_get
  | rotation_table_set (ptr : List Int)
  | vdrive_snapshot_module_write (start : Int)
  | vdrive_snapshot_module_read (start : Int)
  | machine_drive_rom_setup_image (dnr : Nat)
  | drivemem_init (dnr : Nat)
  | driverom_initialize_traps (dnr : Nat)
  | drive_set_active_led_color (ty : Int) (led : Nat)
  | machine_bus_status_drivetype_set (addr : Nat) (status : Nat)
  | drive_disable (dnr : Nat)
  | drive_enable (dnr : Nat)
  | parallel_cable_drive_write (port : Nat) (dnr : Nat)
  | drivecpu65c02_snapshot_read_module (dnr : Nat)
  | drivecpu_snapshot_read_module (dnr : Nat)
  | machine_drive_snapshot_read (dnr : Nat)
  | drivecpu65c02_snapshot_write_module (dnr : Nat)
  | drivecpu_snapshot_write_module (dnr : Nat)
  | machine_drive_snapshot_write (dnr : Nat)
  | driverom_snapshot_read (dnr : Nat)
  | driverom_snapshot_write (dnr : Nat)
  | drive_set_half_track (num : Int) (side : Int) (dnr : Nat)
  | drive_sound_stop
  | iec_update_ports_embedded
  | drive_update_ui_status
  | file_system_detach_disk (addr : Nat) (drv : Nat)
  | file_system_attach_disk (addr : Nat) (drv : Nat) (len : Int)
  | archdep_mkstemp_fd
  | zfile_close_action
  | vdrive_bam_reread_bam (addr : Nat) (drv : Nat)
  | log_error
  | null_dereference
  | lib_free
  | double_free
  deriving DecidableEq, Repr

/-- The state the functions of the source act on. -/
structure World where
  units : Nat → DiskUnit
  resources : Resource → Int
  snapshot_error : Option SnapError
  dc_savestate_filename : List Byte
  trace : List Event

/-- Record a call. -/
def World.log (w : World) (ev : Event) : World :=
  { w with trace := w.trace ++ [ev] }

/-- Replace `diskunit_context[i]`. -/
def World.setUnit (w : World) (i : Nat) (u : DiskUnit) : World :=
  { w with units := fun j => if j = i then u else w.units j }

/-- Assignment to a scalar member of unit `i`. -/
def World.setField (w : World) (i : Nat) (f : Field) (v : Int) : World :=
  w.setUnit i ((w.units i).set f v)

/-- Modelled from the spec: `snapshot_set_error` (snapshot.c, not among the
sources) records the error of the failed operation. -/
def snapshot_set_error (w : World) (err : SnapError) : World :=
  { w.log (.snapshot_set_error err) with snapshot_error := some err }

/-- Modelled from the spec: `resources_set_int` (resources.c, not among the
sources) stores a value in the configuration. -/
def resources_set_int (w : World) (r : Resource) (v : Int) : World :=
  { w.log (.resources_set_int r v) with resources := fun q => if q = r then v else w.resources q }

/-- The per-unit local arrays of `drive_snapshot_read_module`. -/
inductive Local where
  | attach_clk
  | detach_clk
  | attach_detach_clk
  | half_track
  | rotation_table_ptr
  deriving DecidableEq, Repr

/-- What the functions of other translation units return, and the content of
uninitialised locals. -/
structure Ext where
  /-- Whether `snapshot_module_create` returns `NULL`. -/
  create_fails : ModName → Bool
  /-- The write call number `n` (from 0) into the module fails. -/
  smw_fails : ModName → Nat → Bool
  /-- Whether `snapshot_module_close` of a module being written returns a negative value. -/
  close_fails : ModName → Bool
  vdrive_snapshot_module_write : Int
  vdrive_snapshot_module_read : Int
  rotation_table_get : Nat → Int
  drivecpu65c02_snapshot_write_module : Nat → Int
  drivecpu_snapshot_write_module : Nat → Int
  machine_drive_snapshot_write : Nat → Int
  driverom_snapshot_write : Nat → Int
  drivecpu65c02_snapshot_read_module : Nat → Int
  drivecpu_snapshot_read_module : Nat → Int
  machine_drive_snapshot_read : Nat → Int
  driverom_snapshot_read : Nat → Int
  /-- Whether `archdep_mkstemp_fd` returns a file. -/
  archdep_mkstemp_fd : Bool
  /-- The `fseek` / `fputc` pair that grows the temporary file succeeds. -/
  grow_file : Bool
  /-- Result of `file_system_attach_disk(addr, 0, filename)` for a file of `len`
  bytes, and the image then found in `drive->image`. -/
  file_system_attach_disk : Nat → Int → Option DiskImage → Int × Option DiskImage
  /-- Result of `P64ImageWriteToStream`: the serialised image, `none` when it fails. -/
  P64ImageWriteToStream : P64Image → Option (List Byte)
  /-- Result of `P64ImageReadFromStream`: the image read from the stream, `none` when it fails. -/
  P64ImageReadFromStream : P64Image → List Byte → Option P64Image
  /-- Basename of the disk attached to the unit (`file_system_get_disk_name`). -/
  disk_basename : Nat → List Byte
  /-- Content of the locals `attach_clk[i]`, `detach_clk[i]`, `attach_detach_clk[i]`,
  `half_track[i]`, `rotation_table_ptr[i]` before anything is stored in them. -/
  uninit : Local → Nat → Int
  /-- Content of the local `sector_data` before anything is stored in it. -/
  uninit_sector_data : List Byte

/-! ## Reading and writing a module -/

/-- A module opened for reading: its name and the bytes not yet consumed. -/
structure RHandle where
  name : ModName
  data : List Byte
  deriving DecidableEq, Repr

/-- A module being written: the bytes emitted so far and the number of write
calls made. -/
structure WHandle where
  name : ModName
  major : Nat
  minor : Nat
  data : List Byte
  nwrites : Nat
  deriving DecidableEq, Repr

/-- Modelled from the spec: `snapshot_module_open` (snapshot.c, not among the
sources) opens the module of that name, `none` when the container has none. -/
def snapshot_module_open (s : Snapshot) (w : World) (name : ModName) :
    Option (RHandle × Nat × Nat) × World :=
  match s.find? (fun m => decide (m.name = name)) with
  | none => (none, w.log (.snapshot_module_open name false))
  | some m => (some (⟨name, m.data⟩, m.major, m.minor), w.log (.snapshot_module_open name true))

/-- Modelled from the spec: closing a module that was opened for reading. -/
def snapshot_module_close (w : World) (m : RHandle) : World :=
  w.log (.snapshot_module_close m.name)

/-- Modelled from the spec: the typed read primitives consume a fixed number of
bytes at the cursor and fail when fewer remain. -/
def snapshot_module_read (w : World) (m : RHandle) (n : Nat) :
    Option (List Byte) × RHandle × World :=
  if n ≤ m.data.length then
    (some (m.data.take n), { m with data := m.data.drop n }, w.log (.snapshot_module_read m.name n))
  else (none, m, w.log (.snapshot_module_read m.name n))

/-- Modelled from the spec: `snapshot_module_create` starts a module of the
given name and version. -/
def snapshot_module_create (e : Ext) (w : World) (name : ModName) (major minor : Nat) :
    Option WHandle × World :=
  if e.create_fails name then (none, w.log (.snapshot_module_create name major minor))
  else (some ⟨name, major, minor, [], 0⟩, w.log (.snapshot_module_create name major minor))

/-- Modelled from the spec: a typed write primitive appends its bytes unless the
underlying write fails. -/
def smw (e : Ext) (m : WHandle) (bytes : List Byte) : Bool × WHandle :=
  if e.smw_fails m.name m.nwrites then (false, { m with nwrites := m.nwrites + 1 })
  else (true, { m with data := m.data ++ bytes, nwrites := m.nwrites + 1 })

/-- Modelled from the spec: closing a module being written puts it into the
container; the Boolean tells whether the close succeeded. -/
def snapshot_module_close_w (e : Ext) (s : Snapshot) (w : World) (m : WHandle) :
    Bool × Snapshot × World :=
  (!e.close_fails m.name, s ++ [⟨m.name, m.major, m.minor, m.data⟩],
    w.log (.snapshot_module_close m.name))

/-- Macro `SMW_B`. -/
def SMW_B (e : Ext) (m : WHandle) (v : Int) : Bool × WHandle := smw e m (leBytes 1 (castU 8 v))
/-- Macro `SMW_W`. -/
def SMW_W (e : Ext) (m : WHandle) (v : Int) : Bool × WHandle := smw e m (leBytes 2 (castU 16 v))
/-- Macro `SMW_DW`. -/
def SMW_DW (e : Ext) (m : WHandle) (v : Int) : Bool × WHandle := smw e m (leBytes 4 (castU 32 v))
/-- Macro `SMW_BA`. -/
def SMW_BA (e : Ext) (m : WHandle) (bytes : List Byte) : Bool × WHandle := smw e m bytes

/-- Macro `SMR_DW`: a 32-bit unsigned value. -/
def SMR_DW (w : World) (m : RHandle) : Option Nat × RHandle × World :=
  match snapshot_module_read w m 4 with
  | (some bs, m1, w1) => (some (leNat bs), m1, w1)
  | (none, m1, w1) => (none, m1, w1)

/-- Macro `SMR_W`: a 16-bit unsigned value. -/
def SMR_W (w : World) (m : RHandle) : Option Nat × RHandle × World :=
  match snapshot_module_read w m 2 with
  | (some bs, m1, w1) => (some (leNat bs), m1, w1)
  | (none, m1, w1) => (none, m1, w1)

/-- Macro `SMR_B`: one byte. -/
def SMR_B (w : World) (m : RHandle) : Option Nat × RHandle × World :=
  match snapshot_module_read w m 1 with
  | (some bs, m1, w1) => (some (leNat bs), m1, w1)
  | (none, m1, w1) => (none, m1, w1)

/-- Macro `SMR_BA`: `n` bytes. -/
def SMR_BA (w : World) (m : RHandle) (n : Nat) : Option (List Byte) × RHandle × World :=
  snapshot_module_read w m n

/-! ## External collaborators with an effect on the units -/

/-- Modelled from the spec: `file_system_detach_disk` (attach.c, not among the
sources) detaches the image of a slot; for the primary slot the unit is left
without a flat image. -/
def file_system_detach_disk (w : World) (dnr : Nat) (drv : Nat) : World :=
  let w1 := w.log (.file_system_detach_disk (dnr + 8) drv)
  if drv = 0 then w1.setUnit dnr { w1.units dnr with image := none } else w1

/-- Modelled from the spec: `drive_disable` (drive.c, not among the sources)
disables the unit. -/
def drive_disable (w : World) (dnr : Nat) : World :=
  (w.log (.drive_disable dnr)).setField dnr .enable 0

/-- Buffer of exactly `n` bytes holding `bs`, cut or zero padded. -/
def fill (n : Nat) (bs : List Byte) : List Byte := (bs ++ List.replicate n 0).take n

/-- Modelled from the spec: `disk_image_read_sector` (diskimage.c, not among the
sources): the 256 bytes of the sector, `none` when the sector cannot be read. -/
def disk_image_read_sector (img : DiskImage) (track sector : Nat) : Option (List Byte) :=
  if track = 0 then none
  else match img.content[track - 1]? with
    | none => none
    | some tr => (tr[sector]?).map (fill 256)

/-- Modelled from the spec: `disk_image_write_sector` (diskimage.c, not among
the sources): the image with the sector replaced, `none` when the sector cannot
be written. -/
def disk_image_write_sector (img : DiskImage) (sector_data : List Byte) (track sector : Nat) :
    Option DiskImage :=
  if track = 0 then none
  else match img.content[track - 1]? with
    | none => none
    | some tr =>
      if sector < tr.length then
        some { img with content := img.content.set (track - 1) (tr.set sector (fill 256 sector_data)) }
      else none

/-- Number of sectors of a track (0 when the track does not exist). -/
def DiskImage.sectorsOn (img : DiskImage) (track : Nat) : Nat :=
  if track = 0 then 0 else ((img.content[track - 1]?).map List.length).getD 0

/-! ## Flat sector image: `IMAGEk` / `NOIMAGEk` -/

/-- Inner loop of the writer, `for (dadr.sector = 0;; dadr.sector++)`: returns the
sector index at which it stopped. The return value of `SMW_BA` is not tested. -/
def write_image_track (e : Ext) (img : DiskImage) (track : Nat) :
    Nat → Nat → WHandle → Nat × WHandle
  | 0, sector, m => (sector, m)
  | fuel + 1, sector, m =>
    match disk_image_read_sector img track sector with
    | some sector_data => write_image_track e img track fuel (sector + 1) (SMW_BA e m sector_data).2
    | none => (sector, m)

/-- Outer loop of the writer, `for (dadr.track = 1;; dadr.track++)`. -/
def write_image_tracks (e : Ext) (img : DiskImage) : Nat → Nat → WHandle → WHandle
  | 0, _, m => m
  | fuel + 1, track, m =>
    match write_image_track e img track (img.sectorsOn track + 1) 0 m with
    | (sector, m1) => if sector = 0 then m1 else write_image_tracks e img fuel (track + 1) m1

/-- Function `drive_snapshot_write_image_module`. -/
def drive_snapshot_write_image_module (c : Cfg) (e : Ext) (s : Snapshot) (w : World)
    (dnr : Nat) : Int × Snapshot × World :=
  let drive := w.units dnr
  let noimage : Bool := drive.image.isNone || decide (drive.sc .type = c.DRIVE_TYPE_CMDHD)
  let snap_module_name := if noimage then ModName.NOIMAGE dnr else ModName.IMAGE dnr
  match snapshot_module_create e w snap_module_name IMAGE_SNAP_MAJOR IMAGE_SNAP_MINOR with
  | (none, w1) => (-1, s, w1)
  | (some m, w1) =>
    match (if noimage then none else drive.image) with
    | none =>
      match snapshot_module_close_w e s w1 m with
      | (false, s1, w2) => (-1, s1, w2)
      | (true, s1, w2) => (0, s1, w2)
    | some img =>
      let m1 := (SMW_W e m (img.type : Int)).2
      let m2 := write_image_tracks e img (img.content.length + 1) 1 m1
      match snapshot_module_close_w e s w1 m2 with
      | (false, s1, w2) => (-1, s1, w2)
      | (true, s1, w2) => (0, s1, w2)

/-- State of the sector loop of the reader: the local `sector_data`, the module
and the world. -/
structure ImgRead where
  sector_data : List Byte
  m : RHandle
  w : World

/-- Call `disk_image_write_sector(drive->image, sector_data, &dadr)` on the live
image of the unit. -/
def write_sector_live (dnr : Nat) (track sector : Nat) (st : ImgRead) : Option ImgRead :=
  match (st.w.units dnr).image with
  | none => none
  | some img =>
    match disk_image_write_sector img st.sector_data track sector with
    | none => none
    | some img1 => some { st with w := st.w.setUnit dnr { st.w.units dnr with image := some img1 } }

/-- Call `SMR_BA(m, sector_data, 0x100)` whose return value is not tested: on
failure the buffer keeps its content. -/
def read_sector_data (st : ImgRead) : ImgRead :=
  match SMR_BA st.w st.m 256 with
  | (some bs, m1, w1) => ⟨bs, m1, w1⟩
  | (none, m1, w1) => ⟨st.sector_data, m1, w1⟩

/-- Inner loop of the reader, `for (dadr.sector = 0;; dadr.sector++)`. -/
def read_image_track (dnr : Nat) (track : Nat) : Nat → Nat → ImgRead → Nat × ImgRead
  | 0, sector, st => (sector, st)
  | fuel + 1, sector, st =>
    match write_sector_live dnr track sector st with
    | some st1 => read_image_track dnr track fuel (sector + 1) (read_sector_data st1)
    | none => (sector, st)

/-- Number of sectors of a track of the live image of the unit. -/
def liveSectorsOn (w : World) (dnr : Nat) (track : Nat) : Nat :=
  match (w.units dnr).image with
  | none => 0
  | some img => img.sectorsOn track

/-- Outer loop of the reader, `for (dadr.track = 1;; dadr.track++)`. -/
def read_image_tracks (dnr : Nat) : Nat → Nat → ImgRead → ImgRead
  | 0, _, st => st
  | fuel + 1, track, st =>
    match read_image_track dnr track (liveSectorsOn st.w dnr track + 1) 0 st with
    | (sector, st1) => if sector = 0 then st1 else read_image_tracks dnr fuel (track + 1) st1

/-- The `switch (word)` of the reader: the length of the backing store, `none`
for an unknown type. For 9000 the source dereferences `drive->image`. -/
def image_len (c : Cfg) (drive : DiskUnit) (word : Nat) : Option (Option Int) :=
  if word = 1581 then some (some c.D81_FILE_SIZE)
  else if word = 8050 then some (some c.D80_FILE_SIZE)
  else if word = 8250 then some (some c.D82_FILE_SIZE)
  else if word = 9000 then
    match drive.image with
    | some img => some (some (img.tracks * img.sectors * 256))
    | none => some none
  else none

/-- Function `drive_snapshot_read_image_module`. A dereference of a `NULL`
`drive->image` is recorded as `null_dereference` and ends the call. The calls
`lib_free(filename)` are recorded as `lib_free`: the source frees `filename`
before it hands it to `file_system_attach_disk` and to `zfile_close_action`, and
on the path "Invalid Disk Image" it frees it a second time; that free of a
pointer already freed is recorded as `double_free` and ends the call, before
`snapshot_module_close`. -/
def drive_snapshot_read_image_module (c : Cfg) (e : Ext) (s : Snapshot) (w : World)
    (dnr : Nat) : Int × World :=
  match snapshot_module_open s w (.NOIMAGE dnr) with
  | (some (m, _, _), w1) =>
    let w2 := if (w1.units dnr).sc .type ≠ c.DRIVE_TYPE_CMDHD then file_system_detach_disk w1 dnr 0
      else w1
    let w3 := file_system_detach_disk w2 dnr 1
    (0, snapshot_module_close w3 m)
  | (none, w1) =>
    match snapshot_module_open s w1 (.IMAGE dnr) with
    | (none, w2) => (0, w2)
    | (some (m, major_version, minor_version), w2) =>
      if snapshot_version_is_bigger major_version minor_version IMAGE_SNAP_MAJOR IMAGE_SNAP_MINOR
      then (-1, snapshot_module_close (snapshot_set_error w2 .SNAPSHOT_MODULE_HIGHER_VERSION) m)
      else if snapshot_version_is_smaller major_version minor_version IMAGE_SNAP_MAJOR
          IMAGE_SNAP_MINOR
      then (-1, snapshot_module_close (snapshot_set_error w2 .SNAPSHOT_MODULE_INCOMPATIBLE) m)
      else
        match SMR_W w2 m with
        | (none, m1, w3) => (-1, snapshot_module_close w3 m1)
        | (some word, m1, w3) =>
          match image_len c (w3.units dnr) word with
          | none => (-1, snapshot_module_close (w3.log .log_error) m1)
          | some none => (-1, w3.log .null_dereference)
          | some (some len) =>
            let w4 := w3.log .archdep_mkstemp_fd
            if !e.archdep_mkstemp_fd then (-1, snapshot_module_close (w4.log .log_error) m1)
            else if !e.grow_file then
              (-1, snapshot_module_close ((w4.log .log_error).log .lib_free) m1)
            else
              let w5 := (w4.log .lib_free).log (.file_system_attach_disk (dnr + 8) 0 len)
              let r := e.file_system_attach_disk (dnr + 8) len (w5.units dnr).image
              let w6 := w5.setUnit dnr { w5.units dnr with image := r.2 }
              if r.1 < 0 then (-1, (w6.log .log_error).log .double_free)
              else
                let w7 := w6.log .zfile_close_action
                let st0 := read_sector_data ⟨e.uninit_sector_data, m1, w7⟩
                let fuel := match (st0.w.units dnr).image with
                  | none => 1
                  | some img => img.content.length + 1
                let st1 := read_image_tracks dnr fuel 1 st0
                (0, snapshot_module_close (st1.w.log (.vdrive_bam_reread_bam (dnr + 8) 0)) st1.m)

/-! ## GCR image: `GCRIMAGEk` -/

/-- Loop `for (i = 0; i < num_half_tracks; i++)` of the writer, left by `break`
at the first failed write: returns the index at which it stopped. -/
def write_gcr_tracks (e : Ext) (drive : DiskUnit) : Nat → Nat → WHandle → Nat × WHandle
  | 0, i, m => (i, m)
  | n + 1, i, m =>
    let data := (drive.gcr i).data
    let track_size : Nat := match data with
      | some _ => castU 32 (drive.gcr i).size
      | none => 0
    match SMW_DW e m track_size with
    | (false, m1) => (i, m1)
    | (true, m1) =>
      if track_size ≠ 0 then
        match SMW_BA e m1 (fill track_size (data.getD [])) with
        | (false, m2) => (i, m2)
        | (true, m2) => write_gcr_tracks e drive n (i + 1) m2
      else write_gcr_tracks e drive n (i + 1) m1

/-- The local `filename` of the `__LIBRETRO__` writer after
`snprintf(filename, sizeof(filename), "___%s", basename)`: `RETRO_PATH_MAX` bytes. -/
def libretro_filename (c : Cfg) (e : Ext) (dnr : Nat) : List Byte :=
  fill c.RETRO_PATH_MAX
    (([95, 95, 95] ++ (e.disk_basename dnr).takeWhile (fun b => b ≠ 0)).take (c.RETRO_PATH_MAX - 1))

/-- Function `drive_snapshot_write_gcrimage_module`. -/
def drive_snapshot_write_gcrimage_module (c : Cfg) (e : Ext) (s : Snapshot) (w : World)
    (dnr : Nat) : Int × Snapshot × World :=
  let drive := w.units dnr
  match snapshot_module_create e w (.GCRIMAGE dnr) GCRIMAGE_SNAP_MAJOR GCRIMAGE_SNAP_MINOR with
  | (none, w1) => (-1, s, w1)
  | (some m, w1) =>
    if c.libretro then
      let m1 := (SMW_BA e m (libretro_filename c e dnr)).2
      match snapshot_module_close_w e s w1 m1 with
      | (_, s1, w2) => (0, s1, w2)
    else
      let num_half_tracks := c.MAX_TRACKS_1571 * 2
      match SMW_DW e m num_half_tracks with
      | (false, m1) =>
        match snapshot_module_close_w e s w1 m1 with
        | (_, s1, w2) => (-1, s1, w2)
      | (true, m1) =>
        match write_gcr_tracks e drive num_half_tracks 0 m1 with
        | (i, m2) =>
          match snapshot_module_close_w e s w1 m2 with
          | (ok, s1, w2) => if !ok || decide (i ≠ num_half_tracks) then (-1, s1, w2) else (0, s1, w2)

/-- The buffer of a half-track after the allocation step of the reader
(`lib_calloc`, or `lib_realloc` when the size differs) and the `memset` to 0. -/
def gcr_alloc (t : GcrTrack) (track_size : Nat) : List Byte :=
  let buf : List Byte := match t.data with
    | none => List.replicate track_size 0
    | some old => if t.size ≠ (toInt32 track_size) then fill track_size old else old
  List.replicate track_size 0 ++ buf.drop track_size

/-- State of the track loop of the reader. -/
structure GcrRead where
  m : RHandle
  w : World

/-- Loop `for (i = 0; i < num_half_tracks; i++)` of the reader; `false` when the
body closed the module and returned -1. -/
def read_gcr_tracks (c : Cfg) (dnr : Nat) : Nat → Nat → GcrRead → Bool × GcrRead
  | 0, _, st => (true, st)
  | n + 1, i, st =>
    match SMR_DW st.w st.m with
    | (none, m1, w1) => (false, ⟨m1, snapshot_module_close w1 m1⟩)
    | (some track_size, m1, w1) =>
      if track_size > c.NUM_MAX_MEM_BYTES_TRACK then (false, ⟨m1, snapshot_module_close w1 m1⟩)
      else
        let drive := w1.units dnr
        if track_size ≠ 0 then
          let buf := gcr_alloc (drive.gcr i) track_size
          let w2 := w1.setUnit dnr (drive.setTrack i ⟨some buf, toInt32 track_size⟩)
          match SMR_BA w2 m1 track_size with
          | (none, m2, w3) => (false, ⟨m2, snapshot_module_close w3 m2⟩)
          | (some bs, m2, w3) =>
            read_gcr_tracks c dnr n (i + 1)
              ⟨m2, w3.setUnit dnr ((w3.units dnr).setTrack i ⟨some (bs ++ buf.drop track_size), toInt32 track_size⟩)⟩
        else
          read_gcr_tracks c dnr n (i + 1)
            ⟨m1, w1.setUnit dnr (drive.setTrack i ⟨none, toInt32 track_size⟩)⟩

/-- Loop `for (; i < MAX_GCR_TRACKS; i++)` of the reader: frees the half-tracks
beyond the declared count. -/
def clear_gcr_tracks (dnr : Nat) : Nat → Nat → World → World
  | 0, _, w => w
  | n + 1, i, w =>
    let drive := w.units dnr
    match (drive.gcr i).data with
    | some _ => clear_gcr_tracks dnr n (i + 1) (w.setUnit dnr (drive.setTrack i ⟨none, 0⟩))
    | none => clear_gcr_tracks dnr n (i + 1) w

/-- The track data part of the reader, from the read of the half-track count to
the end of the second loop; `false` when it closed the module and returned -1. -/
def read_gcr_body (c : Cfg) (dnr : Nat) (st : GcrRead) : Bool × GcrRead :=
  match SMR_DW st.w st.m with
  | (none, m1, w1) => (false, ⟨m1, snapshot_module_close w1 m1⟩)
  | (some num_half_tracks, m1, w1) =>
    if num_half_tracks > c.MAX_GCR_TRACKS then (false, ⟨m1, snapshot_module_close w1 m1⟩)
    else
      match read_gcr_tracks c dnr num_half_tracks 0 ⟨m1, w1⟩ with
      | (false, st1) => (false, st1)
      | (true, st1) =>
        (true, ⟨st1.m, clear_gcr_tracks dnr (c.MAX_GCR_TRACKS - num_half_tracks) num_half_tracks st1.w⟩)

/-- State of the file name loop of the `__LIBRETRO__` reader. -/
structure NameRead where
  filename : List Byte
  m : RHandle
  w : World

/-- Loop `for (i = 0; i < RETRO_PATH_MAX; i++)` of the `__LIBRETRO__` reader;
`filename` collects the bytes stored before the terminating zero. -/
def read_libretro_filename : Nat → Nat → NameRead → NameRead
  | 0, _, st => st
  | n + 1, i, st =>
    match SMR_B st.w st.m with
    | (r, m1, w1) =>
      let ch : Nat := r.getD 0
      if i < 3 then
        if ch ≠ 95 then ⟨st.filename, m1, w1⟩
        else read_libretro_filename n (i + 1) ⟨st.filename, m1, w1⟩
      else if ch = 0 then ⟨st.filename, m1, w1⟩
      else read_libretro_filename n (i + 1) ⟨st.filename ++ [Fin.ofNat ch], m1, w1⟩

/-- The three assignments that end a successful read of a GCR image. -/
def gcr_loaded (w : World) (dnr : Nat) : World :=
  let w1 := (w.setField dnr .GCR_image_loaded 1).setField dnr .complicated_image_loaded 1
  w1.setUnit dnr { w1.units dnr with image := none }

/-- Function `drive_snapshot_read_gcrimage_module`. -/
def drive_snapshot_read_gcrimage_module (c : Cfg) (s : Snapshot) (w : World) (dnr : Nat) :
    Int × World :=
  match snapshot_module_open s w (.GCRIMAGE dnr) with
  | (none, w1) => (0, w1)
  | (some (m, major_version, minor_version), w1) =>
    if snapshot_version_is_bigger major_version minor_version GCRIMAGE_SNAP_MAJOR
        GCRIMAGE_SNAP_MINOR
    then (-1, snapshot_module_close (snapshot_set_error w1 .SNAPSHOT_MODULE_HIGHER_VERSION) m)
    else if snapshot_version_is_smaller major_version minor_version GCRIMAGE_SNAP_MAJOR
        GCRIMAGE_SNAP_MINOR
    then (-1, snapshot_module_close (snapshot_set_error w1 .SNAPSHOT_MODULE_INCOMPATIBLE) m)
    else if c.libretro then
      let nr := read_libretro_filename c.RETRO_PATH_MAX 0 ⟨[], m, w1⟩
      if nr.filename ≠ [] then
        let w2 := { nr.w with dc_savestate_filename := nr.filename.take (c.RETRO_PATH_MAX - 1) }
        (0, gcr_loaded (snapshot_module_close w2 nr.m) dnr)
      else
        match snapshot_module_open s (snapshot_module_close nr.w nr.m) (.GCRIMAGE dnr) with
        | (none, w3) => (-1, w3.log .null_dereference)
        | (some (m2, _, _), w3) =>
          match read_gcr_body c dnr ⟨m2, w3⟩ with
          | (false, st) => (-1, st.w)
          | (true, st) => (0, gcr_loaded (snapshot_module_close st.w st.m) dnr)
    else
      match read_gcr_body c dnr ⟨m, w1⟩ with
      | (false, st) => (-1, st.w)
      | (true, st) => (0, gcr_loaded (snapshot_module_close st.w st.m) dnr)

/-! ## P64 image: `P64IMAGEk` -/

/-- Function `drive_snapshot_write_p64image_module`. The module is created with
`GCRIMAGE_SNAP_MAJOR` and `GCRIMAGE_SNAP_MINOR`, as in the source. -/
def drive_snapshot_write_p64image_module (e : Ext) (s : Snapshot) (w : World) (dnr : Nat) :
    Int × Snapshot × World :=
  let drive := w.units dnr
  match snapshot_module_create e w (.P64IMAGE dnr) GCRIMAGE_SNAP_MAJOR GCRIMAGE_SNAP_MINOR with
  | (none, w1) => (-1, s, w1)
  | (some m, w1) =>
    match drive.p64 with
    | none =>
      match snapshot_module_close_w e s w1 m with
      | (_, s1, w2) => (-1, s1, w2)
    | some P64Image =>
      match e.P64ImageWriteToStream P64Image with
      | none => (-1, s, w1)
      | some stream =>
        match SMW_DW e m stream.length with
        | (false, m1) =>
          match snapshot_module_close_w e s w1 m1 with
          | (_, s1, w2) => (-1, s1, w2)
        | (true, m1) =>
          match SMW_BA e m1 stream with
          | (false, m2) =>
            match snapshot_module_close_w e s w1 m2 with
            | (_, s1, w2) => (-1, s1, w2)
          | (true, m2) =>
            match snapshot_module_close_w e s w1 m2 with
            | (false, s1, w2) => (-1, s1, w2)
            | (true, s1, w2) => (0, s1, w2)

/-- Function `drive_snapshot_read_p64image_module`. -/
def drive_snapshot_read_p64image_module (e : Ext) (s : Snapshot) (w : World) (dnr : Nat) :
    Int × World :=
  match snapshot_module_open s w (.P64IMAGE dnr) with
  | (none, w1) => (0, w1)
  | (some (m, major_version, minor_version), w1) =>
    match (w1.units dnr).p64 with
    | none => (-1, snapshot_module_close w1 m)
    | some P64Image =>
      if snapshot_version_is_bigger major_version minor_version P64IMAGE_SNAP_MAJOR
          P64IMAGE_SNAP_MINOR
      then (-1, snapshot_module_close (snapshot_set_error w1 .SNAPSHOT_MODULE_HIGHER_VERSION) m)
      else if snapshot_version_is_smaller major_version minor_version P64IMAGE_SNAP_MAJOR
          P64IMAGE_SNAP_MINOR
      then (-1, snapshot_module_close (snapshot_set_error w1 .SNAPSHOT_MODULE_INCOMPATIBLE) m)
      else
        match SMR_DW w1 m with
        | (none, m1, w2) => (-1, snapshot_module_close w2 m1)
        | (some size, m1, w2) =>
          match SMR_BA w2 m1 size with
          | (none, m2, w3) => (-1, snapshot_module_close w3 m2)
          | (some tmpbuf, m2, w3) =>
            match e.P64ImageReadFromStream P64Image tmpbuf with
            | none => (-1, snapshot_module_close w3 m2)
            | some img =>
              let w4 := snapshot_module_close w3 m2
              let w5 := w4.setUnit dnr { w4.units dnr with p64 := some img }
              let w6 := (w5.setField dnr .P64_image_loaded 1).setField dnr .complicated_image_loaded 1
              (0, w6.setUnit dnr { w6.units dnr with image := none })

/-! ## The `DRIVE` module: writer -/

/-- Width of a scalar write: `SMW_B`, `SMW_W` or `SMW_DW`. -/
inductive WKind where
  | B
  | W
  | DW
  deriving DecidableEq, Repr

/-- Number of bytes of a scalar write. -/
def WKind.width : WKind → Nat
  | .B => 1
  | .W => 2
  | .DW => 4

/-- The write macro of that width; the value is cast to the unsigned type of
the width. -/
def WKind.put (e : Ext) (k : WKind) (m : WHandle) (v : Int) : Bool × WHandle :=
  smw e m (leBytes k.width (castU (8 * k.width) v))

/-- A chain `0 || SMW_x(..) < 0 || SMW_y(..) < 0 || ...`: the writes are made in
order up to the first that fails; `false` when one failed. -/
def write_fields (e : Ext) : List (WKind × Int) → WHandle → Bool × WHandle
  | [], m => (true, m)
  | (k, v) :: rest, m =>
    match k.put e m v with
    | (false, m1) => (false, m1)
    | (true, m1) => write_fields e rest m1

/-- The per-unit record of the writer, in the order of the source. The seed is
written as `SMW_DW(m, (uint8_t)(drive->snap_seed))`. -/
def drive_unit_fields (c : Cfg) (u : DiskUnit) (rotation_table_ptr : Int) : List (WKind × Int) :=
  [ (.DW, u.sc .attach_clk),
    (.B, u.sc .byte_ready_level),
    (.B, u.sc .clock_frequency),
    (.W, u.sc .current_half_track + u.sc .side * c.DRIVE_HALFTRACKS_1571),
    (.DW, u.sc .detach_clk),
    (.B, 0),
    (.B, 0),
    (.B, u.sc .extend_image_policy),
    (.DW, u.sc .GCR_head_offset),
    (.B, u.sc .GCR_read),
    (.B, u.sc .GCR_write_value),
    (.B, u.sc .idling_method),
    (.B, u.sc .parallel_cable),
    (.B, u.sc .read_only),
    (.DW, rotation_table_ptr),
    (.DW, u.sc .type),
    (.DW, u.sc .snap_accum),
    (.DW, u.sc .snap_rotation_last_clk),
    (.DW, u.sc .snap_bit_counter),
    (.DW, u.sc .snap_zero_count),
    (.W, u.sc .snap_last_read_data),
    (.B, u.sc .snap_last_write_data),
    (.DW, (castU 8 (u.sc .snap_seed) : Int)),
    (.DW, u.sc .snap_speed_zone),
    (.DW, u.sc .snap_ue7_dcba),
    (.DW, u.sc .snap_ue7_counter),
    (.DW, u.sc .snap_uf4_counter),
    (.DW, u.sc .snap_fr_randcount),
    (.DW, u.sc .snap_filter_counter),
    (.DW, u.sc .snap_filter_state),
    (.DW, u.sc .snap_filter_last_state),
    (.DW, u.sc .snap_write_flux),
    (.DW, u.sc .snap_PulseHeadPosition),
    (.DW, u.sc .snap_xorShift32),
    (.DW, u.sc .snap_so_delay),
    (.DW, u.sc .snap_cycle_index),
    (.DW, u.sc .snap_ref_advance),
    (.DW, u.sc .snap_req_ref_cycles) ]

/-- The first trailing section of the writer ("new snapshot members"). -/
def drive_unit_fields_clk (u : DiskUnit) : List (WKind × Int) :=
  [ (.DW, u.sc .attach_detach_clk) ]

/-- The second trailing section of the writer. -/
def drive_unit_fields_ready (u : DiskUnit) : List (WKind × Int) :=
  [ (.B, u.sc .byte_ready_edge),
    (.B, u.sc .byte_ready_active) ]

/-- A loop `for (i = 0; i < NUM_DISK_UNITS; i++)` of the writer over one chain
of writes; `false` when a write failed. -/
def write_units (e : Ext) (fields : Nat → List (WKind × Int)) : Nat → Nat → WHandle → Bool × WHandle
  | 0, _, m => (true, m)
  | n + 1, i, m =>
    match write_fields e (fields i) m with
    | (false, m1) => (false, m1)
    | (true, m1) => write_units e fields n (i + 1) m1

/-- Whether the unit type selects the 65c02 CPU core. -/
def is_65c02 (c : Cfg) (ty : Int) : Bool :=
  decide (ty = c.DRIVE_TYPE_2000 ∨ ty = c.DRIVE_TYPE_4000 ∨ ty = c.DRIVE_TYPE_CMDHD)

/-- The loop of the writer over the CPU and machine modules of the enabled
units; `false` when a sub-writer failed. -/
def write_cpu_modules (c : Cfg) (e : Ext) : Nat → Nat → World → Bool × World
  | 0, _, w => (true, w)
  | n + 1, i, w =>
    let unit := w.units i
    if unit.sc .enable ≠ 0 then
      let r : Int × World :=
        if is_65c02 c (unit.sc .type) then
          (e.drivecpu65c02_snapshot_write_module i, w.log (.drivecpu65c02_snapshot_write_module i))
        else (e.drivecpu_snapshot_write_module i, w.log (.drivecpu_snapshot_write_module i))
      if r.1 < 0 then (false, r.2)
      else
        let w2 := r.2.log (.machine_drive_snapshot_write i)
        if e.machine_drive_snapshot_write i < 0 then (false, w2)
        else write_cpu_modules c e n (i + 1) w2
    else write_cpu_modules c e n (i + 1) w

/-- The loop of the writer over the image modules (`save_disks` set); `GCR_image`
and `P64_image` are the local arrays computed at the start of the function. -/
def write_image_modules (c : Cfg) (e : Ext) (GCR_image P64_image : Nat → Int) :
    Nat → Nat → Snapshot → World → Bool × Snapshot × World
  | 0, _, s, w => (true, s, w)
  | n + 1, d, s, w =>
    let r : Int × Snapshot × World :=
      if GCR_image d > 0 then drive_snapshot_write_gcrimage_module c e s w d
      else if P64_image d > 0 then drive_snapshot_write_p64image_module e s w d
      else drive_snapshot_write_image_module c e s w d
    if r.1 < 0 then (false, r.2.1, r.2.2)
    else write_image_modules c e GCR_image P64_image n (d + 1) r.2.1 r.2.2

/-- The loop of the writer over the ROM modules. -/
def write_rom_modules (e : Ext) (save_roms : Int) : Nat → Nat → World → Bool × World
  | 0, _, w => (true, w)
  | n + 1, i, w =>
    if save_roms ≠ 0 ∧ (w.units i).sc .enable ≠ 0 then
      let w1 := w.log (.driverom_snapshot_write i)
      if e.driverom_snapshot_write i < 0 then (false, w1)
      else write_rom_modules e save_roms n (i + 1) w1
    else write_rom_modules e save_roms n (i + 1) w

/-- The part of `drive_snapshot_write_module` after the `DRIVE` module has been
closed. -/
def drive_snapshot_write_submodules (c : Cfg) (e : Ext) (s : Snapshot) (w : World)
    (save_disks save_roms : Int) (GCR_image P64_image : Nat → Int) : Int × Snapshot × World :=
  match write_cpu_modules c e NUM_DISK_UNITS 0 w with
  | (false, w1) => (-1, s, w1)
  | (true, w1) =>
    match (if save_disks ≠ 0 then write_image_modules c e GCR_image P64_image NUM_DISK_UNITS 0 s w1
      else (true, s, w1)) with
    | (false, s2, w2) => (-1, s2, w2)
    | (true, s2, w2) =>
      match write_rom_modules e save_roms NUM_DISK_UNITS 0 w2 with
      | (false, w3) => (-1, s2, w3)
      | (true, w3) => (0, s2, w3)

/-- The payload of the `DRIVE` module: the sync factor, the unit records and the
two trailing sections; `false` when a write failed. -/
def write_drive_payload (c : Cfg) (e : Ext) (w : World) (m : WHandle) : Bool × WHandle :=
  let sync_factor := w.resources .MachineVideoStandard
  match SMW_DW e m sync_factor with
  | (false, m1) => (false, m1)
  | (true, m1) =>
    match write_units e (fun i => drive_unit_fields c (w.units i) (e.rotation_table_get i))
        NUM_DISK_UNITS 0 m1 with
    | (false, m2) => (false, m2)
    | (true, m2) =>
      match write_units e (fun i => drive_unit_fields_clk (w.units i)) NUM_DISK_UNITS 0 m2 with
      | (false, m3) => (false, m3)
      | (true, m3) =>
        write_units e (fun i => drive_unit_fields_ready (w.units i)) NUM_DISK_UNITS 0 m3

/-- Function `drive_snapshot_write_module`. -/
def drive_snapshot_write_module (c : Cfg) (e : Ext) (s : Snapshot) (w : World)
    (save_disks save_roms : Int) : Int × Snapshot × World :=
  let drive_true_emulation := w.resources .DriveTrueEmulation
  let start : Int := if c.libretro then 10 else if drive_true_emulation ≠ 0 then 10 else 8
  let w1 := w.log (.vdrive_snapshot_module_write start)
  if e.vdrive_snapshot_module_write < 0 then (-1, s, w1)
  else if !c.libretro && decide (drive_true_emulation = 0) then (0, s, w1)
  else
    let w2 := (w1.log .drive_gcr_data_writeback_all).log .rotation_table_get
    let GCR_image : Nat → Int := fun i =>
      if (w2.units i).sc .GCR_image_loaded = 0 ∨ save_disks = 0 then 0 else 1
    let P64_image : Nat → Int := fun i =>
      if (w2.units i).sc .P64_image_loaded = 0 ∨ save_disks = 0 then 0 else 1
    match snapshot_module_create e w2 .DRIVE DRIVE_SNAP_MAJOR DRIVE_SNAP_MINOR with
    | (none, w3) => (-1, s, w3)
    | (some m, w3) =>
      match write_drive_payload c e w3 m with
      | (false, m1) =>
        match snapshot_module_close_w e s w3 m1 with
        | (_, s1, w4) => (-1, s1, w4)
      | (true, m1) =>
        match snapshot_module_close_w e s w3 m1 with
        | (false, s1, w4) => (-1, s1, w4)
        | (true, s1, w4) =>
          drive_snapshot_write_submodules c e s1 w4 save_disks save_roms GCR_image P64_image

/-! ## The `DRIVE` module: reader -/

/-- The read macros used for the scalar fields: `SMR_B`, `SMR_B_INT`, `SMR_W_INT`,
`SMR_DW`, `SMR_DW_INT`, `SMR_DW_UINT`, `SMR_DW_UL`. -/
inductive RKind where
  | B
  | B_INT
  | W_INT
  | DW
  | DW_INT
  | DW_UINT
  | DW_UL
  deriving DecidableEq, Repr

/-- Number of bytes a read macro consumes. -/
def RKind.width : RKind → Nat
  | .B => 1
  | .B_INT => 1
  | .W_INT => 2
  | .DW => 4
  | .DW_INT => 4
  | .DW_UINT => 4
  | .DW_UL => 4

/-- The value a read macro stores, from the unsigned value of the bytes: only
`SMR_DW_INT` converts a 32-bit value to a signed type. -/
def RKind.conv : RKind → Nat → Int
  | .DW_INT, v => toInt32 v
  | _, v => (v : Int)

/-- Where a scalar read stores its value: a member of the live unit or of its
drive, the entry `[i]` of a local array, or the local `dummy`. -/
inductive Dest where
  | live (f : Field)
  | loc (l : Local)
  | dummy
  deriving DecidableEq, Repr

/-- State of the decoding of the `DRIVE` module: the module, the world and the
local arrays. -/
structure RState where
  m : RHandle
  w : World
  loc : Local → Nat → Int

/-- Store a value that was read for unit `i`. -/
def RState.store (st : RState) (d : Dest) (i : Nat) (v : Int) : RState :=
  match d with
  | .live f => { st with w := st.w.setField i f v }
  | .loc l => { st with loc := fun l2 j => if l2 = l ∧ j = i then v else st.loc l2 j }
  | .dummy => st

/-- One read macro applied to a destination of unit `i`; `false` when the read
failed, in which case nothing is stored. -/
def smr_field (k : RKind) (d : Dest) (i : Nat) (st : RState) : Bool × RState :=
  match snapshot_module_read st.w st.m k.width with
  | (some bs, m1, w1) => (true, RState.store ⟨m1, w1, st.loc⟩ d i (k.conv (leNat bs)))
  | (none, m1, w1) => (false, ⟨m1, w1, st.loc⟩)

/-- A chain `0 || SMR_x(..) < 0 || SMR_y(..) < 0 || ...` for unit `i`: the reads
are made in order up to the first that fails; `false` when one failed. -/
def read_fields : List (RKind × Dest) → Nat → RState → Bool × RState
  | [], _, st => (true, st)
  | (k, d) :: rest, i, st =>
    match smr_field k d i st with
    | (false, st1) => (false, st1)
    | (true, st1) => read_fields rest i st1

/-- The chain of the branch for 1.0 snapshots. -/
def layout_1_0 : List (RKind × Dest) :=
  [
    (.DW_UL, .live .snap_accum),
    (.DW, .loc .attach_clk),
    (.DW_INT, .dummy),
    (.B_INT, .live .byte_ready_level),
    (.B_INT, .live .clock_frequency),
    (.W_INT, .loc .half_track),
    (.DW, .loc .detach_clk),
    (.B, .dummy),
    (.B, .dummy),
    (.B_INT, .live .extend_image_policy),
    (.B_INT, .dummy),
    (.DW_UINT, .live .GCR_head_offset),
    (.B, .live .GCR_read),
    (.B, .live .GCR_write_value),
    (.B_INT, .live .idling_method),
    (.B_INT, .dummy),
    (.B_INT, .live .parallel_cable),
    (.B_INT, .live .read_only),
    (.DW, .live .snap_rotation_last_clk),
    (.DW, .loc .rotation_table_ptr),
    (.DW_UINT, .live .type) ]

/-- The chain of the branch for 1.1 snapshots. -/
def layout_1_1 : List (RKind × Dest) :=
  [
    (.DW, .loc .attach_clk),
    (.B_INT, .live .byte_ready_level),
    (.B_INT, .live .clock_frequency),
    (.W_INT, .loc .half_track),
    (.DW, .loc .detach_clk),
    (.B, .dummy),
    (.B, .dummy),
    (.B_INT, .live .extend_image_policy),
    (.DW_UINT, .live .GCR_head_offset),
    (.B, .live .GCR_read),
    (.B, .live .GCR_write_value),
    (.B_INT, .live .idling_method),
    (.B_INT, .live .parallel_cable),
    (.B_INT, .live .read_only),
    (.DW, .loc .rotation_table_ptr),
    (.DW_UINT, .live .type),
    (.DW_UL, .live .snap_accum),
    (.DW, .live .snap_rotation_last_clk),
    (.DW_INT, .live .snap_bit_counter),
    (.DW_INT, .live .snap_zero_count),
    (.W_INT, .live .snap_last_read_data),
    (.B, .live .snap_last_write_data),
    (.DW_INT, .live .snap_seed) ]

/-- The chain of the branch for 1.2 snapshots. -/
def layout_1_2 : List (RKind × Dest) :=
  [
    (.DW, .loc .attach_clk),
    (.B_INT, .live .byte_ready_level),
    (.B_INT, .live .clock_frequency),
    (.W_INT, .loc .half_track),
    (.DW, .loc .detach_clk),
    (.B, .dummy),
    (.B, .dummy),
    (.B_INT, .live .extend_image_policy),
    (.DW_UINT, .live .GCR_head_offset),
    (.B, .live .GCR_read),
    (.B, .live .GCR_write_value),
    (.B_INT, .live .idling_method),
    (.B_INT, .live .parallel_cable),
    (.B_INT, .live .read_only),
    (.DW, .loc .rotation_table_ptr),
    (.DW_UINT, .live .type),
    (.DW_UL, .live .snap_accum),
    (.DW, .live .snap_rotation_last_clk),
    (.DW_INT, .live .snap_bit_counter),
    (.DW_INT, .live .snap_zero_count),
    (.W_INT, .live .snap_last_read_data),
    (.B, .live .snap_last_write_data),
    (.DW_INT, .live .snap_seed),
    (.DW, .live .snap_speed_zone),
    (.DW, .live .snap_ue7_dcba),
    (.DW, .live .snap_ue7_counter),
    (.DW, .live .snap_uf4_counter),
    (.DW, .live .snap_fr_randcount),
    (.DW, .live .snap_filter_counter),
    (.DW, .live .snap_filter_state),
    (.DW, .live .snap_filter_last_state),
    (.DW, .live .snap_write_flux),
    (.DW, .live .snap_PulseHeadPosition),
    (.DW, .live .snap_xorShift32) ]

/-- The chain of the branch for 1.3 snapshots. -/
def layout_1_3 : List (RKind × Dest) :=
  [
    (.DW, .loc .attach_clk),
    (.B_INT, .live .byte_ready_level),
    (.B_INT, .live .clock_frequency),
    (.W_INT, .loc .half_track),
    (.DW, .loc .detach_clk),
    (.B, .dummy),
    (.B, .dummy),
    (.B_INT, .live .extend_image_policy),
    (.DW_UINT, .live .GCR_head_offset),
    (.B, .live .GCR_read),
    (.B, .live .GCR_write_value),
    (.B_INT, .live .idling_method),
    (.B_INT, .live .parallel_cable),
    (.B_INT, .live .read_only),
    (.DW, .loc .rotation_table_ptr),
    (.DW_UINT, .live .type),
    (.DW_UL, .live .snap_accum),
    (.DW, .live .snap_rotation_last_clk),
    (.DW_INT, .live .snap_bit_counter),
    (.DW_INT, .live .snap_zero_count),
    (.W_INT, .live .snap_last_read_data),
    (.B, .live .snap_last_write_data),
    (.DW_INT, .live .snap_seed),
    (.DW, .live .snap_speed_zone),
    (.DW, .live .snap_ue7_dcba),
    (.DW, .live .snap_ue7_counter),
    (.DW, .live .snap_uf4_counter),
    (.DW, .live .snap_fr_randcount),
    (.DW, .live .snap_filter_counter),
    (.DW, .live .snap_filter_state),
    (.DW, .live .snap_filter_last_state),
    (.DW, .live .snap_write_flux),
    (.DW, .live .snap_PulseHeadPosition),
    (.DW, .live .snap_xorShift32),
    (.DW, .live .snap_so_delay) ]

/-- The chain of the final `else` branch (the current layout). -/
def layout_current : List (RKind × Dest) :=
  [
    (.DW, .loc .attach_clk),
    (.B_INT, .live .byte_ready_level),
    (.B_INT, .live .clock_frequency),
    (.W_INT, .loc .half_track),
    (.DW, .loc .detach_clk),
    (.B, .dummy),
    (.B, .dummy),
    (.B_INT, .live .extend_image_policy),
    (.DW_UINT, .live .GCR_head_offset),
    (.B, .live .GCR_read),
    (.B, .live .GCR_write_value),
    (.B_INT, .live .idling_method),
    (.B_INT, .live .parallel_cable),
    (.B_INT, .live .read_only),
    (.DW, .loc .rotation_table_ptr),
    (.DW_UINT, .live .type),
    (.DW_UL, .live .snap_accum),
    (.DW, .live .snap_rotation_last_clk),
    (.DW_INT, .live .snap_bit_counter),
    (.DW_INT, .live .snap_zero_count),
    (.W_INT, .live .snap_last_read_data),
    (.B, .live .snap_last_write_data),
    (.DW_INT, .live .snap_seed),
    (.DW, .live .snap_speed_zone),
    (.DW, .live .snap_ue7_dcba),
    (.DW, .live .snap_ue7_counter),
    (.DW, .live .snap_uf4_counter),
    (.DW, .live .snap_fr_randcount),
    (.DW, .live .snap_filter_counter),
    (.DW, .live .snap_filter_state),
    (.DW, .live .snap_filter_last_state),
    (.DW, .live .snap_write_flux),
    (.DW, .live .snap_PulseHeadPosition),
    (.DW, .live .snap_xorShift32),
    (.DW, .live .snap_so_delay),
    (.DW, .live .snap_cycle_index),
    (.DW, .live .snap_ref_advance),
    (.DW, .live .snap_req_ref_cycles) ]

/-- The cascade of `snapshot_version_is_equal` tests that selects the chain. -/
def drive_read_layout (major_version minor_version : Nat) : List (RKind × Dest) :=
  if snapshot_version_is_equal major_version minor_version 1 0 then layout_1_0
  else if snapshot_version_is_equal major_version minor_version 1 1 then layout_1_1
  else if snapshot_version_is_equal major_version minor_version 1 2 then layout_1_2
  else if snapshot_version_is_equal major_version minor_version 1 3 then layout_1_3
  else layout_current

/-- The first loop over the units of the reader; `false` when a read failed. -/
def read_units (major_version minor_version : Nat) : Nat → Nat → RState → Bool × RState
  | 0, _, st => (true, st)
  | n + 1, i, st =>
    match read_fields (drive_read_layout major_version minor_version) i st with
    | (false, st1) => (false, st1)
    | (true, st1) => read_units major_version minor_version n (i + 1) st1

/-- The loop "this one is new, so don't test": the result of the read is not
tested. -/
def read_units_clk : Nat → Nat → RState → RState
  | 0, _, st => st
  | n + 1, i, st => read_units_clk n (i + 1) (smr_field .DW (.loc .attach_detach_clk) i st).2

/-- The loop "these are even newer": the results of the reads are not tested. -/
def read_units_ready : Nat → Nat → RState → RState
  | 0, _, st => st
  | n + 1, i, st =>
    read_units_ready n (i + 1)
      (smr_field .B_INT (.live .byte_ready_active) i
        (smr_field .B_INT (.live .byte_ready_edge) i st).2).2

/-- The case labels of the `switch (unit->type)` of a unit that lead to the
set-up of the drive; `DRIVE_TYPE_1571CR` is a label for units 0 and 2 only. -/
def recognized_types (c : Cfg) (with_1571CR : Bool) : List Int :=
  [c.DRIVE_TYPE_1540, c.DRIVE_TYPE_1541, c.DRIVE_TYPE_1541II, c.DRIVE_TYPE_1551,
    c.DRIVE_TYPE_1570, c.DRIVE_TYPE_1571] ++
  (if with_1571CR then [c.DRIVE_TYPE_1571CR] else []) ++
  [c.DRIVE_TYPE_1581, c.DRIVE_TYPE_2000, c.DRIVE_TYPE_4000, c.DRIVE_TYPE_CMDHD,
    c.DRIVE_TYPE_2031, c.DRIVE_TYPE_1001, c.DRIVE_TYPE_2040, c.DRIVE_TYPE_3040,
    c.DRIVE_TYPE_4040, c.DRIVE_TYPE_8050, c.DRIVE_TYPE_8250, c.DRIVE_TYPE_9000]

/-- One `switch (unit->type)` of the reader, for `diskunit_context[k]`;
`set_enable` tells whether `unit->enable = 1` is compiled in, `led` is the
second argument of `drive_set_active_led_color`; `none` is `return -1`. -/
def reconstruct_unit (c : Cfg) (k : Nat) (with_1571CR set_enable : Bool) (led : Nat)
    (w : World) : Option World :=
  let unit := w.units k
  if unit.sc .type ∈ recognized_types c with_1571CR then
    let w1 := if set_enable then w.setField k .enable 1 else w
    let w2 := (w1.log (.machine_drive_rom_setup_image k)).log (.drivemem_init k)
    let w3 := resources_set_int w2 (.DriveIdleMethod (8 + k)) (unit.sc .idling_method)
    let w4 := (w3.log (.driverom_initialize_traps k)).log
      (.drive_set_active_led_color (unit.sc .type) led)
    some (w4.log (.machine_bus_status_drivetype_set (8 + k) 1))
  else if unit.sc .type = c.DRIVE_TYPE_NONE then
    some ((drive_disable w k).log (.machine_bus_status_drivetype_set (8 + k) 0))
  else none

/-- The four `switch` statements of the reader, for units 0 to 3; `false` is
`return -1`, with the world as the units before the failing one left it. -/
def reconstruct (c : Cfg) (w : World) : Bool × World :=
  match reconstruct_unit c 0 true (!c.libretro) 0 w with
  | none => (false, w)
  | some w1 =>
    match reconstruct_unit c 1 false true 1 w1 with
    | none => (false, w1)
    | some w2 =>
      match reconstruct_unit c 2 true true 0 w2 with
      | none => (false, w2)
      | some w3 =>
        match reconstruct_unit c 3 false true 1 w3 with
        | none => (false, w3)
        | some w4 => (true, w4)

/-- The loop "Clear parallel cable before undumping parallel port values". -/
def clear_parallel_cable : Nat → Nat → World → World
  | 0, _, w => w
  | n + 1, i, w =>
    clear_parallel_cable n (i + 1)
      ((w.log (.parallel_cable_drive_write i 0)).log (.parallel_cable_drive_write i 1))

/-- The loop of the reader over the CPU and machine modules of the enabled
units; `false` is `return -1`. With `__LIBRETRO__` a failure of
`drivecpu_snapshot_read_module` or of `machine_drive_snapshot_read` is ignored. -/
def read_cpu_modules (c : Cfg) (e : Ext) : Nat → Nat → World → Bool × World
  | 0, _, w => (true, w)
  | n + 1, i, w =>
    let unit := w.units i
    if unit.sc .enable ≠ 0 then
      let r : Bool × World :=
        if is_65c02 c (unit.sc .type) then
          (decide (e.drivecpu65c02_snapshot_read_module i < 0),
            w.log (.drivecpu65c02_snapshot_read_module i))
        else
          (!c.libretro && decide (e.drivecpu_snapshot_read_module i < 0),
            w.log (.drivecpu_snapshot_read_module i))
      if r.1 then (false, r.2)
      else
        let w2 := r.2.log (.machine_drive_snapshot_read i)
        if !c.libretro && decide (e.machine_drive_snapshot_read i < 0) then (false, w2)
        else read_cpu_modules c e n (i + 1) w2
    else read_cpu_modules c e n (i + 1) w

/-- The loop of the reader over the three image readers; `false` is `return -1`. -/
def read_image_modules (c : Cfg) (e : Ext) (s : Snapshot) : Nat → Nat → World → Bool × World
  | 0, _, w => (true, w)
  | n + 1, i, w =>
    match drive_snapshot_read_image_module c e s w i with
    | (r1, w1) =>
      if r1 < 0 then (false, w1)
      else
        match drive_snapshot_read_gcrimage_module c s w1 i with
        | (r2, w2) =>
          if r2 < 0 then (false, w2)
          else
            match drive_snapshot_read_p64image_module e s w2 i with
            | (r3, w3) =>
              if r3 < 0 then (false, w3)
              else read_image_modules c e s n (i + 1) w3

/-- The loop of the reader over the ROM modules; `false` is `return -1`. -/
def read_rom_modules (e : Ext) : Nat → Nat → World → Bool × World
  | 0, _, w => (true, w)
  | n + 1, i, w =>
    let w1 := w.log (.driverom_snapshot_read i)
    if e.driverom_snapshot_read i < 0 then (false, w1)
    else read_rom_modules e n (i + 1) w1

/-- The loop that applies the staged clocks to the units whose type is not
`DRIVE_TYPE_NONE`. -/
def apply_clocks (c : Cfg) (loc : Local → Nat → Int) : Nat → Nat → World → World
  | 0, _, w => w
  | n + 1, i, w =>
    if (w.units i).sc .type ≠ c.DRIVE_TYPE_NONE then
      let w1 := w.log (.drive_enable i)
      let w2 := w1.setField i .attach_clk (loc .attach_clk i)
      let w3 := w2.setField i .detach_clk (loc .detach_clk i)
      apply_clocks c loc n (i + 1) (w3.setField i .attach_detach_clk (loc .attach_detach_clk i))
    else apply_clocks c loc n (i + 1) w

/-- The half-track and the side handed to `drive_set_half_track` for a unit of
type `ty` whose staged `half_track[i]` is `half_track`. -/
def decode_half_track (c : Cfg) (ty : Int) (half_track : Int) : Int × Int :=
  if ty = c.DRIVE_TYPE_1570 ∨ ty = c.DRIVE_TYPE_1571 ∨ ty = c.DRIVE_TYPE_1571CR then
    if half_track > c.DRIVE_HALFTRACKS_1571 + 1 then (half_track - c.DRIVE_HALFTRACKS_1571, 1)
    else (half_track, 0)
  else (half_track, 0)

/-- The loop that sets the half-track of every drive and, in every iteration,
the resource `MachineVideoStandard`. -/
def apply_half_tracks (c : Cfg) (loc : Local → Nat → Int) (sync_factor : Int) :
    Nat → Nat → World → World
  | 0, _, w => w
  | n + 1, i, w =>
    let hs := decode_half_track c ((w.units i).sc .type) (loc .half_track i)
    let w1 := w.log (.drive_set_half_track hs.1 hs.2 i)
    apply_half_tracks c loc sync_factor n (i + 1)
      (resources_set_int w1 .MachineVideoStandard sync_factor)

/-- The part of `drive_snapshot_read_module` after `rotation_table_set`. -/
def drive_snapshot_read_restore (c : Cfg) (e : Ext) (s : Snapshot) (w : World)
    (loc : Local → Nat → Int) (sync_factor : Int) : Int × World :=
  match reconstruct c w with
  | (false, w1) => (-1, w1)
  | (true, w1) =>
    let w2 := clear_parallel_cable c.DRIVE_PC_NUM 0 w1
    match read_cpu_modules c e NUM_DISK_UNITS 0 w2 with
    | (false, w3) => (-1, w3)
    | (true, w3) =>
      match read_image_modules c e s NUM_DISK_UNITS 0 w3 with
      | (false, w4) => (-1, w4)
      | (true, w4) =>
        match read_rom_modules e NUM_DISK_UNITS 0 w4 with
        | (false, w5) => (-1, w5)
        | (true, w5) =>
          let w6 := apply_clocks c loc NUM_DISK_UNITS 0 w5
          let w7 := apply_half_tracks c loc sync_factor NUM_DISK_UNITS 0 w6
          let w8 := ((w7.log .drive_sound_stop).log .iec_update_ports_embedded).log
            .drive_update_ui_status
          let start : Int :=
            if c.libretro then 10 else if w8.resources .DriveTrueEmulation ≠ 0 then 10 else 8
          let w9 := w8.log (.vdrive_snapshot_module_read start)
          if e.vdrive_snapshot_module_read < 0 then (-1, w9) else (0, w9)

/-- Function `drive_snapshot_read_module`. -/
def drive_snapshot_read_module (c : Cfg) (e : Ext) (s : Snapshot) (w : World) : Int × World :=
  match snapshot_module_open s w .DRIVE with
  | (none, w1) =>
    if c.libretro then (0, w1) else (0, resources_set_int w1 .DriveTrueEmulation 0)
  | (some (m, major_version, minor_version), w1) =>
    let w2 := w1.log .drive_gcr_data_writeback_all
    if snapshot_version_is_bigger major_version minor_version DRIVE_SNAP_MAJOR DRIVE_SNAP_MINOR
    then (-1, snapshot_module_close (snapshot_set_error w2 .SNAPSHOT_MODULE_HIGHER_VERSION) m)
    else if snapshot_version_is_smaller major_version minor_version DRIVE_SNAP_MAJOR
        DRIVE_SNAP_MINOR
    then (-1, snapshot_module_close (snapshot_set_error w2 .SNAPSHOT_MODULE_INCOMPATIBLE) m)
    else
      let w3 := if c.libretro then w2 else resources_set_int w2 .DriveTrueEmulation 1
      match SMR_DW w3 m with
      | (none, m1, w4) => (-1, snapshot_module_close w4 m1)
      | (some sf, m1, w4) =>
        let sync_factor := toInt32 sf
        match read_units major_version minor_version NUM_DISK_UNITS 0 ⟨m1, w4, e.uninit⟩ with
        | (false, st) => (-1, snapshot_module_close st.w st.m)
        | (true, st) =>
          let st1 := read_units_ready NUM_DISK_UNITS 0 (read_units_clk NUM_DISK_UNITS 0 st)
          let w5 := snapshot_module_close st1.w st1.m
          let w6 := w5.log (.rotation_table_set
            ((List.range NUM_DISK_UNITS).map (fun i => st1.loc .rotation_table_ptr i)))
          drive_snapshot_read_restore c e s w6 st1.loc sync_factor

/-! ## Example data -/

/-- Representative values of the header constants, for the worked examples. -/
def exampleCfg (libretro : Bool) : Cfg :=
  { libretro := libretro
    DRIVE_HALFTRACKS_1571 := 70
    MAX_TRACKS_1571 := 70
    MAX_GCR_TRACKS := 168
    NUM_MAX_MEM_BYTES_TRACK := 65536
    DRIVE_PC_NUM := 2
    RETRO_PATH_MAX := 512
    D81_FILE_SIZE := 819200
    D80_FILE_SIZE := 533248
    D82_FILE_SIZE := 1066496
    DRIVE_TYPE_NONE := 0
    DRIVE_TYPE_1540 := 1540
    DRIVE_TYPE_1541 := 1541
    DRIVE_TYPE_1541II := 1542
    DRIVE_TYPE_1551 := 1551
    DRIVE_TYPE_1570 := 1570
    DRIVE_TYPE_1571 := 1571
    DRIVE_TYPE_1571CR := 1573
    DRIVE_TYPE_1581 := 1581
    DRIVE_TYPE_2000 := 2000
    DRIVE_TYPE_4000 := 4000
    DRIVE_TYPE_CMDHD := 4844
    DRIVE_TYPE_2031 := 2031
    DRIVE_TYPE_1001 := 1001
    DRIVE_TYPE_2040 := 2040
    DRIVE_TYPE_3040 := 3040
    DRIVE_TYPE_4040 := 4040
    DRIVE_TYPE_8050 := 8050
    DRIVE_TYPE_8250 := 8250
    DRIVE_TYPE_9000 := 9000 }

/-- An environment in which every external call succeeds. -/
def exampleExt : Ext :=
  { create_fails := fun _ => false
    smw_fails := fun _ _ => false
    close_fails := fun _ => false
    vdrive_snapshot_module_write := 0
    vdrive_snapshot_module_read := 0
    rotation_table_get := fun _ => 0
    drivecpu65c02_snapshot_write_module := fun _ => 0
    drivecpu_snapshot_write_module := fun _ => 0
    machine_drive_snapshot_write := fun _ => 0
    driverom_snapshot_write := fun _ => 0
    drivecpu65c02_snapshot_read_module := fun _ => 0
    drivecpu_snapshot_read_module := fun _ => 0
    machine_drive_snapshot_read := fun _ => 0
    driverom_snapshot_read := fun _ => 0
    archdep_mkstemp_fd := true
    grow_file := true
    file_system_attach_disk := fun _ _ img => (0, img)
    P64ImageWriteToStream := fun img => some img.blob
    P64ImageReadFromStream := fun _ bs => some ⟨bs⟩
    disk_basename := fun _ => []
    uninit := fun _ _ => 0
    uninit_sector_data := [] }

/-- A unit without drive: every scalar member 0, no image. -/
def exampleUnit : DiskUnit :=
  { sc := fun _ => 0
    image := none
    gcr := fun _ => ⟨none, 0⟩
    p64 := none }

/-- A world of four units without drive, true drive emulation on. -/
def exampleWorld : World :=
  { units := fun _ => exampleUnit
    resources := fun _ => 1
    snapshot_error := none
    dc_savestate_filename := []
    trace := [] }

/-! ## Notions used by the statements -/

/-- The `DRIVE` module of a container: what `snapshot_module_open` finds. -/
def drive_module (s : Snapshot) : Option SnapModule :=
  s.find? (fun m => decide (m.name = ModName.DRIVE))

/-- The world after a rejection of the `DRIVE` module with the given error: the
module was opened, the pending GCR data written back, the error recorded and
the module closed. -/
def rejected (w : World) (err : SnapError) : World :=
  { w with
    snapshot_error := some err
    trace := w.trace ++ [.snapshot_module_open .DRIVE true, .drive_gcr_data_writeback_all,
      .snapshot_set_error err, .snapshot_module_close .DRIVE] }

/-- A world whose unit 0 holds a flux image, with the P64 flag set. -/
def exampleP64World : World :=
  exampleWorld.setUnit 0
    { sc := fun f => if f = Field.P64_image_loaded then 1 else if f = Field.type then 1541 else 0
      image := none
      gcr := fun _ => ⟨none, 0⟩
      p64 := some ⟨[1, 2, 3]⟩ }

/-- The bytes of one half-track in a `GCRIMAGEk` module: the 32-bit length and
then the raw bytes. -/
def gcr_track_bytes (t : List Byte) : List Byte := leBytes 4 t.length ++ t

/-- Whether a `GCRIMAGEk` payload is taken for a file name by the
`__LIBRETRO__` reader: it starts with `"___"` and one more non-zero byte. -/
def libretro_name_payload (data : List Byte) : Bool :=
  match data with
  | a :: b :: d :: x :: _ => decide (a = 95 ∧ b = 95 ∧ d = 95 ∧ x ≠ 0)
  | _ => false

/-- The `GCRIMAGEk` module of a container: what `snapshot_module_open` finds. -/
def gcr_module (s : Snapshot) (dnr : Nat) : Option SnapModule :=
  s.find? (fun m => decide (m.name = ModName.GCRIMAGE dnr))

/-- Outcome "the read of `GCRIMAGEk` failed": -1 is returned, the last call made
is the close of the module, and `GCR_image_loaded` of every unit is as in `w`. -/
def gcr_read_failed (r : Int × World) (w : World) (dnr : Nat) : Prop :=
  r.1 = -1 ∧
  r.2.trace.getLast? = some (Event.snapshot_module_close (ModName.GCRIMAGE dnr)) ∧
  ∀ u, (r.2.units u).sc Field.GCR_image_loaded = (w.units u).sc Field.GCR_image_loaded

/-- The payload of a `GCRIMAGEk` module declares the half-track count `n`. -/
def declares_count (data : List Byte) (n : Nat) : Prop :=
  ∃ rest, n < 2 ^ 32 ∧ data = leBytes 4 n ++ rest

/-- The payload of a `GCRIMAGEk` module declares the length `L` for half-track
`i`, which lies within the declared count: the payload is the count, then `i`
half-tracks, each with its length and that many bytes, then the length `L`. -/
def declares_track_length (data : List Byte) (i L : Nat) : Prop :=
  ∃ (n : Nat) (tracks : List (List Byte)) (rest : List Byte),
    n < 2 ^ 32 ∧ tracks.length = i ∧ i < n ∧ (∀ t ∈ tracks, t.length < 2 ^ 32) ∧ L < 2 ^ 32 ∧
    data = leBytes 4 n ++ ((tracks.map gcr_track_bytes).flatten ++ (leBytes 4 L ++ rest))

/-- A `GCRIMAGE0` module that declares 2 half-tracks: the first of length 1 with
the byte 7, the second of length 65537. -/
def exampleGcrExcess : Snapshot :=
  [⟨.GCRIMAGE 0, 3, 1, leBytes 4 2 ++ (gcr_track_bytes [7] ++ leBytes 4 65537)⟩]

/-- A `GCRIMAGE0` module that declares 200 half-tracks. -/
def exampleGcrCount : Snapshot :=
  [⟨.GCRIMAGE 0, 3, 1, leBytes 4 200⟩]

/-- A `GCRIMAGE0` module whose payload is the four bytes `"___A"`; read as a
little-endian count they are 0x415F5F5F. -/
def exampleGcrName : Snapshot :=
  [⟨.GCRIMAGE 0, 3, 1, [95, 95, 95, 65]⟩]

/-- The blocks of 256 bytes that the flat image writer emits for an image in
which no track is empty: the sectors in ascending (track, sector) order. -/
def image_blocks (img : DiskImage) : List (List Byte) :=
  (img.content.map (List.map (fill 256))).flatten

/-- The sector loop of the flat image reader looks one block ahead: when the
blocks `Q` are still to be stored, the first is in `sector_data` and the others
are the unread bytes of the module. -/
def primed (st : ImgRead) (Q : List (List Byte)) : Prop :=
  match Q with
  | [] => st.m.data = []
  | b :: rest => st.sector_data = b ∧ st.m.data = rest.flatten

/-- A small flat image with the type tag 1581: two tracks, of two sectors and of
one sector. -/
def exampleImage : DiskImage :=
  { type := 1581, tracks := 2, sectors := 2, content := [[[1, 2, 3], [4, 5]], [[6]]] }

/-- An image of the same geometry as `exampleImage`, with empty sectors. -/
def exampleBlankImage : DiskImage :=
  { type := 1581, tracks := 2, sectors := 2, content := [[[], []], [[]]] }

/-- A world whose unit 0 is a 1581 drive holding `exampleImage`. -/
def exampleImageWorld : World :=
  exampleWorld.setUnit 0
    { sc := fun f => if f = Field.type then 1581 else 0
      image := some exampleImage
      gcr := fun _ => ⟨none, 0⟩
      p64 := none }

/-- A world whose unit 0 is a 1581 drive holding `exampleBlankImage`. -/
def exampleBlankWorld : World :=
  exampleWorld.setUnit 0
    { sc := fun f => if f = Field.type then 1581 else 0
      image := some exampleBlankImage
      gcr := fun _ => ⟨none, 0⟩
      p64 := none }

/-! ## Notions for the round trip of the `DRIVE` module -/

/-- The bytes a chain of scalar writes emits when no write fails. -/
def encode_fields (W : List (WKind × Int)) : List Byte :=
  (W.map (fun kv => leBytes kv.1.width (castU (8 * kv.1.width) kv.2))).flatten

/-- The value that a chain of reads `R` stores in the destination `d` when it
reads the bytes of the chain of writes `W`: the one of the last read into `d`,
`none` when no read of the chain goes to `d`. -/
def decoded : List (RKind × Dest) → List (WKind × Int) → Dest → Option Int
  | (k, d1) :: R, (wk, v) :: W, d =>
    match decoded R W d with
    | some x => some x
    | none => if d1 = d then some (k.conv (castU (8 * wk.width) v)) else none
  | _, _, _ => none

/-- The world and the local arrays after the chain of reads `R` for unit `i` has
read the bytes of the chain of writes `W`. -/
def decode_effect (name : ModName) (i : Nat) :
    List (RKind × Dest) → List (WKind × Int) → World × (Local → Nat → Int) →
      World × (Local → Nat → Int)
  | (k, d) :: R, (wk, v) :: W, (w, loc) =>
    let st := RState.store ⟨⟨name, []⟩, w.log (.snapshot_module_read name k.width), loc⟩ d i
      (k.conv (castU (8 * wk.width) v))
    decode_effect name i R W (st.w, st.loc)
  | _, _, wl => wl

/-- The bytes that a loop over `n` units from unit `i` emits, `Wf j` being the
chain of writes for unit `j`. -/
def encode_units (Wf : Nat → List (WKind × Int)) : Nat → Nat → List Byte
  | 0, _ => []
  | n + 1, i => encode_fields (Wf i) ++ encode_units Wf n (i + 1)

/-- A loop over `n` units from unit `i` whose body is `step`. -/
def iter_units (step : Nat → RState → RState) : Nat → Nat → RState → RState
  | 0, _, st => st
  | n + 1, i, st => iter_units step n (i + 1) (step i st)

/-- A unit after the chain of reads `R` has stored the members written by the
chain of writes `W`. -/
def decoded_unit (R : List (RKind × Dest)) (W : List (WKind × Int)) (u : DiskUnit) : DiskUnit :=
  { u with sc := fun f => (decoded R W (.live f)).getD (u.sc f) }

/-- The payload of the `DRIVE` module for the units of `w`: the sync factor, the
four unit records and the two trailing sections. -/
def drive_payload (c : Cfg) (e : Ext) (w : World) : List Byte :=
  leBytes 4 (castU 32 (w.resources .MachineVideoStandard)) ++
    (encode_units (fun i => drive_unit_fields c (w.units i) (e.rotation_table_get i))
      NUM_DISK_UNITS 0 ++
    (encode_units (fun i => drive_unit_fields_clk (w.units i)) NUM_DISK_UNITS 0 ++
      encode_units (fun i => drive_unit_fields_ready (w.units i)) NUM_DISK_UNITS 0))

/-- The scalar members that the part of the reader after the decoding sets
itself: `enable` and the three image flags. -/
def config_flag (f : Field) : Prop :=
  f = .enable ∨ f = .GCR_image_loaded ∨ f = .P64_image_loaded ∨ f = .complicated_image_loaded

/-- From `w` to `w1` the scalar members other than `enable` and the image flags
are unchanged and the trace has only grown. -/
def evolves (w w1 : World) : Prop :=
  (∀ j f, ¬ config_flag f → (w1.units j).sc f = (w.units j).sc f) ∧
  ∃ t, w1.trace = w.trace ++ t

/-- The value of a scalar member of unit `j` after the loop that applies the
staged clocks, in terms of the world `w` before the loop. -/
def clock_applied (c : Cfg) (loc : Local → Nat → Int) (w : World) (j : Nat) (f : Field) : Int :=
  if (w.units j).sc .type ≠ c.DRIVE_TYPE_NONE then
    if f = .attach_clk then loc .attach_clk j
    else if f = .detach_clk then loc .detach_clk j
    else if f = .attach_detach_clk then loc .attach_detach_clk j
    else (w.units j).sc f
  else (w.units j).sc f

/-- The chain of reads of the loop "this one is new, so don't test". -/
def layout_clk : List (RKind × Dest) :=
  [(.DW, .loc .attach_detach_clk)]

/-- The chain of reads of the loop "these are even newer". -/
def layout_ready : List (RKind × Dest) :=
  [(.B_INT, .live .byte_ready_edge), (.B_INT, .live .byte_ready_active)]

/-- The scalar members, other than the random seed, that the current layout
reads straight into the unit or its drive. -/
def direct_members : List Field :=
  [.byte_ready_level, .clock_frequency, .extend_image_policy, .GCR_head_offset, .GCR_read,
    .GCR_write_value, .idling_method, .parallel_cable, .read_only, .type, .snap_accum,
    .snap_rotation_last_clk, .snap_bit_counter, .snap_zero_count, .snap_last_read_data,
    .snap_last_write_data, .snap_speed_zone, .snap_ue7_dcba, .snap_ue7_counter,
    .snap_uf4_counter, .snap_fr_randcount, .snap_filter_counter, .snap_filter_state,
    .snap_filter_last_state, .snap_write_flux, .snap_PulseHeadPosition, .snap_xorShift32,
    .snap_so_delay, .snap_cycle_index, .snap_ref_advance, .snap_req_ref_cycles,
    .byte_ready_edge, .byte_ready_active]

/-- The three clocks, which the reader stages in local arrays. -/
def clock_members : List Field :=
  [.attach_clk, .detach_clk, .attach_detach_clk]

/-- Least value of the range of a serialized member: the members read back with
`SMR_DW_INT` are signed. -/
def member_lo (f : Field) : Int :=
  if f = .snap_bit_counter ∨ f = .snap_zero_count ∨ f = .snap_seed then -2 ^ 31 else 0

/-- Bound of the range of a serialized member, from the width of its write
macro: a byte, a 16-bit word, or 32 bits (signed for `SMR_DW_INT`). -/
def member_hi (f : Field) : Int :=
  if f = .byte_ready_level ∨ f = .clock_frequency ∨ f = .extend_image_policy ∨ f = .GCR_read ∨
      f = .GCR_write_value ∨ f = .idling_method ∨ f = .parallel_cable ∨ f = .read_only ∨
      f = .snap_last_write_data ∨ f = .byte_ready_edge ∨ f = .byte_ready_active then 2 ^ 8
  else if f = .snap_last_read_data then 2 ^ 16
  else if f = .snap_bit_counter ∨ f = .snap_zero_count ∨ f = .snap_seed then 2 ^ 31
  else 2 ^ 32

/-- A valid unit state: every serialized member is within the range of its
serialized width, and so is the combined half-track and side word. -/
def valid_unit (c : Cfg) (u : DiskUnit) : Prop :=
  (∀ f ∈ direct_members ++ clock_members ++ [Field.snap_seed],
    member_lo f ≤ u.sc f ∧ u.sc f < member_hi f) ∧
  0 ≤ u.sc .current_half_track + u.sc .side * c.DRIVE_HALFTRACKS_1571 ∧
  u.sc .current_half_track + u.sc .side * c.DRIVE_HALFTRACKS_1571 < 2 ^ 16

/-- Whether the type is one of the double-sided drives of the half-track loop. -/
def double_sided (c : Cfg) (ty : Int) : Prop :=
  ty = c.DRIVE_TYPE_1570 ∨ ty = c.DRIVE_TYPE_1571 ∨ ty = c.DRIVE_TYPE_1571CR

/-- The half-track and side of the unit are those the reader recovers from the
combined word: side 0 (below the threshold `DRIVE_HALFTRACKS_1571 + 1` on a
double-sided drive), or side 1 on a double-sided drive with a half-track above 1. -/
def half_track_kept (c : Cfg) (u : DiskUnit) : Prop :=
  (u.sc .side = 0 ∧
    (double_sided c (u.sc .type) → u.sc .current_half_track ≤ c.DRIVE_HALFTRACKS_1571 + 1)) ∨
  (u.sc .side = 1 ∧ double_sided c (u.sc .type) ∧ 1 < u.sc .current_half_track)

instance (c : Cfg) (u : DiskUnit) : Decidable (valid_unit c u) := by
  unfold valid_unit
  infer_instance

instance (c : Cfg) (ty : Int) : Decidable (double_sided c ty) := by
  unfold double_sided
  infer_instance

instance (c : Cfg) (u : DiskUnit) : Decidable (half_track_kept c u) := by
  unfold half_track_kept
  infer_instance

/-- A 1541 drive with a disk attached at clock 5, the head on half-track 36. -/
def exampleDrive : DiskUnit :=
  { exampleUnit with
    sc := fun f =>
      match f with
      | .type => 1541
      | .attach_clk => 5
      | .detach_clk => 3
      | .attach_detach_clk => 4
      | .current_half_track => 36
      | .clock_frequency => 1
      | .snap_bit_counter => -1
      | .byte_ready_edge => 1
      | _ => 0 }

/-- A world whose unit 0 is `exampleDrive`, the other units without drive. -/
def exampleDriveWorld : World :=
  { exampleWorld with units := fun i => if i = 0 then exampleDrive else exampleUnit }

/-- A world of four units without drive (type `DRIVE_TYPE_NONE`) whose attach
clock is 5. -/
def exampleStampedWorld : World :=
  { exampleWorld with units := fun _ => exampleUnit.set .attach_clk 5 }

instance (f : Field) : Decidable (config_flag f) := by
  unfold config_flag
  infer_instance

/-! ## Notions for the image readers and the reconstruction -/

/-- The `P64IMAGEk` module of a container: what `snapshot_module_open` finds. -/
def p64_module (s : Snapshot) (dnr : Nat) : Option SnapModule :=
  s.find? (fun m => decide (m.name = ModName.P64IMAGE dnr))

/-- The `NOIMAGEk` module of a container: what `snapshot_module_open` finds. -/
def noimage_module (s : Snapshot) (dnr : Nat) : Option SnapModule :=
  s.find? (fun m => decide (m.name = ModName.NOIMAGE dnr))

/-- The `IMAGEk` module of a container: what `snapshot_module_open` finds. -/
def image_module (s : Snapshot) (dnr : Nat) : Option SnapModule :=
  s.find? (fun m => decide (m.name = ModName.IMAGE dnr))

/-- A `GCRIMAGE0` module of two half-tracks, of the bytes 7, 8 and of no byte. -/
def exampleGcrImage : Snapshot :=
  [⟨.GCRIMAGE 0, 3, 1, leBytes 4 2 ++ (gcr_track_bytes [7, 8] ++ gcr_track_bytes [])⟩]

/-- A `P64IMAGE0` module of version (1,0) holding the three bytes 1, 2, 3. -/
def exampleP64Image : Snapshot :=
  [⟨.P64IMAGE 0, 1, 0, leBytes 4 3 ++ [1, 2, 3]⟩]

/-- A world whose unit 0 is a 1541 holding both a flat image and a flux image
object. -/
def exampleBothWorld : World :=
  exampleWorld.setUnit 0
    { sc := fun f => if f = Field.type then 1541 else 0
      image := some exampleImage
      gcr := fun _ => ⟨none, 0⟩
      p64 := some ⟨[]⟩ }

/-- From `w` to `w1` no scalar member of any unit has changed and the trace has
only grown. -/
def scalars_kept (w w1 : World) : Prop :=
  (∀ j f, (w1.units j).sc f = (w.units j).sc f) ∧ ∃ t, w1.trace = w.trace ++ t

/-- A container that holds a `NOIMAGE0` module, followed by an `IMAGE0` module. -/
def exampleNoImage : Snapshot :=
  [⟨.NOIMAGE 0, 1, 0, []⟩, ⟨.IMAGE 0, 1, 0, leBytes 2 1581⟩]

/-- The case labels of the `switch (unit->type)` of slot `k` that lead to the
set-up of the drive: `DRIVE_TYPE_1571CR` is one of them for slots 0 and 2. -/
def slot_labels (c : Cfg) (k : Nat) : List Int :=
  recognized_types c (decide (k % 2 = 0))

/-- The calls of the reconstruction for slot `k` holding the unit `u`: the
set-up of a drive when the type is a case label of the slot, else the calls for
`DRIVE_TYPE_NONE`. The LED argument is 0 for slots 0 and 2, 1 for slots 1 and 3. -/
def slot_calls (c : Cfg) (k : Nat) (u : DiskUnit) : List Event :=
  if u.sc .type ∈ slot_labels c k then
    [.machine_drive_rom_setup_image k, .drivemem_init k,
      .resources_set_int (.DriveIdleMethod (8 + k)) (u.sc .idling_method),
      .driverom_initialize_traps k, .drive_set_active_led_color (u.sc .type) (k % 2),
      .machine_bus_status_drivetype_set (8 + k) 1]
  else [.drive_disable k, .machine_bus_status_drivetype_set (8 + k) 0]

/-- Whether a call of the reconstruction is addressed to slot `k` or to its bus
address `8 + k`. -/
def addressed_to (k : Nat) : Event → Bool
  | .machine_drive_rom_setup_image j => decide (j = k)
  | .drivemem_init j => decide (j = k)
  | .resources_set_int (.DriveIdleMethod a) _ => decide (a = 8 + k)
  | .driverom_initialize_traps j => decide (j = k)
  | .machine_bus_status_drivetype_set a _ => decide (a = 8 + k)
  | .drive_disable j => decide (j = k)
  | _ => false

/-- Whether a call belongs to the part of the reader that follows the
reconstruction: the clearing of the parallel cable, a CPU-core, machine-drive or
ROM sub-reader, the open or a read of an image module, the application of the
clocks and of the half-track, and the final notifications. -/
def restore_call : Event → Bool
  | .parallel_cable_drive_write _ _ => true
  | .drivecpu65c02_snapshot_read_module _ => true
  | .drivecpu_snapshot_read_module _ => true
  | .machine_drive_snapshot_read _ => true
  | .snapshot_module_open _ _ => true
  | .snapshot_module_read _ _ => true
  | .snapshot_module_close _ => true
  | .driverom_snapshot_read _ => true
  | .drive_enable _ => true
  | .drive_set_half_track _ _ _ => true
  | .resources_set_int .MachineVideoStandard _ => true
  | .drive_sound_stop => true
  | .iec_update_ports_embedded => true
  | .drive_update_ui_status => true
  | .vdrive_snapshot_module_read _ => true
  | _ => false

/-- The member `enable` of the unit of slot `k` after its `switch`: 1 for a case
label (the assignment is compiled out for slot 0 with `__LIBRETRO__`), 0 for
`DRIVE_TYPE_NONE` (`drive_disable`). -/
def enable_after (c : Cfg) (k : Nat) (u : DiskUnit) : Int :=
  if u.sc .type ∈ slot_labels c k then
    if c.libretro = true ∧ k = 0 then u.sc .enable else 1
  else 0

/-- The world `wn` is `w` after the `switch` statements of the slots below `n`,
none of which returned -1. -/
def reconstructed (c : Cfg) (n : Nat) (w wn : World) : Prop :=
  wn.trace = w.trace ++ ((List.range n).map (fun j => slot_calls c j (w.units j))).flatten ∧
  (∀ j f, (wn.units j).sc f
    = if j < n ∧ f = .enable then enable_after c j (w.units j) else (w.units j).sc f) ∧
  (∀ j, j < n → (w.units j).sc .type ∈ slot_labels c j →
    wn.resources (.DriveIdleMethod (8 + j)) = (w.units j).sc .idling_method) ∧
  (∀ j, j < n →
    (w.units j).sc .type ∈ slot_labels c j ∨ (w.units j).sc .type = c.DRIVE_TYPE_NONE)

/-- A world whose four units have the type `DRIVE_TYPE_1571CR`. -/
def exampleCRWorld : World :=
  { exampleWorld with units := fun _ => exampleUnit.set .type 1573 }

/-! ## Notions for the decoding of the `DRIVE` module -/

/-- The part of `drive_snapshot_read_module` before the reconstruction: the
world, the local arrays and `sync_factor` at the point where
`rotation_table_set` has returned; `none` when the function returns earlier
(no `DRIVE` module, a rejected version, or a failed read). -/
def drive_snapshot_read_decode (c : Cfg) (e : Ext) (s : Snapshot) (w : World) :
    Option (World × (Local → Nat → Int) × Int) :=
  match snapshot_module_open s w .DRIVE with
  | (none, _) => none
  | (some (m, major_version, minor_version), w1) =>
    let w2 := w1.log .drive_gcr_data_writeback_all
    if snapshot_version_is_bigger major_version minor_version DRIVE_SNAP_MAJOR DRIVE_SNAP_MINOR
    then none
    else if snapshot_version_is_smaller major_version minor_version DRIVE_SNAP_MAJOR
        DRIVE_SNAP_MINOR
    then none
    else
      let w3 := if c.libretro then w2 else resources_set_int w2 .DriveTrueEmulation 1
      match SMR_DW w3 m with
      | (none, _, _) => none
      | (some sf, m1, w4) =>
        match read_units major_version minor_version NUM_DISK_UNITS 0 ⟨m1, w4, e.uninit⟩ with
        | (false, _) => none
        | (true, st) =>
          let st1 := read_units_ready NUM_DISK_UNITS 0 (read_units_clk NUM_DISK_UNITS 0 st)
          let w5 := snapshot_module_close st1.w st1.m
          some (w5.log (.rotation_table_set
            ((List.range NUM_DISK_UNITS).map (fun i => st1.loc .rotation_table_ptr i))),
            st1.loc, toInt32 sf)

/-- A world whose unit 2 has the type 9999, which is no drive model; the other
units are without drive. -/
def exampleBadTypeWorld : World :=
  { exampleWorld with units := fun i => if i = 2 then exampleUnit.set .type 9999 else exampleUnit }

/-! ## Notions for the writer -/

/-- The three image writers of the source: `drive_snapshot_write_gcrimage_module`,
`drive_snapshot_write_p64image_module`, `drive_snapshot_write_image_module`. -/
inductive ImageWriter where
  | gcr
  | p64
  | flat
  deriving DecidableEq, Repr

/-- The image writer and the unit that a call reveals: every image writer
starts with `snapshot_module_create` of its module (`GCRIMAGEk`, `P64IMAGEk`,
and `NOIMAGEk` or `IMAGEk` for the flat writer); other calls reveal none. -/
def image_writer_of : Event → Option (ImageWriter × Nat)
  | .snapshot_module_create (.GCRIMAGE d) _ _ => some (.gcr, d)
  | .snapshot_module_create (.P64IMAGE d) _ _ => some (.p64, d)
  | .snapshot_module_create (.NOIMAGE d) _ _ => some (.flat, d)
  | .snapshot_module_create (.IMAGE d) _ _ => some (.flat, d)
  | _ => none

/-- The image writers invoked in a sequence of calls, in order. -/
def image_writers (t : List Event) : List (ImageWriter × Nat) :=
  t.filterMap image_writer_of

/-- The image writer for a unit: GCR if `GCR_image_loaded` is non-zero, else
P64 if `P64_image_loaded` is non-zero, else the flat one. -/
def selected_writer (u : DiskUnit) : ImageWriter :=
  if u.sc .GCR_image_loaded ≠ 0 then .gcr
  else if u.sc .P64_image_loaded ≠ 0 then .p64
  else .flat

/-- From `w` to `w1` the units and the resources are the same, and the calls
made in between invoke the image writers `L`. -/
def invokes (w w1 : World) (L : List (ImageWriter × Nat)) : Prop :=
  w1.units = w.units ∧ w1.resources = w.resources ∧
  ∃ t, w1.trace = w.trace ++ t ∧ image_writers t = L

/-- A world whose unit 0 has `GCR_image_loaded` set, whose unit 1 has
`P64_image_loaded` set and holds a flux image, and whose units 2 and 3 have
neither. -/
def exampleMixedWorld : World :=
  { exampleWorld with
    units := fun i =>
      if i = 0 then exampleUnit.set .GCR_image_loaded 1
      else if i = 1 then { exampleUnit.set .P64_image_loaded 1 with p64 := some ⟨[1, 2, 3]⟩ }
      else exampleUnit }

/-- Number of write calls of a complete payload of the `DRIVE` module: the
timing factor, then for each unit the 38 members of the record, the
attach-detach clock and the two byte-ready flags. -/
def drive_payload_writes : Nat :=
  1 + NUM_DISK_UNITS * (38 + 1 + 2)

/-- A chain of writes into the module `name` made the write calls number `a` to
`b - 1`, `ok` telling whether none failed: no call before the last one failed,
and the last one failed exactly when `ok` is `false`. -/
def first_failure_stops (e : Ext) (name : ModName) (a b : Nat) (ok : Bool) : Prop :=
  a ≤ b ∧ (∀ k, a ≤ k → k + 1 < b → e.smw_fails name k = false) ∧
  (ok = true → ∀ k, a ≤ k → k < b → e.smw_fails name k = false) ∧
  (ok = false → a < b ∧ e.smw_fails name (b - 1) = true)

/-- An environment in which the write call number 7 into the `DRIVE` module
fails and everything else succeeds. -/
def exampleFailingExt : Ext :=
  { exampleExt with smw_fails := fun name n => decide (name = ModName.DRIVE ∧ n = 7) }

/-! ## Notions for a `DRIVE` module of any content -/

/-- Number of bytes of the tested part of the payload of a `DRIVE` module of the
current layout: the timing factor and the records of the units. -/
def drive_record_bytes : Nat :=
  4 + NUM_DISK_UNITS * (layout_current.map (fun kd => kd.1.width)).sum

/-- From `st` to `st1` only reads of the chain `R` were made: nothing changed
but the members and the local arrays that are destinations of `R`, the cursor
of the module and the trace, which has grown by reads of the module. -/
def reads_only (R : List (RKind × Dest)) (st st1 : RState) : Prop :=
  st1.m.name = st.m.name ∧
  (∀ j f, Dest.live f ∉ R.map Prod.snd → (st1.w.units j).sc f = (st.w.units j).sc f) ∧
  (∀ j, (st1.w.units j).image = (st.w.units j).image ∧ (st1.w.units j).gcr = (st.w.units j).gcr ∧
    (st1.w.units j).p64 = (st.w.units j).p64) ∧
  st1.w.resources = st.w.resources ∧ st1.w.snapshot_error = st.w.snapshot_error ∧
  (∀ l j, Dest.loc l ∉ R.map Prod.snd → st1.loc l j = st.loc l j) ∧
  ∃ t, st1.w.trace = st.w.trace ++ t ∧
    ∀ ev ∈ t, ∃ nb, ev = Event.snapshot_module_read st.m.name nb

/-- A `DRIVE` module of the current version whose payload ends in the record of
unit 0: the timing factor, the attach clock, and the byte-ready level 1. -/
def exampleTruncated : Snapshot :=
  [⟨.DRIVE, 1, 5, leBytes 4 0 ++ (leBytes 4 0 ++ [1])⟩]

/-- The scalar members that the first loop of the reader of the current layout
does not read in place: the three clocks, the half-track and the side (staged
in local arrays or not part of the record), the byte-ready flags of the trailing
section, and the members that the module does not hold. -/
def staged_members : List Field :=
  [.attach_clk, .detach_clk, .attach_detach_clk, .current_half_track, .side,
    .byte_ready_edge, .byte_ready_active, .enable, .GCR_image_loaded, .P64_image_loaded,
    .complicated_image_loaded]

/-- The chains of reads of the two trailing loops of the reader. -/
def layout_trailing : List (RKind × Dest) :=
  layout_clk ++ layout_ready


/-- A snapshot whose `DRIVE` module of the current version holds the timing
factor and the four unit records that the writer produces for
`exampleDriveWorld`, and none of the trailing fields. -/
def exampleHeadOnly : Snapshot :=
  [⟨.DRIVE, 1, 5, (drive_payload (exampleCfg true) exampleExt exampleDriveWorld).take
    drive_record_bytes⟩]

/-- A snapshot whose `DRIVE` module of the current version holds the whole
payload that the writer produces for `exampleDriveWorld`. -/
def exampleWhole : Snapshot :=
  [⟨.DRIVE, 1, 5, drive_payload (exampleCfg true) exampleExt exampleDriveWorld⟩]

/-! ## Notions for the third group of claims -/

/-- An environment in which every external call succeeds and the uninitialised
local arrays of `drive_snapshot_read_module` hold the value 77. -/
def exampleGarbageExt : Ext :=
  { exampleExt with uninit := fun _ _ => 77 }

/-- An environment in which `P64ImageWriteToStream` fails and everything else
succeeds. -/
def exampleNoStreamExt : Ext :=
  { exampleExt with P64ImageWriteToStream := fun _ => none }

/-! ## Scoping of the modules in a sequence of calls -/

/-- Effect of one call on the module that is open (`none`: no module is open):
a successful `snapshot_module_open` needs that no module is open, a
`snapshot_module_close` needs that the module closed is the one that is open;
`none` when the call breaks this discipline. Other calls leave the state. -/
def scope_step (cur : Option ModName) (ev : Event) : Option (Option ModName) :=
  match ev with
  | .snapshot_module_open name true => if cur = none then some (some name) else none
  | .snapshot_module_close name => if cur = some name then some none else none
  | _ => some cur

/-- The module that is open after a sequence of calls, starting with `cur`;
`none` when a call of the sequence breaks the discipline. -/
def scope_run (cur : Option ModName) : List Event → Option (Option ModName)
  | [] => some cur
  | ev :: t => (scope_step cur ev).bind (fun c => scope_run c t)

/-- A sequence of calls in which the run was cut short: by a dereference of a
`NULL` pointer or by a second free of the same pointer. -/
def aborted (t : List Event) : Prop :=
  Event.null_dereference ∈ t ∨ Event.double_free ∈ t

/-- From `w` to `w1` the calls made take the open module from `a` to `b`, or
the run was cut short. -/
def tracked (a b : Option ModName) (w w1 : World) : Prop :=
  ∃ t, w1.trace = w.trace ++ t ∧ (scope_run a t = some b ∨ aborted t)

/-- From `w` to `w1` every module that was opened with success has been closed,
once, before the next one is opened, and none is open at the end; or the run
was cut short. -/
def releases (w w1 : World) : Prop :=
  tracked none none w w1

/-- An environment in which every write into the module `IMAGE0` fails and
everything else succeeds. -/
def exampleImageFailExt : Ext :=
  { exampleExt with smw_fails := fun name _ => decide (name = ModName.IMAGE 0) }

/-! ## Notions for the sub-readers -/

/-- Whether a call comes after the sub-readers of unit `k` in
`drive_snapshot_read_module`: a CPU-core or machine-drive sub-reader of a later
unit, a call of an image reader (open, read, close of a module), a ROM
sub-reader, or one of the calls that apply the decoded state. -/
def after_unit (k : Nat) : Event → Bool
  | .drivecpu65c02_snapshot_read_module j => decide (k < j)
  | .drivecpu_snapshot_read_module j => decide (k < j)
  | .machine_drive_snapshot_read j => decide (k < j)
  | .snapshot_module_open _ _ => true
  | .snapshot_module_read _ _ => true
  | .snapshot_module_close _ => true
  | .driverom_snapshot_read _ => true
  | .drive_enable _ => true
  | .drive_set_half_track _ _ _ => true
  | .vdrive_snapshot_module_read _ => true
  | _ => false

/-- The CPU-core sub-reader of unit `k`, of type `ty`, returns a failure that
the code treats as fatal: `drivecpu65c02_snapshot_read_module` for the types
2000, 4000 and CMDHD; `drivecpu_snapshot_read_module` for the others, whose
`return -1` is compiled out with `__LIBRETRO__`. -/
def cpu_fatal (c : Cfg) (e : Ext) (ty : Int) (k : Nat) : Prop :=
  if is_65c02 c ty = true then e.drivecpu65c02_snapshot_read_module k < 0
  else c.libretro = false ∧ e.drivecpu_snapshot_read_module k < 0

/-- The machine-drive sub-reader of unit `k` returns a failure that the code
treats as fatal: the `return -1` is compiled out with `__LIBRETRO__`. -/
def machine_fatal (c : Cfg) (e : Ext) (k : Nat) : Prop :=
  c.libretro = false ∧ e.machine_drive_snapshot_read k < 0

instance (c : Cfg) (e : Ext) (ty : Int) (k : Nat) : Decidable (cpu_fatal c e ty k) := by
  unfold cpu_fatal
  infer_instance

instance (c : Cfg) (e : Ext) (k : Nat) : Decidable (machine_fatal c e k) := by
  unfold machine_fatal
  infer_instance

/-- A world whose unit 1 is `exampleDrive`, the other units without drive. -/
def exampleSecondDriveWorld : World :=
  { exampleWorld with units := fun i => if i = 1 then exampleDrive else exampleUnit }

/-- A snapshot whose `DRIVE` module of the current version holds the payload
that the writer produces for `exampleSecondDriveWorld`. -/
def exampleSecondWhole : Snapshot :=
  [⟨.DRIVE, 1, 5, drive_payload (exampleCfg true) exampleExt exampleSecondDriveWorld⟩]

/-- An environment in which `drivecpu_snapshot_read_module` and
`machine_drive_snapshot_read` fail and everything else succeeds. -/
def exampleSubReaderFailExt : Ext :=
  { exampleExt with
    drivecpu_snapshot_read_module := fun _ => -1
    machine_drive_snapshot_read := fun _ => -1 }

/-- The CPU-core sub-reader that the loop calls for unit `i` of type `ty`. -/
def cpu_event (c : Cfg) (ty : Int) (i : Nat) : Event :=
  if is_65c02 c ty = true then .drivecpu65c02_snapshot_read_module i
  else .drivecpu_snapshot_read_module i

/-- A world of four units without drive, true drive emulation off. -/
def exampleOffWorld : World :=
  { exampleWorld with resources := fun r => if r = Resource.DriveTrueEmulation then 0 else 1 }

/-! ## The layout of the `DRIVE` module, writer against reader -/

/-- What a write of the per-unit record emits: a scalar member, the combined
half-track and side word `current_half_track + side * DRIVE_HALFTRACKS_1571`,
the constant 0, the entry of the local `rotation_table_ptr[]`, or the seed cast
to `uint8_t`. -/
inductive Src where
  | member (f : Field)
  | half_track_side
  | zero
  | rotation_table_ptr
  | seed_low_byte
  deriving DecidableEq, Repr

/-- The value that a write emits for the unit `u`. -/
def Src.eval (c : Cfg) (u : DiskUnit) (rotation_table_ptr : Int) : Src → Int
  | .member f => u.sc f
  | .half_track_side => u.sc .current_half_track + u.sc .side * c.DRIVE_HALFTRACKS_1571
  | .zero => 0
  | .rotation_table_ptr => rotation_table_ptr
  | .seed_low_byte => (castU 8 (u.sc .snap_seed) : Int)

/-- The chain of writes of the per-unit record, in the order of the source,
with the expression each one emits. -/
def drive_unit_sources : List (WKind × Src) :=
  [ (.DW, .member .attach_clk),
    (.B, .member .byte_ready_level),
    (.B, .member .clock_frequency),
    (.W, .half_track_side),
    (.DW, .member .detach_clk),
    (.B, .zero),
    (.B, .zero),
    (.B, .member .extend_image_policy),
    (.DW, .member .GCR_head_offset),
    (.B, .member .GCR_read),
    (.B, .member .GCR_write_value),
    (.B, .member .idling_method),
    (.B, .member .parallel_cable),
    (.B, .member .read_only),
    (.DW, .rotation_table_ptr),
    (.DW, .member .type),
    (.DW, .member .snap_accum),
    (.DW, .member .snap_rotation_last_clk),
    (.DW, .member .snap_bit_counter),
    (.DW, .member .snap_zero_count),
    (.W, .member .snap_last_read_data),
    (.B, .member .snap_last_write_data),
    (.DW, .seed_low_byte),
    (.DW, .member .snap_speed_zone),
    (.DW, .member .snap_ue7_dcba),
    (.DW, .member .snap_ue7_counter),
    (.DW, .member .snap_uf4_counter),
    (.DW, .member .snap_fr_randcount),
    (.DW, .member .snap_filter_counter),
    (.DW, .member .snap_filter_state),
    (.DW, .member .snap_filter_last_state),
    (.DW, .member .snap_write_flux),
    (.DW, .member .snap_PulseHeadPosition),
    (.DW, .member .snap_xorShift32),
    (.DW, .member .snap_so_delay),
    (.DW, .member .snap_cycle_index),
    (.DW, .member .snap_ref_advance),
    (.DW, .member .snap_req_ref_cycles) ]

/-- The chain of writes of the first trailing section. -/
def drive_unit_sources_clk : List (WKind × Src) :=
  [ (.DW, .member .attach_detach_clk) ]

/-- The chain of writes of the second trailing section. -/
def drive_unit_sources_ready : List (WKind × Src) :=
  [ (.B, .member .byte_ready_edge),
    (.B, .member .byte_ready_active) ]

/-- Whether a read stores into the place that corresponds to what a write
emits: the same member of the live unit; for the three clocks, the half-track
word and the rotation-table pointer, the local array that stages it; for a zero
byte, the local `dummy`; for the seed, the member `snap_seed`. -/
def corresponds : Src → Dest → Bool
  | .member f, .live g => decide (f = g)
  | .member .attach_clk, .loc .attach_clk => true
  | .member .detach_clk, .loc .detach_clk => true
  | .member .attach_detach_clk, .loc .attach_detach_clk => true
  | .half_track_side, .loc .half_track => true
  | .zero, .dummy => true
  | .rotation_table_ptr, .loc .rotation_table_ptr => true
  | .seed_low_byte, .live .snap_seed => true
  | _, _ => false

/-- A chain of writes and a chain of reads agree: they have the same length and,
position by position, the same width and corresponding places. -/
def layouts_agree (W : List (WKind × Src)) (R : List (RKind × Dest)) : Bool :=
  decide (W.length = R.length) &&
    (List.zip W R).all (fun p => decide (p.1.1.width = p.2.1.width) && corresponds p.1.2 p.2.2)

/-- The per-unit record as the specification words it: the widths in bits of
attach clock, byte-ready level, clock frequency, half-track and side, detach
clock, two zero bytes, extend-image policy, GCR head offset, GCR read, GCR write
value, idling method, parallel cable, read-only, rotation-table pointer, unit
type, then of the rotation record: accumulator, last-rotation clock, bit
counter, zero count, last read data, last write data, seed, and 15 further
32-bit counters. -/
def spec_record_widths : List Nat :=
  [32, 8, 8, 16, 32, 8, 8, 8, 32, 8, 8, 8, 8, 8, 32, 32, 32, 32, 32, 32, 16, 8, 32] ++
    List.replicate 15 32

/-- The places of the per-unit record that the specification names, in its
order: the 23 entries before the 15 further counters. -/
def spec_record_places : List Src :=
  [.member .attach_clk, .member .byte_ready_level, .member .clock_frequency, .half_track_side,
    .member .detach_clk, .zero, .zero, .member .extend_image_policy, .member .GCR_head_offset,
    .member .GCR_read, .member .GCR_write_value, .member .idling_method,
    .member .parallel_cable, .member .read_only, .rotation_table_ptr, .member .type,
    .member .snap_accum, .member .snap_rotation_last_clk, .member .snap_bit_counter,
    .member .snap_zero_count, .member .snap_last_read_data, .member .snap_last_write_data,
    .seed_low_byte]

/-- The content of the buffer of a half-track: its first `size` bytes; nothing
for a `NULL` buffer. -/
def GcrTrack.bytes (t : GcrTrack) : List Byte :=
  match t.data with
  | none => []
  | some d => fill t.size.toNat d

/-- The payload of a `GCRIMAGEk` module as the specification words it for the
unit `u`: the fixed half-track count `MAX_TRACKS_1571 * 2` and then, per
half-track, its byte length (0 if the buffer is absent) followed by that many
raw bytes. -/
def gcr_image_payload (c : Cfg) (u : DiskUnit) : List Byte :=
  leBytes 4 (c.MAX_TRACKS_1571 * 2) ++
    ((List.range (c.MAX_TRACKS_1571 * 2)).map (fun i => gcr_track_bytes (u.gcr i).bytes)).flatten

/-- The half-track `dst` is the half-track `src` read back: the same size and
the same bytes in a buffer when `src` had a buffer that was not empty, and a
`NULL` buffer of size 0 when `src` was absent or empty. -/
def restored_track (src dst : GcrTrack) : Prop :=
  if src.data ≠ none ∧ src.size ≠ 0 then
    dst.data ≠ none ∧ dst.size = src.size ∧ dst.bytes = src.bytes
  else dst = ⟨none, 0⟩

/-- A world whose unit 0 has a GCR image with one half-track, number 0, of the
two bytes 7 and 8. -/
def exampleGcrWorld : World :=
  { exampleWorld with
    units := fun i =>
      if i = 0 then
        { exampleUnit.set .GCR_image_loaded 1 with
          gcr := fun j => if j = 0 then ⟨some [7, 8], 2⟩ else ⟨none, 0⟩ }
      else exampleUnit }

/-- An environment in which every external call succeeds and the disk of every
unit has the name `A`. -/
def exampleNamedExt : Ext :=
  { exampleExt with disk_basename := fun _ => [65] }

/-- Whether a call creates or closes the module `name`. -/
def of_module (name : ModName) : Event → Bool
  | .snapshot_module_create n _ _ => decide (n = name)
  | .snapshot_module_close n => decide (n = name)
  | _ => false

/-- From `w` to `w1` no call creates or closes the module `name`. -/
def untouched (name : ModName) (w w1 : World) : Prop :=
  ∃ t, w1.trace = w.trace ++ t ∧ t.filter (of_module name) = []

/-! ## Notions for the fourth group of claims -/

/-- The 32-bit rotation counters of the unit record other than the random seed:
the members `snap_*` that the writer emits with `SMW_DW(m, (uint32_t)(...))`. -/
def rotation_counters : List Field :=
  [.snap_accum, .snap_rotation_last_clk, .snap_bit_counter, .snap_zero_count, .snap_speed_zone,
    .snap_ue7_dcba, .snap_ue7_counter, .snap_uf4_counter, .snap_fr_randcount,
    .snap_filter_counter, .snap_filter_state, .snap_filter_last_state, .snap_write_flux,
    .snap_PulseHeadPosition, .snap_xorShift32, .snap_so_delay, .snap_cycle_index,
    .snap_ref_advance, .snap_req_ref_cycles]

/-- A world whose unit 0 is `exampleDrive` with the random seed 0x1234. -/
def exampleSeedWorld : World :=
  { exampleWorld with
    units := fun i => if i = 0 then exampleDrive.set .snap_seed 4660 else exampleUnit }

/-- A world whose unit 0 is a 1571 with the head on half-track 40 of side 1. -/
def exampleSideWorld : World :=
  { exampleWorld with
    units := fun i =>
      if i = 0 then ((exampleDrive.set .type 1571).set .current_half_track 40).set .side 1
      else exampleUnit }

/-- A container whose `IMAGE0` module of the current version holds the type
word 1541 and nothing else. -/
def exampleTagged : Snapshot :=
  [⟨.IMAGE 0, 1, 0, leBytes 2 1541⟩]

/-- The sector addresses (1,0), (1,1), ..., (T, S(T)-1) of an image of `T`
tracks whose track `t` has `S(t)` sectors, in ascending (track, sector) order. -/
def sector_addresses (img : DiskImage) : List (Nat × Nat) :=
  (List.range' 1 img.content.length).flatMap
    (fun t => (List.range (img.sectorsOn t)).map (fun sct => (t, sct)))


/-! ## Notions for the failing attach of the flat image reader -/

/-- An environment in which `file_system_attach_disk` fails and every other
external call succeeds. -/
def exampleAttachFailExt : Ext :=
  { exampleExt with file_system_attach_disk := fun _ _ img => (-1, img) }

/-- A container whose `IMAGE0` module of the current version holds the type
word 1581 and nothing else. -/
def exampleFlat1581 : Snapshot :=
  [⟨.IMAGE 0, 1, 0, leBytes 2 1581⟩]

/-! ## Notions for the layout of the `DRIVE` module as a whole -/

/-- The bytes that a chain of writes emits for the unit `u`: for each write, in
order, the little-endian bytes of its width holding the value cast to the
unsigned type of that width. -/
def emitted (c : Cfg) (u : DiskUnit) (rotation_table_ptr : Int) (W : List (WKind × Src)) :
    List Byte :=
  (W.map (fun ks =>
    leBytes ks.1.width (castU (8 * ks.1.width) (ks.2.eval c u rotation_table_ptr)))).flatten

/-- The payload of the `DRIVE` module in the order of sections that the
specification words: the single leading 32-bit timing factor; then, unit after
unit, the record of the unit; then, across all units, the attach-detach clock of
each unit; then, across all units, the byte-ready edge and active bytes of each
unit. The record of a unit is what the chain `drive_unit_sources` emits; its
widths and places are compared with the list of the specification
(`spec_record_widths`, `spec_record_places`) separately. -/
def spec_drive_payload (c : Cfg) (e : Ext) (w : World) : List Byte :=
  leBytes 4 (castU 32 (w.resources .MachineVideoStandard)) ++
    (((List.range NUM_DISK_UNITS).map
        (fun i => emitted c (w.units i) (e.rotation_table_get i) drive_unit_sources)).flatten ++
      (((List.range NUM_DISK_UNITS).map
          (fun i => emitted c (w.units i) (e.rotation_table_get i) drive_unit_sources_clk)).flatten ++
        ((List.range NUM_DISK_UNITS).map
          (fun i => emitted c (w.units i) (e.rotation_table_get i)
            drive_unit_sources_ready)).flatten))

/-- The widths in bits of the fields of the `DRIVE` module as the specification
words the layout: the timing factor, the record of each unit, one attach-detach
clock per unit, the two byte-ready bytes per unit. -/
def spec_drive_widths : List Nat :=
  32 :: ((List.replicate NUM_DISK_UNITS spec_record_widths).flatten ++
    ((List.replicate NUM_DISK_UNITS [32]).flatten ++
      (List.replicate NUM_DISK_UNITS [8, 8]).flatten))

/-- The reads of a chain of reads of the `DRIVE` module, as calls. -/
def chain_reads (R : List (RKind × Dest)) : List Event :=
  R.map (fun kd => Event.snapshot_module_read .DRIVE kd.1.width)

/-- The reads that the current-version branch of the reader makes of a `DRIVE`
module that it decodes: the timing factor, the current layout for each unit,
then the two trailing loops. -/
def drive_reads : List Event :=
  Event.snapshot_module_read .DRIVE 4 ::
    ((List.replicate NUM_DISK_UNITS (chain_reads layout_current)).flatten ++
      ((List.replicate NUM_DISK_UNITS (chain_reads layout_clk)).flatten ++
        (List.replicate NUM_DISK_UNITS (chain_reads layout_ready)).flatten))

/-- The width in bits of a call that reads the `DRIVE` module. -/
def drive_read_bits : Event → Option Nat
  | .snapshot_module_read .DRIVE n => some (8 * n)
  | _ => none
/-! ## Projections of the state updates -/

@[simp] theorem log_units (w : World) (ev : Event) : (w.log ev).units = w.units := rfl
@[simp] theorem log_resources (w : World) (ev : Event) : (w.log ev).resources = w.resources := rfl
@[simp] theorem log_error (w : World) (ev : Event) :
    (w.log ev).snapshot_error = w.snapshot_error := rfl
@[simp] theorem log_filename (w : World) (ev : Event) :
    (w.log ev).dc_savestate_filename = w.dc_savestate_filename := rfl
@[simp] theorem log_trace (w : World) (ev : Event) : (w.log ev).trace = w.trace ++ [ev] := rfl

@[simp] theorem setUnit_units (w : World) (i : Nat) (u : DiskUnit) (j : Nat) :
    (w.setUnit i u).units j = if j = i then u else w.units j := rfl
@[simp] theorem setUnit_resources (w : World) (i : Nat) (u : DiskUnit) :
    (w.setUnit i u).resources = w.resources := rfl
@[simp] theorem setUnit_error (w : World) (i : Nat) (u : DiskUnit) :
    (w.setUnit i u).snapshot_error = w.snapshot_error := rfl
@[simp] theorem setUnit_filename (w : World) (i : Nat) (u : DiskUnit) :
    (w.setUnit i u).dc_savestate_filename = w.dc_savestate_filename := rfl
@[simp] theorem setUnit_trace (w : World) (i : Nat) (u : DiskUnit) :
    (w.setUnit i u).trace = w.trace := rfl

@[simp] theorem setField_units (w : World) (i : Nat) (f : Field) (v : Int) (j : Nat) :
    (w.setField i f v).units j = if j = i then (w.units i).set f v else w.units j := rfl
@[simp] theorem setField_resources (w : World) (i : Nat) (f : Field) (v : Int) :
    (w.setField i f v).resources = w.resources := rfl
@[simp] theorem setField_error (w : World) (i : Nat) (f : Field) (v : Int) :
    (w.setField i f v).snapshot_error = w.snapshot_error := rfl
@[simp] theorem setField_filename (w : World) (i : Nat) (f : Field) (v : Int) :
    (w.setField i f v).dc_savestate_filename = w.dc_savestate_filename := rfl
@[simp] theorem setField_trace (w : World) (i : Nat) (f : Field) (v : Int) :
    (w.setField i f v).trace = w.trace := rfl

@[simp] theorem set_sc (u : DiskUnit) (f : Field) (v : Int) (g : Field) :
    (u.set f v).sc g = if g = f then v else u.sc g := rfl
@[simp] theorem set_image (u : DiskUnit) (f : Field) (v : Int) : (u.set f v).image = u.image := rfl
@[simp] theorem set_gcr (u : DiskUnit) (f : Field) (v : Int) : (u.set f v).gcr = u.gcr := rfl
@[simp] theorem set_p64 (u : DiskUnit) (f : Field) (v : Int) : (u.set f v).p64 = u.p64 := rfl

@[simp] theorem setTrack_sc (u : DiskUnit) (i : Nat) (t : GcrTrack) : (u.setTrack i t).sc = u.sc :=
  rfl
@[simp] theorem setTrack_image (u : DiskUnit) (i : Nat) (t : GcrTrack) :
    (u.setTrack i t).image = u.image := rfl
@[simp] theorem setTrack_p64 (u : DiskUnit) (i : Nat) (t : GcrTrack) :
    (u.setTrack i t).p64 = u.p64 := rfl
@[simp] theorem setTrack_gcr (u : DiskUnit) (i : Nat) (t : GcrTrack) (j : Nat) :
    (u.setTrack i t).gcr j = if j = i then t else u.gcr j := rfl

@[simp] theorem close_units (w : World) (m : RHandle) :
    (snapshot_module_close w m).units = w.units := rfl
@[simp] theorem close_resources (w : World) (m : RHandle) :
    (snapshot_module_close w m).resources = w.resources := rfl
@[simp] theorem close_error (w : World) (m : RHandle) :
    (snapshot_module_close w m).snapshot_error = w.snapshot_error := rfl
@[simp] theorem close_trace (w : World) (m : RHandle) :
    (snapshot_module_close w m).trace = w.trace ++ [.snapshot_module_close m.name] := rfl

/-- Replacing a unit by one with the same scalar members leaves the scalar
members of every unit as they were. -/
theorem setUnit_sc_same (w : World) (i : Nat) (u1 : DiskUnit) (h : u1.sc = (w.units i).sc)
    (u : Nat) : ((w.setUnit i u1).units u).sc = (w.units u).sc := by
  simp only [setUnit_units]
  split
  · next hu => rw [hu]; exact h
  · rfl

/-- Replacing unit `i` leaves the other units as they were. -/
theorem setUnit_other (w : World) (i : Nat) (u1 : DiskUnit) (u : Nat) (hu : u ≠ i) :
    (w.setUnit i u1).units u = w.units u := by
  simp [hu]

/-! ## Version gating of the `DRIVE` reader -/

theorem open_drive_some (s : Snapshot) (w : World) (md : SnapModule)
    (h : drive_module s = some md) :
    snapshot_module_open s w .DRIVE =
      (some (⟨.DRIVE, md.data⟩, md.major, md.minor), w.log (.snapshot_module_open .DRIVE true)) := by
  unfold snapshot_module_open
  unfold drive_module at h
  rw [h]

theorem open_drive_none (s : Snapshot) (w : World) (h : drive_module s = none) :
    snapshot_module_open s w .DRIVE = (none, w.log (.snapshot_module_open .DRIVE false)) := by
  unfold snapshot_module_open
  unfold drive_module at h
  rw [h]

theorem read_module_bigger (c : Cfg) (e : Ext) (s : Snapshot) (w : World) (md : SnapModule)
    (h : drive_module s = some md)
    (hv : snapshot_version_is_bigger md.major md.minor DRIVE_SNAP_MAJOR DRIVE_SNAP_MINOR = true) :
    drive_snapshot_read_module c e s w = (-1, rejected w .SNAPSHOT_MODULE_HIGHER_VERSION) := by
  unfold drive_snapshot_read_module
  rw [open_drive_some s w md h]
  simp [hv, rejected, snapshot_module_close, snapshot_set_error, World.log]

theorem read_module_smaller (c : Cfg) (e : Ext) (s : Snapshot) (w : World) (md : SnapModule)
    (h : drive_module s = some md)
    (hb : snapshot_version_is_bigger md.major md.minor DRIVE_SNAP_MAJOR DRIVE_SNAP_MINOR = false)
    (hv : snapshot_version_is_smaller md.major md.minor DRIVE_SNAP_MAJOR DRIVE_SNAP_MINOR = true) :
    drive_snapshot_read_module c e s w = (-1, rejected w .SNAPSHOT_MODULE_INCOMPATIBLE) := by
  unfold drive_snapshot_read_module
  rw [open_drive_some s w md h]
  simp [hb, hv, rejected, snapshot_module_close, snapshot_set_error, World.log]

/-- C2. A `DRIVE` module whose major version is `DRIVE_SNAP_MAJOR + 1` is
rejected whatever its minor version and payload: the call returns -1, the error
`SNAPSHOT_MODULE_HIGHER_VERSION` is recorded, the module is closed, and the
trace holds no read of the module. -/
theorem C2_newer_major_rejected (c : Cfg) (e : Ext) (s : Snapshot) (w : World)
    (md : SnapModule) (h : drive_module s = some md) (hmajor : md.major = DRIVE_SNAP_MAJOR + 1) :
    drive_snapshot_read_module c e s w = (-1, rejected w .SNAPSHOT_MODULE_HIGHER_VERSION) := by
  apply read_module_bigger c e s w md h
  simp [snapshot_version_is_bigger, hmajor, DRIVE_SNAP_MAJOR]

theorem C2_newer_major_rejected_witness :
    drive_snapshot_read_module (exampleCfg true) exampleExt [⟨.DRIVE, 2, 7, [1, 2, 3]⟩]
      exampleWorld = (-1, rejected exampleWorld .SNAPSHOT_MODULE_HIGHER_VERSION) :=
  C2_newer_major_rejected (exampleCfg true) exampleExt [⟨.DRIVE, 2, 7, [1, 2, 3]⟩] exampleWorld
    ⟨.DRIVE, 2, 7, [1, 2, 3]⟩ (by decide) (by decide)

/-- C3. A `DRIVE` module of version (0, 9) is rejected whatever its payload: the
call returns -1, the error `SNAPSHOT_MODULE_INCOMPATIBLE` is recorded and the
module is closed. -/
theorem C3_version_0_9_rejected (c : Cfg) (e : Ext) (s : Snapshot) (w : World)
    (md : SnapModule) (h : drive_module s = some md) (hmajor : md.major = 0)
    (hminor : md.minor = 9) :
    drive_snapshot_read_module c e s w = (-1, rejected w .SNAPSHOT_MODULE_INCOMPATIBLE) := by
  apply read_module_smaller c e s w md h
  · simp [snapshot_version_is_bigger, hmajor, hminor, DRIVE_SNAP_MAJOR]
  · simp [snapshot_version_is_smaller, hmajor, DRIVE_SNAP_MAJOR]

theorem C3_version_0_9_rejected_witness :
    drive_snapshot_read_module (exampleCfg false) exampleExt [⟨.DRIVE, 0, 9, [4, 5]⟩]
      exampleWorld = (-1, rejected exampleWorld .SNAPSHOT_MODULE_INCOMPATIBLE) :=
  C3_version_0_9_rejected (exampleCfg false) exampleExt [⟨.DRIVE, 0, 9, [4, 5]⟩] exampleWorld
    ⟨.DRIVE, 0, 9, [4, 5]⟩ (by decide) (by decide) (by decide)


/-- C4 (the code at the failing inputs). A `DRIVE` module of version 1.0, 1.1,
1.2 or 1.3 is rejected with `SNAPSHOT_MODULE_INCOMPATIBLE` whatever its payload:
the call returns -1 before any field is read, so the decode branches for these
versions are never entered. -/
theorem C4_historical_versions_rejected (c : Cfg) (e : Ext) (w : World) (payload : List Byte) :
    drive_snapshot_read_module c e [⟨.DRIVE, 1, 0, payload⟩] w
        = (-1, rejected w .SNAPSHOT_MODULE_INCOMPATIBLE) ∧
    drive_snapshot_read_module c e [⟨.DRIVE, 1, 1, payload⟩] w
        = (-1, rejected w .SNAPSHOT_MODULE_INCOMPATIBLE) ∧
    drive_snapshot_read_module c e [⟨.DRIVE, 1, 2, payload⟩] w
        = (-1, rejected w .SNAPSHOT_MODULE_INCOMPATIBLE) ∧
    drive_snapshot_read_module c e [⟨.DRIVE, 1, 3, payload⟩] w
        = (-1, rejected w .SNAPSHOT_MODULE_INCOMPATIBLE) := by
  refine ⟨?_, ?_, ?_, ?_⟩ <;>
    exact read_module_smaller c e _ w _ rfl rfl rfl

/-- C6. When the `DRIVE` module is rejected because of its version (it is
bigger or smaller than the current one), the call returns -1 with the error
recorded, and every unit, with its drive, is as before the call; so is the
configuration. -/
theorem C6_rejection_leaves_units (c : Cfg) (e : Ext) (s : Snapshot) (w : World)
    (md : SnapModule) (h : drive_module s = some md)
    (hv : snapshot_version_is_bigger md.major md.minor DRIVE_SNAP_MAJOR DRIVE_SNAP_MINOR = true ∨
      snapshot_version_is_smaller md.major md.minor DRIVE_SNAP_MAJOR DRIVE_SNAP_MINOR = true) :
    (drive_snapshot_read_module c e s w).1 = -1 ∧
    (drive_snapshot_read_module c e s w).2.units = w.units ∧
    (drive_snapshot_read_module c e s w).2.resources = w.resources ∧
    ((drive_snapshot_read_module c e s w).2.snapshot_error
        = some .SNAPSHOT_MODULE_HIGHER_VERSION ∨
      (drive_snapshot_read_module c e s w).2.snapshot_error
        = some .SNAPSHOT_MODULE_INCOMPATIBLE) := by
  cases hb : snapshot_version_is_bigger md.major md.minor DRIVE_SNAP_MAJOR DRIVE_SNAP_MINOR with
  | true => rw [read_module_bigger c e s w md h hb]; simp [rejected]
  | false =>
    have hs : snapshot_version_is_smaller md.major md.minor DRIVE_SNAP_MAJOR DRIVE_SNAP_MINOR
        = true := by
      rcases hv with hv | hv
      · rw [hb] at hv; cases hv
      · exact hv
    rw [read_module_smaller c e s w md h hb hs]; simp [rejected]

theorem C6_rejection_leaves_units_witness :
    (drive_snapshot_read_module (exampleCfg false) exampleExt [⟨.DRIVE, 2, 0, [9, 9, 9, 9]⟩]
      exampleWorld).1 = -1 ∧
    (drive_snapshot_read_module (exampleCfg false) exampleExt [⟨.DRIVE, 2, 0, [9, 9, 9, 9]⟩]
      exampleWorld).2.units = exampleWorld.units ∧
    (drive_snapshot_read_module (exampleCfg false) exampleExt [⟨.DRIVE, 2, 0, [9, 9, 9, 9]⟩]
      exampleWorld).2.resources = exampleWorld.resources ∧
    ((drive_snapshot_read_module (exampleCfg false) exampleExt [⟨.DRIVE, 2, 0, [9, 9, 9, 9]⟩]
        exampleWorld).2.snapshot_error = some .SNAPSHOT_MODULE_HIGHER_VERSION ∨
      (drive_snapshot_read_module (exampleCfg false) exampleExt [⟨.DRIVE, 2, 0, [9, 9, 9, 9]⟩]
        exampleWorld).2.snapshot_error = some .SNAPSHOT_MODULE_INCOMPATIBLE) :=
  C6_rejection_leaves_units (exampleCfg false) exampleExt [⟨.DRIVE, 2, 0, [9, 9, 9, 9]⟩]
    exampleWorld ⟨.DRIVE, 2, 0, [9, 9, 9, 9]⟩ (by decide) (Or.inl (by decide))

/-- C7 (counterexample): with `__LIBRETRO__` an absent `DRIVE` module does not
turn true drive emulation off. The container has no `DRIVE` module and
`DriveTrueEmulation` is 1 before the call; the call returns 0, makes no call but
the failed open, and `DriveTrueEmulation` is still 1. -/
theorem C7_libretro_keeps_true_emulation :
    drive_module [⟨.IMAGE 0, 1, 0, []⟩] = none ∧
    exampleWorld.resources .DriveTrueEmulation = 1 ∧
    (drive_snapshot_read_module (exampleCfg true) exampleExt [⟨.IMAGE 0, 1, 0, []⟩]
      exampleWorld).1 = 0 ∧
    (drive_snapshot_read_module (exampleCfg true) exampleExt [⟨.IMAGE 0, 1, 0, []⟩]
      exampleWorld).2.trace = [Event.snapshot_module_open .DRIVE false] ∧
    (drive_snapshot_read_module (exampleCfg true) exampleExt [⟨.IMAGE 0, 1, 0, []⟩]
      exampleWorld).2.resources .DriveTrueEmulation = 1 := by
  decide

/-- C7 (amended). When the container has no `DRIVE` module the call returns 0,
every unit with its drive is as before, and no CPU, machine, image or ROM
reader is invoked: the only calls made are the attempt to open the module and,
in a build without `__LIBRETRO__`, the call that sets `DriveTrueEmulation` to 0.
Without `__LIBRETRO__` true drive emulation is off afterwards; with
`__LIBRETRO__` that call is compiled out and the configuration is as before. -/
theorem C7_absent_drive_module (c : Cfg) (e : Ext) (s : Snapshot) (w : World)
    (h : drive_module s = none) :
    (drive_snapshot_read_module c e s w).1 = 0 ∧
    (drive_snapshot_read_module c e s w).2.units = w.units ∧
    (drive_snapshot_read_module c e s w).2.trace =
      w.trace ++ [.snapshot_module_open .DRIVE false] ++
        (if c.libretro then [] else [.resources_set_int .DriveTrueEmulation 0]) ∧
    (c.libretro = false →
      (drive_snapshot_read_module c e s w).2.resources .DriveTrueEmulation = 0) ∧
    (c.libretro = true →
      (drive_snapshot_read_module c e s w).2.resources = w.resources) := by
  unfold drive_snapshot_read_module
  rw [open_drive_none s w h]
  cases hl : c.libretro <;> simp [resources_set_int, World.log]

/-- C7 (witness): a container that holds only an `IMAGE0` module, read in a build
without `__LIBRETRO__` and in a build with it. -/
theorem C7_absent_drive_module_witness :
    drive_module [⟨.IMAGE 0, 1, 0, []⟩] = none ∧
    ((drive_snapshot_read_module (exampleCfg false) exampleExt [⟨.IMAGE 0, 1, 0, []⟩]
      exampleWorld).1 = 0 ∧
    (drive_snapshot_read_module (exampleCfg false) exampleExt [⟨.IMAGE 0, 1, 0, []⟩]
      exampleWorld).2.units = exampleWorld.units ∧
    (drive_snapshot_read_module (exampleCfg false) exampleExt [⟨.IMAGE 0, 1, 0, []⟩]
      exampleWorld).2.trace =
      exampleWorld.trace ++ [.snapshot_module_open .DRIVE false] ++
        (if (exampleCfg false).libretro then []
          else [.resources_set_int .DriveTrueEmulation 0]) ∧
    ((exampleCfg false).libretro = false →
      (drive_snapshot_read_module (exampleCfg false) exampleExt [⟨.IMAGE 0, 1, 0, []⟩]
        exampleWorld).2.resources .DriveTrueEmulation = 0) ∧
    ((exampleCfg false).libretro = true →
      (drive_snapshot_read_module (exampleCfg false) exampleExt [⟨.IMAGE 0, 1, 0, []⟩]
        exampleWorld).2.resources = exampleWorld.resources)) ∧
    ((drive_snapshot_read_module (exampleCfg true) exampleExt [⟨.IMAGE 0, 1, 0, []⟩]
      exampleWorld).1 = 0 ∧
    (drive_snapshot_read_module (exampleCfg true) exampleExt [⟨.IMAGE 0, 1, 0, []⟩]
      exampleWorld).2.units = exampleWorld.units ∧
    (drive_snapshot_read_module (exampleCfg true) exampleExt [⟨.IMAGE 0, 1, 0, []⟩]
      exampleWorld).2.trace =
      exampleWorld.trace ++ [.snapshot_module_open .DRIVE false] ++
        (if (exampleCfg true).libretro then []
          else [.resources_set_int .DriveTrueEmulation 0]) ∧
    ((exampleCfg true).libretro = false →
      (drive_snapshot_read_module (exampleCfg true) exampleExt [⟨.IMAGE 0, 1, 0, []⟩]
        exampleWorld).2.resources .DriveTrueEmulation = 0) ∧
    ((exampleCfg true).libretro = true →
      (drive_snapshot_read_module (exampleCfg true) exampleExt [⟨.IMAGE 0, 1, 0, []⟩]
        exampleWorld).2.resources = exampleWorld.resources)) :=
  ⟨by decide,
    C7_absent_drive_module (exampleCfg false) exampleExt [⟨.IMAGE 0, 1, 0, []⟩] exampleWorld
      (by decide),
    C7_absent_drive_module (exampleCfg true) exampleExt [⟨.IMAGE 0, 1, 0, []⟩] exampleWorld
      (by decide)⟩

/-! ## Byte level lemmas -/

theorem leBytes_length (n v : Nat) : (leBytes n v).length = n := by
  induction n generalizing v with
  | zero => rfl
  | succ n ih => simp [leBytes, ih]

theorem leNat_leBytes (n v : Nat) : leNat (leBytes n v) = v % 256 ^ n := by
  induction n generalizing v with
  | zero => simp [leBytes, leNat, Nat.mod_one]
  | succ n ih =>
    simp only [leBytes, leNat, ih]
    rw [pow_succ', Nat.mod_mul]

theorem snapshot_module_read_append (w : World) (name : ModName) (bs rest : List Byte) :
    snapshot_module_read w ⟨name, bs ++ rest⟩ bs.length
      = (some bs, ⟨name, rest⟩, w.log (.snapshot_module_read name bs.length)) := by
  simp [snapshot_module_read]

theorem SMR_DW_leBytes (w : World) (name : ModName) (v : Nat) (rest : List Byte)
    (hv : v < 2 ^ 32) :
    SMR_DW w ⟨name, leBytes 4 v ++ rest⟩
      = (some v, ⟨name, rest⟩, w.log (.snapshot_module_read name 4)) := by
  have h := snapshot_module_read_append w name (leBytes 4 v) rest
  rw [leBytes_length] at h
  unfold SMR_DW
  rw [h]
  simp only [leNat_leBytes]
  rw [Nat.mod_eq_of_lt (by simpa using hv)]

theorem SMR_BA_append (w : World) (name : ModName) (bs rest : List Byte) :
    SMR_BA w ⟨name, bs ++ rest⟩ bs.length
      = (some bs, ⟨name, rest⟩, w.log (.snapshot_module_read name bs.length)) := by
  unfold SMR_BA
  exact snapshot_module_read_append w name bs rest

theorem snapshot_module_read_name (w : World) (m : RHandle) (n : Nat) :
    (snapshot_module_read w m n).2.1.name = m.name := by
  unfold snapshot_module_read
  split <;> rfl

theorem snapshot_module_read_units (w : World) (m : RHandle) (n : Nat) :
    (snapshot_module_read w m n).2.2.units = w.units := by
  unfold snapshot_module_read
  split <;> rfl

/-! ## The GCR reader -/

theorem SMR_DW_spec (w : World) (m : RHandle) :
    ∃ r data, SMR_DW w m = (r, ⟨m.name, data⟩, w.log (.snapshot_module_read m.name 4)) := by
  unfold SMR_DW snapshot_module_read
  by_cases h : 4 ≤ m.data.length
  · simp only [h, if_true]; exact ⟨_, _, rfl⟩
  · simp only [h, if_false]; exact ⟨_, _, rfl⟩

theorem SMR_BA_spec (w : World) (m : RHandle) (n : Nat) :
    ∃ r data, SMR_BA w m n = (r, ⟨m.name, data⟩, w.log (.snapshot_module_read m.name n)) := by
  unfold SMR_BA snapshot_module_read
  by_cases h : n ≤ m.data.length
  · simp only [h, if_true]; exact ⟨_, _, rfl⟩
  · simp only [h, if_false]; exact ⟨_, _, rfl⟩

theorem SMR_B_spec (w : World) (m : RHandle) :
    ∃ r data, SMR_B w m = (r, ⟨m.name, data⟩, w.log (.snapshot_module_read m.name 1)) := by
  unfold SMR_B snapshot_module_read
  by_cases h : 1 ≤ m.data.length
  · simp only [h, if_true]; exact ⟨_, _, rfl⟩
  · simp only [h, if_false]; exact ⟨_, _, rfl⟩

/-- What the track loop of the GCR reader leaves alone, and how it fails. -/
theorem read_gcr_tracks_frame (c : Cfg) (dnr : Nat) :
    ∀ (n i : Nat) (st : GcrRead),
      (read_gcr_tracks c dnr n i st).2.m.name = st.m.name ∧
      (∀ u, ((read_gcr_tracks c dnr n i st).2.w.units u).sc = (st.w.units u).sc) ∧
      (∀ u, u ≠ dnr → (read_gcr_tracks c dnr n i st).2.w.units u = st.w.units u) ∧
      ((read_gcr_tracks c dnr n i st).1 = false →
        (read_gcr_tracks c dnr n i st).2.w.trace.getLast?
          = some (.snapshot_module_close st.m.name)) := by
  intro n
  induction n with
  | zero => intro i st; simp [read_gcr_tracks]
  | succ n ih =>
    intro i st
    obtain ⟨r, data, hr⟩ := SMR_DW_spec st.w st.m
    simp only [read_gcr_tracks, hr]
    cases r with
    | none => simp
    | some track_size =>
      simp only
      split
      · simp
      · split
        · obtain ⟨r2, data2, hr2⟩ := SMR_BA_spec
            ((st.w.log (.snapshot_module_read st.m.name 4)).setUnit dnr
              (((st.w.log (.snapshot_module_read st.m.name 4)).units dnr).setTrack i
                ⟨some (gcr_alloc (((st.w.log (.snapshot_module_read st.m.name 4)).units dnr).gcr i)
                  track_size), toInt32 track_size⟩))
            ⟨st.m.name, data⟩ track_size
          simp only [hr2]
          cases r2 with
          | none =>
            refine ⟨rfl, ?_, ?_, ?_⟩
            · intro u
              by_cases hu : u = dnr
              · subst hu; simp
              · simp [hu]
            · intro u hu; simp [hu]
            · intro _; simp
          | some bs =>
            simp only
            obtain ⟨h1, h2, h3, h4⟩ := ih (i + 1) ⟨⟨st.m.name, data2⟩, _⟩
            refine ⟨h1, ?_, ?_, h4⟩
            · intro u; rw [h2 u]
              by_cases hu : u = dnr
              · subst hu; simp
              · simp [hu]
            · intro u hu; rw [h3 u hu]; simp [hu]
        · obtain ⟨h1, h2, h3, h4⟩ := ih (i + 1) ⟨⟨st.m.name, data⟩, _⟩
          refine ⟨h1, ?_, ?_, h4⟩
          · intro u; rw [h2 u]
            by_cases hu : u = dnr
            · subst hu; simp
            · simp [hu]
          · intro u hu; rw [h3 u hu]; simp [hu]

/-- The track loop on a payload in which the half-track after `tracks` declares
the length `L` above the maximum: the loop fails, and the half-tracks from that
index on are untouched. -/
theorem read_gcr_tracks_excess (c : Cfg) (dnr : Nat) (name : ModName) (L : Nat)
    (rest : List Byte) (hL : c.NUM_MAX_MEM_BYTES_TRACK < L) (hL2 : L < 2 ^ 32) :
    ∀ (tracks : List (List Byte)) (k i : Nat) (w : World),
      (∀ t ∈ tracks, t.length < 2 ^ 32) →
      (read_gcr_tracks c dnr (tracks.length + 1 + k) i
        ⟨⟨name, (tracks.map gcr_track_bytes).flatten ++ (leBytes 4 L ++ rest)⟩, w⟩).1 = false ∧
      ∀ j, i + tracks.length ≤ j →
        ((read_gcr_tracks c dnr (tracks.length + 1 + k) i
          ⟨⟨name, (tracks.map gcr_track_bytes).flatten ++ (leBytes 4 L ++ rest)⟩, w⟩).2.w.units
            dnr).gcr j = (w.units dnr).gcr j := by
  intro tracks
  induction tracks with
  | nil =>
    intro k i w _
    rw [show ([] : List (List Byte)).length + 1 + k = k + 1 by simp; omega]
    simp only [List.map_nil, List.flatten_nil, List.nil_append, read_gcr_tracks,
      SMR_DW_leBytes _ _ _ _ hL2]
    simp [hL]
  | cons t ts ih =>
    intro k i w ht
    have htl : t.length < 2 ^ 32 := ht t (List.mem_cons_self _ _)
    have hts : ∀ x ∈ ts, x.length < 2 ^ 32 := fun x hx => ht x (List.mem_cons_of_mem _ hx)
    rw [show (t :: ts).length + 1 + k = (ts.length + 1 + k) + 1 by simp; omega]
    simp only [List.map_cons, List.flatten_cons, gcr_track_bytes, List.append_assoc,
      read_gcr_tracks, SMR_DW_leBytes _ _ _ _ htl]
    split
    · simp
    · split
      · simp only [SMR_BA_append]
        obtain ⟨h1, h2⟩ := ih k (i + 1)
          (((w.log (.snapshot_module_read name 4)).setUnit dnr
              (((w.log (.snapshot_module_read name 4)).units dnr).setTrack i
                ⟨some (gcr_alloc (((w.log (.snapshot_module_read name 4)).units dnr).gcr i)
                  t.length), toInt32 t.length⟩)).log
              (.snapshot_module_read name t.length) |>.setUnit dnr
            (((((w.log (.snapshot_module_read name 4)).setUnit dnr
              (((w.log (.snapshot_module_read name 4)).units dnr).setTrack i
                ⟨some (gcr_alloc (((w.log (.snapshot_module_read name 4)).units dnr).gcr i)
                  t.length), toInt32 t.length⟩)).log
              (.snapshot_module_read name t.length)).units dnr).setTrack i
                ⟨some (t ++ (gcr_alloc (((w.log (.snapshot_module_read name 4)).units dnr).gcr i)
                  t.length).drop t.length), toInt32 t.length⟩)) hts
        refine ⟨h1, ?_⟩
        intro j hj
        rw [h2 j (by simp at hj; omega)]
        have hji : j ≠ i := by simp at hj; omega
        simp [hji]
      · next hz =>
        have ht0 : t = [] := by
          have : t.length = 0 := by simpa using hz
          exact List.length_eq_zero.mp this
        subst ht0
        simp only [List.nil_append]
        obtain ⟨h1, h2⟩ := ih k (i + 1)
          ((w.log (.snapshot_module_read name 4)).setUnit dnr
              (((w.log (.snapshot_module_read name 4)).units dnr).setTrack i
                ⟨none, toInt32 ([] : List Byte).length⟩)) hts
        refine ⟨h1, ?_⟩
        intro j hj
        rw [h2 j (by simp at hj; omega)]
        have hji : j ≠ i := by simp at hj; omega
        simp [hji]

theorem read_libretro_filename_frame :
    ∀ (n i : Nat) (st : NameRead),
      (read_libretro_filename n i st).m.name = st.m.name ∧
      (read_libretro_filename n i st).w.units = st.w.units ∧
      (read_libretro_filename n i st).w.snapshot_error = st.w.snapshot_error := by
  intro n
  induction n with
  | zero => intro i st; simp [read_libretro_filename]
  | succ n ih =>
    intro i st
    obtain ⟨r, data, hr⟩ := SMR_B_spec st.w st.m
    simp only [read_libretro_filename, hr]
    split
    · split
      · simp
      · obtain ⟨h1, h2, h3⟩ := ih (i + 1) ⟨st.filename, ⟨st.m.name, data⟩, st.w.log (.snapshot_module_read st.m.name 1)⟩
        exact ⟨h1, h2, h3⟩
    · split
      · simp
      · obtain ⟨h1, h2, h3⟩ := ih (i + 1)
          ⟨st.filename ++ [Fin.ofNat (r.getD 0)], ⟨st.m.name, data⟩, st.w.log (.snapshot_module_read st.m.name 1)⟩
        exact ⟨h1, h2, h3⟩

theorem read_libretro_filename_nil (name : ModName) (data : List Byte) (w : World)
    (h : libretro_name_payload data = false) (N : Nat) :
    (read_libretro_filename N 0 ⟨[], ⟨name, data⟩, w⟩).filename = [] := by
  have h95 : ((95 : Byte) : Nat) = 95 := rfl
  rcases N with _ | _ | _ | _ | N <;>
    rcases data with _ | ⟨a, _ | ⟨b, _ | ⟨d, _ | ⟨x, rest⟩⟩⟩⟩ <;>
    simp [read_libretro_filename, SMR_B, snapshot_module_read, leNat, libretro_name_payload,
      Fin.ext_iff, h95] at h ⊢
  all_goals (split_ifs <;> first | rfl | (exfalso; simp_all))

theorem clear_gcr_tracks_frame (dnr : Nat) :
    ∀ (n i : Nat) (w : World),
      (clear_gcr_tracks dnr n i w).trace = w.trace ∧
      (∀ u, ((clear_gcr_tracks dnr n i w).units u).sc = (w.units u).sc) ∧
      (∀ u, u ≠ dnr → (clear_gcr_tracks dnr n i w).units u = w.units u) := by
  intro n
  induction n with
  | zero => intro i w; simp [clear_gcr_tracks]
  | succ n ih =>
    intro i w
    simp only [clear_gcr_tracks]
    split
    · obtain ⟨h1, h2, h3⟩ := ih (i + 1) (w.setUnit dnr ((w.units dnr).setTrack i ⟨none, 0⟩))
      refine ⟨by rw [h1]; rfl, ?_, ?_⟩
      · intro u; rw [h2 u]
        by_cases hu : u = dnr
        · subst hu; simp
        · simp [hu]
      · intro u hu; rw [h3 u hu]; simp [hu]
    · exact ih (i + 1) w

/-- What the track data part of the GCR reader leaves alone, and how it fails. -/
theorem read_gcr_body_frame (c : Cfg) (dnr : Nat) (st : GcrRead) :
    (read_gcr_body c dnr st).2.m.name = st.m.name ∧
    (∀ u, ((read_gcr_body c dnr st).2.w.units u).sc = (st.w.units u).sc) ∧
    (∀ u, u ≠ dnr → (read_gcr_body c dnr st).2.w.units u = st.w.units u) ∧
    ((read_gcr_body c dnr st).1 = false →
      (read_gcr_body c dnr st).2.w.trace.getLast? = some (.snapshot_module_close st.m.name)) := by
  obtain ⟨r, data, hr⟩ := SMR_DW_spec st.w st.m
  simp only [read_gcr_body, hr]
  cases r with
  | none => simp
  | some n =>
    simp only
    split
    · simp
    · obtain ⟨h1, h2, h3, h4⟩ := read_gcr_tracks_frame c dnr n 0
        ⟨⟨st.m.name, data⟩, st.w.log (.snapshot_module_read st.m.name 4)⟩
      cases hres : read_gcr_tracks c dnr n 0
        ⟨⟨st.m.name, data⟩, st.w.log (.snapshot_module_read st.m.name 4)⟩ with
      | mk ok st1 =>
        rw [hres] at h1 h2 h3 h4
        cases ok with
        | false => exact ⟨h1, h2, h3, h4⟩
        | true =>
          obtain ⟨g1, g2, g3⟩ := clear_gcr_tracks_frame dnr (c.MAX_GCR_TRACKS - n) n st1.w
          refine ⟨h1, ?_, ?_, ?_⟩
          · intro u; simp only; rw [g2 u]; exact h2 u
          · intro u hu; simp only; rw [g3 u hu]; exact h3 u hu
          · intro hf; cases hf

theorem read_gcr_body_count_excess (c : Cfg) (dnr : Nat) (name : ModName) (n : Nat)
    (rest : List Byte) (w : World) (hn : n < 2 ^ 32) (h : c.MAX_GCR_TRACKS < n) :
    read_gcr_body c dnr ⟨⟨name, leBytes 4 n ++ rest⟩, w⟩
      = (false, ⟨⟨name, rest⟩,
          snapshot_module_close (w.log (.snapshot_module_read name 4)) ⟨name, rest⟩⟩) := by
  simp [read_gcr_body, SMR_DW_leBytes _ _ _ _ hn, h]

theorem read_gcr_body_track_excess (c : Cfg) (dnr : Nat) (name : ModName) (n L : Nat)
    (tracks : List (List Byte)) (rest : List Byte) (w : World) (hn : n < 2 ^ 32)
    (hlen : tracks.length < n) (ht : ∀ t ∈ tracks, t.length < 2 ^ 32)
    (hL : c.NUM_MAX_MEM_BYTES_TRACK < L) (hL2 : L < 2 ^ 32) :
    (read_gcr_body c dnr
      ⟨⟨name, leBytes 4 n ++ ((tracks.map gcr_track_bytes).flatten ++ (leBytes 4 L ++ rest))⟩,
        w⟩).1 = false ∧
    ∀ j, tracks.length ≤ j →
      ((read_gcr_body c dnr
        ⟨⟨name, leBytes 4 n ++ ((tracks.map gcr_track_bytes).flatten ++ (leBytes 4 L ++ rest))⟩,
          w⟩).2.w.units dnr).gcr j = (w.units dnr).gcr j := by
  simp only [read_gcr_body, SMR_DW_leBytes _ _ _ _ hn]
  split
  · simp
  · obtain ⟨k, hk⟩ : ∃ k, n = tracks.length + 1 + k := ⟨n - tracks.length - 1, by omega⟩
    obtain ⟨h1, h2⟩ := read_gcr_tracks_excess c dnr name L rest hL hL2 tracks k 0
      (w.log (.snapshot_module_read name 4)) ht
    rw [← hk] at h1 h2
    cases hres : read_gcr_tracks c dnr n 0
      ⟨⟨name, (tracks.map gcr_track_bytes).flatten ++ (leBytes 4 L ++ rest)⟩,
        w.log (.snapshot_module_read name 4)⟩ with
    | mk ok st1 =>
      rw [hres] at h1 h2
      simp only at h1
      subst h1
      refine ⟨rfl, ?_⟩
      intro j hj
      have := h2 j (by omega)
      simpa using this

@[simp] theorem gcr_loaded_gcr (w : World) (dnr u : Nat) :
    ((gcr_loaded w dnr).units u).gcr = (w.units u).gcr := by
  unfold gcr_loaded
  by_cases hu : u = dnr
  · subst hu; simp
  · simp [hu]

theorem open_gcr_some (s : Snapshot) (w : World) (dnr : Nat) (md : SnapModule)
    (h : gcr_module s dnr = some md) :
    snapshot_module_open s w (.GCRIMAGE dnr) =
      (some (⟨.GCRIMAGE dnr, md.data⟩, md.major, md.minor),
        w.log (.snapshot_module_open (.GCRIMAGE dnr) true)) := by
  unfold snapshot_module_open
  unfold gcr_module at h
  rw [h]

/-- The GCR reader fails whenever its track data part fails on the payload,
provided the `__LIBRETRO__` reader does not take the payload for a file name. -/
theorem read_gcrimage_fails (c : Cfg) (s : Snapshot) (w : World) (dnr : Nat) (md : SnapModule)
    (h : gcr_module s dnr = some md)
    (hname : c.libretro = true → libretro_name_payload md.data = false)
    (hbody : ∀ w0, (read_gcr_body c dnr ⟨⟨.GCRIMAGE dnr, md.data⟩, w0⟩).1 = false) :
    gcr_read_failed (drive_snapshot_read_gcrimage_module c s w dnr) w dnr := by
  unfold drive_snapshot_read_gcrimage_module gcr_read_failed
  rw [open_gcr_some s w dnr md h]
  simp only
  split
  · simp [snapshot_set_error]
  · split
    · simp [snapshot_set_error]
    · cases hl : c.libretro with
      | false =>
        simp only [Bool.false_eq_true, if_false]
        obtain ⟨f1, f2, f3, f4⟩ := read_gcr_body_frame c dnr
          ⟨⟨.GCRIMAGE dnr, md.data⟩, w.log (.snapshot_module_open (.GCRIMAGE dnr) true)⟩
        have hb := hbody (w.log (.snapshot_module_open (.GCRIMAGE dnr) true))
        cases hres : read_gcr_body c dnr
          ⟨⟨.GCRIMAGE dnr, md.data⟩, w.log (.snapshot_module_open (.GCRIMAGE dnr) true)⟩ with
        | mk ok st1 =>
          rw [hres] at f1 f2 f3 f4 hb
          simp only at hb
          subst hb
          exact ⟨rfl, f4 rfl, fun u => by rw [f2 u]; rfl⟩
      | true =>
        simp only [if_true]
        have hnil := read_libretro_filename_nil (.GCRIMAGE dnr) md.data
          (w.log (.snapshot_module_open (.GCRIMAGE dnr) true)) (hname hl) c.RETRO_PATH_MAX
        obtain ⟨n1, n2, n3⟩ := read_libretro_filename_frame c.RETRO_PATH_MAX 0
          ⟨[], ⟨.GCRIMAGE dnr, md.data⟩, w.log (.snapshot_module_open (.GCRIMAGE dnr) true)⟩
        simp only [hnil, ne_eq, not_true_eq_false, if_false]
        rw [open_gcr_some s _ dnr md h]
        simp only
        obtain ⟨f1, f2, f3, f4⟩ := read_gcr_body_frame c dnr
          ⟨⟨.GCRIMAGE dnr, md.data⟩,
            (snapshot_module_close
              (read_libretro_filename c.RETRO_PATH_MAX 0
                ⟨[], ⟨.GCRIMAGE dnr, md.data⟩,
                  w.log (.snapshot_module_open (.GCRIMAGE dnr) true)⟩).w
              (read_libretro_filename c.RETRO_PATH_MAX 0
                ⟨[], ⟨.GCRIMAGE dnr, md.data⟩,
                  w.log (.snapshot_module_open (.GCRIMAGE dnr) true)⟩).m).log
              (.snapshot_module_open (.GCRIMAGE dnr) true)⟩
        have hb := hbody ((snapshot_module_close
              (read_libretro_filename c.RETRO_PATH_MAX 0
                ⟨[], ⟨.GCRIMAGE dnr, md.data⟩,
                  w.log (.snapshot_module_open (.GCRIMAGE dnr) true)⟩).w
              (read_libretro_filename c.RETRO_PATH_MAX 0
                ⟨[], ⟨.GCRIMAGE dnr, md.data⟩,
                  w.log (.snapshot_module_open (.GCRIMAGE dnr) true)⟩).m).log
              (.snapshot_module_open (.GCRIMAGE dnr) true))
        cases hres : read_gcr_body c dnr
          ⟨⟨.GCRIMAGE dnr, md.data⟩,
            (snapshot_module_close
              (read_libretro_filename c.RETRO_PATH_MAX 0
                ⟨[], ⟨.GCRIMAGE dnr, md.data⟩,
                  w.log (.snapshot_module_open (.GCRIMAGE dnr) true)⟩).w
              (read_libretro_filename c.RETRO_PATH_MAX 0
                ⟨[], ⟨.GCRIMAGE dnr, md.data⟩,
                  w.log (.snapshot_module_open (.GCRIMAGE dnr) true)⟩).m).log
              (.snapshot_module_open (.GCRIMAGE dnr) true)⟩ with
        | mk ok st1 =>
          rw [hres] at f1 f2 f3 f4 hb
          simp only at hb
          subst hb
          refine ⟨rfl, f4 rfl, fun u => ?_⟩
          rw [f2 u]
          simp only [log_units, close_units]
          rw [n2]
          rfl

/-- The half-tracks that the track data part leaves alone are left alone by the
GCR reader, in either build and whatever it returns. -/
theorem read_gcrimage_tracks_kept (c : Cfg) (s : Snapshot) (w : World) (dnr : Nat)
    (md : SnapModule) (h : gcr_module s dnr = some md) (P : Nat → Prop)
    (hbody : ∀ w0, w0.units = w.units → ∀ j, P j →
      ((read_gcr_body c dnr ⟨⟨.GCRIMAGE dnr, md.data⟩, w0⟩).2.w.units dnr).gcr j
        = (w.units dnr).gcr j) :
    ∀ u j, (u ≠ dnr ∨ P j) →
      ((drive_snapshot_read_gcrimage_module c s w dnr).2.units u).gcr j = (w.units u).gcr j := by
  have key : ∀ w0, w0.units = w.units → ∀ u j, (u ≠ dnr ∨ P j) →
      ((read_gcr_body c dnr ⟨⟨.GCRIMAGE dnr, md.data⟩, w0⟩).2.w.units u).gcr j
        = (w.units u).gcr j := by
    intro w0 hw0 u j hu
    by_cases hud : u = dnr
    · subst hud
      rcases hu with hu | hu
      · exact absurd rfl hu
      · exact hbody w0 hw0 j hu
    · obtain ⟨_, _, f3, _⟩ := read_gcr_body_frame c dnr ⟨⟨.GCRIMAGE dnr, md.data⟩, w0⟩
      rw [f3 u hud]
      simp only
      rw [hw0]
  intro u j hu
  unfold drive_snapshot_read_gcrimage_module
  rw [open_gcr_some s w dnr md h]
  simp only
  split
  · simp [snapshot_set_error]
  · split
    · simp [snapshot_set_error]
    · cases hl : c.libretro with
      | false =>
        simp only [Bool.false_eq_true, if_false]
        have hk := key (w.log (.snapshot_module_open (.GCRIMAGE dnr) true)) rfl u j hu
        cases hres : read_gcr_body c dnr
          ⟨⟨.GCRIMAGE dnr, md.data⟩, w.log (.snapshot_module_open (.GCRIMAGE dnr) true)⟩ with
        | mk ok st1 =>
          rw [hres] at hk
          cases ok with
          | false => exact hk
          | true => simp only [gcr_loaded_gcr, close_units]; exact hk
      | true =>
        simp only [if_true]
        obtain ⟨n1, n2, n3⟩ := read_libretro_filename_frame c.RETRO_PATH_MAX 0
          ⟨[], ⟨.GCRIMAGE dnr, md.data⟩, w.log (.snapshot_module_open (.GCRIMAGE dnr) true)⟩
        split
        · simp only [gcr_loaded_gcr, close_units]
          rw [n2]; rfl
        · rw [open_gcr_some s _ dnr md h]
          simp only
          have hk := key ((snapshot_module_close
              (read_libretro_filename c.RETRO_PATH_MAX 0
                ⟨[], ⟨.GCRIMAGE dnr, md.data⟩,
                  w.log (.snapshot_module_open (.GCRIMAGE dnr) true)⟩).w
              (read_libretro_filename c.RETRO_PATH_MAX 0
                ⟨[], ⟨.GCRIMAGE dnr, md.data⟩,
                  w.log (.snapshot_module_open (.GCRIMAGE dnr) true)⟩).m).log
              (.snapshot_module_open (.GCRIMAGE dnr) true))
            (by simp only [log_units, close_units]; rw [n2]; rfl) u j hu
          cases hres : read_gcr_body c dnr
            ⟨⟨.GCRIMAGE dnr, md.data⟩,
              (snapshot_module_close
                (read_libretro_filename c.RETRO_PATH_MAX 0
                  ⟨[], ⟨.GCRIMAGE dnr, md.data⟩,
                    w.log (.snapshot_module_open (.GCRIMAGE dnr) true)⟩).w
                (read_libretro_filename c.RETRO_PATH_MAX 0
                  ⟨[], ⟨.GCRIMAGE dnr, md.data⟩,
                    w.log (.snapshot_module_open (.GCRIMAGE dnr) true)⟩).m).log
                (.snapshot_module_open (.GCRIMAGE dnr) true)⟩ with
          | mk ok st1 =>
            rw [hres] at hk
            cases ok with
            | false => exact hk
            | true => simp only [gcr_loaded_gcr, close_units]; exact hk

/-- C9 (the claim fails here). With `__LIBRETRO__` a `GCRIMAGE0` module whose
first four bytes are `"___A"`, that is the count 0x415F5F5F, far above
`MAX_GCR_TRACKS`, is taken for a file name module: the call returns 0 and sets
`GCR_image_loaded`. -/
theorem C9_libretro_name_module_accepted :
    declares_count [95, 95, 95, 65] 0x415F5F5F ∧
    (exampleCfg true).MAX_GCR_TRACKS < 0x415F5F5F ∧
    (drive_snapshot_read_gcrimage_module (exampleCfg true) exampleGcrName exampleWorld 0).1 = 0 ∧
    ((drive_snapshot_read_gcrimage_module (exampleCfg true) exampleGcrName
      exampleWorld 0).2.units 0).sc .GCR_image_loaded = 1 ∧
    (exampleWorld.units 0).sc .GCR_image_loaded = 0 := by
  refine ⟨⟨[], by decide, by decide⟩, by decide, by decide, by decide, by decide⟩

/-- C9 (amended). The GCR reader returns -1, its last call being the close of
the module, without setting `GCR_image_loaded`, for every `GCRIMAGEk` module
that declares a half-track count above `MAX_GCR_TRACKS` and for every module in
which a half-track within the declared count declares a length above
`NUM_MAX_MEM_BYTES_TRACK`; with `__LIBRETRO__` this holds for the modules that
the reader does not take for a file name (payload not starting with `"___"` and
a non-zero byte). -/
theorem C9_gcr_bounds_enforced (c : Cfg) (s : Snapshot) (w : World) (dnr : Nat)
    (md : SnapModule) (h : gcr_module s dnr = some md)
    (hname : c.libretro = true → libretro_name_payload md.data = false)
    (hbad : (∃ n, declares_count md.data n ∧ c.MAX_GCR_TRACKS < n) ∨
      (∃ i L, declares_track_length md.data i L ∧ c.NUM_MAX_MEM_BYTES_TRACK < L)) :
    gcr_read_failed (drive_snapshot_read_gcrimage_module c s w dnr) w dnr := by
  apply read_gcrimage_fails c s w dnr md h hname
  intro w0
  rcases hbad with ⟨n, ⟨rest, hn, hd⟩, hmax⟩ | ⟨i, L, ⟨n, tracks, rest, hn, hlen, hi, ht, hL2, hd⟩, hL⟩
  · rw [hd, read_gcr_body_count_excess c dnr _ n rest w0 hn hmax]
  · rw [hd]
    exact (read_gcr_body_track_excess c dnr _ n L tracks rest w0 hn (by omega) ht hL hL2).1

theorem C9_gcr_bounds_enforced_witness :
    gcr_read_failed (drive_snapshot_read_gcrimage_module (exampleCfg true) exampleGcrExcess
      exampleWorld 0) exampleWorld 0 :=
  C9_gcr_bounds_enforced (exampleCfg true) exampleGcrExcess exampleWorld 0
    ⟨.GCRIMAGE 0, 3, 1, leBytes 4 2 ++ (gcr_track_bytes [7] ++ leBytes 4 65537)⟩ (by decide)
    (by decide)
    (Or.inr ⟨1, 65537, ⟨2, [[7]], [], by decide, by decide, by decide, by decide, by decide,
      by decide⟩, by decide⟩)

/-- C10 (the claim fails here). A `GCRIMAGE0` module declares 2 half-tracks, the
first of length 1 holding the byte 7, the second of length 65537, above
`NUM_MAX_MEM_BYTES_TRACK`. The reader returns -1, and half-track 0, which had
no buffer, now has the buffer `[7]` and the size 1. -/
theorem C10_gcr_failure_keeps_earlier_tracks :
    declares_track_length (leBytes 4 2 ++ (gcr_track_bytes [7] ++ leBytes 4 65537)) 1 65537 ∧
    (exampleCfg false).NUM_MAX_MEM_BYTES_TRACK < 65537 ∧
    (drive_snapshot_read_gcrimage_module (exampleCfg false) exampleGcrExcess exampleWorld 0).1
      = -1 ∧
    ((drive_snapshot_read_gcrimage_module (exampleCfg false) exampleGcrExcess
      exampleWorld 0).2.units 0).gcr 0 = ⟨some [7], 1⟩ ∧
    (exampleWorld.units 0).gcr 0 = ⟨none, 0⟩ := by
  refine ⟨⟨2, [[7]], [], by decide, by decide, by decide, by decide, by decide, by decide⟩,
    by decide, by decide, by decide, by decide⟩

/-- C10 (amended). When the GCR reader meets a declared half-track count above
`MAX_GCR_TRACKS`, the buffer and the size of every half-track of every unit are
as before the call; when half-track `i` declares a length above
`NUM_MAX_MEM_BYTES_TRACK`, the buffer and the size of every half-track with an
index from `i` on, and of every half-track of the other units, are as before
the call. -/
theorem C10_gcr_failure_untouched_tracks (c : Cfg) (s : Snapshot) (w : World) (dnr : Nat)
    (md : SnapModule) (h : gcr_module s dnr = some md) :
    ((∃ n, declares_count md.data n ∧ c.MAX_GCR_TRACKS < n) →
      ∀ u j, ((drive_snapshot_read_gcrimage_module c s w dnr).2.units u).gcr j
        = (w.units u).gcr j) ∧
    (∀ i L, declares_track_length md.data i L → c.NUM_MAX_MEM_BYTES_TRACK < L →
      ∀ u j, (u ≠ dnr ∨ i ≤ j) →
        ((drive_snapshot_read_gcrimage_module c s w dnr).2.units u).gcr j
          = (w.units u).gcr j) := by
  constructor
  · rintro ⟨n, ⟨rest, hn, hd⟩, hmax⟩ u j
    apply read_gcrimage_tracks_kept c s w dnr md h (fun _ => True) _ u j (Or.inr trivial)
    intro w0 hw0 j _
    rw [hd, read_gcr_body_count_excess c dnr _ n rest w0 hn hmax]
    simp only [close_units, log_units]
    rw [hw0]
  · rintro i L ⟨n, tracks, rest, hn, hlen, hi, ht, hL2, hd⟩ hL u j hu
    apply read_gcrimage_tracks_kept c s w dnr md h (fun j => i ≤ j) _ u j hu
    intro w0 hw0 j hj
    rw [hd]
    rw [(read_gcr_body_track_excess c dnr _ n L tracks rest w0 hn (by omega) ht hL hL2).2 j
      (by omega)]
    rw [hw0]

theorem C10_gcr_failure_untouched_tracks_witness :
    ((drive_snapshot_read_gcrimage_module (exampleCfg false) exampleGcrCount
        exampleWorld 0).2.units 0).gcr 5 = (exampleWorld.units 0).gcr 5 ∧
    ((drive_snapshot_read_gcrimage_module (exampleCfg false) exampleGcrExcess
        exampleWorld 0).2.units 0).gcr 1 = (exampleWorld.units 0).gcr 1 :=
  ⟨(C10_gcr_failure_untouched_tracks (exampleCfg false) exampleGcrCount exampleWorld 0
      ⟨.GCRIMAGE 0, 3, 1, leBytes 4 200⟩ (by decide)).1
      ⟨200, ⟨[], by decide, by decide⟩, by decide⟩ 0 5,
    (C10_gcr_failure_untouched_tracks (exampleCfg false) exampleGcrExcess exampleWorld 0
      ⟨.GCRIMAGE 0, 3, 1, leBytes 4 2 ++ (gcr_track_bytes [7] ++ leBytes 4 65537)⟩
      (by decide)).2 1 65537
      ⟨2, [[7]], [], by decide, by decide, by decide, by decide, by decide, by decide⟩
      (by decide) 0 1 (Or.inr (by decide))⟩

/-! ## Versions emitted by the writers -/

/-- C5 (the code at the failing input). The P64 writer creates `P64IMAGE0` with
the version (`GCRIMAGE_SNAP_MAJOR`, `GCRIMAGE_SNAP_MINOR`) = (3, 1); the P64
reader compares with (`P64IMAGE_SNAP_MAJOR`, `P64IMAGE_SNAP_MINOR`) = (1, 0),
so it rejects the module just written with `SNAPSHOT_MODULE_HIGHER_VERSION`
and leaves the flux image of the drive as it was. -/
theorem C5_p64_module_rejected_by_own_reader :
    (drive_snapshot_write_p64image_module exampleExt [] exampleP64World 0).1 = 0 ∧
    (drive_snapshot_write_p64image_module exampleExt [] exampleP64World 0).2.1
      = [⟨.P64IMAGE 0, 3, 1, [3, 0, 0, 0, 1, 2, 3]⟩] ∧
    (drive_snapshot_read_p64image_module exampleExt
      (drive_snapshot_write_p64image_module exampleExt [] exampleP64World 0).2.1
      exampleP64World 0).1 = -1 ∧
    (drive_snapshot_read_p64image_module exampleExt
      (drive_snapshot_write_p64image_module exampleExt [] exampleP64World 0).2.1
      exampleP64World 0).2.snapshot_error = some .SNAPSHOT_MODULE_HIGHER_VERSION ∧
    (P64IMAGE_SNAP_MAJOR, P64IMAGE_SNAP_MINOR) = (1, 0) := by
  decide

/-! ## The flat image codec -/

theorem getElem?_middle {α : Type} (pre trs : List α) (tr : α) :
    (pre ++ tr :: trs)[pre.length]? = some tr := by
  rw [List.getElem?_append_right (le_refl _)]
  simp

/-- The 256-byte blocks of the sectors of a track, as the writer reads them. -/
theorem disk_image_read_sector_of (img : DiskImage) (pre trs : List (List (List Byte)))
    (tr : List (List Byte)) (hc : img.content = pre ++ tr :: trs) (s : Nat) :
    disk_image_read_sector img (pre.length + 1) s = (tr[s]?).map (fill 256) := by
  unfold disk_image_read_sector
  rw [hc]
  simp only [Nat.add_sub_cancel, getElem?_middle]
  simp

theorem disk_image_read_sector_end (img : DiskImage) (s : Nat) :
    disk_image_read_sector img (img.content.length + 1) s = none := by
  unfold disk_image_read_sector
  simp

theorem sectorsOn_of (img : DiskImage) (pre trs : List (List (List Byte)))
    (tr : List (List Byte)) (hc : img.content = pre ++ tr :: trs) :
    img.sectorsOn (pre.length + 1) = tr.length := by
  unfold DiskImage.sectorsOn
  rw [hc]
  simp only [Nat.add_sub_cancel, getElem?_middle]
  simp

/-- The inner loop of the writer on an existing track, when no write fails:
it appends the blocks of the sectors from `s` on and stops at the end of the
track. -/
theorem write_image_track_spec (e : Ext) (img : DiskImage) (pre trs : List (List (List Byte)))
    (tr : List (List Byte)) (hc : img.content = pre ++ tr :: trs) :
    ∀ (fuel s : Nat) (m : WHandle), (∀ n, e.smw_fails m.name n = false) →
      s ≤ tr.length → tr.length - s < fuel →
      ∃ nw, write_image_track e img (pre.length + 1) fuel s m
        = (tr.length, ⟨m.name, m.major, m.minor,
            m.data ++ ((tr.drop s).map (fill 256)).flatten, nw⟩) := by
  intro fuel
  induction fuel with
  | zero => intro s m _ _ h; omega
  | succ fuel ih =>
    intro s m hw hs hf
    simp only [write_image_track, disk_image_read_sector_of img pre trs tr hc]
    by_cases hlt : s < tr.length
    · have hget : tr[s]? = some tr[s] := List.getElem?_eq_getElem hlt
      simp only [hget, Option.map_some', SMW_BA, smw, hw, Bool.false_eq_true, if_false]
      obtain ⟨nw, h⟩ := ih (s + 1)
        ⟨m.name, m.major, m.minor, m.data ++ fill 256 tr[s], m.nwrites + 1⟩ hw (by omega)
        (by omega)
      refine ⟨nw, ?_⟩
      rw [h, List.drop_eq_getElem_cons hlt]
      simp only [List.map_cons, List.flatten_cons, List.append_assoc]
    · have hs2 : s = tr.length := by omega
      subst hs2
      simp only [List.getElem?_eq_none (le_refl _), Option.map_none', List.drop_length,
        List.map_nil, List.flatten_nil, List.append_nil]
      exact ⟨m.nwrites, rfl⟩

/-- The outer loop of the writer, when no write fails and no track is empty: it
appends the blocks of all remaining tracks. -/
theorem write_image_tracks_spec (e : Ext) (img : DiskImage) :
    ∀ (trs pre : List (List (List Byte))) (fuel : Nat) (m : WHandle),
      img.content = pre ++ trs → (∀ n, e.smw_fails m.name n = false) →
      (∀ tr ∈ trs, tr ≠ []) → trs.length < fuel →
      ∃ nw, write_image_tracks e img fuel (pre.length + 1) m
        = ⟨m.name, m.major, m.minor,
            m.data ++ (trs.map (fun tr => (tr.map (fill 256)).flatten)).flatten, nw⟩ := by
  intro trs
  induction trs with
  | nil =>
    intro pre fuel m hc _ _ hf
    obtain ⟨fuel, rfl⟩ : ∃ k, fuel = k + 1 := ⟨fuel - 1, by simp at hf; omega⟩
    have hlen : pre.length = img.content.length := by rw [hc]; simp
    simp only [write_image_tracks, hlen]
    have : img.sectorsOn (img.content.length + 1) = 0 := by
      unfold DiskImage.sectorsOn; simp
    simp only [this, write_image_track, disk_image_read_sector_end]
    simp only [Nat.zero_add, if_true, List.map_nil, List.flatten_nil, List.append_nil]
    exact ⟨m.nwrites, rfl⟩
  | cons tr trs ih =>
    intro pre fuel m hc hw hne hf
    obtain ⟨fuel, rfl⟩ : ∃ k, fuel = k + 1 := ⟨fuel - 1, by simp at hf; omega⟩
    simp only [write_image_tracks, sectorsOn_of img pre trs tr hc]
    obtain ⟨nw, h⟩ := write_image_track_spec e img pre trs tr hc (tr.length + 1) 0 m hw
      (by omega) (by omega)
    rw [h]
    have htr : tr ≠ [] := hne tr (List.mem_cons_self _ _)
    have hlen : tr.length ≠ 0 := fun h0 => htr (List.length_eq_zero.mp h0)
    simp only [hlen, if_false]
    obtain ⟨nw2, h2⟩ := ih (pre ++ [tr]) fuel
      ⟨m.name, m.major, m.minor, m.data ++ ((tr.drop 0).map (fill 256)).flatten, nw⟩
      (by rw [hc]; simp) hw (fun x hx => hne x (List.mem_cons_of_mem _ hx))
      (by simp at hf; omega)
    simp only [List.length_append, List.length_singleton] at h2
    rw [h2]
    exact ⟨nw2, by simp⟩

theorem fill_of_length (bs : List Byte) (n : Nat) (h : bs.length = n) : fill n bs = bs := by
  unfold fill
  rw [← h, List.take_left]

theorem fill_length (bs : List Byte) (n : Nat) : (fill n bs).length = n := by
  unfold fill
  simp

theorem take_succ_set {α : Type} (l : List α) (s : Nat) (x : α) (h : s < l.length) :
    (l.set s x).take (s + 1) = l.take s ++ [x] := by
  induction l generalizing s with
  | nil => simp at h
  | cons a l ih =>
    cases s with
    | zero => simp
    | succ s => simp at h; simp [ih s h]

theorem set_middle {α : Type} (pre trs : List α) (tr x : α) :
    (pre ++ tr :: trs).set pre.length x = pre ++ x :: trs := by
  induction pre with
  | nil => simp
  | cons a pre ih => simp [ih]

theorem read_sector_data_primed (st : ImgRead) (Q : List (List Byte))
    (hQ : ∀ b ∈ Q, b.length = 256) (hd : st.m.data = Q.flatten) :
    primed (read_sector_data st) Q ∧
    (read_sector_data st).w.units = st.w.units ∧
    (read_sector_data st).m.name = st.m.name ∧
    (∀ ev ∈ st.w.trace, ev ∈ (read_sector_data st).w.trace) := by
  cases Q with
  | nil =>
    have hd0 : st.m.data = [] := by simpa using hd
    simp [read_sector_data, SMR_BA, snapshot_module_read, hd0, primed]
    exact fun ev hev => Or.inl hev
  | cons b Q =>
    have hb : b.length = 256 := hQ b (List.mem_cons_self _ _)
    have hm : st.m = ⟨st.m.name, b ++ Q.flatten⟩ := by
      cases hmm : st.m with
      | mk name data => rw [hmm] at hd; simp at hd; simp [hd]
    have h := SMR_BA_append st.w st.m.name b Q.flatten
    rw [hb] at h
    unfold read_sector_data
    rw [hm, h]
    simp [primed]
    exact fun ev hev => Or.inl hev

/-- The inner loop of the reader on an existing track: it stores the blocks
`bs.drop s` in the sectors from `s` on and stops at the end of the track. -/
theorem read_image_track_spec (dnr : Nat) (pre trs : List (List (List Byte))) :
    ∀ (fuel s : Nat) (st : ImgRead) (im : DiskImage) (tr1 bs Q : List (List Byte)),
      (st.w.units dnr).image = some im → im.content = pre ++ tr1 :: trs →
      bs.length = tr1.length → (∀ b ∈ bs, b.length = 256) → (∀ b ∈ Q, b.length = 256) →
      s ≤ tr1.length → tr1.length - s < fuel → primed st (bs.drop s ++ Q) →
      ∃ st1, read_image_track dnr (pre.length + 1) fuel s st = (tr1.length, st1) ∧
        primed st1 Q ∧
        (st1.w.units dnr).image
          = some { im with content := pre ++ (tr1.take s ++ bs.drop s) :: trs } ∧
        st1.m.name = st.m.name ∧ (∀ ev ∈ st.w.trace, ev ∈ st1.w.trace) := by
  intro fuel
  induction fuel with
  | zero => intro s st im tr1 bs Q _ _ _ _ _ _ h; omega
  | succ fuel ih =>
    intro s st im tr1 bs Q him hc hlen hbs hQ hs hf hp
    simp only [read_image_track, write_sector_live, him, disk_image_write_sector]
    have hget : im.content[pre.length + 1 - 1]? = some tr1 := by
      rw [hc]; simp only [Nat.add_sub_cancel, getElem?_middle]
    simp only [Nat.add_one_ne_zero, if_false, hget]
    by_cases hlt : s < tr1.length
    · have hlt2 : s < bs.length := by omega
      simp only [hlt, if_true]
      rw [List.drop_eq_getElem_cons hlt2] at hp
      simp only [List.cons_append, primed] at hp
      obtain ⟨hsd, hdata⟩ := hp
      have hfill : fill 256 st.sector_data = bs[s] := by
        rw [hsd]; exact fill_of_length _ _ (hbs _ (List.getElem_mem _))
      have hQ2 : ∀ b ∈ bs.drop (s + 1) ++ Q, b.length = 256 := by
        intro b hb
        rcases List.mem_append.mp hb with hb | hb
        · exact hbs b (List.mem_of_mem_drop hb)
        · exact hQ b hb
      obtain ⟨p1, p2, p3, p4⟩ := read_sector_data_primed
        { st with w := st.w.setUnit dnr { st.w.units dnr with
            image := some { im with
              content := im.content.set (pre.length + 1 - 1) (tr1.set s (fill 256 st.sector_data)) } } }
        (bs.drop (s + 1) ++ Q) hQ2 hdata
      obtain ⟨st1, h1, h2, h3, h4, h5⟩ := ih (s + 1) _
        { im with content := pre ++ (tr1.set s bs[s]) :: trs } (tr1.set s bs[s]) bs Q
        (by rw [p2]; simp [hc, set_middle, hfill]) rfl (by simp [hlen]) hbs hQ
        (by simp; omega) (by simp; omega) p1
      refine ⟨st1, ?_, h2, ?_, ?_, ?_⟩
      · rw [h1]; simp
      · rw [h3]
        simp only [List.length_set]
        rw [take_succ_set _ _ _ hlt, List.drop_eq_getElem_cons hlt2]
        simp
      · rw [h4, p3]
      · intro ev hev
        exact h5 ev (p4 ev (by simpa using hev))
    · have hs2 : s = tr1.length := by omega
      subst hs2
      simp only [lt_irrefl, if_false]
      refine ⟨st, rfl, ?_, ?_, rfl, fun ev hev => hev⟩
      · have : bs.drop tr1.length = [] := by rw [← hlen]; simp
        rw [this] at hp; simpa using hp
      · have : bs.drop tr1.length = [] := by rw [← hlen]; simp
        rw [him, this]
        simp [← hc]

/-- The outer loop of the reader, when the live image has as many sectors on
each track as there are blocks for it and no track is empty: it stores all the
blocks. -/
theorem read_image_tracks_spec (dnr : Nat) :
    ∀ (trs1 pre bss : List (List (List Byte))) (fuel : Nat) (st : ImgRead) (im : DiskImage),
      (st.w.units dnr).image = some im → im.content = pre ++ trs1 →
      bss.map List.length = trs1.map List.length →
      (∀ bs ∈ bss, ∀ b ∈ bs, b.length = 256) → (∀ bs ∈ bss, bs ≠ []) →
      trs1.length < fuel → primed st bss.flatten →
      ((read_image_tracks dnr fuel (pre.length + 1) st).w.units dnr).image
          = some { im with content := pre ++ bss } ∧
        (read_image_tracks dnr fuel (pre.length + 1) st).m.name = st.m.name ∧
        (∀ ev ∈ st.w.trace, ev ∈ (read_image_tracks dnr fuel (pre.length + 1) st).w.trace) := by
  intro trs1
  induction trs1 with
  | nil =>
    intro pre bss fuel st im him hc hshape _ _ hf _
    obtain ⟨fuel, rfl⟩ : ∃ k, fuel = k + 1 := ⟨fuel - 1, by simp at hf; omega⟩
    have hb : bss = [] := by simpa using hshape
    subst hb
    have hlen : pre.length = im.content.length := by rw [hc]; simp
    have hnone : im.content[pre.length + 1 - 1]? = none := by
      rw [hlen]; simp
    have hso : liveSectorsOn st.w dnr (pre.length + 1) = 0 := by
      unfold liveSectorsOn DiskImage.sectorsOn
      rw [him]; simp only [Nat.add_one_ne_zero, if_false, hnone]; rfl
    simp only [read_image_tracks, hso, read_image_track, write_sector_live, him,
      disk_image_write_sector, Nat.add_one_ne_zero, if_false, hnone, if_true]
    refine ⟨?_, trivial, fun ev hev => hev⟩
    rw [← hc]
  | cons tr1 trs1 ih =>
    intro pre bss fuel st im him hc hshape h256 hne hf hp
    obtain ⟨fuel, rfl⟩ : ∃ k, fuel = k + 1 := ⟨fuel - 1, by simp at hf; omega⟩
    obtain ⟨bs, bss, rfl⟩ : ∃ bs bss1, bss = bs :: bss1 := by
      cases bss with
      | nil => simp at hshape
      | cons bs bss1 => exact ⟨bs, bss1, rfl⟩
    simp only [List.map_cons, List.cons.injEq] at hshape
    obtain ⟨hlen, hshape⟩ := hshape
    have hso : liveSectorsOn st.w dnr (pre.length + 1) = tr1.length := by
      unfold liveSectorsOn
      rw [him]; exact sectorsOn_of im pre trs1 tr1 hc
    have hQ : ∀ b ∈ bss.flatten, b.length = 256 := by
      intro b hb
      obtain ⟨l, hl, hbl⟩ := List.mem_flatten.mp hb
      exact h256 l (List.mem_cons_of_mem _ hl) b hbl
    obtain ⟨st1, h1, h2, h3, h4, h5⟩ := read_image_track_spec dnr pre trs1 (tr1.length + 1) 0 st im
      tr1 bs bss.flatten him hc hlen (h256 bs (List.mem_cons_self _ _)) hQ (by omega) (by omega)
      (by simpa using hp)
    simp only [read_image_tracks, hso, h1]
    have hbs : bs ≠ [] := hne bs (List.mem_cons_self _ _)
    have hl0 : tr1.length ≠ 0 := by
      rw [← hlen]; exact fun h0 => hbs (List.length_eq_zero.mp h0)
    simp only [hl0, if_false]
    simp only [List.take_zero, List.nil_append, List.drop_zero] at h3
    obtain ⟨g1, g2, g3⟩ := ih (pre ++ [bs]) bss fuel st1
      { im with content := pre ++ bs :: trs1 } h3 (by simp) hshape
      (fun l hl => h256 l (List.mem_cons_of_mem _ hl))
      (fun l hl => hne l (List.mem_cons_of_mem _ hl)) (by simp at hf; omega) h2
    simp only [List.length_append, List.length_singleton] at g1 g2 g3
    refine ⟨?_, ?_, ?_⟩
    · rw [g1]; simp
    · rw [g2, h4]
    · intro ev hev; exact g3 ev (h5 ev hev)

theorem SMR_W_leBytes (w : World) (name : ModName) (v : Nat) (rest : List Byte)
    (hv : v < 2 ^ 16) :
    SMR_W w ⟨name, leBytes 2 v ++ rest⟩
      = (some v, ⟨name, rest⟩, w.log (.snapshot_module_read name 2)) := by
  have h := snapshot_module_read_append w name (leBytes 2 v) rest
  rw [leBytes_length] at h
  unfold SMR_W
  rw [h]
  simp only [leNat_leBytes]
  rw [Nat.mod_eq_of_lt (by simpa using hv)]

theorem image_blocks_flatten (img : DiskImage) :
    (img.content.map (fun tr => (tr.map (fill 256)).flatten)).flatten
      = (image_blocks img).flatten := by
  unfold image_blocks
  induction img.content with
  | nil => rfl
  | cons tr trs ih => simp [ih]

/-- The container the flat image writer produces for a unit with an image, when
the module can be created and no write fails. -/
theorem write_image_module_container (c : Cfg) (e : Ext) (s : Snapshot) (ww : World) (dnr : Nat)
    (img : DiskImage) (himg : (ww.units dnr).image = some img)
    (htype : (ww.units dnr).sc .type ≠ c.DRIVE_TYPE_CMDHD)
    (hne : ∀ tr ∈ img.content, tr ≠ [])
    (hcreate : e.create_fails (.IMAGE dnr) = false)
    (hsmw : ∀ n, e.smw_fails (.IMAGE dnr) n = false) :
    (drive_snapshot_write_image_module c e s ww dnr).2.1
      = s ++ [⟨.IMAGE dnr, IMAGE_SNAP_MAJOR, IMAGE_SNAP_MINOR,
          leBytes 2 (castU 16 (img.type : Int)) ++ (image_blocks img).flatten⟩] := by
  unfold drive_snapshot_write_image_module
  simp only [himg, Option.isNone_some, htype, decide_False, Bool.or_self, Bool.false_eq_true,
    if_false, snapshot_module_create, hcreate, SMW_W, smw, hsmw]
  obtain ⟨nw, h⟩ := write_image_tracks_spec e img img.content [] (img.content.length + 1)
    ⟨.IMAGE dnr, IMAGE_SNAP_MAJOR, IMAGE_SNAP_MINOR, [] ++ leBytes 2 (castU 16 (img.type : Int)),
      0 + 1⟩ (by simp) hsmw hne (by omega)
  simp only [List.length_nil, Nat.zero_add] at h
  rw [h, image_blocks_flatten]
  simp only [snapshot_module_close_w, List.nil_append]
  split <;> (next heq => simp only [Prod.mk.injEq] at heq; rw [← heq.2.1])

theorem read_restored_sector (img img1 : DiskImage) (t s : Nat) :
    disk_image_read_sector { img1 with content := img.content.map (List.map (fill 256)) } t s
      = disk_image_read_sector img t s := by
  unfold disk_image_read_sector
  by_cases ht : t = 0
  · simp [ht]
  · simp only [ht, if_false, List.getElem?_map]
    cases img.content[t - 1]? with
    | none => rfl
    | some tr =>
      simp only [Option.map_some', List.getElem?_map]
      cases tr[s]? with
      | none => rfl
      | some x => simp [fill_of_length _ _ (fill_length x 256)]

theorem image_blocks_length (img : DiskImage) : ∀ b ∈ image_blocks img, b.length = 256 := by
  intro b hb
  unfold image_blocks at hb
  obtain ⟨l, hl, hbl⟩ := List.mem_flatten.mp hb
  obtain ⟨tr, _, rfl⟩ := List.mem_map.mp hl
  obtain ⟨x, _, rfl⟩ := List.mem_map.mp hbl
  exact fill_length x 256

/-- The flat image reader on the module that the writer produces for `img`,
when the temporary file can be made and the image attached for it has the
shape of `img`. -/
theorem read_image_module_spec (c : Cfg) (e : Ext) (wr : World) (dnr : Nat)
    (img img1 : DiskImage) (len : Int) (htag : img.type < 2 ^ 16)
    (hlen : image_len c (wr.units dnr) img.type = some (some len))
    (hne : ∀ tr ∈ img.content, tr ≠ [])
    (hmk : e.archdep_mkstemp_fd = true) (hgrow : e.grow_file = true)
    (hattach : e.file_system_attach_disk (dnr + 8) len (wr.units dnr).image = (0, some img1))
    (hshape : img1.content.map List.length = img.content.map List.length) :
    (drive_snapshot_read_image_module c e
      [⟨.IMAGE dnr, IMAGE_SNAP_MAJOR, IMAGE_SNAP_MINOR,
        leBytes 2 img.type ++ (image_blocks img).flatten⟩] wr dnr).1 = 0 ∧
    ((drive_snapshot_read_image_module c e
      [⟨.IMAGE dnr, IMAGE_SNAP_MAJOR, IMAGE_SNAP_MINOR,
        leBytes 2 img.type ++ (image_blocks img).flatten⟩] wr dnr).2.units dnr).image
      = some { img1 with content := img.content.map (List.map (fill 256)) } ∧
    Event.file_system_attach_disk (dnr + 8) 0 len ∈
      (drive_snapshot_read_image_module c e
        [⟨.IMAGE dnr, IMAGE_SNAP_MAJOR, IMAGE_SNAP_MINOR,
          leBytes 2 img.type ++ (image_blocks img).flatten⟩] wr dnr).2.trace := by
  have hv1 : snapshot_version_is_bigger IMAGE_SNAP_MAJOR IMAGE_SNAP_MINOR IMAGE_SNAP_MAJOR
      IMAGE_SNAP_MINOR = false := by decide
  have hv2 : snapshot_version_is_smaller IMAGE_SNAP_MAJOR IMAGE_SNAP_MINOR IMAGE_SNAP_MAJOR
      IMAGE_SNAP_MINOR = false := by decide
  unfold drive_snapshot_read_image_module
  simp only [snapshot_module_open, List.find?, reduceCtorEq, decide_False, decide_True, hv1, hv2,
    Bool.false_eq_true, if_false, SMR_W_leBytes _ _ _ _ htag, log_units, hlen, hmk, hgrow,
    Bool.not_true, hattach, setUnit_units, if_true, lt_irrefl]
  have key : ∀ (w7 : World), (w7.units dnr).image = some img1 →
      (((read_image_tracks dnr
          (match ((read_sector_data ⟨e.uninit_sector_data,
              ⟨.IMAGE dnr, (image_blocks img).flatten⟩, w7⟩).w.units dnr).image with
            | none => 1
            | some im => im.content.length + 1) 1
          (read_sector_data ⟨e.uninit_sector_data,
            ⟨.IMAGE dnr, (image_blocks img).flatten⟩, w7⟩)).w.units dnr).image
        = some { img1 with content := img.content.map (List.map (fill 256)) }) ∧
      ∀ ev ∈ w7.trace, ev ∈ (read_image_tracks dnr
          (match ((read_sector_data ⟨e.uninit_sector_data,
              ⟨.IMAGE dnr, (image_blocks img).flatten⟩, w7⟩).w.units dnr).image with
            | none => 1
            | some im => im.content.length + 1) 1
          (read_sector_data ⟨e.uninit_sector_data,
            ⟨.IMAGE dnr, (image_blocks img).flatten⟩, w7⟩)).w.trace := by
    intro w7 hw7
    obtain ⟨p1, p2, _, p4⟩ := read_sector_data_primed
      ⟨e.uninit_sector_data, ⟨.IMAGE dnr, (image_blocks img).flatten⟩, w7⟩ (image_blocks img)
      (image_blocks_length img) rfl
    have him : ((read_sector_data ⟨e.uninit_sector_data,
        ⟨.IMAGE dnr, (image_blocks img).flatten⟩, w7⟩).w.units dnr).image = some img1 := by
      rw [p2]; exact hw7
    rw [him]
    obtain ⟨g1, _, g3⟩ := read_image_tracks_spec dnr img1.content []
      (img.content.map (List.map (fill 256))) (img1.content.length + 1) _ img1 him (by simp)
      (by rw [hshape]; simp [List.map_map, Function.comp_def])
      (by
        intro bs hbs b hb
        obtain ⟨tr, _, rfl⟩ := List.mem_map.mp hbs
        obtain ⟨x, _, rfl⟩ := List.mem_map.mp hb
        exact fill_length x 256)
      (by
        intro bs hbs
        obtain ⟨tr, htr, rfl⟩ := List.mem_map.mp hbs
        simpa using hne tr htr)
      (by omega) p1
    simp only [List.length_nil, Nat.zero_add, List.nil_append] at g1 g3
    exact ⟨g1, fun ev hev => g3 ev (p4 ev hev)⟩
  obtain ⟨k1, k2⟩ := key
    ((((((((wr.log (.snapshot_module_open (.NOIMAGE dnr) false)).log
      (.snapshot_module_open (.IMAGE dnr) true)).log
      (.snapshot_module_read (.IMAGE dnr) 2)).log Event.archdep_mkstemp_fd).log
      Event.lib_free).log
      (.file_system_attach_disk (dnr + 8) 0 len)).setUnit dnr
        { sc := (wr.units dnr).sc, image := some img1, gcr := (wr.units dnr).gcr,
          p64 := (wr.units dnr).p64 }).log Event.zfile_close_action) (by simp)
  refine ⟨trivial, ?_, ?_⟩
  · simp only [close_units, log_units]
    exact k1
  · simp only [close_trace, log_trace]
    apply List.mem_append_left
    apply List.mem_append_left
    apply k2
    simp

theorem castU_natCast (bits n : Nat) : castU bits (n : Int) = n % 2 ^ bits := by
  unfold castU
  have h : ((n : Int) % (2 ^ bits : Int)) = ((n % 2 ^ bits : Nat) : Int) := by
    push_cast; rfl
  rw [h, Int.toNat_natCast]

/-- C8. A flat image whose type tag is accepted (1581, 8050, 8250, or 9000 when
the reading drive holds an image from which the length is computed) and in
which every track has a sector is written with
`drive_snapshot_write_image_module` and the `IMAGEk` module is read back with
`drive_snapshot_read_image_module`, the writes of the module and the creation
of the backing store succeeding, and the attached backing store having the same
geometry. Then the read returns 0, the image of the drive has that geometry and
every sector of it holds exactly the 256 bytes the writer read from that
sector, and the backing store was requested with the byte length that belongs
to the tag. -/
theorem C8_flat_image_round_trip (c : Cfg) (e : Ext) (ww wr : World) (dnr : Nat)
    (img img1 : DiskImage)
    (himg : (ww.units dnr).image = some img)
    (htype : (ww.units dnr).sc .type ≠ c.DRIVE_TYPE_CMDHD)
    (hacc : img.type = 1581 ∨ img.type = 8050 ∨ img.type = 8250 ∨
      (img.type = 9000 ∧ (wr.units dnr).image ≠ none))
    (hne : ∀ tr ∈ img.content, tr ≠ [])
    (hcreate : e.create_fails (.IMAGE dnr) = false)
    (hsmw : ∀ n, e.smw_fails (.IMAGE dnr) n = false)
    (hmk : e.archdep_mkstemp_fd = true) (hgrow : e.grow_file = true)
    (hattach : ∀ len, e.file_system_attach_disk (dnr + 8) len (wr.units dnr).image
      = (0, some img1))
    (hshape : img1.content.map List.length = img.content.map List.length) :
    (drive_snapshot_read_image_module c e
      (drive_snapshot_write_image_module c e [] ww dnr).2.1 wr dnr).1 = 0 ∧
    (∃ restored,
      ((drive_snapshot_read_image_module c e
        (drive_snapshot_write_image_module c e [] ww dnr).2.1 wr dnr).2.units dnr).image
        = some restored ∧
      restored.content.map List.length = img.content.map List.length ∧
      ∀ t s, disk_image_read_sector restored t s = disk_image_read_sector img t s) ∧
    (∃ len, image_len c (wr.units dnr) img.type = some (some len) ∧
      Event.file_system_attach_disk (dnr + 8) 0 len ∈
        (drive_snapshot_read_image_module c e
          (drive_snapshot_write_image_module c e [] ww dnr).2.1 wr dnr).2.trace ∧
      (img.type = 1581 → len = c.D81_FILE_SIZE) ∧
      (img.type = 8050 → len = c.D80_FILE_SIZE) ∧
      (img.type = 8250 → len = c.D82_FILE_SIZE)) := by
  have htag : img.type < 2 ^ 16 := by
    rcases hacc with h | h | h | ⟨h, _⟩ <;> rw [h] <;> decide
  obtain ⟨len, hlen, hl1, hl2, hl3⟩ : ∃ len, image_len c (wr.units dnr) img.type = some (some len) ∧
      (img.type = 1581 → len = c.D81_FILE_SIZE) ∧ (img.type = 8050 → len = c.D80_FILE_SIZE) ∧
      (img.type = 8250 → len = c.D82_FILE_SIZE) := by
    rcases hacc with h | h | h | ⟨h, hi⟩
    · exact ⟨c.D81_FILE_SIZE, by simp [image_len, h], fun _ => rfl, by simp [h], by simp [h]⟩
    · exact ⟨c.D80_FILE_SIZE, by simp [image_len, h], by simp [h], fun _ => rfl, by simp [h]⟩
    · exact ⟨c.D82_FILE_SIZE, by simp [image_len, h], by simp [h], by simp [h], fun _ => rfl⟩
    · cases hw : (wr.units dnr).image with
      | none => exact absurd hw hi
      | some old =>
        exact ⟨old.tracks * old.sectors * 256, by simp [image_len, h, hw], by simp [h],
          by simp [h], by simp [h]⟩
  rw [write_image_module_container c e [] ww dnr img himg htype hne hcreate hsmw,
    castU_natCast, Nat.mod_eq_of_lt htag, List.nil_append]
  obtain ⟨r1, r2, r3⟩ := read_image_module_spec c e wr dnr img img1 len htag hlen hne hmk hgrow
    (hattach len) hshape
  refine ⟨r1, ⟨_, r2, ?_, ?_⟩, ⟨len, hlen, r3, hl1, hl2, hl3⟩⟩
  · simp [List.map_map, Function.comp_def]
  · intro t s
    exact read_restored_sector img img1 t s

theorem C8_flat_image_round_trip_witness :
    (drive_snapshot_read_image_module (exampleCfg false) exampleExt
      (drive_snapshot_write_image_module (exampleCfg false) exampleExt [] exampleImageWorld 0).2.1
      exampleBlankWorld 0).1 = 0 ∧
    (∃ restored,
      ((drive_snapshot_read_image_module (exampleCfg false) exampleExt
        (drive_snapshot_write_image_module (exampleCfg false) exampleExt [] exampleImageWorld
          0).2.1 exampleBlankWorld 0).2.units 0).image = some restored ∧
      restored.content.map List.length = exampleImage.content.map List.length ∧
      ∀ t s, disk_image_read_sector restored t s = disk_image_read_sector exampleImage t s) ∧
    (∃ len, image_len (exampleCfg false) (exampleBlankWorld.units 0) exampleImage.type
        = some (some len) ∧
      Event.file_system_attach_disk (0 + 8) 0 len ∈
        (drive_snapshot_read_image_module (exampleCfg false) exampleExt
          (drive_snapshot_write_image_module (exampleCfg false) exampleExt [] exampleImageWorld
            0).2.1 exampleBlankWorld 0).2.trace ∧
      (exampleImage.type = 1581 → len = (exampleCfg false).D81_FILE_SIZE) ∧
      (exampleImage.type = 8050 → len = (exampleCfg false).D80_FILE_SIZE) ∧
      (exampleImage.type = 8250 → len = (exampleCfg false).D82_FILE_SIZE)) :=
  C8_flat_image_round_trip (exampleCfg false) exampleExt exampleImageWorld exampleBlankWorld 0
    exampleImage exampleBlankImage rfl (by decide) (Or.inl rfl) (by decide) rfl (fun _ => rfl)
    rfl rfl (fun _ => rfl) (by decide)

/-! ## Decoding what the `DRIVE` writer wrote -/

theorem castU_lt (bits : Nat) (v : Int) : castU bits v < 2 ^ bits := by
  unfold castU
  have hpos : (0 : Int) < 2 ^ bits := by positivity
  have h1 := Int.emod_lt_of_pos v hpos
  have h0 := Int.emod_nonneg v (ne_of_gt hpos)
  have : ((v % 2 ^ bits).toNat : Int) < ((2 ^ bits : Nat) : Int) := by
    rw [Int.toNat_of_nonneg h0]; push_cast; exact h1
  exact_mod_cast this

theorem castU_of_range (bits : Nat) (v : Int) (h0 : 0 ≤ v) (h1 : v < 2 ^ bits) :
    (castU bits v : Int) = v := by
  unfold castU
  rw [Int.emod_eq_of_lt h0 h1, Int.toNat_of_nonneg h0]

theorem toInt32_castU (v : Int) (h0 : -2 ^ 31 ≤ v) (h1 : v < 2 ^ 31) :
    toInt32 (castU 32 v) = v := by
  unfold toInt32 castU
  by_cases hv : 0 ≤ v
  · have h2 : v % 2 ^ 32 = v := Int.emod_eq_of_lt hv (by omega)
    rw [h2]
    have : (v.toNat : Int) = v := Int.toNat_of_nonneg hv
    have hlt : v.toNat < 2 ^ 31 := by omega
    simp only [hlt, if_true]
    exact this
  · have h2 : v % 2 ^ 32 = v + 2 ^ 32 := by
      rw [← Int.add_emod_self]
      exact Int.emod_eq_of_lt (by omega) (by omega)
    rw [h2]
    have h3 : ((v + 2 ^ 32).toNat : Int) = v + 2 ^ 32 := Int.toNat_of_nonneg (by omega)
    have hge : ¬ (v + 2 ^ 32).toNat < 2 ^ 31 := by omega
    simp only [hge, if_false]
    omega

theorem leNat_leBytes_castU (n : Nat) (v : Int) :
    leNat (leBytes n (castU (8 * n) v)) = castU (8 * n) v := by
  rw [leNat_leBytes]
  apply Nat.mod_eq_of_lt
  have := castU_lt (8 * n) v
  rw [pow_mul] at this
  exact this

theorem smr_field_append (k : RKind) (d : Dest) (i : Nat) (name : ModName)
    (bytes rest : List Byte) (w : World) (loc : Local → Nat → Int)
    (hlen : bytes.length = k.width) :
    smr_field k d i ⟨⟨name, bytes ++ rest⟩, w, loc⟩
      = (true, RState.store ⟨⟨name, rest⟩, w.log (.snapshot_module_read name k.width), loc⟩ d i
          (k.conv (leNat bytes))) := by
  unfold smr_field
  have h := snapshot_module_read_append w name bytes rest
  rw [hlen] at h
  simp only [h]

@[simp] theorem store_m (st : RState) (d : Dest) (i : Nat) (v : Int) :
    (RState.store st d i v).m = st.m := by
  cases d <;> rfl

/-- The world and the local arrays that a store leaves do not depend on the
module handle. -/
theorem store_handle (m1 m2 : RHandle) (w : World) (loc : Local → Nat → Int) (d : Dest)
    (i : Nat) (v : Int) :
    (RState.store ⟨m1, w, loc⟩ d i v).w = (RState.store ⟨m2, w, loc⟩ d i v).w ∧
    (RState.store ⟨m1, w, loc⟩ d i v).loc = (RState.store ⟨m2, w, loc⟩ d i v).loc := by
  cases d <;> exact ⟨rfl, rfl⟩

/-- A chain of reads on the bytes of a chain of writes of the same widths: every
read succeeds and the bytes that follow are left in the module. -/
theorem read_fields_encode (name : ModName) (i : Nat) :
    ∀ (R : List (RKind × Dest)) (W : List (WKind × Int)) (rest : List Byte) (w : World)
      (loc : Local → Nat → Int),
      R.map (fun kd => kd.1.width) = W.map (fun kv => kv.1.width) →
      read_fields R i ⟨⟨name, encode_fields W ++ rest⟩, w, loc⟩
        = (true, ⟨⟨name, rest⟩, (decode_effect name i R W (w, loc)).1,
            (decode_effect name i R W (w, loc)).2⟩) := by
  intro R
  induction R with
  | nil =>
    intro W rest w loc h
    cases W with
    | nil => simp [read_fields, encode_fields, decode_effect]
    | cons a W => simp at h
  | cons kd R ih =>
    intro W rest w loc h
    obtain ⟨k, d⟩ := kd
    cases W with
    | nil => simp at h
    | cons a W =>
      obtain ⟨wk, v⟩ := a
      simp only [List.map_cons, List.cons.injEq] at h
      obtain ⟨hw, hrest⟩ := h
      have hb : (leBytes wk.width (castU (8 * wk.width) v)).length = k.width := by
        rw [leBytes_length, hw]
      simp only [read_fields, encode_fields, List.map_cons, List.flatten_cons, List.append_assoc,
        smr_field_append k d i name _ _ w loc hb, leNat_leBytes_castU]
      have hst := store_handle ⟨name, (List.map (fun kv => leBytes kv.1.width
          (castU (8 * kv.1.width) kv.2)) W).flatten ++ rest⟩ ⟨name, []⟩
        (w.log (.snapshot_module_read name k.width)) loc d i (k.conv (castU (8 * wk.width) v))
      have hm : (RState.store ⟨⟨name, (List.map (fun kv => leBytes kv.1.width
          (castU (8 * kv.1.width) kv.2)) W).flatten ++ rest⟩,
          w.log (.snapshot_module_read name k.width), loc⟩ d i
          (k.conv (castU (8 * wk.width) v))) =
          ⟨⟨name, encode_fields W ++ rest⟩,
            (RState.store ⟨⟨name, []⟩, w.log (.snapshot_module_read name k.width), loc⟩ d i
              (k.conv (castU (8 * wk.width) v))).w,
            (RState.store ⟨⟨name, []⟩, w.log (.snapshot_module_read name k.width), loc⟩ d i
              (k.conv (castU (8 * wk.width) v))).loc⟩ := by
        cases d <;> rfl
      rw [hm, ih W rest _ _ hrest]
      simp only [decode_effect]

/-- What a chain of reads on the bytes of a chain of writes leaves: unit `i` with
the decoded members, the entry `i` of the local arrays, and nothing else but
the trace. -/
theorem decode_effect_spec (name : ModName) (i : Nat) :
    ∀ (R : List (RKind × Dest)) (W : List (WKind × Int)) (w : World)
      (loc : Local → Nat → Int),
      (decode_effect name i R W (w, loc)).1.units
        = (fun j => if j = i then
            { w.units i with
              sc := fun f => (decoded R W (.live f)).getD ((w.units i).sc f) }
          else w.units j) ∧
      (decode_effect name i R W (w, loc)).2
        = (fun l j => if j = i then (decoded R W (.loc l)).getD (loc l i) else loc l j) ∧
      (decode_effect name i R W (w, loc)).1.resources = w.resources ∧
      (decode_effect name i R W (w, loc)).1.snapshot_error = w.snapshot_error ∧
      ∃ t, (decode_effect name i R W (w, loc)).1.trace = w.trace ++ t := by
  intro R
  induction R with
  | nil =>
    intro W w loc
    refine ⟨?_, ?_, rfl, rfl, ⟨[], by simp [decode_effect]⟩⟩
    · funext j; simp only [decode_effect, decoded, Option.getD_none]; split
      · next h => rw [h]
      · rfl
    · funext l j; simp only [decode_effect, decoded, Option.getD_none]; split
      · next h => rw [h]
      · rfl
  | cons kd R ih =>
    intro W w loc
    obtain ⟨k, d⟩ := kd
    cases W with
    | nil =>
      refine ⟨?_, ?_, rfl, rfl, ⟨[], by simp [decode_effect]⟩⟩
      · funext j; simp only [decode_effect, decoded, Option.getD_none]; split
        · next h => rw [h]
        · rfl
      · funext l j; simp only [decode_effect, decoded, Option.getD_none]; split
        · next h => rw [h]
        · rfl
    | cons a W =>
      obtain ⟨wk, v⟩ := a
      simp only [decode_effect]
      obtain ⟨h1, h2, h3, h4, t, h5⟩ := ih W
        (RState.store ⟨⟨name, []⟩, w.log (.snapshot_module_read name k.width), loc⟩ d i
          (k.conv (castU (8 * wk.width) v))).w
        (RState.store ⟨⟨name, []⟩, w.log (.snapshot_module_read name k.width), loc⟩ d i
          (k.conv (castU (8 * wk.width) v))).loc
      rw [h1, h2, h3, h4, h5]
      cases d with
      | live f0 =>
        refine ⟨?_, ?_, rfl, rfl, ⟨Event.snapshot_module_read name k.width :: t, by simp [RState.store]⟩⟩
        · funext j
          by_cases hj : j = i
          · simp only [hj, if_true, RState.store, setField_units, log_units, decoded]
            congr 1
            funext f
            cases decoded R W (.live f) with
            | some x => simp
            | none =>
              by_cases hf : f = f0
              · subst hf; simp
              · have hf2 : ¬ (Dest.live f0 = Dest.live f) := by
                  intro h; injection h with h; exact hf h.symm
                simp [hf, hf2]
          · simp [hj, RState.store]
        · funext l j
          by_cases hj : j = i
          · simp only [hj, if_true, RState.store, decoded]
            cases decoded R W (.loc l) with
            | some x => simp
            | none => simp
          · simp [hj, RState.store]
      | loc l0 =>
        refine ⟨?_, ?_, rfl, rfl, ⟨Event.snapshot_module_read name k.width :: t, by simp [RState.store]⟩⟩
        · funext j
          by_cases hj : j = i
          · simp only [hj, if_true, RState.store, log_units, decoded]
            congr 1
            funext f
            cases decoded R W (.live f) with
            | some x => simp
            | none => simp
          · simp [hj, RState.store]
        · funext l j
          by_cases hj : j = i
          · simp only [hj, if_true, RState.store, decoded]
            cases decoded R W (.loc l) with
            | some x => simp
            | none =>
              by_cases hl : l = l0
              · subst hl; simp
              · have hl2 : ¬ (Dest.loc l0 = Dest.loc l) := by
                  intro h; injection h with h; exact hl h.symm
                simp [hl, hl2]
          · simp [hj, RState.store]
      | dummy =>
        refine ⟨?_, ?_, rfl, rfl, ⟨Event.snapshot_module_read name k.width :: t, by simp [RState.store]⟩⟩
        · funext j
          by_cases hj : j = i
          · simp only [hj, if_true, RState.store, log_units, decoded]
            congr 1
            funext f
            cases decoded R W (.live f) with
            | some x => simp
            | none => simp
          · simp [hj, RState.store]
        · funext l j
          by_cases hj : j = i
          · simp only [hj, if_true, RState.store, decoded]
            cases decoded R W (.loc l) with
            | some x => simp
            | none => simp
          · simp [hj, RState.store]

/-- A loop over the units whose body decodes, for unit `j`, the bytes of the
chain of writes `Wf j` with the chain of reads `R`. -/
theorem iter_units_spec (name : ModName) (R : List (RKind × Dest))
    (Wf : Nat → List (WKind × Int)) (step : Nat → RState → RState)
    (hstep : ∀ i rest w loc, step i ⟨⟨name, encode_fields (Wf i) ++ rest⟩, w, loc⟩
      = ⟨⟨name, rest⟩, (decode_effect name i R (Wf i) (w, loc)).1,
          (decode_effect name i R (Wf i) (w, loc)).2⟩) :
    ∀ (n i0 : Nat) (rest : List Byte) (w : World) (loc : Local → Nat → Int),
      ∃ w1 loc1,
        iter_units step n i0 ⟨⟨name, encode_units Wf n i0 ++ rest⟩, w, loc⟩
          = ⟨⟨name, rest⟩, w1, loc1⟩ ∧
        (∀ j, w1.units j = if i0 ≤ j ∧ j < i0 + n then decoded_unit R (Wf j) (w.units j)
          else w.units j) ∧
        (∀ l j, loc1 l j = if i0 ≤ j ∧ j < i0 + n then (decoded R (Wf j) (.loc l)).getD (loc l j)
          else loc l j) ∧
        w1.resources = w.resources ∧ w1.snapshot_error = w.snapshot_error ∧
        ∃ t, w1.trace = w.trace ++ t := by
  intro n
  induction n with
  | zero =>
    intro i0 rest w loc
    refine ⟨w, loc, by simp [iter_units, encode_units], ?_, ?_, rfl, rfl, ⟨[], by simp⟩⟩
    · intro j
      have h : ¬ (i0 ≤ j ∧ j < i0 + 0) := by omega
      simp only [h, if_false]
    · intro l j
      have h : ¬ (i0 ≤ j ∧ j < i0 + 0) := by omega
      simp only [h, if_false]
  | succ n ih =>
    intro i0 rest w loc
    obtain ⟨e1, e2, e3, e4, t1, e5⟩ := decode_effect_spec name i0 R (Wf i0) w loc
    obtain ⟨w1, loc1, h1, h2, h3, h4, h5, t2, h6⟩ := ih (i0 + 1) rest
      (decode_effect name i0 R (Wf i0) (w, loc)).1 (decode_effect name i0 R (Wf i0) (w, loc)).2
    refine ⟨w1, loc1, ?_, ?_, ?_, by rw [h4, e3], by rw [h5, e4],
      ⟨t1 ++ t2, by rw [h6, e5, List.append_assoc]⟩⟩
    · simp only [iter_units, encode_units, List.append_assoc, hstep]
      exact h1
    · intro j
      rw [h2 j, e1]
      by_cases hj : j = i0
      · subst hj
        have h1 : ¬ (j + 1 ≤ j ∧ j < j + 1 + n) := by omega
        have h2 : j ≤ j ∧ j < j + (n + 1) := by omega
        simp only [h1, h2, if_false, if_true, and_self]
        rfl
      · by_cases hr : i0 + 1 ≤ j ∧ j < i0 + 1 + n
        · have h2 : i0 ≤ j ∧ j < i0 + (n + 1) := by omega
          simp only [hr, h2, hj, if_false, if_true, and_self]
        · have h2 : ¬ (i0 ≤ j ∧ j < i0 + (n + 1)) := by omega
          simp only [hr, h2, hj, if_false]
    · intro l j
      rw [h3 l j, e2]
      by_cases hj : j = i0
      · subst hj
        have h1 : ¬ (j + 1 ≤ j ∧ j < j + 1 + n) := by omega
        have h2 : j ≤ j ∧ j < j + (n + 1) := by omega
        simp only [h1, h2, if_false, if_true, and_self]
      · by_cases hr : i0 + 1 ≤ j ∧ j < i0 + 1 + n
        · have h2 : i0 ≤ j ∧ j < i0 + (n + 1) := by omega
          simp only [hr, h2, hj, if_false, if_true, and_self]
        · have h2 : ¬ (i0 ≤ j ∧ j < i0 + (n + 1)) := by omega
          simp only [hr, h2, hj, if_false]

theorem drive_read_layout_current : drive_read_layout 1 5 = layout_current := by decide

/-- The first loop of the reader on the bytes of four chains of writes of the
widths of the current layout: every read succeeds. -/
theorem read_units_eq_iter (name : ModName) (Wf : Nat → List (WKind × Int))
    (hW : ∀ j, layout_current.map (fun kd => kd.1.width) = (Wf j).map (fun kv => kv.1.width)) :
    ∀ (n i0 : Nat) (rest : List Byte) (w : World) (loc : Local → Nat → Int),
      read_units 1 5 n i0 ⟨⟨name, encode_units Wf n i0 ++ rest⟩, w, loc⟩
        = (true, iter_units (fun i st => (read_fields layout_current i st).2) n i0
            ⟨⟨name, encode_units Wf n i0 ++ rest⟩, w, loc⟩) := by
  intro n
  induction n with
  | zero => intro i0 rest w loc; simp [read_units, iter_units]
  | succ n ih =>
    intro i0 rest w loc
    simp only [read_units, iter_units, encode_units, List.append_assoc, drive_read_layout_current,
      read_fields_encode name i0 layout_current (Wf i0) _ w loc (hW i0)]
    exact ih (i0 + 1) rest _ _

theorem read_units_clk_eq_iter :
    ∀ (n i0 : Nat) (st : RState),
      read_units_clk n i0 st
        = iter_units (fun i st => (read_fields [(.DW, .loc .attach_detach_clk)] i st).2) n i0
            st := by
  intro n
  induction n with
  | zero => intro i0 st; rfl
  | succ n ih =>
    intro i0 st
    simp only [read_units_clk, iter_units, read_fields]
    rw [ih]
    congr 1
    cases smr_field .DW (.loc .attach_detach_clk) i0 st with
    | mk ok st1 => cases ok <;> rfl

/-! ## What the `DRIVE` writer puts into the container -/

theorem write_fields_true (e : Ext) :
    ∀ (W : List (WKind × Int)) (m m1 : WHandle), write_fields e W m = (true, m1) →
      ∃ nw, m1 = ⟨m.name, m.major, m.minor, m.data ++ encode_fields W, nw⟩ := by
  intro W
  induction W with
  | nil =>
    intro m m1 h
    simp only [write_fields, Prod.mk.injEq, true_and] at h
    subst h
    exact ⟨m.nwrites, by simp [encode_fields]⟩
  | cons kv W ih =>
    intro m m1 h
    obtain ⟨k, v⟩ := kv
    simp only [write_fields, WKind.put, smw] at h
    by_cases hf : e.smw_fails m.name m.nwrites = true
    · simp [hf] at h
    · simp only [hf, if_false] at h
      obtain ⟨nw, h2⟩ := ih _ _ h
      exact ⟨nw, by rw [h2]; simp [encode_fields]⟩

theorem write_units_true (e : Ext) (fields : Nat → List (WKind × Int)) :
    ∀ (n i : Nat) (m m1 : WHandle), write_units e fields n i m = (true, m1) →
      ∃ nw, m1 = ⟨m.name, m.major, m.minor, m.data ++ encode_units fields n i, nw⟩ := by
  intro n
  induction n with
  | zero =>
    intro i m m1 h
    simp only [write_units, Prod.mk.injEq, true_and] at h
    subst h
    exact ⟨m.nwrites, by simp [encode_units]⟩
  | succ n ih =>
    intro i m m1 h
    simp only [write_units] at h
    cases hf : write_fields e (fields i) m with
    | mk ok m2 =>
      rw [hf] at h
      cases ok with
      | false => simp at h
      | true =>
        obtain ⟨nw1, h1⟩ := write_fields_true e _ _ _ hf
        obtain ⟨nw2, h2⟩ := ih _ _ _ h
        exact ⟨nw2, by rw [h2, h1]; simp [encode_units]⟩

/-- The payload of the `DRIVE` module written for the units of `w`. -/
theorem write_drive_payload_true (c : Cfg) (e : Ext) (w : World) (m m1 : WHandle)
    (h : write_drive_payload c e w m = (true, m1)) :
    ∃ nw, m1 = ⟨m.name, m.major, m.minor,
      m.data ++ (leBytes 4 (castU 32 (w.resources .MachineVideoStandard)) ++
        (encode_units (fun i => drive_unit_fields c (w.units i) (e.rotation_table_get i))
          NUM_DISK_UNITS 0 ++
        (encode_units (fun i => drive_unit_fields_clk (w.units i)) NUM_DISK_UNITS 0 ++
          encode_units (fun i => drive_unit_fields_ready (w.units i)) NUM_DISK_UNITS 0))), nw⟩ := by
  unfold write_drive_payload at h
  simp only [SMW_DW, smw] at h
  by_cases hf : e.smw_fails m.name m.nwrites = true
  · simp [hf] at h
  · simp only [hf, Bool.false_eq_true, if_false] at h
    cases h1 : write_units e
        (fun i => drive_unit_fields c (w.units i) (e.rotation_table_get i)) NUM_DISK_UNITS 0
        ⟨m.name, m.major, m.minor,
          m.data ++ leBytes 4 (castU 32 (w.resources .MachineVideoStandard)), m.nwrites + 1⟩ with
    | mk ok1 m2 =>
      rw [h1] at h
      cases ok1 with
      | false => simp at h
      | true =>
        simp only at h
        obtain ⟨nw1, e1⟩ := write_units_true e _ _ _ _ _ h1
        cases h2 : write_units e (fun i => drive_unit_fields_clk (w.units i)) NUM_DISK_UNITS 0
            m2 with
        | mk ok2 m3 =>
          rw [h2] at h
          cases ok2 with
          | false => simp at h
          | true =>
            simp only at h
            obtain ⟨nw2, e2⟩ := write_units_true e _ _ _ _ _ h2
            obtain ⟨nw3, e3⟩ := write_units_true e _ _ _ _ _ h
            exact ⟨nw3, by rw [e3, e2, e1]; simp⟩

theorem write_image_module_appends (c : Cfg) (e : Ext) (s : Snapshot) (w : World) (dnr : Nat) :
    ∃ tail, (drive_snapshot_write_image_module c e s w dnr).2.1 = s ++ tail := by
  unfold drive_snapshot_write_image_module
  simp only [snapshot_module_create, snapshot_module_close_w]
  split
  · exact ⟨[], by simp⟩
  · split
    · split
      · next heq => simp only [Prod.mk.injEq] at heq; exact ⟨_, heq.2.1.symm⟩
      · next heq => simp only [Prod.mk.injEq] at heq; exact ⟨_, heq.2.1.symm⟩
    · split
      · next heq => simp only [Prod.mk.injEq] at heq; exact ⟨_, heq.2.1.symm⟩
      · next heq => simp only [Prod.mk.injEq] at heq; exact ⟨_, heq.2.1.symm⟩

theorem write_gcrimage_module_appends (c : Cfg) (e : Ext) (s : Snapshot) (w : World)
    (dnr : Nat) :
    ∃ tail, (drive_snapshot_write_gcrimage_module c e s w dnr).2.1 = s ++ tail := by
  unfold drive_snapshot_write_gcrimage_module
  simp only [snapshot_module_create, snapshot_module_close_w]
  split
  · exact ⟨[], by simp⟩
  · split
    · exact ⟨_, rfl⟩
    · split
      · exact ⟨_, rfl⟩
      · split
        · exact ⟨_, rfl⟩
        · exact ⟨_, rfl⟩

theorem write_p64image_module_appends (e : Ext) (s : Snapshot) (w : World) (dnr : Nat) :
    ∃ tail, (drive_snapshot_write_p64image_module e s w dnr).2.1 = s ++ tail := by
  unfold drive_snapshot_write_p64image_module
  simp only [snapshot_module_create, snapshot_module_close_w]
  split
  · exact ⟨[], by simp⟩
  · split
    · exact ⟨_, rfl⟩
    · split
      · exact ⟨[], by simp⟩
      · split
        · exact ⟨_, rfl⟩
        · split
          · exact ⟨_, rfl⟩
          · split
            · next heq => simp only [Prod.mk.injEq] at heq; exact ⟨_, heq.2.1.symm⟩
            · next heq => simp only [Prod.mk.injEq] at heq; exact ⟨_, heq.2.1.symm⟩

theorem write_image_modules_appends (c : Cfg) (e : Ext) (G P : Nat → Int) :
    ∀ (n d : Nat) (s : Snapshot) (w : World),
      ∃ tail, (write_image_modules c e G P n d s w).2.1 = s ++ tail := by
  intro n
  induction n with
  | zero => intro d s w; exact ⟨[], by simp [write_image_modules]⟩
  | succ n ih =>
    intro d s w
    simp only [write_image_modules]
    have hr : ∃ tail, (if G d > 0 then drive_snapshot_write_gcrimage_module c e s w d
        else if P d > 0 then drive_snapshot_write_p64image_module e s w d
        else drive_snapshot_write_image_module c e s w d).2.1 = s ++ tail := by
      split
      · exact write_gcrimage_module_appends c e s w d
      · split
        · exact write_p64image_module_appends e s w d
        · exact write_image_module_appends c e s w d
    generalize (if G d > 0 then drive_snapshot_write_gcrimage_module c e s w d
        else if P d > 0 then drive_snapshot_write_p64image_module e s w d
        else drive_snapshot_write_image_module c e s w d) = r at hr
    obtain ⟨t1, h1⟩ := hr
    by_cases hneg : r.1 < 0
    · simp only [hneg, if_true]; exact ⟨t1, h1⟩
    · simp only [hneg, if_false]
      obtain ⟨t2, h2⟩ := ih (d + 1) r.2.1 r.2.2
      exact ⟨t1 ++ t2, by rw [h2, h1, List.append_assoc]⟩

theorem write_submodules_appends (c : Cfg) (e : Ext) (s : Snapshot) (w : World)
    (save_disks save_roms : Int) (G P : Nat → Int) :
    ∃ tail, (drive_snapshot_write_submodules c e s w save_disks save_roms G P).2.1
      = s ++ tail := by
  unfold drive_snapshot_write_submodules
  split
  · exact ⟨[], by simp⟩
  · next w1 _ =>
    have hr : ∃ tail, (if save_disks ≠ 0 then
        write_image_modules c e G P NUM_DISK_UNITS 0 s w1 else (true, s, w1)).2.1 = s ++ tail := by
      split
      · exact write_image_modules_appends c e G P _ _ _ _
      · exact ⟨[], by simp⟩
    obtain ⟨t1, h1⟩ := hr
    split
    · next heq => rw [heq] at h1; exact ⟨t1, h1⟩
    · next heq =>
      rw [heq] at h1
      split
      · exact ⟨t1, h1⟩
      · exact ⟨t1, h1⟩

/-- When the writer returns 0 and true drive emulation is on (or the build has
`__LIBRETRO__`), the container starts with the `DRIVE` module of the current
version holding the payload of the units. -/
theorem write_module_container (c : Cfg) (e : Ext) (ww : World) (save_disks save_roms : Int)
    (hdrive : c.libretro = true ∨ ww.resources .DriveTrueEmulation ≠ 0)
    (hw : (drive_snapshot_write_module c e [] ww save_disks save_roms).1 = 0) :
    ∃ tail, (drive_snapshot_write_module c e [] ww save_disks save_roms).2.1
      = ⟨.DRIVE, DRIVE_SNAP_MAJOR, DRIVE_SNAP_MINOR, drive_payload c e ww⟩ :: tail := by
  have hearly : (!c.libretro && decide (ww.resources .DriveTrueEmulation = 0)) = false := by
    rcases hdrive with h | h
    · simp [h]
    · simp [h]
  unfold drive_snapshot_write_module at hw ⊢
  simp only [] at hw ⊢
  generalize (if c.libretro = true then (10 : Int)
    else if ww.resources .DriveTrueEmulation ≠ 0 then 10 else 8) = start at hw ⊢
  simp only [hearly, Bool.false_eq_true, if_false] at hw ⊢
  by_cases hv : e.vdrive_snapshot_module_write < 0
  · simp [hv] at hw
  · simp only [hv, if_false, snapshot_module_create] at hw ⊢
    by_cases hc : e.create_fails .DRIVE = true
    · simp [hc] at hw
    · simp only [hc, Bool.false_eq_true, if_false] at hw ⊢
      cases hp : write_drive_payload c e
          ((((ww.log (.vdrive_snapshot_module_write start)).log
            .drive_gcr_data_writeback_all).log .rotation_table_get).log
            (.snapshot_module_create .DRIVE DRIVE_SNAP_MAJOR DRIVE_SNAP_MINOR))
          ⟨.DRIVE, DRIVE_SNAP_MAJOR, DRIVE_SNAP_MINOR, [], 0⟩ with
      | mk ok m1 =>
        rw [hp] at hw
        cases ok with
        | false => simp [snapshot_module_close_w] at hw
        | true =>
          obtain ⟨nw, hm⟩ := write_drive_payload_true c e _ _ _ hp
          simp only [snapshot_module_close_w] at hw ⊢
          by_cases hcl : e.close_fails m1.name = true
          · simp [hcl] at hw
          · simp only [hcl, Bool.not_false] at hw ⊢
            obtain ⟨tail, ht⟩ := write_submodules_appends c e
              ([] ++ [⟨m1.name, m1.major, m1.minor, m1.data⟩])
              (((((ww.log (.vdrive_snapshot_module_write start)).log
                .drive_gcr_data_writeback_all).log .rotation_table_get).log
                (.snapshot_module_create .DRIVE DRIVE_SNAP_MAJOR DRIVE_SNAP_MINOR)).log
                (.snapshot_module_close m1.name))
              save_disks save_roms
              (fun i => if (ww.units i).sc .GCR_image_loaded = 0 ∨ save_disks = 0 then 0 else 1)
              (fun i => if (ww.units i).sc .P64_image_loaded = 0 ∨ save_disks = 0 then 0 else 1)
            refine ⟨tail, ?_⟩
            simp only [log_units] at ht ⊢
            rw [ht, hm]
            simp [drive_payload]

/-! ## What the restoring part of the reader leaves alone -/

theorem evolves_refl (w : World) : evolves w w := ⟨fun _ _ _ => rfl, ⟨[], by simp⟩⟩

theorem evolves_trans {w w1 w2 : World} (h1 : evolves w w1) (h2 : evolves w1 w2) :
    evolves w w2 := by
  obtain ⟨a1, t1, b1⟩ := h1
  obtain ⟨a2, t2, b2⟩ := h2
  exact ⟨fun j f hf => by rw [a2 j f hf, a1 j f hf], ⟨t1 ++ t2, by rw [b2, b1, List.append_assoc]⟩⟩

theorem evolves_log {w w1 : World} (h : evolves w w1) (ev : Event) : evolves w (w1.log ev) := by
  obtain ⟨a1, t1, b1⟩ := h
  exact ⟨fun j f hf => a1 j f hf, ⟨t1 ++ [ev], by simp [b1]⟩⟩

theorem evolves_close {w w1 : World} (h : evolves w w1) (m : RHandle) :
    evolves w (snapshot_module_close w1 m) := evolves_log h _

theorem evolves_error {w w1 : World} (h : evolves w w1) (err : SnapError) :
    evolves w (snapshot_set_error w1 err) := by
  obtain ⟨a1, t1, b1⟩ := h
  exact ⟨fun j f hf => a1 j f hf, ⟨t1 ++ [.snapshot_set_error err], by simp [snapshot_set_error, b1]⟩⟩

theorem evolves_resources {w w1 : World} (h : evolves w w1) (r : Resource) (v : Int) :
    evolves w (resources_set_int w1 r v) := by
  obtain ⟨a1, t1, b1⟩ := h
  exact ⟨fun j f hf => a1 j f hf,
    ⟨t1 ++ [.resources_set_int r v], by simp [resources_set_int, b1]⟩⟩

theorem evolves_setUnit {w w1 : World} (h : evolves w w1) (i : Nat) (u : DiskUnit)
    (hu : ∀ f, ¬ config_flag f → u.sc f = (w1.units i).sc f) : evolves w (w1.setUnit i u) := by
  obtain ⟨a1, t1, b1⟩ := h
  refine ⟨fun j f hf => ?_, ⟨t1, by simp [b1]⟩⟩
  by_cases hj : j = i
  · subst hj; simp only [setUnit_units, if_true]; rw [hu f hf]; exact a1 j f hf
  · simp only [setUnit_units, hj, if_false]; exact a1 j f hf

theorem evolves_setField {w w1 : World} (h : evolves w w1) (i : Nat) (f : Field) (v : Int)
    (hf : config_flag f) : evolves w (w1.setField i f v) := by
  apply evolves_setUnit h
  intro g hg
  have : g ≠ f := fun hgf => hg (hgf ▸ hf)
  simp [this]

theorem evolves_filename {w w1 : World} (h : evolves w w1) (name : List Byte) :
    evolves w { w1 with dc_savestate_filename := name } := h

theorem evolves_detach {w w1 : World} (h : evolves w w1) (dnr drv : Nat) :
    evolves w (file_system_detach_disk w1 dnr drv) := by
  unfold file_system_detach_disk
  simp only
  split
  · exact evolves_setUnit (evolves_log h _) _ _ (fun _ _ => rfl)
  · exact evolves_log h _

theorem evolves_disable {w w1 : World} (h : evolves w w1) (dnr : Nat) :
    evolves w (drive_disable w1 dnr) :=
  evolves_setField (evolves_log h _) _ _ _ (Or.inl rfl)

theorem evolves_gcr_loaded {w w1 : World} (h : evolves w w1) (dnr : Nat) :
    evolves w (gcr_loaded w1 dnr) := by
  unfold gcr_loaded
  exact evolves_setUnit
    (evolves_setField (evolves_setField h _ _ _ (Or.inr (Or.inl rfl))) _ _ _
      (Or.inr (Or.inr (Or.inr rfl)))) _ _ (fun _ _ => rfl)

theorem reconstruct_unit_evolves (c : Cfg) (k : Nat) (b1 b2 : Bool) (led : Nat) (w w1 : World)
    (h : reconstruct_unit c k b1 b2 led w = some w1) : evolves w w1 := by
  unfold reconstruct_unit at h
  simp only at h
  split at h
  · injection h with h
    subst h
    refine evolves_log (evolves_log (evolves_log (evolves_resources
      (evolves_log (evolves_log ?_ _) _) _ _) _) _) _
    split
    · exact evolves_setField (evolves_refl w) _ _ _ (Or.inl rfl)
    · exact evolves_refl w
  · split at h
    · injection h with h
      subst h
      exact evolves_log (evolves_disable (evolves_refl w) _) _
    · cases h

theorem reconstruct_evolves (c : Cfg) (w : World) : evolves w (reconstruct c w).2 := by
  unfold reconstruct
  split
  · exact evolves_refl w
  · next a h0 =>
    have e0 := reconstruct_unit_evolves _ _ _ _ _ _ _ h0
    split
    · exact e0
    · next b h1 =>
      have e1 := evolves_trans e0 (reconstruct_unit_evolves _ _ _ _ _ _ _ h1)
      split
      · exact e1
      · next d h2 =>
        have e2 := evolves_trans e1 (reconstruct_unit_evolves _ _ _ _ _ _ _ h2)
        split
        · exact e2
        · next g h3 => exact evolves_trans e2 (reconstruct_unit_evolves _ _ _ _ _ _ _ h3)

theorem clear_parallel_cable_evolves :
    ∀ (n i : Nat) (w : World), evolves w (clear_parallel_cable n i w) := by
  intro n
  induction n with
  | zero => intro i w; exact evolves_refl w
  | succ n ih =>
    intro i w
    simp only [clear_parallel_cable]
    exact evolves_trans (evolves_log (evolves_log (evolves_refl w) _) _) (ih _ _)

theorem read_cpu_modules_evolves (c : Cfg) (e : Ext) :
    ∀ (n i : Nat) (w : World), evolves w (read_cpu_modules c e n i w).2 := by
  intro n
  induction n with
  | zero => intro i w; exact evolves_refl w
  | succ n ih =>
    intro i w
    simp only [read_cpu_modules]
    split
    · split
      · split
        · exact evolves_log (evolves_refl w) _
        · split
          · exact evolves_log (evolves_log (evolves_refl w) _) _
          · exact evolves_trans (evolves_log (evolves_log (evolves_refl w) _) _) (ih _ _)
      · split
        · exact evolves_log (evolves_refl w) _
        · split
          · exact evolves_log (evolves_log (evolves_refl w) _) _
          · exact evolves_trans (evolves_log (evolves_log (evolves_refl w) _) _) (ih _ _)
    · exact ih _ _

theorem read_rom_modules_evolves (e : Ext) :
    ∀ (n i : Nat) (w : World), evolves w (read_rom_modules e n i w).2 := by
  intro n
  induction n with
  | zero => intro i w; exact evolves_refl w
  | succ n ih =>
    intro i w
    simp only [read_rom_modules]
    split
    · exact evolves_log (evolves_refl w) _
    · exact evolves_trans (evolves_log (evolves_refl w) _) (ih _ _)

theorem apply_half_tracks_evolves (c : Cfg) (loc : Local → Nat → Int) (sf : Int) :
    ∀ (n i : Nat) (w : World), evolves w (apply_half_tracks c loc sf n i w) := by
  intro n
  induction n with
  | zero => intro i w; exact evolves_refl w
  | succ n ih =>
    intro i w
    simp only [apply_half_tracks]
    exact evolves_trans (evolves_resources (evolves_log (evolves_refl w) _) _ _) (ih _ _)

theorem SMR_W_spec (w : World) (m : RHandle) :
    ∃ r data, SMR_W w m = (r, ⟨m.name, data⟩, w.log (.snapshot_module_read m.name 2)) := by
  unfold SMR_W snapshot_module_read
  by_cases h : 2 ≤ m.data.length
  · simp only [h, if_true]; exact ⟨_, _, rfl⟩
  · simp only [h, if_false]; exact ⟨_, _, rfl⟩

theorem open_evolves (s : Snapshot) (w : World) (name : ModName) :
    evolves w (snapshot_module_open s w name).2 := by
  unfold snapshot_module_open
  split <;> exact evolves_log (evolves_refl w) _

theorem read_sector_data_evolves (st : ImgRead) : evolves st.w (read_sector_data st).w := by
  obtain ⟨r, data, hr⟩ := SMR_BA_spec st.w st.m 256
  unfold read_sector_data
  rw [hr]
  cases r <;> exact evolves_log (evolves_refl _) _

theorem write_sector_live_evolves (dnr track sector : Nat) (st st1 : ImgRead)
    (h : write_sector_live dnr track sector st = some st1) : evolves st.w st1.w := by
  unfold write_sector_live at h
  split at h
  · cases h
  · split at h
    · cases h
    · injection h with h
      subst h
      exact evolves_setUnit (evolves_refl _) _ _ (fun _ _ => rfl)

theorem read_image_track_evolves (dnr track : Nat) :
    ∀ (fuel sector : Nat) (st : ImgRead),
      evolves st.w (read_image_track dnr track fuel sector st).2.w := by
  intro fuel
  induction fuel with
  | zero => intro sector st; exact evolves_refl _
  | succ fuel ih =>
    intro sector st
    simp only [read_image_track]
    cases h : write_sector_live dnr track sector st with
    | none => exact evolves_refl _
    | some st1 =>
      simp only
      exact evolves_trans (write_sector_live_evolves _ _ _ _ _ h)
        (evolves_trans (read_sector_data_evolves st1) (ih _ _))

theorem read_image_tracks_evolves (dnr : Nat) :
    ∀ (fuel track : Nat) (st : ImgRead), evolves st.w (read_image_tracks dnr fuel track st).w := by
  intro fuel
  induction fuel with
  | zero => intro track st; exact evolves_refl _
  | succ fuel ih =>
    intro track st
    simp only [read_image_tracks]
    have h1 := read_image_track_evolves dnr track (liveSectorsOn st.w dnr track + 1) 0 st
    cases hr : read_image_track dnr track (liveSectorsOn st.w dnr track + 1) 0 st with
    | mk sector st1 =>
      rw [hr] at h1
      simp only
      split
      · exact h1
      · exact evolves_trans h1 (ih _ _)

theorem read_image_module_evolves (c : Cfg) (e : Ext) (s : Snapshot) (w : World) (dnr : Nat) :
    evolves w (drive_snapshot_read_image_module c e s w dnr).2 := by
  unfold drive_snapshot_read_image_module
  have ho1 := open_evolves s w (.NOIMAGE dnr)
  cases h1 : snapshot_module_open s w (.NOIMAGE dnr) with
  | mk r1 w1 =>
    rw [h1] at ho1
    cases r1 with
    | some x =>
      obtain ⟨m, a, b⟩ := x
      simp only
      refine evolves_close (evolves_detach ?_ _ _) _
      split
      · exact evolves_detach ho1 _ _
      · exact ho1
    | none =>
      simp only
      have ho2 := open_evolves s w1 (.IMAGE dnr)
      cases h2 : snapshot_module_open s w1 (.IMAGE dnr) with
      | mk r2 w2 =>
        rw [h2] at ho2
        have h02 := evolves_trans ho1 ho2
        cases r2 with
        | none => exact h02
        | some x =>
          obtain ⟨m, major, minor⟩ := x
          simp only
          split
          · exact evolves_close (evolves_error h02 _) _
          · split
            · exact evolves_close (evolves_error h02 _) _
            · obtain ⟨r, data, hr⟩ := SMR_W_spec w2 m
              rw [hr]
              cases r with
              | none => exact evolves_close (evolves_log h02 _) _
              | some word =>
                simp only
                have h03 := evolves_log h02 (.snapshot_module_read m.name 2)
                split
                · exact evolves_close (evolves_log h03 _) _
                · exact evolves_log h03 _
                · next len _ =>
                  split
                  · exact evolves_close (evolves_log (evolves_log h03 _) _) _
                  · split
                    · exact evolves_close (evolves_log (evolves_log (evolves_log h03 _) _) _) _
                    · have h06 := evolves_setUnit
                        (evolves_log (evolves_log (evolves_log h03 .archdep_mkstemp_fd) .lib_free)
                          (.file_system_attach_disk (dnr + 8) 0 len)) dnr
                        { ((w2.log (.snapshot_module_read m.name 2)).log
                            .archdep_mkstemp_fd |>.log .lib_free |>.log
                              (.file_system_attach_disk (dnr + 8) 0 len)).units dnr with
                          image := (e.file_system_attach_disk (dnr + 8) len
                            (((w2.log (.snapshot_module_read m.name 2)).log
                              .archdep_mkstemp_fd |>.log .lib_free |>.log
                                (.file_system_attach_disk (dnr + 8) 0 len)).units dnr).image).2 }
                        (fun _ _ => rfl)
                      split
                      · exact evolves_log (evolves_log h06 _) _
                      · refine evolves_close (evolves_log ?_ _) _
                        exact evolves_trans (evolves_log h06 _)
                          (evolves_trans (read_sector_data_evolves _)
                            (read_image_tracks_evolves _ _ _ _))

theorem read_gcr_tracks_evolves (c : Cfg) (dnr : Nat) :
    ∀ (n i : Nat) (st : GcrRead), evolves st.w (read_gcr_tracks c dnr n i st).2.w := by
  intro n
  induction n with
  | zero => intro i st; exact evolves_refl _
  | succ n ih =>
    intro i st
    obtain ⟨r, data, hr⟩ := SMR_DW_spec st.w st.m
    simp only [read_gcr_tracks, hr]
    cases r with
    | none => exact evolves_close (evolves_log (evolves_refl _) _) _
    | some track_size =>
      simp only
      split
      · exact evolves_close (evolves_log (evolves_refl _) _) _
      · have hs := evolves_log (evolves_refl st.w) (.snapshot_module_read st.m.name 4)
        split
        · have h2 := evolves_setUnit hs dnr
            (((st.w.log (.snapshot_module_read st.m.name 4)).units dnr).setTrack i
              ⟨some (gcr_alloc (((st.w.log (.snapshot_module_read st.m.name 4)).units dnr).gcr i)
                track_size), toInt32 track_size⟩) (fun _ _ => rfl)
          obtain ⟨r2, data2, hr2⟩ := SMR_BA_spec
            ((st.w.log (.snapshot_module_read st.m.name 4)).setUnit dnr
              (((st.w.log (.snapshot_module_read st.m.name 4)).units dnr).setTrack i
                ⟨some (gcr_alloc (((st.w.log (.snapshot_module_read st.m.name 4)).units dnr).gcr i)
                  track_size), toInt32 track_size⟩))
            ⟨st.m.name, data⟩ track_size
          simp only [hr2]
          cases r2 with
          | none => exact evolves_close (evolves_log h2 _) _
          | some bs =>
            simp only
            refine evolves_trans ?_ (ih _ _)
            exact evolves_setUnit (evolves_log h2 _) _ _ (fun _ _ => rfl)
        · refine evolves_trans ?_ (ih _ _)
          exact evolves_setUnit hs _ _ (fun _ _ => rfl)

theorem clear_gcr_tracks_evolves (dnr : Nat) :
    ∀ (n i : Nat) (w : World), evolves w (clear_gcr_tracks dnr n i w) := by
  intro n
  induction n with
  | zero => intro i w; exact evolves_refl _
  | succ n ih =>
    intro i w
    simp only [clear_gcr_tracks]
    split
    · exact evolves_trans (evolves_setUnit (evolves_refl w) dnr
        ((w.units dnr).setTrack i ⟨none, 0⟩) (fun _ _ => rfl)) (ih _ _)
    · exact ih _ _

theorem read_gcr_body_evolves (c : Cfg) (dnr : Nat) (st : GcrRead) :
    evolves st.w (read_gcr_body c dnr st).2.w := by
  obtain ⟨r, data, hr⟩ := SMR_DW_spec st.w st.m
  simp only [read_gcr_body, hr]
  cases r with
  | none => exact evolves_close (evolves_log (evolves_refl _) _) _
  | some n =>
    simp only
    split
    · exact evolves_close (evolves_log (evolves_refl _) _) _
    · have h1 := read_gcr_tracks_evolves c dnr n 0
        ⟨⟨st.m.name, data⟩, st.w.log (.snapshot_module_read st.m.name 4)⟩
      cases hres : read_gcr_tracks c dnr n 0
        ⟨⟨st.m.name, data⟩, st.w.log (.snapshot_module_read st.m.name 4)⟩ with
      | mk ok st1 =>
        rw [hres] at h1
        have h2 := evolves_trans (evolves_log (evolves_refl st.w) _) h1
        cases ok with
        | false => exact h2
        | true => exact evolves_trans h2 (clear_gcr_tracks_evolves _ _ _ _)

theorem read_libretro_filename_evolves :
    ∀ (n i : Nat) (st : NameRead), evolves st.w (read_libretro_filename n i st).w := by
  intro n
  induction n with
  | zero => intro i st; exact evolves_refl _
  | succ n ih =>
    intro i st
    obtain ⟨r, data, hr⟩ := SMR_B_spec st.w st.m
    simp only [read_libretro_filename, hr]
    have hs := evolves_log (evolves_refl st.w) (.snapshot_module_read st.m.name 1)
    split
    · split
      · exact hs
      · exact evolves_trans hs (ih _ _)
    · split
      · exact hs
      · exact evolves_trans hs (ih _ _)

theorem read_gcrimage_module_evolves (c : Cfg) (s : Snapshot) (w : World) (dnr : Nat) :
    evolves w (drive_snapshot_read_gcrimage_module c s w dnr).2 := by
  unfold drive_snapshot_read_gcrimage_module
  have ho1 := open_evolves s w (.GCRIMAGE dnr)
  cases h1 : snapshot_module_open s w (.GCRIMAGE dnr) with
  | mk r1 w1 =>
    rw [h1] at ho1
    cases r1 with
    | none => exact ho1
    | some x =>
      obtain ⟨m, major, minor⟩ := x
      simp only
      split
      · exact evolves_close (evolves_error ho1 _) _
      · split
        · exact evolves_close (evolves_error ho1 _) _
        · split
          · have hn := evolves_trans ho1
              (read_libretro_filename_evolves c.RETRO_PATH_MAX 0 ⟨[], m, w1⟩)
            split
            · exact evolves_gcr_loaded (evolves_close (evolves_filename hn _) _) _
            · have hc := evolves_close hn
                (read_libretro_filename c.RETRO_PATH_MAX 0 ⟨[], m, w1⟩).m
              have ho2 := open_evolves s
                (snapshot_module_close (read_libretro_filename c.RETRO_PATH_MAX 0 ⟨[], m, w1⟩).w
                  (read_libretro_filename c.RETRO_PATH_MAX 0 ⟨[], m, w1⟩).m) (.GCRIMAGE dnr)
              cases h2 : snapshot_module_open s
                (snapshot_module_close (read_libretro_filename c.RETRO_PATH_MAX 0 ⟨[], m, w1⟩).w
                  (read_libretro_filename c.RETRO_PATH_MAX 0 ⟨[], m, w1⟩).m) (.GCRIMAGE dnr) with
              | mk r2 w3 =>
                rw [h2] at ho2
                have h03 := evolves_trans hc ho2
                cases r2 with
                | none => exact evolves_log h03 _
                | some y =>
                  obtain ⟨m2, a, b⟩ := y
                  simp only
                  have hb := read_gcr_body_evolves c dnr ⟨m2, w3⟩
                  cases hres : read_gcr_body c dnr ⟨m2, w3⟩ with
                  | mk ok st =>
                    rw [hres] at hb
                    cases ok with
                    | false => exact evolves_trans h03 hb
                    | true => exact evolves_gcr_loaded (evolves_close (evolves_trans h03 hb) _) _
          · have hb := read_gcr_body_evolves c dnr ⟨m, w1⟩
            cases hres : read_gcr_body c dnr ⟨m, w1⟩ with
            | mk ok st =>
              rw [hres] at hb
              cases ok with
              | false => exact evolves_trans ho1 hb
              | true => exact evolves_gcr_loaded (evolves_close (evolves_trans ho1 hb) _) _

theorem read_p64image_module_evolves (e : Ext) (s : Snapshot) (w : World) (dnr : Nat) :
    evolves w (drive_snapshot_read_p64image_module e s w dnr).2 := by
  unfold drive_snapshot_read_p64image_module
  have ho1 := open_evolves s w (.P64IMAGE dnr)
  cases h1 : snapshot_module_open s w (.P64IMAGE dnr) with
  | mk r1 w1 =>
    rw [h1] at ho1
    cases r1 with
    | none => exact ho1
    | some x =>
      obtain ⟨m, major, minor⟩ := x
      simp only
      split
      · exact evolves_close ho1 _
      · split
        · exact evolves_close (evolves_error ho1 _) _
        · split
          · exact evolves_close (evolves_error ho1 _) _
          · obtain ⟨r, data, hr⟩ := SMR_DW_spec w1 m
            rw [hr]
            cases r with
            | none => exact evolves_close (evolves_log ho1 _) _
            | some size =>
              simp only
              obtain ⟨r2, data2, hr2⟩ := SMR_BA_spec (w1.log (.snapshot_module_read m.name 4))
                ⟨m.name, data⟩ size
              rw [hr2]
              cases r2 with
              | none => exact evolves_close (evolves_log (evolves_log ho1 _) _) _
              | some tmpbuf =>
                simp only
                split
                · exact evolves_close (evolves_log (evolves_log ho1 _) _) _
                · apply evolves_setUnit _ _ _ (by intro _ _; rfl)
                  apply evolves_setField _ _ _ _ (Or.inr (Or.inr (Or.inr rfl)))
                  apply evolves_setField _ _ _ _ (Or.inr (Or.inr (Or.inl rfl)))
                  apply evolves_setUnit _ _ _ (by intro _ _; rfl)
                  exact evolves_close (evolves_log (evolves_log ho1 _) _) _

theorem read_image_modules_evolves (c : Cfg) (e : Ext) (s : Snapshot) :
    ∀ (n i : Nat) (w : World), evolves w (read_image_modules c e s n i w).2 := by
  intro n
  induction n with
  | zero => intro i w; exact evolves_refl _
  | succ n ih =>
    intro i w
    simp only [read_image_modules]
    have h1 := read_image_module_evolves c e s w i
    have h2 := read_gcrimage_module_evolves c s (drive_snapshot_read_image_module c e s w i).2 i
    have h3 := read_p64image_module_evolves e s
      (drive_snapshot_read_gcrimage_module c s (drive_snapshot_read_image_module c e s w i).2 i).2
      i
    split
    · exact h1
    · split
      · exact evolves_trans h1 h2
      · split
        · exact evolves_trans h1 (evolves_trans h2 h3)
        · exact evolves_trans h1 (evolves_trans h2 (evolves_trans h3 (ih _ _)))

theorem apply_clocks_spec (c : Cfg) (loc : Local → Nat → Int) :
    ∀ (n i0 : Nat) (w : World),
      (∃ t, (apply_clocks c loc n i0 w).trace = w.trace ++ t) ∧
      ∀ j f, ((apply_clocks c loc n i0 w).units j).sc f
        = if i0 ≤ j ∧ j < i0 + n then clock_applied c loc w j f else (w.units j).sc f := by
  intro n
  induction n with
  | zero =>
    intro i0 w
    refine ⟨⟨[], by simp [apply_clocks]⟩, fun j f => ?_⟩
    have h : ¬ (i0 ≤ j ∧ j < i0 + 0) := by omega
    simp only [apply_clocks, h, if_false]
  | succ n ih =>
    intro i0 w
    simp only [apply_clocks]
    by_cases ht : (w.units i0).sc .type ≠ c.DRIVE_TYPE_NONE
    · rw [if_pos ht]
      obtain ⟨⟨t, h1⟩, h2⟩ := ih (i0 + 1)
        ((((w.log (.drive_enable i0)).setField i0 .attach_clk (loc .attach_clk i0)).setField i0
          .detach_clk (loc .detach_clk i0)).setField i0 .attach_detach_clk
            (loc .attach_detach_clk i0))
      refine ⟨⟨Event.drive_enable i0 :: t, by rw [h1]; simp⟩, fun j f => ?_⟩
      rw [h2 j f]
      by_cases hj : j = i0
      · subst hj
        have h3 : ¬ (j + 1 ≤ j ∧ j < j + 1 + n) := by omega
        have h4 : j ≤ j ∧ j < j + (n + 1) := by omega
        simp only [h3, h4, if_false, if_true, and_self, clock_applied, if_pos ht, setField_units,
          set_sc, log_units]
        by_cases f1 : f = .attach_detach_clk
        · subst f1; simp
        · by_cases f2 : f = .detach_clk
          · subst f2; simp
          · by_cases f3 : f = .attach_clk
            · subst f3; simp
            · simp [f1, f2, f3]
      · by_cases hr : i0 + 1 ≤ j ∧ j < i0 + 1 + n
        · have h4 : i0 ≤ j ∧ j < i0 + (n + 1) := by omega
          simp only [hr, h4, if_true, and_self, clock_applied, setField_units, log_units, hj,
            if_false]
        · have h4 : ¬ (i0 ≤ j ∧ j < i0 + (n + 1)) := by omega
          simp only [hr, h4, if_false, setField_units, log_units, hj]
    · rw [if_neg ht]
      obtain ⟨⟨t, h1⟩, h2⟩ := ih (i0 + 1) w
      refine ⟨⟨t, h1⟩, fun j f => ?_⟩
      rw [h2 j f]
      by_cases hj : j = i0
      · subst hj
        have h3 : ¬ (j + 1 ≤ j ∧ j < j + 1 + n) := by omega
        have h4 : j ≤ j ∧ j < j + (n + 1) := by omega
        simp only [h3, h4, if_false, if_true, and_self, clock_applied, if_neg ht]
      · by_cases hr : i0 + 1 ≤ j ∧ j < i0 + 1 + n
        · have h4 : i0 ≤ j ∧ j < i0 + (n + 1) := by omega
          simp only [hr, h4, if_true, and_self]
        · have h4 : ¬ (i0 ≤ j ∧ j < i0 + (n + 1)) := by omega
          simp only [hr, h4, if_false]

theorem apply_half_tracks_spec (c : Cfg) (loc : Local → Nat → Int) (sf : Int) :
    ∀ (n i0 : Nat) (w : World),
      (apply_half_tracks c loc sf n i0 w).units = w.units ∧
      ∃ t, (apply_half_tracks c loc sf n i0 w).trace = w.trace ++ t ∧
        ∀ j, i0 ≤ j → j < i0 + n →
          Event.drive_set_half_track
            (decode_half_track c ((w.units j).sc .type) (loc .half_track j)).1
            (decode_half_track c ((w.units j).sc .type) (loc .half_track j)).2 j ∈ t := by
  intro n
  induction n with
  | zero =>
    intro i0 w
    exact ⟨rfl, [], by simp [apply_half_tracks], fun j h1 h2 => by omega⟩
  | succ n ih =>
    intro i0 w
    simp only [apply_half_tracks]
    obtain ⟨h1, t, h2, h3⟩ := ih (i0 + 1)
      (resources_set_int (w.log (.drive_set_half_track
        (decode_half_track c ((w.units i0).sc .type) (loc .half_track i0)).1
        (decode_half_track c ((w.units i0).sc .type) (loc .half_track i0)).2 i0))
        .MachineVideoStandard sf)
    refine ⟨by rw [h1]; rfl, Event.drive_set_half_track
        (decode_half_track c ((w.units i0).sc .type) (loc .half_track i0)).1
        (decode_half_track c ((w.units i0).sc .type) (loc .half_track i0)).2 i0 ::
        Event.resources_set_int .MachineVideoStandard sf :: t,
        by rw [h2]; simp [resources_set_int], fun j hj1 hj2 => ?_⟩
    by_cases hj : j = i0
    · subst hj
      simp
    · have := h3 j (by omega) (by omega)
      simp only [List.mem_cons]
      exact Or.inr (Or.inr (by simpa [resources_set_int] using this))

theorem clock_applied_type (c : Cfg) (loc : Local → Nat → Int) (w : World) (j : Nat) :
    clock_applied c loc w j .type = (w.units j).sc .type := by
  unfold clock_applied
  split <;> simp

/-- The part of the reader after the decoding, when it returns 0: up to the
loop of the clocks the scalar members other than `enable` and the image flags
are kept; the clocks are applied by that loop; `drive_set_half_track` is called
for every unit. -/
theorem read_restore_spec (c : Cfg) (e : Ext) (s : Snapshot) (w : World)
    (loc : Local → Nat → Int) (sf : Int)
    (h : (drive_snapshot_read_restore c e s w loc sf).1 = 0) :
    ∃ w5, evolves w w5 ∧
      (∀ j f, ((drive_snapshot_read_restore c e s w loc sf).2.units j).sc f
        = if j < NUM_DISK_UNITS then clock_applied c loc w5 j f else (w5.units j).sc f) ∧
      ∃ t, (drive_snapshot_read_restore c e s w loc sf).2.trace = w5.trace ++ t ∧
        ∀ j, j < NUM_DISK_UNITS →
          Event.drive_set_half_track
            (decode_half_track c ((w5.units j).sc .type) (loc .half_track j)).1
            (decode_half_track c ((w5.units j).sc .type) (loc .half_track j)).2 j ∈ t := by
  unfold drive_snapshot_read_restore at h ⊢
  have e1 := reconstruct_evolves c w
  rcases h1 : reconstruct c w with ⟨b1, w1⟩
  rw [h1] at h e1
  cases b1 with
  | false => simp at h
  | true =>
    simp only [] at h e1 ⊢
    have e2 := evolves_trans e1 (clear_parallel_cable_evolves c.DRIVE_PC_NUM 0 w1)
    generalize clear_parallel_cable c.DRIVE_PC_NUM 0 w1 = w2 at h e2 ⊢
    have e3 := evolves_trans e2 (read_cpu_modules_evolves c e NUM_DISK_UNITS 0 w2)
    rcases h3 : read_cpu_modules c e NUM_DISK_UNITS 0 w2 with ⟨b3, w3⟩
    rw [h3] at h e3
    cases b3 with
    | false => simp at h
    | true =>
      simp only [] at h e3 ⊢
      have e4 := evolves_trans e3 (read_image_modules_evolves c e s NUM_DISK_UNITS 0 w3)
      rcases h4 : read_image_modules c e s NUM_DISK_UNITS 0 w3 with ⟨b4, w4⟩
      rw [h4] at h e4
      cases b4 with
      | false => simp at h
      | true =>
        simp only [] at h e4 ⊢
        have e5 := evolves_trans e4 (read_rom_modules_evolves e NUM_DISK_UNITS 0 w4)
        rcases h5 : read_rom_modules e NUM_DISK_UNITS 0 w4 with ⟨b5, w5⟩
        rw [h5] at h e5
        cases b5 with
        | false => simp at h
        | true =>
          simp only [] at h e5 ⊢
          obtain ⟨⟨t6, c1⟩, c2⟩ := apply_clocks_spec c loc NUM_DISK_UNITS 0 w5
          obtain ⟨d1, t7, d2, d3⟩ := apply_half_tracks_spec c loc sf NUM_DISK_UNITS 0
            (apply_clocks c loc NUM_DISK_UNITS 0 w5)
          have hs : ∀ (p : Prop) [Decidable p] (a b : Int) (x : World),
              (if p then (a, x) else (b, x)).2 = x := by
            intro p _ a b x
            split <;> rfl
          rw [hs]
          refine ⟨w5, e5, ?_, ?_⟩
          · intro j f
            simp only [log_units, d1]
            rw [c2 j f]
            simp
          · simp only [log_trace, d2, c1, List.append_assoc]
            refine ⟨_, rfl, ?_⟩
            intro j hj
            have hm := d3 j (Nat.zero_le j) (by omega)
            rw [c2 j .type] at hm
            have hj2 : 0 ≤ j ∧ j < 0 + NUM_DISK_UNITS := ⟨Nat.zero_le j, by omega⟩
            rw [if_pos hj2, clock_applied_type] at hm
            exact List.mem_append_right _ (List.mem_append_left _ hm)

theorem read_units_ready_eq_iter :
    ∀ (n i0 : Nat) (st : RState),
      read_units_ready n i0 st
        = iter_units (fun i st => (smr_field .B_INT (.live .byte_ready_active) i
            (smr_field .B_INT (.live .byte_ready_edge) i st).2).2) n i0 st := by
  intro n
  induction n with
  | zero => intro i0 st; rfl
  | succ n ih =>
    intro i0 st
    simp only [read_units_ready, iter_units]
    rw [ih]

theorem ready_step (name : ModName) (W : List (WKind × Int))
    (hW : layout_ready.map (fun kd => kd.1.width) = W.map (fun kv => kv.1.width))
    (i : Nat) (rest : List Byte) (w : World) (loc : Local → Nat → Int) :
    (smr_field .B_INT (.live .byte_ready_active) i
        (smr_field .B_INT (.live .byte_ready_edge) i
          ⟨⟨name, encode_fields W ++ rest⟩, w, loc⟩).2).2
      = ⟨⟨name, rest⟩, (decode_effect name i layout_ready W (w, loc)).1,
          (decode_effect name i layout_ready W (w, loc)).2⟩ := by
  have h := read_fields_encode name i layout_ready W rest w loc hW
  simp only [layout_ready, read_fields] at h
  rcases h1 : smr_field .B_INT (.live .byte_ready_edge) i
    ⟨⟨name, encode_fields W ++ rest⟩, w, loc⟩ with ⟨b1, st1⟩
  rw [h1] at h
  cases b1 with
  | false => simp at h
  | true =>
    simp only [] at h ⊢
    rcases h2 : smr_field .B_INT (.live .byte_ready_active) i st1 with ⟨b2, st2⟩
    rw [h2] at h
    cases b2 with
    | false => simp at h
    | true =>
      simp only [Prod.mk.injEq, true_and] at h
      exact h

theorem clk_step (name : ModName) (W : List (WKind × Int))
    (hW : layout_clk.map (fun kd => kd.1.width) = W.map (fun kv => kv.1.width))
    (i : Nat) (rest : List Byte) (w : World) (loc : Local → Nat → Int) :
    (read_fields [(.DW, .loc .attach_detach_clk)] i
        ⟨⟨name, encode_fields W ++ rest⟩, w, loc⟩).2
      = ⟨⟨name, rest⟩, (decode_effect name i layout_clk W (w, loc)).1,
          (decode_effect name i layout_clk W (w, loc)).2⟩ := by
  have h := read_fields_encode name i layout_clk W rest w loc hW
  simp only [layout_clk] at h ⊢
  rw [h]

theorem current_step (name : ModName) (W : List (WKind × Int))
    (hW : layout_current.map (fun kd => kd.1.width) = W.map (fun kv => kv.1.width))
    (i : Nat) (rest : List Byte) (w : World) (loc : Local → Nat → Int) :
    (read_fields layout_current i ⟨⟨name, encode_fields W ++ rest⟩, w, loc⟩).2
      = ⟨⟨name, rest⟩, (decode_effect name i layout_current W (w, loc)).1,
          (decode_effect name i layout_current W (w, loc)).2⟩ := by
  rw [read_fields_encode name i layout_current W rest w loc hW]

/-- The decoding phase of the reader on a container whose `DRIVE` module is the
one the writer emits for the world `ww`: every read succeeds, the units and the
local arrays hold the decoded values, and the function goes on with the part
after `rotation_table_set`. -/
theorem read_module_decodes (c : Cfg) (e : Ext) (ww wr : World) (tail : Snapshot) :
    ∃ w6 loc,
      drive_snapshot_read_module c e
          (⟨.DRIVE, DRIVE_SNAP_MAJOR, DRIVE_SNAP_MINOR, drive_payload c e ww⟩ :: tail) wr
        = drive_snapshot_read_restore c e
            (⟨.DRIVE, DRIVE_SNAP_MAJOR, DRIVE_SNAP_MINOR, drive_payload c e ww⟩ :: tail) w6 loc
            (toInt32 (castU 32 (ww.resources .MachineVideoStandard))) ∧
      (∀ j f, j < NUM_DISK_UNITS → (w6.units j).sc f
        = (decoded layout_ready (drive_unit_fields_ready (ww.units j)) (.live f)).getD
            ((decoded layout_current
              (drive_unit_fields c (ww.units j) (e.rotation_table_get j)) (.live f)).getD
              ((wr.units j).sc f))) ∧
      (∀ l j, j < NUM_DISK_UNITS → loc l j
        = (decoded layout_clk (drive_unit_fields_clk (ww.units j)) (.loc l)).getD
            ((decoded layout_current
              (drive_unit_fields c (ww.units j) (e.rotation_table_get j)) (.loc l)).getD
              (e.uninit l j))) ∧
      ∃ t, w6.trace = wr.trace ++ t ∧
        Event.rotation_table_set
          ((List.range NUM_DISK_UNITS).map (fun i => loc .rotation_table_ptr i)) ∈ t := by
  generalize hp : drive_payload c e ww = payload
  have hmod : drive_module
      (⟨.DRIVE, DRIVE_SNAP_MAJOR, DRIVE_SNAP_MINOR, payload⟩ :: tail)
      = some ⟨.DRIVE, DRIVE_SNAP_MAJOR, DRIVE_SNAP_MINOR, payload⟩ := by
    simp [drive_module]
  unfold drive_snapshot_read_module
  rw [open_drive_some _ _ _ hmod]
  have hb : snapshot_version_is_bigger DRIVE_SNAP_MAJOR DRIVE_SNAP_MINOR DRIVE_SNAP_MAJOR
      DRIVE_SNAP_MINOR = false := by decide
  have hs : snapshot_version_is_smaller DRIVE_SNAP_MAJOR DRIVE_SNAP_MINOR DRIVE_SNAP_MAJOR
      DRIVE_SNAP_MINOR = false := by decide
  simp only [hb, hs, Bool.false_eq_true, if_false]
  obtain ⟨w3, hw3, hu3, t3, ht3⟩ : ∃ w3,
      (if c.libretro = true then
        (wr.log (.snapshot_module_open .DRIVE true)).log .drive_gcr_data_writeback_all
      else resources_set_int
        ((wr.log (.snapshot_module_open .DRIVE true)).log .drive_gcr_data_writeback_all)
        .DriveTrueEmulation 1) = w3 ∧ w3.units = wr.units ∧ ∃ t, w3.trace = wr.trace ++ t := by
    refine ⟨_, rfl, ?_, ?_⟩
    · split <;> rfl
    · split
      · simp only [log_trace, List.append_assoc]
        exact ⟨_, rfl⟩
      · simp only [resources_set_int, log_trace, List.append_assoc]
        exact ⟨_, rfl⟩
  rw [hw3]
  have hW : ∀ j, layout_current.map (fun kd => kd.1.width)
      = (drive_unit_fields c (ww.units j) (e.rotation_table_get j)).map (fun kv => kv.1.width) :=
    fun _ => rfl
  have hWc : ∀ j, layout_clk.map (fun kd => kd.1.width)
      = (drive_unit_fields_clk (ww.units j)).map (fun kv => kv.1.width) := fun _ => rfl
  have hWr : ∀ j, layout_ready.map (fun kd => kd.1.width)
      = (drive_unit_fields_ready (ww.units j)).map (fun kv => kv.1.width) := fun _ => rfl
  obtain ⟨wA, locA, hA, uA, lA, -, -, tA, htA⟩ := iter_units_spec .DRIVE layout_current
    (fun j => drive_unit_fields c (ww.units j) (e.rotation_table_get j))
    (fun i st => (read_fields layout_current i st).2)
    (fun i rest w loc => current_step .DRIVE _ (hW i) i rest w loc)
    NUM_DISK_UNITS 0
    (encode_units (fun i => drive_unit_fields_clk (ww.units i)) NUM_DISK_UNITS 0 ++
      encode_units (fun i => drive_unit_fields_ready (ww.units i)) NUM_DISK_UNITS 0)
    (w3.log (.snapshot_module_read .DRIVE 4)) e.uninit
  obtain ⟨wB, locB, hB, uB, lB, -, -, tB, htB⟩ := iter_units_spec .DRIVE layout_clk
    (fun j => drive_unit_fields_clk (ww.units j))
    (fun i st => (read_fields [(.DW, .loc .attach_detach_clk)] i st).2)
    (fun i rest w loc => clk_step .DRIVE _ (hWc i) i rest w loc)
    NUM_DISK_UNITS 0
    (encode_units (fun i => drive_unit_fields_ready (ww.units i)) NUM_DISK_UNITS 0)
    wA locA
  obtain ⟨wC, locC, hC, uC, lC, -, -, tC, htC⟩ := iter_units_spec .DRIVE layout_ready
    (fun j => drive_unit_fields_ready (ww.units j))
    (fun i st => (smr_field .B_INT (.live .byte_ready_active) i
            (smr_field .B_INT (.live .byte_ready_edge) i st).2).2)
    (fun i rest w loc => ready_step .DRIVE _ (hWr i) i rest w loc)
    NUM_DISK_UNITS 0 [] wB locB
  rw [List.append_nil] at hC
  have h15 : read_units DRIVE_SNAP_MAJOR DRIVE_SNAP_MINOR = read_units 1 5 := rfl
  rw [← hp, drive_payload, SMR_DW_leBytes _ _ _ _ (castU_lt 32 _)]
  simp only []
  rw [h15, read_units_eq_iter .DRIVE _ hW, hA]
  simp only []
  rw [read_units_clk_eq_iter, hB, read_units_ready_eq_iter, hC]
  refine ⟨_, _, rfl, ?_, ?_, ?_⟩
  · intro j f hj
    have hj2 : 0 ≤ j ∧ j < 0 + NUM_DISK_UNITS := ⟨Nat.zero_le j, by omega⟩
    have hclk : decoded layout_clk (drive_unit_fields_clk (ww.units j)) (.live f) = none := by
      simp [decoded, layout_clk, drive_unit_fields_clk]
    show (wC.units j).sc f = _
    rw [uC j, if_pos hj2, uB j, if_pos hj2, uA j, if_pos hj2]
    simp only [decoded_unit, hclk, Option.getD_none, log_units, hu3]
  · intro l j hj
    have hj2 : 0 ≤ j ∧ j < 0 + NUM_DISK_UNITS := ⟨Nat.zero_le j, by omega⟩
    have hrdy : decoded layout_ready (drive_unit_fields_ready (ww.units j)) (.loc l) = none := by
      simp [decoded, layout_ready, drive_unit_fields_ready]
    show locC l j = _
    rw [lC l j, if_pos hj2, lB l j, if_pos hj2, lA l j, if_pos hj2]
    simp only [hrdy, Option.getD_none]
  · show ∃ t, (wC.trace ++ [Event.snapshot_module_close .DRIVE]) ++ [_] = wr.trace ++ t ∧ _
    rw [htC, htB, htA, log_trace, ht3]
    simp only [List.append_assoc]
    refine ⟨_, rfl, ?_⟩
    simp

theorem direct_member_decoded (c : Cfg) (u : DiskUnit) (r x : Int) (f : Field)
    (hf : f ∈ direct_members) (hv : member_lo f ≤ u.sc f ∧ u.sc f < member_hi f) :
    (decoded layout_ready (drive_unit_fields_ready u) (.live f)).getD
      ((decoded layout_current (drive_unit_fields c u r) (.live f)).getD x) = u.sc f := by
  simp only [direct_members, List.mem_cons, List.mem_singleton, List.not_mem_nil, or_false] at hf
  rcases hf with rfl | rfl | rfl | rfl | rfl | rfl | rfl | rfl | rfl | rfl | rfl | rfl | rfl |
    rfl | rfl | rfl | rfl | rfl | rfl | rfl | rfl | rfl | rfl | rfl | rfl | rfl | rfl | rfl |
    rfl | rfl | rfl | rfl | rfl <;>
  (simp [member_lo, member_hi] at hv
   simp [decoded, layout_ready, layout_current, drive_unit_fields, drive_unit_fields_ready,
     RKind.conv, WKind.width]
   first
   | exact castU_of_range 8 _ hv.1 hv.2
   | exact castU_of_range 16 _ hv.1 hv.2
   | exact castU_of_range 32 _ hv.1 hv.2
   | exact toInt32_castU _ hv.1 hv.2)

theorem clock_member_not_decoded (c : Cfg) (u : DiskUnit) (r x : Int) (f : Field)
    (hf : f ∈ clock_members) :
    (decoded layout_ready (drive_unit_fields_ready u) (.live f)).getD
      ((decoded layout_current (drive_unit_fields c u r) (.live f)).getD x) = x := by
  simp only [clock_members, List.mem_cons, List.mem_singleton, List.not_mem_nil, or_false] at hf
  rcases hf with rfl | rfl | rfl <;>
  simp [decoded, layout_ready, layout_current, drive_unit_fields, drive_unit_fields_ready]

theorem local_decoded (c : Cfg) (u : DiskUnit) (r : Int) (x : Local → Int) :
    (decoded layout_clk (drive_unit_fields_clk u) (.loc .attach_clk)).getD
      ((decoded layout_current (drive_unit_fields c u r) (.loc .attach_clk)).getD
        (x .attach_clk)) = castU 32 (u.sc .attach_clk) ∧
    (decoded layout_clk (drive_unit_fields_clk u) (.loc .detach_clk)).getD
      ((decoded layout_current (drive_unit_fields c u r) (.loc .detach_clk)).getD
        (x .detach_clk)) = castU 32 (u.sc .detach_clk) ∧
    (decoded layout_clk (drive_unit_fields_clk u) (.loc .attach_detach_clk)).getD
      ((decoded layout_current (drive_unit_fields c u r) (.loc .attach_detach_clk)).getD
        (x .attach_detach_clk)) = castU 32 (u.sc .attach_detach_clk) ∧
    (decoded layout_clk (drive_unit_fields_clk u) (.loc .half_track)).getD
      ((decoded layout_current (drive_unit_fields c u r) (.loc .half_track)).getD
        (x .half_track))
      = castU 16 (u.sc .current_half_track + u.sc .side * c.DRIVE_HALFTRACKS_1571) ∧
    (decoded layout_clk (drive_unit_fields_clk u) (.loc .rotation_table_ptr)).getD
      ((decoded layout_current (drive_unit_fields c u r) (.loc .rotation_table_ptr)).getD
        (x .rotation_table_ptr)) = castU 32 r := by
  refine ⟨?_, ?_, ?_, ?_, ?_⟩ <;>
  simp [decoded, layout_clk, layout_current, drive_unit_fields, drive_unit_fields_clk,
    RKind.conv, WKind.width]

theorem decode_half_track_kept (c : Cfg) (u : DiskUnit) (h : half_track_kept c u) :
    decode_half_track c (u.sc .type)
        (u.sc .current_half_track + u.sc .side * c.DRIVE_HALFTRACKS_1571)
      = (u.sc .current_half_track, u.sc .side) := by
  unfold decode_half_track
  rcases h with ⟨hs, hd⟩ | ⟨hs, hd, hh⟩
  · rw [hs]
    by_cases hdd : double_sided c (u.sc .type)
    · have := hd hdd
      unfold double_sided at hdd
      rw [if_pos hdd]
      have hn : ¬ (u.sc .current_half_track + 0 * c.DRIVE_HALFTRACKS_1571
          > c.DRIVE_HALFTRACKS_1571 + 1) := by
        rw [Int.zero_mul, Int.add_zero]; omega
      rw [if_neg hn, Int.zero_mul, Int.add_zero]
    · unfold double_sided at hdd
      rw [if_neg hdd, Int.zero_mul, Int.add_zero]
  · rw [hs]
    unfold double_sided at hd
    rw [if_pos hd]
    have hp : u.sc .current_half_track + 1 * c.DRIVE_HALFTRACKS_1571
        > c.DRIVE_HALFTRACKS_1571 + 1 := by
      rw [Int.one_mul]; omega
    rw [if_pos hp, Int.one_mul]
    congr 1
    omega

/-- The reader on a container whose `DRIVE` module is the one the writer emits
for the world `ww`, when it returns 0: the decoded units `w6` and local arrays
`loc`, the world `w5` before the loop of the clocks, and the final world. -/
theorem read_written_module (c : Cfg) (e : Ext) (ww wr : World) (tail : Snapshot)
    (hr : (drive_snapshot_read_module c e
      (⟨.DRIVE, DRIVE_SNAP_MAJOR, DRIVE_SNAP_MINOR, drive_payload c e ww⟩ :: tail) wr).1 = 0) :
    ∃ w6 loc w5,
      (∀ j f, j < NUM_DISK_UNITS → (w6.units j).sc f
        = (decoded layout_ready (drive_unit_fields_ready (ww.units j)) (.live f)).getD
            ((decoded layout_current
              (drive_unit_fields c (ww.units j) (e.rotation_table_get j)) (.live f)).getD
              ((wr.units j).sc f))) ∧
      (∀ l j, j < NUM_DISK_UNITS → loc l j
        = (decoded layout_clk (drive_unit_fields_clk (ww.units j)) (.loc l)).getD
            ((decoded layout_current
              (drive_unit_fields c (ww.units j) (e.rotation_table_get j)) (.loc l)).getD
              (e.uninit l j))) ∧
      evolves w6 w5 ∧
      (∀ j f, ((drive_snapshot_read_module c e
          (⟨.DRIVE, DRIVE_SNAP_MAJOR, DRIVE_SNAP_MINOR, drive_payload c e ww⟩ :: tail) wr).2.units
            j).sc f
        = if j < NUM_DISK_UNITS then clock_applied c loc w5 j f else (w5.units j).sc f) ∧
      ∃ t, (drive_snapshot_read_module c e
            (⟨.DRIVE, DRIVE_SNAP_MAJOR, DRIVE_SNAP_MINOR, drive_payload c e ww⟩ :: tail)
            wr).2.trace = wr.trace ++ t ∧
        Event.rotation_table_set
          ((List.range NUM_DISK_UNITS).map (fun i => loc .rotation_table_ptr i)) ∈ t ∧
        ∀ j, j < NUM_DISK_UNITS →
          Event.drive_set_half_track
            (decode_half_track c ((w5.units j).sc .type) (loc .half_track j)).1
            (decode_half_track c ((w5.units j).sc .type) (loc .half_track j)).2 j ∈ t := by
  obtain ⟨w6, loc, heq, hu, hl, t6, ht6, hrot⟩ := read_module_decodes c e ww wr tail
  rw [heq] at hr ⊢
  obtain ⟨w5, ev, hsc, t5, ht5, hht⟩ := read_restore_spec c e _ w6 loc _ hr
  obtain ⟨tv, htv⟩ := ev.2
  refine ⟨w6, loc, w5, hu, hl, ev, hsc, t6 ++ (tv ++ t5), ?_, ?_, ?_⟩
  · rw [ht5, htv, ht6]
    simp only [List.append_assoc]
  · exact List.mem_append_left _ hrot
  · intro j hj
    exact List.mem_append_right _ (List.mem_append_right _ (hht j hj))

set_option maxRecDepth 100000 in
/-- C1 (counterexample): the attach clock of a unit without drive is not
restored. The four units have type `DRIVE_TYPE_NONE` and attach clock 5 when
written; the write and the read into a world whose attach clocks are 0 both
return 0, and the attach clock of unit 1 is still 0 after the read. -/
theorem C1_clock_of_absent_drive_not_restored :
    valid_unit (exampleCfg false) (exampleStampedWorld.units 1) ∧
    (drive_snapshot_write_module (exampleCfg false) exampleExt [] exampleStampedWorld 0 0).1 = 0 ∧
    (drive_snapshot_read_module (exampleCfg false) exampleExt
      (drive_snapshot_write_module (exampleCfg false) exampleExt [] exampleStampedWorld 0 0).2.1
      exampleWorld).1 = 0 ∧
    (exampleStampedWorld.units 1).sc .attach_clk = 5 ∧
    ((drive_snapshot_read_module (exampleCfg false) exampleExt
      (drive_snapshot_write_module (exampleCfg false) exampleExt [] exampleStampedWorld 0 0).2.1
      exampleWorld).2.units 1).sc .attach_clk = 0 := by
  decide

/-- C1 (amended): round trip of the `DRIVE` module. When
`drive_snapshot_write_module` writes the module (build with `__LIBRETRO__`, or
true drive emulation on) and returns 0, and `drive_snapshot_read_module` on the
container written returns 0, then for every unit `i` whose state is valid:
every member read straight into the unit (all of the current layout but the
clocks, the half-track word, the rotation-table pointer and the random seed) has
the value written; each of the three clocks has the value written if the type
of the unit is not `DRIVE_TYPE_NONE` and the value it had in the reading world
otherwise; `drive_set_half_track` is called with the half-track and side
written when the combined word keeps them; and `rotation_table_set` is called
with the pointers written. -/
theorem C1_drive_module_round_trip (c : Cfg) (e : Ext) (ww wr : World)
    (save_disks save_roms : Int)
    (hdrive : c.libretro = true ∨ ww.resources .DriveTrueEmulation ≠ 0)
    (hw : (drive_snapshot_write_module c e [] ww save_disks save_roms).1 = 0)
    (hr : (drive_snapshot_read_module c e
      (drive_snapshot_write_module c e [] ww save_disks save_roms).2.1 wr).1 = 0)
    (i : Nat) (hi : i < NUM_DISK_UNITS) (hvalid : valid_unit c (ww.units i)) :
    (∀ f ∈ direct_members,
      ((drive_snapshot_read_module c e
        (drive_snapshot_write_module c e [] ww save_disks save_roms).2.1 wr).2.units i).sc f
        = (ww.units i).sc f) ∧
    (∀ f ∈ clock_members,
      ((drive_snapshot_read_module c e
        (drive_snapshot_write_module c e [] ww save_disks save_roms).2.1 wr).2.units i).sc f
        = if (ww.units i).sc .type ≠ c.DRIVE_TYPE_NONE then (ww.units i).sc f
          else (wr.units i).sc f) ∧
    ∃ t, (drive_snapshot_read_module c e
        (drive_snapshot_write_module c e [] ww save_disks save_roms).2.1 wr).2.trace
          = wr.trace ++ t ∧
      (half_track_kept c (ww.units i) →
        Event.drive_set_half_track ((ww.units i).sc .current_half_track) ((ww.units i).sc .side) i
          ∈ t) ∧
      Event.rotation_table_set
        ((List.range NUM_DISK_UNITS).map (fun j => (castU 32 (e.rotation_table_get j) : Int)))
        ∈ t := by
  obtain ⟨tail, hc⟩ := write_module_container c e ww save_disks save_roms hdrive hw
  rw [hc] at hr ⊢
  obtain ⟨w6, loc, w5, hu, hl, ev, hsc, t, ht, hrot, hht⟩ :=
    read_written_module c e ww wr tail hr
  obtain ⟨hv, hh0, hh1⟩ := hvalid
  have hmem : ∀ f, f ∈ direct_members → ¬ config_flag f ∧ f ∉ clock_members := by decide
  have hcm : ∀ f, f ∈ clock_members → ¬ config_flag f := by decide
  have hty : (w5.units i).sc .type = (ww.units i).sc .type := by
    rw [ev.1 i .type (by decide), hu i .type hi]
    exact direct_member_decoded c _ _ _ .type (by decide) (hv .type (by decide))
  have hloc := local_decoded c (ww.units i) (e.rotation_table_get i) (fun l => e.uninit l i)
  refine ⟨?_, ?_, t, ht, ?_, ?_⟩
  · intro f hf
    rw [hsc i f, if_pos hi]
    have hnc : clock_applied c loc w5 i f = (w5.units i).sc f := by
      have h1 := (hmem f hf).2
      simp only [clock_members, List.mem_cons, List.mem_singleton, List.not_mem_nil, or_false,
        not_or] at h1
      unfold clock_applied
      split
      · rw [if_neg h1.1, if_neg h1.2.1, if_neg h1.2.2]
      · rfl
    rw [hnc, ev.1 i f (hmem f hf).1, hu i f hi]
    exact direct_member_decoded c _ _ _ f hf
      (hv f (List.mem_append_left _ (List.mem_append_left _ hf)))
  · intro f hf
    rw [hsc i f, if_pos hi]
    unfold clock_applied
    rw [hty]
    have hvf := hv f (List.mem_append_left _ (List.mem_append_right _ hf))
    by_cases hn : (ww.units i).sc .type ≠ c.DRIVE_TYPE_NONE
    · rw [if_pos hn, if_pos hn]
      simp only [clock_members, List.mem_cons, List.mem_singleton, List.not_mem_nil,
        or_false] at hf
      rcases hf with rfl | rfl | rfl
      · rw [if_pos rfl, hl _ i hi, hloc.1]
        exact castU_of_range 32 _ hvf.1 hvf.2
      · rw [if_neg (by decide), if_pos rfl, hl _ i hi, hloc.2.1]
        exact castU_of_range 32 _ hvf.1 hvf.2
      · rw [if_neg (by decide), if_neg (by decide), if_pos rfl, hl _ i hi, hloc.2.2.1]
        exact castU_of_range 32 _ hvf.1 hvf.2
    · rw [if_neg hn, if_neg hn, ev.1 i f (hcm f hf), hu i f hi]
      exact clock_member_not_decoded c _ _ _ f hf
  · intro hk
    have h := hht i hi
    rw [hty, hl _ i hi, hloc.2.2.2.1, castU_of_range 16 _ hh0 hh1,
      decode_half_track_kept c _ hk] at h
    exact h
  · have hmap : (List.range NUM_DISK_UNITS).map (fun j => loc .rotation_table_ptr j)
        = (List.range NUM_DISK_UNITS).map
            (fun j => (castU 32 (e.rotation_table_get j) : Int)) := by
      apply List.map_congr_left
      intro j hj
      rw [hl _ j (List.mem_range.mp hj)]
      exact (local_decoded c (ww.units j) (e.rotation_table_get j)
        (fun l => e.uninit l j)).2.2.2.2
    rw [← hmap]
    exact hrot

set_option maxRecDepth 100000 in
/-- C1 (witness): the 1541 drive of `exampleDriveWorld`, written and read back
into `exampleWorld` in a build without `__LIBRETRO__`. -/
theorem C1_drive_module_round_trip_witness :
    ((exampleCfg false).libretro = true ∨
      exampleDriveWorld.resources .DriveTrueEmulation ≠ 0) ∧
    (drive_snapshot_write_module (exampleCfg false) exampleExt [] exampleDriveWorld 0 0).1 = 0 ∧
    (drive_snapshot_read_module (exampleCfg false) exampleExt
      (drive_snapshot_write_module (exampleCfg false) exampleExt [] exampleDriveWorld 0 0).2.1
      exampleWorld).1 = 0 ∧
    valid_unit (exampleCfg false) (exampleDriveWorld.units 0) ∧
    half_track_kept (exampleCfg false) (exampleDriveWorld.units 0) ∧
    ((∀ f ∈ direct_members,
      ((drive_snapshot_read_module (exampleCfg false) exampleExt
        (drive_snapshot_write_module (exampleCfg false) exampleExt [] exampleDriveWorld 0 0).2.1
        exampleWorld).2.units 0).sc f = (exampleDriveWorld.units 0).sc f) ∧
    (∀ f ∈ clock_members,
      ((drive_snapshot_read_module (exampleCfg false) exampleExt
        (drive_snapshot_write_module (exampleCfg false) exampleExt [] exampleDriveWorld 0 0).2.1
        exampleWorld).2.units 0).sc f
        = if (exampleDriveWorld.units 0).sc .type ≠ (exampleCfg false).DRIVE_TYPE_NONE
          then (exampleDriveWorld.units 0).sc f else (exampleWorld.units 0).sc f) ∧
    ∃ t, (drive_snapshot_read_module (exampleCfg false) exampleExt
        (drive_snapshot_write_module (exampleCfg false) exampleExt [] exampleDriveWorld 0 0).2.1
        exampleWorld).2.trace = exampleWorld.trace ++ t ∧
      (half_track_kept (exampleCfg false) (exampleDriveWorld.units 0) →
        Event.drive_set_half_track ((exampleDriveWorld.units 0).sc .current_half_track)
          ((exampleDriveWorld.units 0).sc .side) 0 ∈ t) ∧
      Event.rotation_table_set
        ((List.range NUM_DISK_UNITS).map
          (fun j => (castU 32 (exampleExt.rotation_table_get j) : Int))) ∈ t) :=
  ⟨by decide, by decide, by decide, by decide, by decide,
    C1_drive_module_round_trip (exampleCfg false) exampleExt exampleDriveWorld exampleWorld 0 0
      (by decide) (by decide) (by decide) 0 (by decide) (by decide)⟩

/-! ## The image readers: what a successful read leaves -/

theorem gcr_loaded_image (w : World) (dnr : Nat) :
    ((gcr_loaded w dnr).units dnr).image = none := by
  simp [gcr_loaded]

theorem open_p64_some (s : Snapshot) (w : World) (dnr : Nat) (md : SnapModule)
    (h : p64_module s dnr = some md) :
    snapshot_module_open s w (.P64IMAGE dnr) =
      (some (⟨.P64IMAGE dnr, md.data⟩, md.major, md.minor),
        w.log (.snapshot_module_open (.P64IMAGE dnr) true)) := by
  unfold snapshot_module_open
  unfold p64_module at h
  rw [h]

theorem read_gcrimage_image_none (c : Cfg) (s : Snapshot) (w : World) (dnr : Nat)
    (hm : gcr_module s dnr ≠ none)
    (h0 : (drive_snapshot_read_gcrimage_module c s w dnr).1 = 0) :
    ((drive_snapshot_read_gcrimage_module c s w dnr).2.units dnr).image = none := by
  obtain ⟨md, hmd⟩ := Option.ne_none_iff_exists'.mp hm
  revert h0
  unfold drive_snapshot_read_gcrimage_module
  rw [open_gcr_some s w dnr md hmd]
  simp only []
  repeat' split
  all_goals first
    | (intro _; exact gcr_loaded_image _ _)
    | (intro h0; simp at h0)

theorem read_p64image_image_none (e : Ext) (s : Snapshot) (w : World) (dnr : Nat)
    (hm : p64_module s dnr ≠ none)
    (h0 : (drive_snapshot_read_p64image_module e s w dnr).1 = 0) :
    ((drive_snapshot_read_p64image_module e s w dnr).2.units dnr).image = none := by
  obtain ⟨md, hmd⟩ := Option.ne_none_iff_exists'.mp hm
  revert h0
  unfold drive_snapshot_read_p64image_module
  rw [open_p64_some s w dnr md hmd]
  simp only []
  repeat' split
  all_goals first
    | (intro h0; simp at h0; done)
    | (intro _; simp)

/-- C11. After a successful read of a `GCRIMAGEk` module by
`drive_snapshot_read_gcrimage_module` (the module is present and the call
returns 0) the flat-image reference `drive->image` of the unit is `NULL`, and so
it is after a successful read of a `P64IMAGEk` module by
`drive_snapshot_read_p64image_module`; in both builds. -/
theorem C11_flat_image_null_after_gcr_or_p64_read (c : Cfg) (e : Ext) (s : Snapshot)
    (w : World) (dnr : Nat) :
    (gcr_module s dnr ≠ none → (drive_snapshot_read_gcrimage_module c s w dnr).1 = 0 →
      ((drive_snapshot_read_gcrimage_module c s w dnr).2.units dnr).image = none) ∧
    (p64_module s dnr ≠ none → (drive_snapshot_read_p64image_module e s w dnr).1 = 0 →
      ((drive_snapshot_read_p64image_module e s w dnr).2.units dnr).image = none) :=
  ⟨read_gcrimage_image_none c s w dnr, read_p64image_image_none e s w dnr⟩

set_option maxRecDepth 100000 in
/-- C11 (witness): unit 0 of `exampleBothWorld` holds a flat image; a `GCRIMAGE0`
module and a `P64IMAGE0` module are each read with success. -/
theorem C11_flat_image_null_after_gcr_or_p64_read_witness :
    ((exampleBothWorld.units 0).image ≠ none ∧
      gcr_module exampleGcrImage 0 ≠ none ∧
      (drive_snapshot_read_gcrimage_module (exampleCfg true) exampleGcrImage exampleBothWorld
        0).1 = 0 ∧
      ((drive_snapshot_read_gcrimage_module (exampleCfg true) exampleGcrImage exampleBothWorld
        0).2.units 0).image = none) ∧
    (p64_module exampleP64Image 0 ≠ none ∧
      (drive_snapshot_read_p64image_module exampleExt exampleP64Image exampleBothWorld 0).1 = 0 ∧
      ((drive_snapshot_read_p64image_module exampleExt exampleP64Image exampleBothWorld
        0).2.units 0).image = none) :=
  ⟨⟨by decide, by decide, by decide,
      (C11_flat_image_null_after_gcr_or_p64_read (exampleCfg true) exampleExt exampleGcrImage
        exampleBothWorld 0).1 (by decide) (by decide)⟩,
    ⟨by decide, by decide,
      (C11_flat_image_null_after_gcr_or_p64_read (exampleCfg true) exampleExt exampleP64Image
        exampleBothWorld 0).2 (by decide) (by decide)⟩⟩

/-! ## The flat image reader assigns no scalar member -/

theorem kept_refl (w : World) : scalars_kept w w := ⟨fun _ _ => rfl, ⟨[], by simp⟩⟩

theorem kept_trans {w w1 w2 : World} (h1 : scalars_kept w w1) (h2 : scalars_kept w1 w2) :
    scalars_kept w w2 := by
  obtain ⟨a1, t1, b1⟩ := h1
  obtain ⟨a2, t2, b2⟩ := h2
  exact ⟨fun j f => by rw [a2, a1], ⟨t1 ++ t2, by rw [b2, b1, List.append_assoc]⟩⟩

theorem kept_log {w w1 : World} (h : scalars_kept w w1) (ev : Event) :
    scalars_kept w (w1.log ev) := by
  obtain ⟨a1, t1, b1⟩ := h
  exact ⟨fun j f => a1 j f, ⟨t1 ++ [ev], by simp [b1]⟩⟩

theorem kept_close {w w1 : World} (h : scalars_kept w w1) (m : RHandle) :
    scalars_kept w (snapshot_module_close w1 m) := kept_log h _

theorem kept_error {w w1 : World} (h : scalars_kept w w1) (err : SnapError) :
    scalars_kept w (snapshot_set_error w1 err) := by
  obtain ⟨a1, t1, b1⟩ := h
  exact ⟨fun j f => a1 j f, ⟨t1 ++ [.snapshot_set_error err], by simp [snapshot_set_error, b1]⟩⟩

theorem kept_setUnit {w w1 : World} (h : scalars_kept w w1) (i : Nat) (u : DiskUnit)
    (hu : ∀ f, u.sc f = (w1.units i).sc f) : scalars_kept w (w1.setUnit i u) := by
  obtain ⟨a1, t1, b1⟩ := h
  refine ⟨fun j f => ?_, ⟨t1, by simp [b1]⟩⟩
  by_cases hj : j = i
  · subst hj; simp only [setUnit_units, if_true]; rw [hu f]; exact a1 j f
  · simp only [setUnit_units, hj, if_false]; exact a1 j f

theorem kept_detach {w w1 : World} (h : scalars_kept w w1) (dnr drv : Nat) :
    scalars_kept w (file_system_detach_disk w1 dnr drv) := by
  unfold file_system_detach_disk
  simp only
  split
  · exact kept_setUnit (kept_log h _) _ _ (fun _ => rfl)
  · exact kept_log h _

theorem open_kept (s : Snapshot) (w : World) (name : ModName) :
    scalars_kept w (snapshot_module_open s w name).2 := by
  unfold snapshot_module_open
  split <;> exact kept_log (kept_refl w) _

theorem read_sector_data_kept (st : ImgRead) : scalars_kept st.w (read_sector_data st).w := by
  obtain ⟨r, data, hr⟩ := SMR_BA_spec st.w st.m 256
  unfold read_sector_data
  rw [hr]
  cases r <;> exact kept_log (kept_refl _) _

theorem write_sector_live_kept (dnr track sector : Nat) (st st1 : ImgRead)
    (h : write_sector_live dnr track sector st = some st1) : scalars_kept st.w st1.w := by
  unfold write_sector_live at h
  split at h
  · cases h
  · split at h
    · cases h
    · injection h with h
      subst h
      exact kept_setUnit (kept_refl _) _ _ (fun _ => rfl)

theorem read_image_track_kept (dnr track : Nat) :
    ∀ (fuel sector : Nat) (st : ImgRead),
      scalars_kept st.w (read_image_track dnr track fuel sector st).2.w := by
  intro fuel
  induction fuel with
  | zero => intro sector st; exact kept_refl _
  | succ fuel ih =>
    intro sector st
    simp only [read_image_track]
    cases h : write_sector_live dnr track sector st with
    | none => exact kept_refl _
    | some st1 =>
      simp only
      exact kept_trans (write_sector_live_kept _ _ _ _ _ h)
        (kept_trans (read_sector_data_kept st1) (ih _ _))

theorem read_image_tracks_kept (dnr : Nat) :
    ∀ (fuel track : Nat) (st : ImgRead), scalars_kept st.w (read_image_tracks dnr fuel track st).w := by
  intro fuel
  induction fuel with
  | zero => intro track st; exact kept_refl _
  | succ fuel ih =>
    intro track st
    simp only [read_image_tracks]
    have h1 := read_image_track_kept dnr track (liveSectorsOn st.w dnr track + 1) 0 st
    cases hr : read_image_track dnr track (liveSectorsOn st.w dnr track + 1) 0 st with
    | mk sector st1 =>
      rw [hr] at h1
      simp only
      split
      · exact h1
      · exact kept_trans h1 (ih _ _)

theorem read_image_module_kept (c : Cfg) (e : Ext) (s : Snapshot) (w : World) (dnr : Nat) :
    scalars_kept w (drive_snapshot_read_image_module c e s w dnr).2 := by
  unfold drive_snapshot_read_image_module
  have ho1 := open_kept s w (.NOIMAGE dnr)
  cases h1 : snapshot_module_open s w (.NOIMAGE dnr) with
  | mk r1 w1 =>
    rw [h1] at ho1
    cases r1 with
    | some x =>
      obtain ⟨m, a, b⟩ := x
      simp only
      refine kept_close (kept_detach ?_ _ _) _
      split
      · exact kept_detach ho1 _ _
      · exact ho1
    | none =>
      simp only
      have ho2 := open_kept s w1 (.IMAGE dnr)
      cases h2 : snapshot_module_open s w1 (.IMAGE dnr) with
      | mk r2 w2 =>
        rw [h2] at ho2
        have h02 := kept_trans ho1 ho2
        cases r2 with
        | none => exact h02
        | some x =>
          obtain ⟨m, major, minor⟩ := x
          simp only
          split
          · exact kept_close (kept_error h02 _) _
          · split
            · exact kept_close (kept_error h02 _) _
            · obtain ⟨r, data, hr⟩ := SMR_W_spec w2 m
              rw [hr]
              cases r with
              | none => exact kept_close (kept_log h02 _) _
              | some word =>
                simp only
                have h03 := kept_log h02 (.snapshot_module_read m.name 2)
                split
                · exact kept_close (kept_log h03 _) _
                · exact kept_log h03 _
                · next len _ =>
                  split
                  · exact kept_close (kept_log (kept_log h03 _) _) _
                  · split
                    · exact kept_close (kept_log (kept_log (kept_log h03 _) _) _) _
                    · have h06 := kept_setUnit
                        (kept_log (kept_log (kept_log h03 .archdep_mkstemp_fd) .lib_free)
                          (.file_system_attach_disk (dnr + 8) 0 len)) dnr
                        { ((w2.log (.snapshot_module_read m.name 2)).log
                            .archdep_mkstemp_fd |>.log .lib_free |>.log
                              (.file_system_attach_disk (dnr + 8) 0 len)).units dnr with
                          image := (e.file_system_attach_disk (dnr + 8) len
                            (((w2.log (.snapshot_module_read m.name 2)).log
                              .archdep_mkstemp_fd |>.log .lib_free |>.log
                                (.file_system_attach_disk (dnr + 8) 0 len)).units dnr).image).2 }
                        (fun _ => rfl)
                      split
                      · exact kept_log (kept_log h06 _) _
                      · refine kept_close (kept_log ?_ _) _
                        exact kept_trans (kept_log h06 _)
                          (kept_trans (read_sector_data_kept _)
                            (read_image_tracks_kept _ _ _ _))


theorem open_noimage_some (s : Snapshot) (w : World) (dnr : Nat) (md : SnapModule)
    (h : noimage_module s dnr = some md) :
    snapshot_module_open s w (.NOIMAGE dnr) =
      (some (⟨.NOIMAGE dnr, md.data⟩, md.major, md.minor),
        w.log (.snapshot_module_open (.NOIMAGE dnr) true)) := by
  unfold snapshot_module_open
  unfold noimage_module at h
  rw [h]

/-- C13. When the container holds a `NOIMAGEk` module,
`drive_snapshot_read_image_module` returns 0 whatever the state of the unit, and
the calls it makes are exactly: the open of `NOIMAGEk`, the detach of the primary
slot of bus address k+8 when and only when the unit type is not
`DRIVE_TYPE_CMDHD`, the detach of the secondary slot, and the close of the
module; `IMAGEk` is neither opened nor read. -/
theorem C13_noimage_read_never_errors (c : Cfg) (e : Ext) (s : Snapshot) (w : World) (dnr : Nat)
    (h : noimage_module s dnr ≠ none) :
    (drive_snapshot_read_image_module c e s w dnr).1 = 0 ∧
    (drive_snapshot_read_image_module c e s w dnr).2.trace
      = w.trace ++ [Event.snapshot_module_open (.NOIMAGE dnr) true] ++
          (if (w.units dnr).sc .type ≠ c.DRIVE_TYPE_CMDHD
            then [Event.file_system_detach_disk (dnr + 8) 0] else []) ++
          [Event.file_system_detach_disk (dnr + 8) 1, Event.snapshot_module_close (.NOIMAGE dnr)] := by
  obtain ⟨md, hmd⟩ := Option.ne_none_iff_exists'.mp h
  unfold drive_snapshot_read_image_module
  rw [open_noimage_some s w dnr md hmd]
  simp only [log_units]
  by_cases ht : (w.units dnr).sc .type ≠ c.DRIVE_TYPE_CMDHD
  · rw [if_pos ht, if_pos ht]
    simp [file_system_detach_disk, snapshot_module_close]
  · rw [if_neg ht, if_neg ht]
    simp [file_system_detach_disk, snapshot_module_close]

set_option maxRecDepth 100000 in
/-- C13 (witness): the container `exampleNoImage` read for unit 0 of a world
without any image. -/
theorem C13_noimage_read_never_errors_witness :
    noimage_module exampleNoImage 0 ≠ none ∧
    (exampleWorld.units 0).image = none ∧
    (drive_snapshot_read_image_module (exampleCfg true) exampleExt exampleNoImage exampleWorld
      0).1 = 0 ∧
    (drive_snapshot_read_image_module (exampleCfg true) exampleExt exampleNoImage exampleWorld
      0).2.trace
      = exampleWorld.trace ++ [Event.snapshot_module_open (.NOIMAGE 0) true] ++
          (if (exampleWorld.units 0).sc .type ≠ (exampleCfg true).DRIVE_TYPE_CMDHD
            then [Event.file_system_detach_disk (0 + 8) 0] else []) ++
          [Event.file_system_detach_disk (0 + 8) 1, Event.snapshot_module_close (.NOIMAGE 0)] :=
  ⟨by decide, rfl,
    C13_noimage_read_never_errors (exampleCfg true) exampleExt exampleNoImage exampleWorld 0
      (by decide)⟩

/-! ## The reconstruction -/

/-- One `switch` of the reconstruction on a type that is a case label. -/
theorem reconstruct_unit_label (c : Cfg) (k : Nat) (cr se : Bool) (led : Nat) (w : World)
    (h : (w.units k).sc .type ∈ recognized_types c cr) :
    ∃ w1, reconstruct_unit c k cr se led w = some w1 ∧
      w1.trace = w.trace ++
        [.machine_drive_rom_setup_image k, .drivemem_init k,
          .resources_set_int (.DriveIdleMethod (8 + k)) ((w.units k).sc .idling_method),
          .driverom_initialize_traps k, .drive_set_active_led_color ((w.units k).sc .type) led,
          .machine_bus_status_drivetype_set (8 + k) 1] ∧
      (∀ q, w1.resources q
        = if q = .DriveIdleMethod (8 + k) then (w.units k).sc .idling_method else w.resources q) ∧
      (∀ j f, (w1.units j).sc f
        = if j = k ∧ f = .enable ∧ se = true then 1 else (w.units j).sc f) := by
  unfold reconstruct_unit
  simp only []
  rw [if_pos h]
  cases se with
  | false =>
    refine ⟨_, rfl, ?_, ?_, ?_⟩
    · simp [resources_set_int]
    · intro q
      simp [resources_set_int]
    · intro j f
      simp [resources_set_int]
  | true =>
    refine ⟨_, rfl, ?_, ?_, ?_⟩
    · simp [resources_set_int]
    · intro q
      simp [resources_set_int]
    · intro j f
      by_cases hj : j = k
      · subst hj
        by_cases hf : f = .enable
        · subst hf; simp [resources_set_int]
        · simp [resources_set_int, hf]
      · simp [resources_set_int, hj]

/-- One `switch` of the reconstruction on `DRIVE_TYPE_NONE`. -/
theorem reconstruct_unit_absent (c : Cfg) (k : Nat) (cr se : Bool) (led : Nat) (w : World)
    (h : (w.units k).sc .type ∉ recognized_types c cr)
    (h0 : (w.units k).sc .type = c.DRIVE_TYPE_NONE) :
    ∃ w1, reconstruct_unit c k cr se led w = some w1 ∧
      w1.trace = w.trace ++
        [.drive_disable k, .machine_bus_status_drivetype_set (8 + k) 0] ∧
      (∀ q, w1.resources q = w.resources q) ∧
      (∀ j f, (w1.units j).sc f = if j = k ∧ f = .enable then 0 else (w.units j).sc f) := by
  unfold reconstruct_unit
  simp only []
  rw [if_neg h, if_pos h0]
  refine ⟨_, rfl, ?_, ?_, ?_⟩
  · simp [drive_disable]
  · intro q
    simp [drive_disable]
  · intro j f
    by_cases hj : j = k
    · subst hj
      by_cases hf : f = .enable
      · subst hf; simp [drive_disable]
      · simp [drive_disable, hf]
    · simp [drive_disable, hj]

/-- One `switch` of the reconstruction on any other type: `return -1`. -/
theorem reconstruct_unit_default (c : Cfg) (k : Nat) (cr se : Bool) (led : Nat) (w : World)
    (h : (w.units k).sc .type ∉ recognized_types c cr)
    (h0 : (w.units k).sc .type ≠ c.DRIVE_TYPE_NONE) :
    reconstruct_unit c k cr se led w = none := by
  unfold reconstruct_unit
  simp only []
  rw [if_neg h, if_neg h0]

theorem reconstructed_zero (c : Cfg) (w : World) : reconstructed c 0 w w := by
  refine ⟨by simp, fun j f => by simp, fun j hj => by omega, fun j hj => by omega⟩

theorem reconstructed_type (c : Cfg) (n : Nat) (w wn : World) (h : reconstructed c n w wn)
    (j : Nat) : (wn.units j).sc .type = (w.units j).sc .type ∧
      (wn.units j).sc .idling_method = (w.units j).sc .idling_method := by
  constructor
  · rw [h.2.1 j .type]; simp
  · rw [h.2.1 j .idling_method]; simp

/-- The `switch` of slot `n` after those of the slots below it. -/
theorem reconstructed_step (c : Cfg) (n : Nat) (cr se : Bool) (led : Nat) (w wn : World)
    (h : reconstructed c n w wn)
    (hcr : recognized_types c cr = slot_labels c n) (hled : led = n % 2)
    (hse : se = true ↔ ¬ (c.libretro = true ∧ n = 0)) :
    (∀ w1, reconstruct_unit c n cr se led wn = some w1 → reconstructed c (n + 1) w w1) ∧
    (reconstruct_unit c n cr se led wn = none →
      (w.units n).sc .type ∉ slot_labels c n ∧ (w.units n).sc .type ≠ c.DRIVE_TYPE_NONE) := by
  obtain ⟨hty, hidle⟩ := reconstructed_type c n w wn h n
  obtain ⟨h1, h2, h3, h4⟩ := h
  by_cases hl : (wn.units n).sc .type ∈ recognized_types c cr
  · obtain ⟨w1, e1, t1, r1, s1⟩ := reconstruct_unit_label c n cr se led wn hl
    have hl2 : (w.units n).sc .type ∈ slot_labels c n := by rw [← hty, ← hcr]; exact hl
    refine ⟨fun w1x hx => ?_, fun hx => by rw [e1] at hx; cases hx⟩
    rw [e1] at hx
    injection hx with hx
    subst hx
    refine ⟨?_, ?_, ?_, ?_⟩
    · rw [t1, h1, List.range_succ, List.map_append, List.flatten_append]
      simp only [List.map_cons, List.map_nil, List.flatten_cons, List.flatten_nil,
        List.append_nil, List.append_assoc, slot_calls, if_pos hl2, hty, hidle, hled]
    · intro j f
      rw [s1 j f, h2 j f]
      by_cases hj : j = n
      · subst hj
        by_cases hf : f = .enable
        · subst hf
          by_cases hs : se = true
          · have := hse.mp hs
            simp [enable_after, hl2, hs, this]
          · have hh : c.libretro = true ∧ j = 0 := by
              by_contra hc
              exact hs (hse.mpr hc)
            obtain ⟨hlib, hj0⟩ := hh
            subst hj0
            simp [enable_after, hl2, hs, hlib]
        · simp [hf]
      · have hjn : (j < n + 1) = (j < n) := by
          apply propext; constructor <;> intro hh <;> omega
        simp only [hj, false_and, if_false, hjn]
    · intro j hj hlj
      rw [r1]
      by_cases hjn : j = n
      · subst hjn; simp [hidle]
      · have hne : Resource.DriveIdleMethod (8 + j) ≠ Resource.DriveIdleMethod (8 + n) := by
          intro hq; injection hq with hq; omega
        rw [if_neg hne]
        exact h3 j (by omega) hlj
    · intro j hj
      by_cases hjn : j = n
      · subst hjn; exact Or.inl hl2
      · exact h4 j (by omega)
  · have hl2 : (w.units n).sc .type ∉ slot_labels c n := by rw [← hty, ← hcr]; exact hl
    by_cases h0 : (wn.units n).sc .type = c.DRIVE_TYPE_NONE
    · obtain ⟨w1, e1, t1, r1, s1⟩ := reconstruct_unit_absent c n cr se led wn hl h0
      refine ⟨fun w1x hx => ?_, fun hx => by rw [e1] at hx; cases hx⟩
      rw [e1] at hx
      injection hx with hx
      subst hx
      refine ⟨?_, ?_, ?_, ?_⟩
      · rw [t1, h1, List.range_succ, List.map_append, List.flatten_append]
        simp only [List.map_cons, List.map_nil, List.flatten_cons, List.flatten_nil,
          List.append_nil, List.append_assoc, slot_calls, if_neg hl2]
      · intro j f
        rw [s1 j f, h2 j f]
        by_cases hj : j = n
        · subst hj
          by_cases hf : f = .enable
          · subst hf
            simp [enable_after, hl2]
          · simp [hf]
        · have hjn : (j < n + 1) = (j < n) := by
            apply propext; constructor <;> intro hh <;> omega
          simp only [hj, false_and, if_false, hjn]
      · intro j hj hlj
        rw [r1]
        by_cases hjn : j = n
        · subst hjn; exact absurd hlj hl2
        · exact h3 j (by omega) hlj
      · intro j hj
        by_cases hjn : j = n
        · subst hjn; exact Or.inr (hty ▸ h0)
        · exact h4 j (by omega)
    · refine ⟨fun w1x hx => ?_, fun _ => ⟨hl2, fun hh => h0 (hty.trans hh)⟩⟩
      rw [reconstruct_unit_default c n cr se led wn hl h0] at hx
      cases hx

/-- The four `switch` statements: either all of them are passed, or the first
slot whose type is neither a case label nor `DRIVE_TYPE_NONE` stops the
reconstruction. -/
theorem reconstruct_spec (c : Cfg) (w : World) :
    ((reconstruct c w).1 = true ∧ reconstructed c 4 w (reconstruct c w).2) ∨
    ((reconstruct c w).1 = false ∧ ∃ k0, k0 < 4 ∧ reconstructed c k0 w (reconstruct c w).2 ∧
      (w.units k0).sc .type ∉ slot_labels c k0 ∧ (w.units k0).sc .type ≠ c.DRIVE_TYPE_NONE) := by
  have hse0 : (!c.libretro) = true ↔ ¬ (c.libretro = true ∧ 0 = 0) := by
    cases c.libretro <;> simp
  have hse : ∀ n, n ≠ 0 → (true = true ↔ ¬ (c.libretro = true ∧ n = 0)) := by
    intro n hn; simp [hn]
  have r0 := reconstructed_zero c w
  unfold reconstruct
  obtain ⟨a0, b0⟩ := reconstructed_step c 0 true (!c.libretro) 0 w w r0 rfl rfl hse0
  split
  · next h0 => exact Or.inr ⟨rfl, 0, by omega, r0, b0 h0⟩
  · next w1 h0 =>
    have r1 := a0 w1 h0
    obtain ⟨a1, b1⟩ := reconstructed_step c 1 false true 1 w w1 r1 rfl rfl (hse 1 (by omega))
    split
    · next h1 => exact Or.inr ⟨rfl, 1, by omega, r1, b1 h1⟩
    · next w2 h1 =>
      have r2 := a1 w2 h1
      obtain ⟨a2, b2⟩ := reconstructed_step c 2 true true 0 w w2 r2 rfl rfl (hse 2 (by omega))
      split
      · next h2 => exact Or.inr ⟨rfl, 2, by omega, r2, b2 h2⟩
      · next w3 h2 =>
        have r3 := a2 w3 h2
        obtain ⟨a3, b3⟩ := reconstructed_step c 3 false true 1 w w3 r3 rfl rfl (hse 3 (by omega))
        split
        · next h3 => exact Or.inr ⟨rfl, 3, by omega, r3, b3 h3⟩
        · next w4 h3 => exact Or.inl ⟨rfl, a3 w4 h3⟩

theorem slot_calls_filter_other (c : Cfg) (j k : Nat) (u : DiskUnit) (h : j ≠ k) :
    (slot_calls c j u).filter (addressed_to k) = [] := by
  unfold slot_calls
  split <;> simp [addressed_to, h]

theorem slot_calls_filter_self (c : Cfg) (k : Nat) (u : DiskUnit) :
    (slot_calls c k u).filter (addressed_to k)
      = if u.sc .type ∈ slot_labels c k then
          [.machine_drive_rom_setup_image k, .drivemem_init k,
            .resources_set_int (.DriveIdleMethod (8 + k)) (u.sc .idling_method),
            .driverom_initialize_traps k, .machine_bus_status_drivetype_set (8 + k) 1]
        else [.drive_disable k, .machine_bus_status_drivetype_set (8 + k) 0] := by
  unfold slot_calls
  split <;> simp [addressed_to]

theorem slots_filter (c : Cfg) (w : World) (k : Nat) :
    ∀ n, (((List.range n).map (fun j => slot_calls c j (w.units j))).flatten).filter
        (addressed_to k)
      = if k < n then (slot_calls c k (w.units k)).filter (addressed_to k) else [] := by
  intro n
  induction n with
  | zero => simp
  | succ n ih =>
    rw [List.range_succ, List.map_append, List.flatten_append, List.filter_append, ih]
    simp only [List.map_cons, List.map_nil, List.flatten_cons, List.flatten_nil, List.append_nil]
    by_cases h1 : k < n
    · have h2 : k < n + 1 := by omega
      rw [if_pos h1, if_pos h2, slot_calls_filter_other c n k _ (by omega), List.append_nil]
    · by_cases h3 : k = n
      · subst h3
        simp
      · have h2 : ¬ k < n + 1 := by omega
        rw [if_neg h1, if_neg h2, slot_calls_filter_other c n k _ (fun h => h3 h.symm)]
        rfl

theorem slot_labels_sub (c : Cfg) (k : Nat) (x : Int) (h : x ∈ slot_labels c k) :
    x ∈ recognized_types c true := by
  unfold slot_labels at h
  cases hd : decide (k % 2 = 0) with
  | true => rw [hd] at h; exact h
  | false =>
    rw [hd] at h
    simp only [recognized_types, Bool.false_eq_true, if_false, if_true, List.append_nil,
      List.mem_append, List.mem_cons, List.mem_singleton, List.not_mem_nil, or_false] at h ⊢
    tauto

theorem slot_calls_mem (c : Cfg) (w : World) (k n : Nat) (hk : k < n) (ev : Event)
    (h : ev ∈ slot_calls c k (w.units k)) :
    ev ∈ ((List.range n).map (fun j => slot_calls c j (w.units j))).flatten := by
  rw [List.mem_flatten]
  exact ⟨_, List.mem_map.mpr ⟨k, List.mem_range.mpr hk, rfl⟩, h⟩

set_option maxRecDepth 100000 in
/-- C14 (counterexample): in a build with `__LIBRETRO__` the reconstruction of a
1541 in slot 0 does not fail but leaves the unit as it was, not enabled
(`unit->enable = 1` is compiled out for slot 0). And in either build the type
`DRIVE_TYPE_1571CR`, a case label of slots 0 and 2 only, makes the
reconstruction fail in slot 1. -/
theorem C14_slot_0_not_enabled_with_libretro :
    ((exampleDriveWorld.units 0).sc .type = (exampleCfg true).DRIVE_TYPE_1541 ∧
      (exampleDriveWorld.units 0).sc .enable = 0 ∧
      (reconstruct (exampleCfg true) exampleDriveWorld).1 = true ∧
      ((reconstruct (exampleCfg true) exampleDriveWorld).2.units 0).sc .enable = 0) ∧
    ((exampleCRWorld.units 1).sc .type = (exampleCfg false).DRIVE_TYPE_1571CR ∧
      (reconstruct (exampleCfg false) exampleCRWorld).1 = false ∧
      (reconstruct (exampleCfg true) exampleCRWorld).1 = false) := by
  decide

/-- C14 (amended): when the type of every slot is a case label of the `switch`
of that slot (the nineteen models for slots 0 and 2, the same without
`DRIVE_TYPE_1571CR` for slots 1 and 3) or `DRIVE_TYPE_NONE`, the reconstruction
does not fail; for a slot `k` whose type is a case label it installs the ROM
traps of unit `k`, marks bus address `8 + k` as occupied, and sets the unit
enabled, except that with `__LIBRETRO__` the member `enable` of slot 0 is left
as it was. -/
theorem C14_reconstruction_of_case_labels (c : Cfg) (w : World)
    (hall : ∀ j, j < NUM_DISK_UNITS →
      (w.units j).sc .type ∈ slot_labels c j ∨ (w.units j).sc .type = c.DRIVE_TYPE_NONE)
    (k : Nat) (hk : k < NUM_DISK_UNITS) (hl : (w.units k).sc .type ∈ slot_labels c k) :
    (reconstruct c w).1 = true ∧
    ((reconstruct c w).2.units k).sc .enable
      = (if c.libretro = true ∧ k = 0 then (w.units k).sc .enable else 1) ∧
    ∃ t, (reconstruct c w).2.trace = w.trace ++ t ∧
      Event.driverom_initialize_traps k ∈ t ∧
      Event.machine_bus_status_drivetype_set (8 + k) 1 ∈ t := by
  rcases reconstruct_spec c w with ⟨h1, h2⟩ | ⟨_, k0, hk0, _, hb1, hb2⟩
  · refine ⟨h1, ?_, _, h2.1, ?_, ?_⟩
    · rw [h2.2.1 k .enable, if_pos ⟨hk, rfl⟩, enable_after, if_pos hl]
    · apply slot_calls_mem c w k 4 hk
      simp [slot_calls, hl]
    · apply slot_calls_mem c w k 4 hk
      simp [slot_calls, hl]
  · rcases hall k0 hk0 with h | h
    · exact absurd h hb1
    · exact absurd h hb2

set_option maxRecDepth 100000 in
/-- C14 (witness): the 1541 of `exampleDriveWorld` in slot 0, the other slots
without drive, in a build without `__LIBRETRO__`. -/
theorem C14_reconstruction_of_case_labels_witness :
    (∀ j, j < NUM_DISK_UNITS →
      (exampleDriveWorld.units j).sc .type ∈ slot_labels (exampleCfg false) j ∨
        (exampleDriveWorld.units j).sc .type = (exampleCfg false).DRIVE_TYPE_NONE) ∧
    (exampleDriveWorld.units 0).sc .type ∈ slot_labels (exampleCfg false) 0 ∧
    (reconstruct (exampleCfg false) exampleDriveWorld).1 = true ∧
    ((reconstruct (exampleCfg false) exampleDriveWorld).2.units 0).sc .enable
      = (if (exampleCfg false).libretro = true ∧ 0 = 0
          then (exampleDriveWorld.units 0).sc .enable else 1) ∧
    ∃ t, (reconstruct (exampleCfg false) exampleDriveWorld).2.trace
        = exampleDriveWorld.trace ++ t ∧
      Event.driverom_initialize_traps 0 ∈ t ∧
      Event.machine_bus_status_drivetype_set (8 + 0) 1 ∈ t :=
  ⟨by decide, by decide,
    C14_reconstruction_of_case_labels (exampleCfg false) exampleDriveWorld (by decide) 0
      (by decide) (by decide)⟩

/-- C15. When the reconstruction passes the four `switch` statements, the calls
it addresses to slot `k` or to bus address `8 + k` are determined by the type of
unit `k` alone. For `DRIVE_TYPE_NONE` they are `drive_disable` of unit `k` and
the bus status 0 of address `8 + k`, and the unit is disabled. For any other
type (then a case label of the slot) they are the ROM set-up, the memory map,
the resource `Drive<8+k>IdleMethod` set to the idling method of unit `k`, the
traps of unit `k`, and the bus status 1 of address `8 + k`. The case labels of a
`switch` being distinct, `DRIVE_TYPE_NONE` is none of the drive models. -/
theorem C15_reconstruction_addresses_own_slot (c : Cfg) (w : World)
    (hdist : c.DRIVE_TYPE_NONE ∉ recognized_types c true)
    (hok : (reconstruct c w).1 = true) (k : Nat) (hk : k < NUM_DISK_UNITS) :
    ∃ t, (reconstruct c w).2.trace = w.trace ++ t ∧
      ((w.units k).sc .type = c.DRIVE_TYPE_NONE →
        ((reconstruct c w).2.units k).sc .enable = 0 ∧
        t.filter (addressed_to k)
          = [.drive_disable k, .machine_bus_status_drivetype_set (8 + k) 0]) ∧
      ((w.units k).sc .type ≠ c.DRIVE_TYPE_NONE →
        (w.units k).sc .type ∈ slot_labels c k ∧
        (reconstruct c w).2.resources (.DriveIdleMethod (8 + k))
          = (w.units k).sc .idling_method ∧
        t.filter (addressed_to k)
          = [.machine_drive_rom_setup_image k, .drivemem_init k,
              .resources_set_int (.DriveIdleMethod (8 + k)) ((w.units k).sc .idling_method),
              .driverom_initialize_traps k, .machine_bus_status_drivetype_set (8 + k) 1]) := by
  have hk4 : k < 4 := hk
  rcases reconstruct_spec c w with ⟨_, h1, h2, h3, h4⟩ | ⟨hf, _⟩
  · refine ⟨_, h1, ?_, ?_⟩
    · intro h0
      have hn : (w.units k).sc .type ∉ slot_labels c k := by
        intro hl
        exact hdist (h0 ▸ slot_labels_sub c k _ hl)
      refine ⟨?_, ?_⟩
      · rw [h2 k .enable, if_pos ⟨hk, rfl⟩, enable_after, if_neg hn]
      · rw [slots_filter c w k 4, if_pos hk4, slot_calls_filter_self, if_neg hn]
    · intro h0
      have hl : (w.units k).sc .type ∈ slot_labels c k := by
        rcases h4 k hk with h | h
        · exact h
        · exact absurd h h0
      refine ⟨hl, h3 k hk hl, ?_⟩
      rw [slots_filter c w k 4, if_pos hk4, slot_calls_filter_self, if_pos hl]
  · rw [hf] at hok
    cases hok

set_option maxRecDepth 100000 in
/-- C15 (witness): `exampleDriveWorld`, a 1541 in slot 0 and no drive in the
other slots; slot 1 is the one looked at. -/
theorem C15_reconstruction_addresses_own_slot_witness :
    (exampleCfg true).DRIVE_TYPE_NONE ∉ recognized_types (exampleCfg true) true ∧
    (reconstruct (exampleCfg true) exampleDriveWorld).1 = true ∧
    ∃ t, (reconstruct (exampleCfg true) exampleDriveWorld).2.trace
        = exampleDriveWorld.trace ++ t ∧
      ((exampleDriveWorld.units 1).sc .type = (exampleCfg true).DRIVE_TYPE_NONE →
        ((reconstruct (exampleCfg true) exampleDriveWorld).2.units 1).sc .enable = 0 ∧
        t.filter (addressed_to 1)
          = [.drive_disable 1, .machine_bus_status_drivetype_set (8 + 1) 0]) ∧
      ((exampleDriveWorld.units 1).sc .type ≠ (exampleCfg true).DRIVE_TYPE_NONE →
        (exampleDriveWorld.units 1).sc .type ∈ slot_labels (exampleCfg true) 1 ∧
        (reconstruct (exampleCfg true) exampleDriveWorld).2.resources (.DriveIdleMethod (8 + 1))
          = (exampleDriveWorld.units 1).sc .idling_method ∧
        t.filter (addressed_to 1)
          = [.machine_drive_rom_setup_image 1, .drivemem_init 1,
              .resources_set_int (.DriveIdleMethod (8 + 1))
                ((exampleDriveWorld.units 1).sc .idling_method),
              .driverom_initialize_traps 1, .machine_bus_status_drivetype_set (8 + 1) 1]) :=
  ⟨by decide, by decide,
    C15_reconstruction_addresses_own_slot (exampleCfg true) exampleDriveWorld (by decide)
      (by decide) 1 (by decide)⟩

/-! ## The two parts of the reader -/

/-- The reader is its decoding part followed by the part after
`rotation_table_set`. -/
theorem read_module_of_decode (c : Cfg) (e : Ext) (s : Snapshot) (w w6 : World)
    (loc : Local → Nat → Int) (sf : Int)
    (h : drive_snapshot_read_decode c e s w = some (w6, loc, sf)) :
    drive_snapshot_read_module c e s w = drive_snapshot_read_restore c e s w6 loc sf := by
  unfold drive_snapshot_read_decode at h
  unfold drive_snapshot_read_module
  rcases hopen : snapshot_module_open s w .DRIVE with ⟨r, w1⟩
  rw [hopen] at h
  cases r with
  | none => simp at h
  | some x =>
    obtain ⟨m, major, minor⟩ := x
    simp only [] at h ⊢
    by_cases hb : snapshot_version_is_bigger major minor DRIVE_SNAP_MAJOR DRIVE_SNAP_MINOR = true
    · rw [if_pos hb] at h; cases h
    · rw [if_neg hb] at h ⊢
      by_cases hs : snapshot_version_is_smaller major minor DRIVE_SNAP_MAJOR DRIVE_SNAP_MINOR
          = true
      · rw [if_pos hs] at h; cases h
      · rw [if_neg hs] at h ⊢
        generalize (if c.libretro = true then w1.log Event.drive_gcr_data_writeback_all
          else resources_set_int (w1.log Event.drive_gcr_data_writeback_all)
            Resource.DriveTrueEmulation 1) = w3 at h ⊢
        rcases hsm : SMR_DW w3 m with ⟨r, m1, w4⟩
        rw [hsm] at h
        cases r with
        | none => simp at h
        | some v =>
          simp only [] at h ⊢
          rcases hru : read_units major minor NUM_DISK_UNITS 0 ⟨m1, w4, e.uninit⟩ with ⟨b, st⟩
          rw [hru] at h
          cases b with
          | false => simp at h
          | true =>
            simp only [Option.some.injEq, Prod.mk.injEq] at h
            obtain ⟨h1, h2, h3⟩ := h
            subst h1 h2 h3
            rfl

theorem some_getD_of_isSome {α : Type} (o : Option α) (d : α) (h : o.isSome = true) :
    o = some (o.getD d) := by
  cases o with
  | none => cases h
  | some a => rfl

theorem slot_calls_not_restore (c : Cfg) (k : Nat) (u : DiskUnit) :
    ∀ ev ∈ slot_calls c k u, restore_call ev = false := by
  intro ev hev
  unfold slot_calls at hev
  split at hev
  · simp only [List.mem_cons, List.mem_singleton, List.not_mem_nil, or_false] at hev
    rcases hev with rfl | rfl | rfl | rfl | rfl | rfl <;> rfl
  · simp only [List.mem_cons, List.mem_singleton, List.not_mem_nil, or_false] at hev
    rcases hev with rfl | rfl <;> rfl

theorem slots_not_restore (c : Cfg) (w : World) (n : Nat) :
    ∀ ev ∈ ((List.range n).map (fun j => slot_calls c j (w.units j))).flatten,
      restore_call ev = false := by
  intro ev hev
  rw [List.mem_flatten] at hev
  obtain ⟨l, hl, hev⟩ := hev
  obtain ⟨j, _, rfl⟩ := List.mem_map.mp hl
  exact slot_calls_not_restore c j _ ev hev

/-- C16. When `drive_snapshot_read_module` has decoded the `DRIVE` module and the
restored type of some slot is neither a case label of the `switch` of that slot
(so none of the drive models) nor `DRIVE_TYPE_NONE`, the call returns -1. After
the decoding it makes no call but those of the reconstruction of the slots
before the failing one: no CPU-core, machine-drive, image or ROM sub-reader, no
`drive_enable`, no `drive_set_half_track`; and no scalar member other than
`enable` is assigned, so the staged clocks are not applied to any drive. -/
theorem C16_unrecognized_type_is_fatal (c : Cfg) (e : Ext) (s : Snapshot) (wr : World)
    (d : World × (Local → Nat → Int) × Int)
    (hd : drive_snapshot_read_decode c e s wr = some d)
    (k : Nat) (hk : k < NUM_DISK_UNITS)
    (h1 : (d.1.units k).sc .type ∉ slot_labels c k)
    (h0 : (d.1.units k).sc .type ≠ c.DRIVE_TYPE_NONE) :
    (drive_snapshot_read_module c e s wr).1 = -1 ∧
    (∃ t, (drive_snapshot_read_module c e s wr).2.trace = d.1.trace ++ t ∧
      ∀ ev ∈ t, restore_call ev = false) ∧
    ∀ j f, f ≠ Field.enable →
      ((drive_snapshot_read_module c e s wr).2.units j).sc f = (d.1.units j).sc f := by
  obtain ⟨w6, loc, sf⟩ := d
  rw [read_module_of_decode c e s wr w6 loc sf hd]
  unfold drive_snapshot_read_restore
  have hk4 : k < 4 := hk
  rcases reconstruct_spec c w6 with ⟨_, _, _, _, h4⟩ | ⟨hf, k0, _, ⟨t1, t2, _, _⟩, _, _⟩
  · rcases h4 k hk4 with h | h
    · exact absurd h h1
    · exact absurd h h0
  · rcases hrec : reconstruct c w6 with ⟨b, w1⟩
    rw [hrec] at hf t1 t2
    simp only [] at hf t1 t2
    subst hf
    refine ⟨rfl, ⟨_, t1, slots_not_restore c w6 k0⟩, ?_⟩
    intro j f hfe
    show (w1.units j).sc f = _
    rw [t2 j f]
    simp [hfe]

set_option maxRecDepth 100000 in
/-- C16 (witness): the container written for `exampleBadTypeWorld`, whose unit 2
has the type 9999, read into `exampleWorld`. -/
theorem C16_unrecognized_type_is_fatal_witness :
    (drive_snapshot_read_decode (exampleCfg true) exampleExt
      (drive_snapshot_write_module (exampleCfg true) exampleExt [] exampleBadTypeWorld 0 0).2.1
      exampleWorld).isSome = true ∧
    (drive_snapshot_read_module (exampleCfg true) exampleExt
      (drive_snapshot_write_module (exampleCfg true) exampleExt [] exampleBadTypeWorld 0 0).2.1
      exampleWorld).1 = -1 :=
  ⟨by decide,
    (C16_unrecognized_type_is_fatal (exampleCfg true) exampleExt
      (drive_snapshot_write_module (exampleCfg true) exampleExt [] exampleBadTypeWorld 0 0).2.1
      exampleWorld
      ((drive_snapshot_read_decode (exampleCfg true) exampleExt
        (drive_snapshot_write_module (exampleCfg true) exampleExt [] exampleBadTypeWorld 0 0).2.1
        exampleWorld).getD (exampleWorld, fun _ _ => 0, 0))
      (some_getD_of_isSome _ _ (by decide)) 2 (by decide) (by decide) (by decide)).1⟩

/-! ## The writer: which image writers it invokes -/

theorem invokes_refl (w : World) : invokes w w [] :=
  ⟨rfl, rfl, [], by simp, rfl⟩

theorem invokes_trans {w w1 w2 : World} {L1 L2 : List (ImageWriter × Nat)}
    (h1 : invokes w w1 L1) (h2 : invokes w1 w2 L2) : invokes w w2 (L1 ++ L2) := by
  obtain ⟨a1, b1, t1, c1, d1⟩ := h1
  obtain ⟨a2, b2, t2, c2, d2⟩ := h2
  refine ⟨a2.trans a1, b2.trans b1, t1 ++ t2, by rw [c2, c1, List.append_assoc], ?_⟩
  simp only [image_writers, List.filterMap_append] at d1 d2 ⊢
  rw [d1, d2]

theorem invokes_log {w w1 : World} {L : List (ImageWriter × Nat)} (h : invokes w w1 L)
    (ev : Event) (hev : image_writer_of ev = none) : invokes w (w1.log ev) L := by
  obtain ⟨a1, b1, t1, c1, d1⟩ := h
  refine ⟨a1, b1, t1 ++ [ev], by simp [c1], ?_⟩
  simp only [image_writers, List.filterMap_append] at d1 ⊢
  rw [d1]
  simp [List.filterMap_cons, hev]

theorem invokes_create {w w1 : World} {L : List (ImageWriter × Nat)} (h : invokes w w1 L)
    (ev : Event) (x : ImageWriter × Nat) (hev : image_writer_of ev = some x) :
    invokes w (w1.log ev) (L ++ [x]) := by
  obtain ⟨a1, b1, t1, c1, d1⟩ := h
  refine ⟨a1, b1, t1 ++ [ev], by simp [c1], ?_⟩
  simp only [image_writers, List.filterMap_append] at d1 ⊢
  rw [d1]
  simp [List.filterMap_cons, hev]

theorem close_w_invokes {w w1 : World} {L : List (ImageWriter × Nat)} (h : invokes w w1 L)
    (e : Ext) (s : Snapshot) (m : WHandle) (r : Bool × Snapshot × World)
    (hr : snapshot_module_close_w e s w1 m = r) : invokes w r.2.2 L := by
  subst hr
  exact invokes_log h _ rfl

theorem write_image_module_invokes (c : Cfg) (e : Ext) (s : Snapshot) (w : World) (dnr : Nat) :
    invokes w (drive_snapshot_write_image_module c e s w dnr).2.2 [(.flat, dnr)] := by
  unfold drive_snapshot_write_image_module
  simp only []
  generalize hn : (if ((w.units dnr).image.isNone ||
      decide ((w.units dnr).sc .type = c.DRIVE_TYPE_CMDHD)) = true
    then ModName.NOIMAGE dnr else ModName.IMAGE dnr) = name
  have hc : invokes w (w.log (.snapshot_module_create name IMAGE_SNAP_MAJOR IMAGE_SNAP_MINOR))
      [(.flat, dnr)] := by
    refine invokes_create (invokes_refl w) _ _ ?_
    rw [← hn]
    split <;> rfl
  unfold snapshot_module_create
  by_cases hcf : e.create_fails name = true
  · simp only [hcf, if_true]
    exact hc
  · simp only [hcf, Bool.false_eq_true, if_false]
    split
    · split
      · next heq => exact close_w_invokes hc _ _ _ _ heq
      · next heq => exact close_w_invokes hc _ _ _ _ heq
    · split
      · next heq => exact close_w_invokes hc _ _ _ _ heq
      · next heq => exact close_w_invokes hc _ _ _ _ heq

theorem write_gcrimage_module_invokes (c : Cfg) (e : Ext) (s : Snapshot) (w : World)
    (dnr : Nat) :
    invokes w (drive_snapshot_write_gcrimage_module c e s w dnr).2.2 [(.gcr, dnr)] := by
  have hc : invokes w
      (w.log (.snapshot_module_create (.GCRIMAGE dnr) GCRIMAGE_SNAP_MAJOR GCRIMAGE_SNAP_MINOR))
      [(.gcr, dnr)] := invokes_create (invokes_refl w) _ _ rfl
  unfold drive_snapshot_write_gcrimage_module
  simp only []
  unfold snapshot_module_create
  by_cases hcf : e.create_fails (.GCRIMAGE dnr) = true
  · simp only [hcf, if_true]
    exact hc
  · simp only [hcf, Bool.false_eq_true, if_false]
    repeat' split
    all_goals first
      | exact hc
      | exact close_w_invokes hc _ _ _ _ rfl

theorem write_p64image_module_invokes (e : Ext) (s : Snapshot) (w : World) (dnr : Nat) :
    invokes w (drive_snapshot_write_p64image_module e s w dnr).2.2 [(.p64, dnr)] := by
  have hc : invokes w
      (w.log (.snapshot_module_create (.P64IMAGE dnr) GCRIMAGE_SNAP_MAJOR GCRIMAGE_SNAP_MINOR))
      [(.p64, dnr)] := invokes_create (invokes_refl w) _ _ rfl
  unfold drive_snapshot_write_p64image_module
  simp only []
  unfold snapshot_module_create
  by_cases hcf : e.create_fails (.P64IMAGE dnr) = true
  · simp only [hcf, if_true]
    exact hc
  · simp only [hcf, Bool.false_eq_true, if_false]
    repeat' split
    all_goals first
      | exact hc
      | exact close_w_invokes hc _ _ _ _ rfl
      | exact close_w_invokes hc _ _ _ _ (by assumption)

/-- The image writer that the local arrays `GCR_image` and `P64_image` select. -/
theorem write_image_modules_invokes (c : Cfg) (e : Ext) (G P : Nat → Int) :
    ∀ (n d : Nat) (s : Snapshot) (w : World),
      ∃ L, invokes w (write_image_modules c e G P n d s w).2.2 L ∧
        L <+: (List.range' d n).map
          (fun k => (if G k > 0 then ImageWriter.gcr else if P k > 0 then .p64 else .flat, k)) ∧
        ((write_image_modules c e G P n d s w).1 = true →
          L = (List.range' d n).map
            (fun k => (if G k > 0 then ImageWriter.gcr else if P k > 0 then .p64 else .flat, k))) := by
  intro n
  induction n with
  | zero =>
    intro d s w
    exact ⟨[], invokes_refl w, by simp, fun _ => by simp⟩
  | succ n ih =>
    intro d s w
    simp only [write_image_modules]
    have hr : invokes w (if G d > 0 then drive_snapshot_write_gcrimage_module c e s w d
        else if P d > 0 then drive_snapshot_write_p64image_module e s w d
        else drive_snapshot_write_image_module c e s w d).2.2
        [(if G d > 0 then ImageWriter.gcr else if P d > 0 then .p64 else .flat, d)] := by
      split
      · exact write_gcrimage_module_invokes c e s w d
      · split
        · exact write_p64image_module_invokes e s w d
        · exact write_image_module_invokes c e s w d
    generalize (if G d > 0 then drive_snapshot_write_gcrimage_module c e s w d
        else if P d > 0 then drive_snapshot_write_p64image_module e s w d
        else drive_snapshot_write_image_module c e s w d) = r at hr
    by_cases hneg : r.1 < 0
    · simp only [hneg, if_true]
      refine ⟨_, hr, ?_, fun h => by cases h⟩
      rw [List.range'_succ, List.map_cons]
      exact List.prefix_cons_inj _ |>.mpr (List.nil_prefix)
    · simp only [hneg, if_false]
      obtain ⟨L, h1, h2, h3⟩ := ih (d + 1) r.2.1 r.2.2
      refine ⟨_, invokes_trans hr h1, ?_, fun h => ?_⟩
      · rw [List.range'_succ, List.map_cons]
        exact (List.prefix_cons_inj _).mpr h2
      · rw [List.range'_succ, List.map_cons, h3 h]
        rfl

theorem write_cpu_modules_invokes (c : Cfg) (e : Ext) :
    ∀ (n i : Nat) (w : World), invokes w (write_cpu_modules c e n i w).2 [] := by
  intro n
  induction n with
  | zero => intro i w; exact invokes_refl w
  | succ n ih =>
    intro i w
    simp only [write_cpu_modules]
    split
    · have hr : invokes w (if is_65c02 c ((w.units i).sc .type) = true then
          (e.drivecpu65c02_snapshot_write_module i, w.log (.drivecpu65c02_snapshot_write_module i))
          else (e.drivecpu_snapshot_write_module i,
            w.log (.drivecpu_snapshot_write_module i))).2 [] := by
        split
        · exact invokes_log (invokes_refl w) _ rfl
        · exact invokes_log (invokes_refl w) _ rfl
      generalize (if is_65c02 c ((w.units i).sc .type) = true then
          (e.drivecpu65c02_snapshot_write_module i, w.log (.drivecpu65c02_snapshot_write_module i))
          else (e.drivecpu_snapshot_write_module i,
            w.log (.drivecpu_snapshot_write_module i))) = r at hr
      split
      · exact hr
      · have h2 := invokes_log hr (.machine_drive_snapshot_write i) rfl
        split
        · exact h2
        · exact invokes_trans h2 (ih _ _)
    · exact ih _ _

theorem write_rom_modules_invokes (e : Ext) (save_roms : Int) :
    ∀ (n i : Nat) (w : World), invokes w (write_rom_modules e save_roms n i w).2 [] := by
  intro n
  induction n with
  | zero => intro i w; exact invokes_refl w
  | succ n ih =>
    intro i w
    simp only [write_rom_modules]
    split
    · have h1 := invokes_log (invokes_refl w) (.driverom_snapshot_write i) rfl
      split
      · exact h1
      · exact invokes_trans h1 (ih _ _)
    · exact ih _ _

theorem write_submodules_invokes (c : Cfg) (e : Ext) (s : Snapshot) (w : World)
    (save_disks save_roms : Int) (G P : Nat → Int) :
    ∃ L, invokes w (drive_snapshot_write_submodules c e s w save_disks save_roms G P).2.2 L ∧
      (save_disks = 0 → L = []) ∧
      L <+: (List.range' 0 NUM_DISK_UNITS).map
        (fun k => (if G k > 0 then ImageWriter.gcr else if P k > 0 then .p64 else .flat, k)) ∧
      ((drive_snapshot_write_submodules c e s w save_disks save_roms G P).1 = 0 →
        save_disks ≠ 0 → L = (List.range' 0 NUM_DISK_UNITS).map
          (fun k => (if G k > 0 then ImageWriter.gcr else if P k > 0 then .p64 else .flat, k))) := by
  unfold drive_snapshot_write_submodules
  have h1 := write_cpu_modules_invokes c e NUM_DISK_UNITS 0 w
  rcases hcpu : write_cpu_modules c e NUM_DISK_UNITS 0 w with ⟨b1, w1⟩
  rw [hcpu] at h1
  cases b1 with
  | false =>
    exact ⟨[], h1, fun _ => rfl, List.nil_prefix, fun h => by simp at h⟩
  | true =>
    simp only [] at h1 ⊢
    by_cases hsd : save_disks ≠ 0
    · rw [if_pos hsd]
      obtain ⟨L, i1, i2, i3⟩ := write_image_modules_invokes c e G P NUM_DISK_UNITS 0 s w1
      rcases himg : write_image_modules c e G P NUM_DISK_UNITS 0 s w1 with ⟨b2, s2, w2⟩
      rw [himg] at i1 i3
      cases b2 with
      | false =>
        exact ⟨L, by simpa using invokes_trans h1 i1, fun h => absurd h hsd, i2,
          fun h => by simp at h⟩
      | true =>
        simp only [] at i1 i3 ⊢
        have h3 := write_rom_modules_invokes e save_roms NUM_DISK_UNITS 0 w2
        have h4 : invokes w (write_rom_modules e save_roms NUM_DISK_UNITS 0 w2).2 L := by
          simpa using invokes_trans (invokes_trans h1 i1) h3
        rcases hrom : write_rom_modules e save_roms NUM_DISK_UNITS 0 w2 with ⟨b3, w3⟩
        rw [hrom] at h4
        cases b3 with
        | false => exact ⟨L, h4, fun h => absurd h hsd, i2, fun h => by simp at h⟩
        | true => exact ⟨L, h4, fun h => absurd h hsd, i2, fun _ _ => i3 trivial⟩
    · rw [if_neg hsd]
      simp only []
      have h3 := write_rom_modules_invokes e save_roms NUM_DISK_UNITS 0 w1
      have h4 : invokes w (write_rom_modules e save_roms NUM_DISK_UNITS 0 w1).2 [] := by
        simpa using invokes_trans h1 h3
      rcases hrom : write_rom_modules e save_roms NUM_DISK_UNITS 0 w1 with ⟨b3, w3⟩
      rw [hrom] at h4
      cases b3 with
      | false => exact ⟨[], h4, fun _ => rfl, List.nil_prefix, fun h => by simp at h⟩
      | true => exact ⟨[], h4, fun _ => rfl, List.nil_prefix, fun _ h => absurd h hsd⟩

theorem selected_by_arrays (ww : World) (save_disks : Int) (h : save_disks ≠ 0) :
    (List.range' 0 NUM_DISK_UNITS).map
      (fun k => (if (if (ww.units k).sc .GCR_image_loaded = 0 ∨ save_disks = 0 then (0 : Int)
          else 1) > 0 then ImageWriter.gcr
        else if (if (ww.units k).sc .P64_image_loaded = 0 ∨ save_disks = 0 then (0 : Int)
          else 1) > 0 then .p64 else .flat, k))
    = (List.range NUM_DISK_UNITS).map (fun k => (selected_writer (ww.units k), k)) := by
  rw [List.range_eq_range']
  apply List.map_congr_left
  intro k _
  unfold selected_writer
  by_cases h1 : (ww.units k).sc .GCR_image_loaded = 0
  · by_cases h2 : (ww.units k).sc .P64_image_loaded = 0
    · simp [h1, h2]
    · simp [h1, h2, h]
  · simp [h1, h]

/-- The image writers that `drive_snapshot_write_module` invokes: a prefix of
the list of the selected writers of the units 0 to 3, the whole list when the
call gets to the end of the loop over the images. -/
theorem write_module_invokes (c : Cfg) (e : Ext) (s : Snapshot) (ww : World)
    (save_disks save_roms : Int) :
    ∃ L, invokes ww (drive_snapshot_write_module c e s ww save_disks save_roms).2.2 L ∧
      (save_disks = 0 → L = []) ∧
      L <+: (List.range NUM_DISK_UNITS).map (fun k => (selected_writer (ww.units k), k)) ∧
      ((drive_snapshot_write_module c e s ww save_disks save_roms).1 = 0 →
        (c.libretro = true ∨ ww.resources .DriveTrueEmulation ≠ 0) → save_disks ≠ 0 →
        L = (List.range NUM_DISK_UNITS).map (fun k => (selected_writer (ww.units k), k))) := by
  unfold drive_snapshot_write_module
  simp only []
  generalize (if c.libretro = true then (10 : Int)
    else if ww.resources .DriveTrueEmulation ≠ 0 then 10 else 8) = start
  have h1 := invokes_log (invokes_refl ww) (.vdrive_snapshot_module_write start) rfl
  by_cases hv : e.vdrive_snapshot_module_write < 0
  · rw [if_pos hv]
    exact ⟨[], h1, fun _ => rfl, List.nil_prefix, fun h => by simp at h⟩
  · rw [if_neg hv]
    by_cases hearly : (!c.libretro && decide (ww.resources .DriveTrueEmulation = 0)) = true
    · rw [if_pos hearly]
      refine ⟨[], h1, fun _ => rfl, List.nil_prefix, fun _ hd _ => ?_⟩
      rcases hd with hd | hd
      · simp [hd] at hearly
      · simp [hd] at hearly
    · rw [if_neg hearly]
      have h2 := invokes_log (invokes_log (invokes_log h1 .drive_gcr_data_writeback_all rfl)
        .rotation_table_get rfl)
        (.snapshot_module_create .DRIVE DRIVE_SNAP_MAJOR DRIVE_SNAP_MINOR) rfl
      unfold snapshot_module_create
      by_cases hc : e.create_fails .DRIVE = true
      · simp only [hc, if_true]
        exact ⟨[], h2, fun _ => rfl, List.nil_prefix, fun h => by simp at h⟩
      · simp only [hc, Bool.false_eq_true, if_false]
        rcases hp : write_drive_payload c e
            ((((ww.log (.vdrive_snapshot_module_write start)).log
              .drive_gcr_data_writeback_all).log .rotation_table_get).log
              (.snapshot_module_create .DRIVE DRIVE_SNAP_MAJOR DRIVE_SNAP_MINOR))
            ⟨.DRIVE, DRIVE_SNAP_MAJOR, DRIVE_SNAP_MINOR, [], 0⟩ with ⟨ok, m1⟩
        have h3 := invokes_log h2 (.snapshot_module_close m1.name) rfl
        cases ok with
        | false =>
          exact ⟨[], h3, fun _ => rfl, List.nil_prefix, fun h => by simp at h⟩
        | true =>
          simp only [snapshot_module_close_w]
          by_cases hcl : e.close_fails m1.name = true
          · simp only [hcl, Bool.not_true]
            exact ⟨[], h3, fun _ => rfl, List.nil_prefix, fun h => by simp at h⟩
          · simp only [hcl, Bool.not_false]
            obtain ⟨L, i1, i2, i3, i4⟩ := write_submodules_invokes c e
              (s ++ [⟨m1.name, m1.major, m1.minor, m1.data⟩])
              (((((ww.log (.vdrive_snapshot_module_write start)).log
                .drive_gcr_data_writeback_all).log .rotation_table_get).log
                (.snapshot_module_create .DRIVE DRIVE_SNAP_MAJOR DRIVE_SNAP_MINOR)).log
                (.snapshot_module_close m1.name))
              save_disks save_roms
              (fun i => if (ww.units i).sc .GCR_image_loaded = 0 ∨ save_disks = 0 then 0 else 1)
              (fun i => if (ww.units i).sc .P64_image_loaded = 0 ∨ save_disks = 0 then 0 else 1)
            simp only [log_units]
            refine ⟨L, by simpa using invokes_trans h3 i1, i2, ?_, fun h _ hsd => ?_⟩
            · by_cases hsd : save_disks = 0
              · rw [i2 hsd]; exact List.nil_prefix
              · rw [← selected_by_arrays ww save_disks hsd]; exact i3
            · rw [← selected_by_arrays ww save_disks hsd]
              exact i4 h hsd

/-- C17. The image writers that `drive_snapshot_write_module` invokes, each seen
by the `snapshot_module_create` of its module. With `save_disks` zero none is
invoked and no `NOIMAGEk`, `IMAGEk`, `GCRIMAGEk` or `P64IMAGEk` module is
created. With `save_disks` non-zero they are invoked in unit order, for each
unit the one selected (GCR if `GCR_image_loaded` is non-zero, else P64 if
`P64_image_loaded` is non-zero, else the flat one), never two for a unit; and
when the call writes the `DRIVE` module (build with `__LIBRETRO__`, or true
drive emulation on) and returns 0, exactly one is invoked for every unit. -/
theorem C17_image_writer_selection (c : Cfg) (e : Ext) (s : Snapshot) (ww : World)
    (save_disks save_roms : Int) :
    ∃ t, (drive_snapshot_write_module c e s ww save_disks save_roms).2.2.trace = ww.trace ++ t ∧
      (save_disks = 0 → image_writers t = []) ∧
      (save_disks ≠ 0 →
        image_writers t <+:
          (List.range NUM_DISK_UNITS).map (fun k => (selected_writer (ww.units k), k))) ∧
      (save_disks ≠ 0 → (c.libretro = true ∨ ww.resources .DriveTrueEmulation ≠ 0) →
        (drive_snapshot_write_module c e s ww save_disks save_roms).1 = 0 →
        image_writers t
          = (List.range NUM_DISK_UNITS).map (fun k => (selected_writer (ww.units k), k))) := by
  obtain ⟨L, ⟨_, _, t, h1, h2⟩, h3, h4, h5⟩ :=
    write_module_invokes c e s ww save_disks save_roms
  refine ⟨t, h1, fun h => ?_, fun _ => ?_, fun hsd hd h0 => ?_⟩
  · rw [h2]; exact h3 h
  · rw [h2]; exact h4
  · rw [h2]; exact h5 h0 hd hsd

set_option maxRecDepth 100000 in
/-- C17 (witness): `exampleMixedWorld` written with `save_disks` 1 in a build
with `__LIBRETRO__`: the GCR writer for unit 0, the P64 writer for unit 1, the
flat writer for units 2 and 3. -/
theorem C17_image_writer_selection_witness :
    (drive_snapshot_write_module (exampleCfg true) exampleExt [] exampleMixedWorld 1 0).1 = 0 ∧
    ∃ t, (drive_snapshot_write_module (exampleCfg true) exampleExt [] exampleMixedWorld 1
        0).2.2.trace = exampleMixedWorld.trace ++ t ∧
      image_writers t = [(.gcr, 0), (.p64, 1), (.flat, 2), (.flat, 3)] := by
  refine ⟨by decide, ?_⟩
  obtain ⟨t, h1, _, _, h4⟩ :=
    C17_image_writer_selection (exampleCfg true) exampleExt [] exampleMixedWorld 1 0
  exact ⟨t, h1, (h4 (by decide) (by decide) (by decide)).trans (by decide)⟩

/-! ## The writer: the first failed write ends the payload -/

theorem first_failure_stops_seq (e : Ext) (name : ModName) (a b d : Nat) (ok : Bool)
    (h1 : first_failure_stops e name a b true) (h2 : first_failure_stops e name b d ok) :
    first_failure_stops e name a d ok := by
  obtain ⟨a1, _, a3, _⟩ := h1
  obtain ⟨b1, b2, b3, b4⟩ := h2
  refine ⟨by omega, fun k hk1 hk2 => ?_, fun hok k hk1 hk2 => ?_, fun hok => ?_⟩
  · by_cases hkb : k < b
    · exact a3 rfl k hk1 hkb
    · exact b2 k (by omega) hk2
  · by_cases hkb : k < b
    · exact a3 rfl k hk1 hkb
    · exact b3 hok k (by omega) hk2
  · exact ⟨by have := (b4 hok).1; omega, (b4 hok).2⟩

theorem first_failure_stops_nil (e : Ext) (name : ModName) (a : Nat) :
    first_failure_stops e name a a true :=
  ⟨Nat.le_refl _, fun k h1 h2 => by omega, fun _ k h1 h2 => by omega, fun h => by cases h⟩

theorem first_failure_stops_one (e : Ext) (name : ModName) (a : Nat) :
    first_failure_stops e name a (a + 1) (!e.smw_fails name a) := by
  refine ⟨by omega, fun k h1 h2 => by omega, fun hok k h1 h2 => ?_, fun hok => ⟨by omega, ?_⟩⟩
  · have : k = a := by omega
    subst this
    simpa using hok
  · simpa using hok

theorem write_fields_stops (e : Ext) :
    ∀ (W : List (WKind × Int)) (m : WHandle),
      (write_fields e W m).2.name = m.name ∧
      (write_fields e W m).2.nwrites ≤ m.nwrites + W.length ∧
      ((write_fields e W m).1 = true → (write_fields e W m).2.nwrites = m.nwrites + W.length) ∧
      first_failure_stops e m.name m.nwrites (write_fields e W m).2.nwrites
        (write_fields e W m).1 := by
  intro W
  induction W with
  | nil =>
    intro m
    exact ⟨rfl, Nat.le_refl _, fun _ => rfl, first_failure_stops_nil e _ _⟩
  | cons kv W ih =>
    intro m
    obtain ⟨k, v⟩ := kv
    have h1 := first_failure_stops_one e m.name m.nwrites
    simp only [write_fields, WKind.put, smw, List.length_cons]
    by_cases hf : e.smw_fails m.name m.nwrites = true
    · rw [hf] at h1
      simp only [hf, if_true]
      exact ⟨trivial, by omega, fun h => (by cases h), h1⟩
    · have hf2 : e.smw_fails m.name m.nwrites = false := by simpa using hf
      rw [hf2] at h1
      simp only [hf2, Bool.false_eq_true, if_false]
      obtain ⟨i1, i2, i3, i4⟩ := ih
        { name := m.name, major := m.major, minor := m.minor,
          data := m.data ++ leBytes k.width (castU (8 * k.width) v), nwrites := m.nwrites + 1 }
      simp only [] at i1 i2 i3 i4
      refine ⟨i1, by omega, fun h => by rw [i3 h]; omega, ?_⟩
      exact first_failure_stops_seq e m.name _ _ _ _ h1 i4

theorem write_units_stops (e : Ext) (fields : Nat → List (WKind × Int)) (len : Nat)
    (hlen : ∀ i, (fields i).length = len) :
    ∀ (n i : Nat) (m : WHandle),
      (write_units e fields n i m).2.name = m.name ∧
      (write_units e fields n i m).2.nwrites ≤ m.nwrites + n * len ∧
      ((write_units e fields n i m).1 = true →
        (write_units e fields n i m).2.nwrites = m.nwrites + n * len) ∧
      first_failure_stops e m.name m.nwrites (write_units e fields n i m).2.nwrites
        (write_units e fields n i m).1 := by
  intro n
  induction n with
  | zero =>
    intro i m
    simp only [write_units, Nat.zero_mul, Nat.add_zero]
    exact ⟨trivial, Nat.le_refl _, fun _ => trivial, first_failure_stops_nil e _ _⟩
  | succ n ih =>
    intro i m
    simp only [write_units]
    obtain ⟨f1, f2, f3, f4⟩ := write_fields_stops e (fields i) m
    rw [hlen i] at f2 f3
    rcases hw : write_fields e (fields i) m with ⟨ok, m1⟩
    rw [hw] at f1 f2 f3 f4
    simp only [] at f1 f2 f3 f4
    have hmul : (n + 1) * len = n * len + len := by rw [Nat.add_mul]; omega
    cases ok with
    | false =>
      simp only []
      exact ⟨f1, by omega, fun h => (by cases h), f4⟩
    | true =>
      simp only []
      obtain ⟨i1, i2, i3, i4⟩ := ih (i + 1) m1
      have f3t := f3 rfl
      rw [f1] at i1 i4
      refine ⟨i1, by omega, fun h => by rw [i3 h]; omega, ?_⟩
      exact first_failure_stops_seq e m.name _ _ _ _ f4 i4

theorem write_drive_payload_stops (c : Cfg) (e : Ext) (w : World) (m : WHandle) :
    (write_drive_payload c e w m).2.name = m.name ∧
    (write_drive_payload c e w m).2.nwrites ≤ m.nwrites + drive_payload_writes ∧
    ((write_drive_payload c e w m).1 = true →
      (write_drive_payload c e w m).2.nwrites = m.nwrites + drive_payload_writes) ∧
    first_failure_stops e m.name m.nwrites (write_drive_payload c e w m).2.nwrites
      (write_drive_payload c e w m).1 := by
  have hn : drive_payload_writes = 1 + 4 * 38 + 4 * 1 + 4 * 2 := rfl
  have hN : NUM_DISK_UNITS = 4 := rfl
  have h1 := first_failure_stops_one e m.name m.nwrites
  unfold write_drive_payload
  simp only [SMW_DW, smw]
  by_cases hf : e.smw_fails m.name m.nwrites = true
  · rw [hf] at h1
    simp only [hf, if_true]
    exact ⟨trivial, by omega, fun h => (by cases h), h1⟩
  · have hf2 : e.smw_fails m.name m.nwrites = false := by simpa using hf
    rw [hf2] at h1
    simp only [hf2, Bool.false_eq_true, if_false]
    obtain ⟨a1, a2, a3, a4⟩ := write_units_stops e
      (fun i => drive_unit_fields c (w.units i) (e.rotation_table_get i)) 38 (fun _ => rfl)
      NUM_DISK_UNITS 0
      { name := m.name, major := m.major, minor := m.minor,
        data := m.data ++ leBytes 4 (castU 32 (w.resources .MachineVideoStandard)),
        nwrites := m.nwrites + 1 }
    rcases hu1 : write_units e
      (fun i => drive_unit_fields c (w.units i) (e.rotation_table_get i)) NUM_DISK_UNITS 0
      { name := m.name, major := m.major, minor := m.minor,
        data := m.data ++ leBytes 4 (castU 32 (w.resources .MachineVideoStandard)),
        nwrites := m.nwrites + 1 } with ⟨ok1, m2⟩
    rw [hu1] at a1 a2 a3 a4
    simp only [] at a1 a2 a3 a4
    have s1 := first_failure_stops_seq e m.name _ _ _ _ h1 a4
    cases ok1 with
    | false =>
      simp only []
      exact ⟨a1, by omega, fun h => (by cases h), s1⟩
    | true =>
      simp only []
      have a3t := a3 rfl
      obtain ⟨b1, b2, b3, b4⟩ := write_units_stops e
        (fun i => drive_unit_fields_clk (w.units i)) 1 (fun _ => rfl) NUM_DISK_UNITS 0 m2
      rcases hu2 : write_units e (fun i => drive_unit_fields_clk (w.units i)) NUM_DISK_UNITS 0 m2
        with ⟨ok2, m3⟩
      rw [hu2] at b1 b2 b3 b4
      simp only [] at b1 b2 b3 b4
      rw [a1] at b1 b4
      have s2 := first_failure_stops_seq e m.name _ _ _ _ s1 b4
      cases ok2 with
      | false =>
        simp only []
        exact ⟨b1, by omega, fun h => (by cases h), s2⟩
      | true =>
        simp only []
        have b3t := b3 rfl
        obtain ⟨d1, d2, d3, d4⟩ := write_units_stops e
          (fun i => drive_unit_fields_ready (w.units i)) 2 (fun _ => rfl) NUM_DISK_UNITS 0 m3
        rw [b1] at d1 d4
        have s3 := first_failure_stops_seq e m.name _ _ _ _ s2 d4
        exact ⟨d1, by omega, fun h => by rw [d3 h]; omega, s3⟩

theorem write_drive_payload_log (c : Cfg) (e : Ext) (w : World) (ev : Event) (m : WHandle) :
    write_drive_payload c e (w.log ev) m = write_drive_payload c e w m := rfl

/-- C18. When some write call of the payload of the `DRIVE` module fails (the
timing factor, a member of a unit record or a trailing member), the module
having been created, `drive_snapshot_write_module` returns -1 and the calls it
makes end with the close of the `DRIVE` module: no CPU, machine, image or ROM
module is written. The write calls stop at the first one that fails: it is the
last write call made. -/
theorem C18_write_aborts_on_first_failure (c : Cfg) (e : Ext) (s : Snapshot) (ww : World)
    (save_disks save_roms : Int) (n : Nat) (hn : n < drive_payload_writes)
    (hfail : e.smw_fails .DRIVE n = true)
    (hv : ¬ e.vdrive_snapshot_module_write < 0)
    (hdrive : c.libretro = true ∨ ww.resources .DriveTrueEmulation ≠ 0)
    (hcreate : e.create_fails .DRIVE = false) :
    (drive_snapshot_write_module c e s ww save_disks save_roms).1 = -1 ∧
    (drive_snapshot_write_module c e s ww save_disks save_roms).2.2.trace
      = ww.trace ++ [.vdrive_snapshot_module_write 10, .drive_gcr_data_writeback_all,
          .rotation_table_get,
          .snapshot_module_create .DRIVE DRIVE_SNAP_MAJOR DRIVE_SNAP_MINOR,
          .snapshot_module_close .DRIVE] ∧
    ∃ n0, n0 ≤ n ∧ e.smw_fails .DRIVE n0 = true ∧ (∀ k, k < n0 → e.smw_fails .DRIVE k = false) ∧
      (write_drive_payload c e ww ⟨.DRIVE, DRIVE_SNAP_MAJOR, DRIVE_SNAP_MINOR, [], 0⟩).2.nwrites
        = n0 + 1 := by
  obtain ⟨p1, p2, p3, p4, p5, p6, p7⟩ := write_drive_payload_stops c e ww
    ⟨.DRIVE, DRIVE_SNAP_MAJOR, DRIVE_SNAP_MINOR, [], 0⟩
  simp only [Nat.zero_add] at p1 p2 p3 p4 p5 p6 p7
  rcases hp : write_drive_payload c e ww ⟨.DRIVE, DRIVE_SNAP_MAJOR, DRIVE_SNAP_MINOR, [], 0⟩
    with ⟨ok, m1⟩
  rw [hp] at p1 p2 p3 p4 p5 p6 p7
  simp only [] at p1 p2 p3 p4 p5 p6 p7
  have hok : ok = false := by
    cases ok with
    | false => rfl
    | true =>
      have h1 := p6 rfl n (Nat.zero_le n) (by rw [p3 rfl]; exact hn)
      rw [hfail] at h1
      cases h1
  subst hok
  obtain ⟨q1, q2⟩ := p7 rfl
  have hstart : (if c.libretro = true then (10 : Int)
      else if ww.resources .DriveTrueEmulation ≠ 0 then 10 else 8) = 10 := by
    rcases hdrive with h | h
    · simp [h]
    · simp [h]
  have hearly : (!c.libretro && decide (ww.resources .DriveTrueEmulation = 0)) = false := by
    rcases hdrive with h | h
    · simp [h]
    · simp [h]
  have hmain : drive_snapshot_write_module c e s ww save_disks save_roms
      = (-1, s ++ [⟨m1.name, m1.major, m1.minor, m1.data⟩],
          (((((ww.log (.vdrive_snapshot_module_write 10)).log
            .drive_gcr_data_writeback_all).log .rotation_table_get).log
            (.snapshot_module_create .DRIVE DRIVE_SNAP_MAJOR DRIVE_SNAP_MINOR)).log
            (.snapshot_module_close m1.name))) := by
    unfold drive_snapshot_write_module
    simp only [hstart, hearly, hv, hcreate, snapshot_module_create, write_drive_payload_log, hp,
      snapshot_module_close_w, if_false, Bool.false_eq_true]
  rw [hmain]
  refine ⟨rfl, ?_, m1.nwrites - 1, ?_, q2, fun k hk => p5 k (Nat.zero_le k) (by omega), ?_⟩
  · simp [p1]
  · by_contra hlt
    have := p5 n (Nat.zero_le n) (by omega)
    rw [hfail] at this
    cases this
  · show m1.nwrites = m1.nwrites - 1 + 1
    omega

set_option maxRecDepth 100000 in
/-- C18 (witness): the write call number 7 into the `DRIVE` module fails (the
second reserved byte of the record of unit 0). -/
theorem C18_write_aborts_on_first_failure_witness :
    exampleFailingExt.smw_fails .DRIVE 7 = true ∧
    (drive_snapshot_write_module (exampleCfg true) exampleFailingExt [] exampleDriveWorld 1 1).1
      = -1 ∧
    (drive_snapshot_write_module (exampleCfg true) exampleFailingExt [] exampleDriveWorld 1
      1).2.2.trace
      = exampleDriveWorld.trace ++ [.vdrive_snapshot_module_write 10,
          .drive_gcr_data_writeback_all, .rotation_table_get,
          .snapshot_module_create .DRIVE DRIVE_SNAP_MAJOR DRIVE_SNAP_MINOR,
          .snapshot_module_close .DRIVE] ∧
    ∃ n0, n0 ≤ 7 ∧ exampleFailingExt.smw_fails .DRIVE n0 = true ∧
      (∀ k, k < n0 → exampleFailingExt.smw_fails .DRIVE k = false) ∧
      (write_drive_payload (exampleCfg true) exampleFailingExt exampleDriveWorld
        ⟨.DRIVE, DRIVE_SNAP_MAJOR, DRIVE_SNAP_MINOR, [], 0⟩).2.nwrites = n0 + 1 :=
  ⟨by decide,
    C18_write_aborts_on_first_failure (exampleCfg true) exampleFailingExt [] exampleDriveWorld 1 1
      7 (by decide) (by decide) (by decide) (by decide) (by decide)⟩

/-! ## Decoding a `DRIVE` module of any content -/

theorem reads_only_refl (R : List (RKind × Dest)) (st : RState) : reads_only R st st :=
  ⟨rfl, fun _ _ _ => rfl, fun _ => ⟨rfl, rfl, rfl⟩, rfl, rfl, fun _ _ _ => rfl, [], by simp,
    fun ev h => by cases h⟩

theorem reads_only_mono {R R1 : List (RKind × Dest)} {st st1 : RState}
    (hsub : ∀ d, d ∈ R.map Prod.snd → d ∈ R1.map Prod.snd) (h : reads_only R st st1) :
    reads_only R1 st st1 := by
  obtain ⟨a, b, c, d, e, f, g⟩ := h
  exact ⟨a, fun j x hx => b j x (fun hh => hx (hsub _ hh)), c, d, e,
    fun l j hx => f l j (fun hh => hx (hsub _ hh)), g⟩

theorem reads_only_trans {R : List (RKind × Dest)} {st st1 st2 : RState}
    (h1 : reads_only R st st1) (h2 : reads_only R st1 st2) : reads_only R st st2 := by
  obtain ⟨a1, b1, c1, d1, e1, f1, t1, g1, k1⟩ := h1
  obtain ⟨a2, b2, c2, d2, e2, f2, t2, g2, k2⟩ := h2
  refine ⟨a2.trans a1, fun j x hx => (b2 j x hx).trans (b1 j x hx),
    fun j => ⟨(c2 j).1.trans (c1 j).1, (c2 j).2.1.trans (c1 j).2.1, (c2 j).2.2.trans (c1 j).2.2⟩,
    d2.trans d1, e2.trans e1, fun l j hx => (f2 l j hx).trans (f1 l j hx), t1 ++ t2,
    by rw [g2, g1, List.append_assoc], ?_⟩
  intro ev hev
  rcases List.mem_append.mp hev with h | h
  · exact k1 ev h
  · rw [a1] at k2
    exact k2 ev h

theorem smr_field_reads_only (k : RKind) (d : Dest) (i : Nat) (st : RState) :
    reads_only [(k, d)] st (smr_field k d i st).2 := by
  unfold smr_field snapshot_module_read
  by_cases hlen : k.width ≤ st.m.data.length
  · simp only [hlen, if_true]
    cases d with
    | live f =>
      refine ⟨rfl, fun j x hx => ?_, fun j => ?_, rfl, rfl, fun _ _ _ => rfl,
        [.snapshot_module_read st.m.name k.width], rfl, fun ev h => ⟨k.width, by simpa using h⟩⟩
      · have hne : x ≠ f := by
          intro h; apply hx; simp [h]
        by_cases hj : j = i
        · subst hj; simp [RState.store, hne]
        · simp [RState.store, hj]
      · by_cases hj : j = i
        · subst hj; simp [RState.store, World.setField, DiskUnit.set]
        · simp [RState.store, hj]
    | loc l =>
      refine ⟨rfl, fun _ _ _ => rfl, fun _ => ⟨rfl, rfl, rfl⟩, rfl, rfl, fun l2 j hx => ?_,
        [.snapshot_module_read st.m.name k.width], rfl, fun ev h => ⟨k.width, by simpa using h⟩⟩
      have hne : l2 ≠ l := by
        intro h; apply hx; simp [h]
      simp [RState.store, hne]
    | dummy =>
      exact ⟨rfl, fun _ _ _ => rfl, fun _ => ⟨rfl, rfl, rfl⟩, rfl, rfl, fun _ _ _ => rfl,
        [.snapshot_module_read st.m.name k.width], rfl, fun ev h => ⟨k.width, by simpa using h⟩⟩
  · simp only [hlen, if_false]
    exact ⟨rfl, fun _ _ _ => rfl, fun _ => ⟨rfl, rfl, rfl⟩, rfl, rfl, fun _ _ _ => rfl,
      [.snapshot_module_read st.m.name k.width], rfl, fun ev h => ⟨k.width, by simpa using h⟩⟩

theorem read_fields_reads_only :
    ∀ (R : List (RKind × Dest)) (i : Nat) (st : RState),
      reads_only R st (read_fields R i st).2 := by
  intro R
  induction R with
  | nil => intro i st; exact reads_only_refl _ _
  | cons kd R ih =>
    intro i st
    obtain ⟨k, d⟩ := kd
    simp only [read_fields]
    have h1 : reads_only ((k, d) :: R) st (smr_field k d i st).2 :=
      reads_only_mono (fun x hx => by simp at hx; simp [hx]) (smr_field_reads_only k d i st)
    rcases hs : smr_field k d i st with ⟨b, st1⟩
    rw [hs] at h1
    cases b with
    | false => exact h1
    | true =>
      exact reads_only_trans h1
        (reads_only_mono (fun x hx => List.mem_cons_of_mem _ hx) (ih i st1))

/-- A chain of reads that succeeds consumes the bytes of its widths. -/
theorem read_fields_consumes :
    ∀ (R : List (RKind × Dest)) (i : Nat) (st : RState),
      (read_fields R i st).1 = true →
      st.m.data.length
        = (R.map (fun kd => kd.1.width)).sum + (read_fields R i st).2.m.data.length := by
  intro R
  induction R with
  | nil => intro i st _; simp [read_fields]
  | cons kd R ih =>
    intro i st h
    obtain ⟨k, d⟩ := kd
    simp only [read_fields] at h ⊢
    have hm : (smr_field k d i st).1 = true →
        st.m.data.length = k.width + (smr_field k d i st).2.m.data.length := by
      unfold smr_field snapshot_module_read
      by_cases hlen : k.width ≤ st.m.data.length
      · simp only [hlen, if_true]
        intro _
        cases d <;> simp [RState.store] <;> omega
      · simp [hlen]
    rcases hs : smr_field k d i st with ⟨b, st1⟩
    rw [hs] at h hm
    cases b with
    | false => simp at h
    | true =>
      simp only [] at h hm ⊢
      have := ih i st1 h
      have := hm trivial
      simp only [List.map_cons, List.sum_cons]
      omega

theorem read_units_reads_only :
    ∀ (n i : Nat) (st : RState), reads_only layout_current st (read_units 1 5 n i st).2 := by
  intro n
  induction n with
  | zero => intro i st; exact reads_only_refl _ _
  | succ n ih =>
    intro i st
    simp only [read_units, drive_read_layout_current]
    have h1 := read_fields_reads_only layout_current i st
    rcases hs : read_fields layout_current i st with ⟨b, st1⟩
    rw [hs] at h1
    cases b with
    | false => exact h1
    | true => exact reads_only_trans h1 (ih (i + 1) st1)

theorem read_units_consumes :
    ∀ (n i : Nat) (st : RState), (read_units 1 5 n i st).1 = true →
      st.m.data.length
        = n * (layout_current.map (fun kd => kd.1.width)).sum
          + (read_units 1 5 n i st).2.m.data.length := by
  intro n
  induction n with
  | zero => intro i st _; simp [read_units]
  | succ n ih =>
    intro i st h
    simp only [read_units, drive_read_layout_current] at h ⊢
    have h1 := read_fields_consumes layout_current i st
    rcases hs : read_fields layout_current i st with ⟨b, st1⟩
    rw [hs] at h h1
    cases b with
    | false => simp at h
    | true =>
      simp only [] at h h1 ⊢
      have := ih (i + 1) st1 h
      have := h1 trivial
      rw [Nat.add_mul]
      omega

/-- The tested part of the decoding of a module of the current version that is
too short: a read fails, the module is closed and -1 is returned; nothing has
changed but the members that the current layout reads in place. -/
theorem read_module_short (c : Cfg) (e : Ext) (s : Snapshot) (wr : World) (md : SnapModule)
    (hmod : drive_module s = some md) (hmaj : md.major = 1) (hmin : md.minor = 5)
    (hshort : md.data.length < drive_record_bytes) :
    (drive_snapshot_read_module c e s wr).1 = -1 ∧
    (drive_snapshot_read_module c e s wr).2.trace.getLast?
      = some (Event.snapshot_module_close .DRIVE) ∧
    (∀ j f, Dest.live f ∉ layout_current.map Prod.snd →
      ((drive_snapshot_read_module c e s wr).2.units j).sc f = (wr.units j).sc f) ∧
    (∀ j, ((drive_snapshot_read_module c e s wr).2.units j).image = (wr.units j).image ∧
      ((drive_snapshot_read_module c e s wr).2.units j).gcr = (wr.units j).gcr ∧
      ((drive_snapshot_read_module c e s wr).2.units j).p64 = (wr.units j).p64) := by
  unfold drive_snapshot_read_module
  rw [open_drive_some s wr md hmod, hmaj, hmin]
  have hb : snapshot_version_is_bigger 1 5 DRIVE_SNAP_MAJOR DRIVE_SNAP_MINOR = false := by decide
  have hs : snapshot_version_is_smaller 1 5 DRIVE_SNAP_MAJOR DRIVE_SNAP_MINOR = false := by
    decide
  simp only [hb, hs, Bool.false_eq_true, if_false]
  obtain ⟨w3, hw3, hu3⟩ : ∃ w3,
      (if c.libretro = true then
        (wr.log (.snapshot_module_open .DRIVE true)).log .drive_gcr_data_writeback_all
      else resources_set_int
        ((wr.log (.snapshot_module_open .DRIVE true)).log .drive_gcr_data_writeback_all)
        .DriveTrueEmulation 1) = w3 ∧ w3.units = wr.units := by
    refine ⟨_, rfl, ?_⟩
    split <;> rfl
  rw [hw3]
  have hdw : ∀ r m1 w4, SMR_DW w3 ⟨.DRIVE, md.data⟩ = (r, m1, w4) →
      m1.name = .DRIVE ∧ w4.units = w3.units ∧
      (r ≠ none → md.data.length = 4 + m1.data.length) := by
    intro r m1 w4 h
    unfold SMR_DW snapshot_module_read at h
    by_cases hl : 4 ≤ md.data.length
    · simp only [hl, if_true, Prod.mk.injEq] at h
      obtain ⟨_, h2, h3⟩ := h
      subst h2 h3
      refine ⟨rfl, rfl, fun _ => ?_⟩
      simp only [List.length_drop]
      omega
    · simp only [hl, if_false, Prod.mk.injEq] at h
      obtain ⟨h1, h2, h3⟩ := h
      subst h1 h2 h3
      exact ⟨rfl, rfl, fun h => absurd rfl h⟩
  rcases hsm : SMR_DW w3 ⟨.DRIVE, md.data⟩ with ⟨r, m1, w4⟩
  obtain ⟨d1, d2, d3⟩ := hdw r m1 w4 hsm
  cases r with
  | none =>
    simp only []
    refine ⟨trivial, by simp [snapshot_module_close, d1], fun j f _ => by simp [d2, hu3],
      fun j => by simp [d2, hu3]⟩
  | some v =>
    simp only []
    have hlen := d3 (by simp)
    have h15 : read_units 1 5 = read_units 1 5 := rfl
    have hro := read_units_reads_only NUM_DISK_UNITS 0 ⟨m1, w4, e.uninit⟩
    have hco := read_units_consumes NUM_DISK_UNITS 0 ⟨m1, w4, e.uninit⟩
    rcases hru : read_units 1 5 NUM_DISK_UNITS 0 ⟨m1, w4, e.uninit⟩ with ⟨b, st⟩
    rw [hru] at hro hco
    cases b with
    | true =>
      have := hco rfl
      simp only [] at this
      unfold drive_record_bytes at hshort
      omega
    | false =>
      simp only []
      obtain ⟨r1, r2, r3, _, _, _, _⟩ := hro
      simp only [] at r1 r2 r3
      refine ⟨trivial, by simp [snapshot_module_close, r1, d1],
        fun j f hf => by simp [r2 j f hf, d2, hu3], fun j => ?_⟩
      obtain ⟨x1, x2, x3⟩ := r3 j
      simp [x1, x2, x3, d2, hu3]

set_option maxRecDepth 100000 in
/-- C19 (counterexample): the decoding is not staged. The `DRIVE` module of
`exampleTruncated` ends after the byte-ready level of unit 0; the read of the
clock frequency fails and the call returns -1, but the byte-ready level of the
live unit 0, which was 0, is now the 1 of the module. -/
theorem C19_failed_decode_changes_live_unit :
    (exampleWorld.units 0).sc .byte_ready_level = 0 ∧
    (drive_snapshot_read_module (exampleCfg true) exampleExt exampleTruncated exampleWorld).1
      = -1 ∧
    ((drive_snapshot_read_module (exampleCfg true) exampleExt exampleTruncated
      exampleWorld).2.units 0).sc .byte_ready_level = 1 ∧
    ((drive_snapshot_read_module (exampleCfg false) exampleExt exampleTruncated
      exampleWorld).2.units 0).sc .byte_ready_level = 1 := by
  decide

/-- C19 (amended): when the payload of a `DRIVE` module of the current version
is shorter than the timing factor and the four unit records, so that a read of
the tested part fails, `drive_snapshot_read_module` returns -1, the last call it
makes is the close of the module, and the members that are not read in place
(the clocks, the half-track and the side, the byte-ready edge and active flags,
`enable`, the image flags) and the images of every unit are unchanged. -/
theorem C19_failed_decode_keeps_staged_members (c : Cfg) (e : Ext) (s : Snapshot) (wr : World)
    (md : SnapModule) (hmod : drive_module s = some md) (hmaj : md.major = 1)
    (hmin : md.minor = 5) (hshort : md.data.length < drive_record_bytes) :
    (drive_snapshot_read_module c e s wr).1 = -1 ∧
    (drive_snapshot_read_module c e s wr).2.trace.getLast?
      = some (Event.snapshot_module_close .DRIVE) ∧
    (∀ j f, f ∈ staged_members →
      ((drive_snapshot_read_module c e s wr).2.units j).sc f = (wr.units j).sc f) ∧
    (∀ j, ((drive_snapshot_read_module c e s wr).2.units j).image = (wr.units j).image ∧
      ((drive_snapshot_read_module c e s wr).2.units j).gcr = (wr.units j).gcr ∧
      ((drive_snapshot_read_module c e s wr).2.units j).p64 = (wr.units j).p64) := by
  obtain ⟨h1, h2, h3, h4⟩ := read_module_short c e s wr md hmod hmaj hmin hshort
  have hst : ∀ f, f ∈ staged_members → Dest.live f ∉ layout_current.map Prod.snd := by decide
  exact ⟨h1, h2, fun j f hf => h3 j f (hst f hf), h4⟩

set_option maxRecDepth 100000 in
/-- C19 (witness): the truncated module of `exampleTruncated` read into
`exampleStampedWorld`, whose attach clocks are 5. -/
theorem C19_failed_decode_keeps_staged_members_witness :
    drive_module exampleTruncated = some ⟨.DRIVE, 1, 5, leBytes 4 0 ++ (leBytes 4 0 ++ [1])⟩ ∧
    (leBytes 4 0 ++ (leBytes 4 0 ++ [1]) : List Byte).length < drive_record_bytes ∧
    (drive_snapshot_read_module (exampleCfg true) exampleExt exampleTruncated
      exampleStampedWorld).1 = -1 ∧
    ((drive_snapshot_read_module (exampleCfg true) exampleExt exampleTruncated
      exampleStampedWorld).2.units 0).sc .attach_clk = (exampleStampedWorld.units 0).sc .attach_clk :=
  ⟨by decide, by decide,
    (C19_failed_decode_keeps_staged_members (exampleCfg true) exampleExt exampleTruncated
      exampleStampedWorld ⟨.DRIVE, 1, 5, leBytes 4 0 ++ (leBytes 4 0 ++ [1])⟩ (by decide) rfl rfl
      (by decide)).1,
    (C19_failed_decode_keeps_staged_members (exampleCfg true) exampleExt exampleTruncated
      exampleStampedWorld ⟨.DRIVE, 1, 5, leBytes 4 0 ++ (leBytes 4 0 ++ [1])⟩ (by decide) rfl rfl
      (by decide)).2.2.1 0 .attach_clk (by decide)⟩

/-! ## The trailing sections are read without a test -/

theorem smr_field_on_head (k : RKind) (d : Dest) (i : Nat) (name : ModName) (data : List Byte)
    (w : World) (loc : Local → Nat → Int) (h : k.width ≤ data.length) :
    ∃ w1 loc1, ∀ x, smr_field k d i ⟨⟨name, data ++ x⟩, w, loc⟩
      = (true, ⟨⟨name, data.drop k.width ++ x⟩, w1, loc1⟩) := by
  have hb : (data.take k.width).length = k.width := by simp [h]
  refine ⟨(RState.store ⟨⟨name, []⟩, w.log (.snapshot_module_read name k.width), loc⟩ d i
      (k.conv (leNat (data.take k.width)))).w,
    (RState.store ⟨⟨name, []⟩, w.log (.snapshot_module_read name k.width), loc⟩ d i
      (k.conv (leNat (data.take k.width)))).loc, fun x => ?_⟩
  have hsplit : data ++ x = data.take k.width ++ (data.drop k.width ++ x) := by
    rw [← List.append_assoc, List.take_append_drop]
  rw [hsplit, smr_field_append k d i name _ _ w loc hb]
  cases d <;> rfl

theorem read_fields_on_head :
    ∀ (R : List (RKind × Dest)) (i : Nat) (name : ModName) (data : List Byte) (w : World)
      (loc : Local → Nat → Int), (R.map (fun kd => kd.1.width)).sum ≤ data.length →
      ∃ w1 loc1, ∀ x, read_fields R i ⟨⟨name, data ++ x⟩, w, loc⟩
        = (true, ⟨⟨name, data.drop (R.map (fun kd => kd.1.width)).sum ++ x⟩, w1, loc1⟩) := by
  intro R
  induction R with
  | nil =>
    intro i name data w loc _
    exact ⟨w, loc, fun x => by simp [read_fields]⟩
  | cons kd R ih =>
    intro i name data w loc h
    obtain ⟨k, d⟩ := kd
    simp only [List.map_cons, List.sum_cons] at h ⊢
    obtain ⟨w1, loc1, h1⟩ := smr_field_on_head k d i name data w loc (by omega)
    obtain ⟨w2, loc2, h2⟩ := ih i name (data.drop k.width) w1 loc1
      (by simp only [List.length_drop]; omega)
    refine ⟨w2, loc2, fun x => ?_⟩
    simp only [read_fields, h1 x, h2 x, List.drop_drop]

theorem read_units_on_head (L : Nat) (hL : (layout_current.map (fun kd => kd.1.width)).sum = L) :
    ∀ (n i : Nat) (name : ModName) (data : List Byte) (w : World) (loc : Local → Nat → Int),
      n * L ≤ data.length →
      ∃ w1 loc1, ∀ x, read_units 1 5 n i ⟨⟨name, data ++ x⟩, w, loc⟩
        = (true, ⟨⟨name, data.drop (n * L) ++ x⟩, w1, loc1⟩) := by
  intro n
  induction n with
  | zero =>
    intro i name data w loc _
    exact ⟨w, loc, fun x => by simp [read_units]⟩
  | succ n ih =>
    intro i name data w loc h
    have hmul : (n + 1) * L = L + n * L := by rw [Nat.add_mul]; omega
    obtain ⟨w1, loc1, h1⟩ := read_fields_on_head layout_current i name data w loc
      (by rw [hL]; omega)
    rw [hL] at h1
    obtain ⟨w2, loc2, h2⟩ := ih (i + 1) name (data.drop L) w1 loc1
      (by simp only [List.length_drop]; omega)
    refine ⟨w2, loc2, fun x => ?_⟩
    simp only [read_units, drive_read_layout_current, h1 x, h2 x, List.drop_drop, hmul]

theorem read_units_clk_reads_only :
    ∀ (n i : Nat) (st : RState), reads_only layout_trailing st (read_units_clk n i st) := by
  intro n
  induction n with
  | zero => intro i st; exact reads_only_refl _ _
  | succ n ih =>
    intro i st
    simp only [read_units_clk]
    exact reads_only_trans
      (reads_only_mono (by decide) (smr_field_reads_only .DW (.loc .attach_detach_clk) i st))
      (ih _ _)

theorem read_units_ready_reads_only :
    ∀ (n i : Nat) (st : RState), reads_only layout_trailing st (read_units_ready n i st) := by
  intro n
  induction n with
  | zero => intro i st; exact reads_only_refl _ _
  | succ n ih =>
    intro i st
    simp only [read_units_ready]
    exact reads_only_trans
      (reads_only_trans
        (reads_only_mono (by decide) (smr_field_reads_only .B_INT (.live .byte_ready_edge) i st))
        (reads_only_mono (by decide)
          (smr_field_reads_only .B_INT (.live .byte_ready_active) i _)))
      (ih _ _)

theorem SMR_DW_on_head (w : World) (name : ModName) (data x : List Byte)
    (h : 4 ≤ data.length) :
    SMR_DW w ⟨name, data ++ x⟩
      = (some (leNat (data.take 4)), ⟨name, data.drop 4 ++ x⟩,
          w.log (.snapshot_module_read name 4)) := by
  have hb : (data.take 4).length = 4 := by simp [h]
  have hsplit : data ++ x = data.take 4 ++ (data.drop 4 ++ x) := by
    rw [← List.append_assoc, List.take_append_drop]
  have hr := snapshot_module_read_append w name (data.take 4) (data.drop 4 ++ x)
  rw [hb] at hr
  rw [hsplit]
  unfold SMR_DW
  rw [hr]

/-- The decoding of a module of the current version whose payload begins with
the bytes `head` of the timing factor and of the four unit records: the tested
part succeeds and leaves a state that `head` alone determines; the trailing
loops then read what follows. -/
theorem read_decode_long (c : Cfg) (e : Ext) (wr : World) (head : List Byte)
    (hlen : head.length = drive_record_bytes) :
    ∃ w2 loc2 sf,
      ∀ (s : Snapshot) (md : SnapModule) (x : List Byte), drive_module s = some md →
        md.major = 1 → md.minor = 5 → md.data = head ++ x →
        drive_snapshot_read_decode c e s wr = some
          ((snapshot_module_close
              (read_units_ready NUM_DISK_UNITS 0
                (read_units_clk NUM_DISK_UNITS 0 ⟨⟨.DRIVE, x⟩, w2, loc2⟩)).w
              (read_units_ready NUM_DISK_UNITS 0
                (read_units_clk NUM_DISK_UNITS 0 ⟨⟨.DRIVE, x⟩, w2, loc2⟩)).m).log
            (.rotation_table_set ((List.range NUM_DISK_UNITS).map (fun i =>
              (read_units_ready NUM_DISK_UNITS 0
                (read_units_clk NUM_DISK_UNITS 0 ⟨⟨.DRIVE, x⟩, w2, loc2⟩)).loc
                  .rotation_table_ptr i))),
            (read_units_ready NUM_DISK_UNITS 0
              (read_units_clk NUM_DISK_UNITS 0 ⟨⟨.DRIVE, x⟩, w2, loc2⟩)).loc, sf) := by
  have hrec : drive_record_bytes = 4 + 4 * 115 := by decide
  have hL : (layout_current.map (fun kd => kd.1.width)).sum = 115 := by decide
  obtain ⟨w2, loc2, h2⟩ := read_units_on_head 115 hL NUM_DISK_UNITS 0 .DRIVE (head.drop 4)
    ((if c.libretro = true then
        (wr.log (.snapshot_module_open .DRIVE true)).log .drive_gcr_data_writeback_all
      else resources_set_int
        ((wr.log (.snapshot_module_open .DRIVE true)).log .drive_gcr_data_writeback_all)
        .DriveTrueEmulation 1).log (.snapshot_module_read .DRIVE 4))
    e.uninit (by simp only [List.length_drop, NUM_DISK_UNITS]; omega)
  have hnil : (head.drop 4).drop (NUM_DISK_UNITS * 115) = [] := by
    apply List.drop_eq_nil_of_le
    simp only [List.length_drop, NUM_DISK_UNITS]
    omega
  refine ⟨w2, loc2, toInt32 (leNat (head.take 4)), ?_⟩
  intro s md x hmod hmaj hmin hdata
  unfold drive_snapshot_read_decode
  rw [open_drive_some s wr md hmod, hmaj, hmin, hdata]
  have hb : snapshot_version_is_bigger 1 5 DRIVE_SNAP_MAJOR DRIVE_SNAP_MINOR = false := by decide
  have hs : snapshot_version_is_smaller 1 5 DRIVE_SNAP_MAJOR DRIVE_SNAP_MINOR = false := by
    decide
  simp only [hb, hs, Bool.false_eq_true, if_false]
  rw [SMR_DW_on_head _ _ _ _ (by omega)]
  simp only []
  rw [h2 x, hnil, List.nil_append]

/-- The two trailing loops, run from the same world and local arrays on two
payloads, end in states that differ in nothing but the destinations of their
reads; the handle is still that of the module. -/
theorem trailing_loops_agree (name : ModName) (x x1 : List Byte) (w2 : World)
    (loc2 : Local → Nat → Int) (A B : RState)
    (hA : read_units_ready NUM_DISK_UNITS 0 (read_units_clk NUM_DISK_UNITS 0
      ⟨⟨name, x⟩, w2, loc2⟩) = A)
    (hB : read_units_ready NUM_DISK_UNITS 0 (read_units_clk NUM_DISK_UNITS 0
      ⟨⟨name, x1⟩, w2, loc2⟩) = B) :
    A.m.name = name ∧ B.m.name = name ∧
    (∀ j f, f ≠ .byte_ready_edge → f ≠ .byte_ready_active →
      (A.w.units j).sc f = (B.w.units j).sc f) ∧
    (∀ j, (A.w.units j).image = (B.w.units j).image ∧ (A.w.units j).gcr = (B.w.units j).gcr ∧
      (A.w.units j).p64 = (B.w.units j).p64) ∧
    A.w.resources = B.w.resources ∧ A.w.snapshot_error = B.w.snapshot_error ∧
    (∀ l j, l ≠ .attach_detach_clk → A.loc l j = B.loc l j) := by
  have r0 := reads_only_trans
    (read_units_clk_reads_only NUM_DISK_UNITS 0 ⟨⟨name, x⟩, w2, loc2⟩)
    (read_units_ready_reads_only NUM_DISK_UNITS 0 _)
  have r1 := reads_only_trans
    (read_units_clk_reads_only NUM_DISK_UNITS 0 ⟨⟨name, x1⟩, w2, loc2⟩)
    (read_units_ready_reads_only NUM_DISK_UNITS 0 _)
  rw [hA] at r0
  rw [hB] at r1
  obtain ⟨a1, a2, a3, a4, a5, a6, -⟩ := r0
  obtain ⟨b1, b2, b3, b4, b5, b6, -⟩ := r1
  have hlive : ∀ f : Field, f ≠ .byte_ready_edge → f ≠ .byte_ready_active →
      Dest.live f ∉ layout_trailing.map Prod.snd := by
    intro f h1 h2
    simp [layout_trailing, layout_clk, layout_ready, h1, h2]
  have hloc : ∀ l : Local, l ≠ .attach_detach_clk →
      Dest.loc l ∉ layout_trailing.map Prod.snd := by
    intro l h1
    simp [layout_trailing, layout_clk, layout_ready, h1]
  refine ⟨a1, b1, ?_, ?_, ?_, ?_, ?_⟩
  · intro j f hf1 hf2
    rw [a2 j f (hlive f hf1 hf2), b2 j f (hlive f hf1 hf2)]
  · intro j
    rw [(a3 j).1, (a3 j).2.1, (a3 j).2.2, (b3 j).1, (b3 j).2.1, (b3 j).2.2]
    exact ⟨rfl, rfl, rfl⟩
  · rw [a4, b4]
  · rw [a5, b5]
  · intro l j hl
    rw [a6 l j (hloc l hl), b6 l j (hloc l hl)]

/-- C20: a `DRIVE` module of the current version whose payload holds the timing
factor and the four unit records is decoded up to the reconstruction whatever
follows these bytes: no read of a trailing field (the attach-detach clocks, the
byte-ready edge and active flags) makes `drive_snapshot_read_module` return
early, the module is closed, the rotation table set, and the function goes on
with the reconstruction. Two such modules with the same tested bytes, one with
its trailing fields and one without or with a part of them, are decoded to
states that differ in nothing but the destinations of the trailing reads. -/
theorem C20_trailing_fields_are_lenient (c : Cfg) (e : Ext) (s s1 : Snapshot) (wr : World)
    (md md1 : SnapModule)
    (hmod : drive_module s = some md) (hmaj : md.major = 1) (hmin : md.minor = 5)
    (hmod1 : drive_module s1 = some md1) (hmaj1 : md1.major = 1) (hmin1 : md1.minor = 5)
    (hlen : drive_record_bytes ≤ md.data.length)
    (hhead : md1.data.take drive_record_bytes = md.data.take drive_record_bytes) :
    ∃ d d1, drive_snapshot_read_decode c e s wr = some d ∧
      drive_snapshot_read_decode c e s1 wr = some d1 ∧
      drive_snapshot_read_module c e s wr = drive_snapshot_read_restore c e s d.1 d.2.1 d.2.2 ∧
      drive_snapshot_read_module c e s1 wr
        = drive_snapshot_read_restore c e s1 d1.1 d1.2.1 d1.2.2 ∧
      (∃ t t1 ptr, d.1.trace = t ++ [.snapshot_module_close .DRIVE, .rotation_table_set ptr] ∧
        d1.1.trace = t1 ++ [.snapshot_module_close .DRIVE, .rotation_table_set ptr]) ∧
      (∀ j f, f ≠ .byte_ready_edge → f ≠ .byte_ready_active →
        (d.1.units j).sc f = (d1.1.units j).sc f) ∧
      (∀ j, (d.1.units j).image = (d1.1.units j).image ∧ (d.1.units j).gcr = (d1.1.units j).gcr ∧
        (d.1.units j).p64 = (d1.1.units j).p64) ∧
      d.1.resources = d1.1.resources ∧ d.1.snapshot_error = d1.1.snapshot_error ∧
      (∀ l j, l ≠ .attach_detach_clk → d.2.1 l j = d1.2.1 l j) ∧ d.2.2 = d1.2.2 := by
  have hhl : (md.data.take drive_record_bytes).length = drive_record_bytes := by
    rw [List.length_take]; omega
  obtain ⟨w2, loc2, sf, hd⟩ := read_decode_long c e wr (md.data.take drive_record_bytes) hhl
  have h0 := hd s md (md.data.drop drive_record_bytes) hmod hmaj hmin
    (List.take_append_drop _ _).symm
  have h1 := hd s1 md1 (md1.data.drop drive_record_bytes) hmod1 hmaj1 hmin1
    (by rw [← hhead]; exact (List.take_append_drop _ _).symm)
  generalize hA : read_units_ready NUM_DISK_UNITS 0 (read_units_clk NUM_DISK_UNITS 0
    ⟨⟨.DRIVE, md.data.drop drive_record_bytes⟩, w2, loc2⟩) = A at h0
  generalize hB : read_units_ready NUM_DISK_UNITS 0 (read_units_clk NUM_DISK_UNITS 0
    ⟨⟨.DRIVE, md1.data.drop drive_record_bytes⟩, w2, loc2⟩) = B at h1
  obtain ⟨n0, n1, g1, g2, g3, g4, g5⟩ := trailing_loops_agree .DRIVE _ _ w2 loc2 A B hA hB
  have hptr : (List.range NUM_DISK_UNITS).map (fun i => B.loc .rotation_table_ptr i)
      = (List.range NUM_DISK_UNITS).map (fun i => A.loc .rotation_table_ptr i) :=
    List.map_congr_left (fun i _ => (g5 .rotation_table_ptr i (by decide)).symm)
  rw [hptr] at h1
  refine ⟨_, _, h0, h1, read_module_of_decode c e s wr _ _ _ h0,
    read_module_of_decode c e s1 wr _ _ _ h1, ?_, g1, g2, g3, g4, g5, rfl⟩
  refine ⟨A.w.trace, B.w.trace,
    (List.range NUM_DISK_UNITS).map (fun i => A.loc .rotation_table_ptr i), ?_, ?_⟩
  · simp only [snapshot_module_close, log_trace, n0, List.append_assoc, List.singleton_append]
  · simp only [snapshot_module_close, log_trace, n1, List.append_assoc, List.singleton_append]

set_option maxRecDepth 100000 in
/-- C20 (witness): the module of `exampleHeadOnly`, which ends after the four
unit records, and the module of `exampleWhole`, which holds the trailing fields
too, are both decoded up to the reconstruction. -/
theorem C20_trailing_fields_are_lenient_witness :
    drive_module exampleHeadOnly = some ⟨.DRIVE, 1, 5,
      (drive_payload (exampleCfg true) exampleExt exampleDriveWorld).take drive_record_bytes⟩ ∧
    drive_module exampleWhole = some ⟨.DRIVE, 1, 5,
      drive_payload (exampleCfg true) exampleExt exampleDriveWorld⟩ ∧
    drive_record_bytes
      ≤ ((drive_payload (exampleCfg true) exampleExt exampleDriveWorld).take
          drive_record_bytes).length ∧
    (drive_snapshot_read_decode (exampleCfg false) exampleExt exampleHeadOnly
      exampleWorld).isSome = true ∧
    (drive_snapshot_read_decode (exampleCfg false) exampleExt exampleWhole
      exampleWorld).isSome = true := by
  have hm : drive_module exampleHeadOnly = some ⟨.DRIVE, 1, 5,
      (drive_payload (exampleCfg true) exampleExt exampleDriveWorld).take drive_record_bytes⟩ :=
    rfl
  have hm1 : drive_module exampleWhole = some ⟨.DRIVE, 1, 5,
      drive_payload (exampleCfg true) exampleExt exampleDriveWorld⟩ := rfl
  have hl : drive_record_bytes
      ≤ ((drive_payload (exampleCfg true) exampleExt exampleDriveWorld).take
          drive_record_bytes).length := by decide
  obtain ⟨d, d1, h0, h1, -⟩ := C20_trailing_fields_are_lenient (exampleCfg false) exampleExt
    exampleHeadOnly exampleWhole exampleWorld _ _ hm rfl rfl hm1 rfl rfl hl
    (by show List.take _ _ = List.take _ (List.take _ _); rw [List.take_take, Nat.min_self])
  exact ⟨hm, hm1, hl, by rw [h0]; rfl, by rw [h1]; rfl⟩

/-! ## The attach-detach clock of a module without trailing section -/

theorem read_units_ready_reads_ready :
    ∀ (n i : Nat) (st : RState), reads_only layout_ready st (read_units_ready n i st) := by
  intro n
  induction n with
  | zero => intro i st; exact reads_only_refl _ _
  | succ n ih =>
    intro i st
    simp only [read_units_ready]
    exact reads_only_trans
      (reads_only_trans
        (reads_only_mono (by decide) (smr_field_reads_only .B_INT (.live .byte_ready_edge) i st))
        (reads_only_mono (by decide)
          (smr_field_reads_only .B_INT (.live .byte_ready_active) i _)))
      (ih _ _)

/-- With fewer than 4 bytes left in the module every read of the loop "this one
is new" fails: the local arrays and the cursor are as before. -/
theorem read_units_clk_short :
    ∀ (n i : Nat) (st : RState), st.m.data.length < 4 →
      (read_units_clk n i st).loc = st.loc ∧ (read_units_clk n i st).m = st.m := by
  intro n
  induction n with
  | zero => intro i st _; exact ⟨rfl, rfl⟩
  | succ n ih =>
    intro i st h
    simp only [read_units_clk]
    have hs : (smr_field .DW (.loc .attach_detach_clk) i st).2.loc = st.loc ∧
        (smr_field .DW (.loc .attach_detach_clk) i st).2.m = st.m := by
      unfold smr_field snapshot_module_read
      have hl : ¬ RKind.DW.width ≤ st.m.data.length := by
        show ¬ 4 ≤ st.m.data.length
        omega
      simp only [hl, if_false]
      exact ⟨trivial, trivial⟩
    obtain ⟨h1, h2⟩ := ih (i + 1) (smr_field .DW (.loc .attach_detach_clk) i st).2
      (by rw [hs.2]; exact h)
    exact ⟨h1.trans hs.1, h2.trans hs.2⟩

/-- The decoding of a module of the current version that ends less than 4 bytes
after the unit records: the local `attach_detach_clk[]` is never stored into. -/
theorem read_decode_absent_clk (c : Cfg) (e : Ext) (s : Snapshot) (wr : World) (md : SnapModule)
    (hmod : drive_module s = some md) (hmaj : md.major = 1) (hmin : md.minor = 5)
    (hlen : md.data.length < drive_record_bytes + 4)
    (d : World × (Local → Nat → Int) × Int)
    (hd : drive_snapshot_read_decode c e s wr = some d) (j : Nat) :
    d.2.1 .attach_detach_clk j = e.uninit .attach_detach_clk j := by
  unfold drive_snapshot_read_decode at hd
  rw [open_drive_some s wr md hmod, hmaj, hmin] at hd
  have hb : snapshot_version_is_bigger 1 5 DRIVE_SNAP_MAJOR DRIVE_SNAP_MINOR = false := by decide
  have hs : snapshot_version_is_smaller 1 5 DRIVE_SNAP_MAJOR DRIVE_SNAP_MINOR = false := by
    decide
  simp only [hb, hs, Bool.false_eq_true, if_false] at hd
  generalize (if c.libretro = true then
        (wr.log (.snapshot_module_open .DRIVE true)).log .drive_gcr_data_writeback_all
      else resources_set_int
        ((wr.log (.snapshot_module_open .DRIVE true)).log .drive_gcr_data_writeback_all)
        .DriveTrueEmulation 1) = w3 at hd
  have hdw : ∀ r m1 w4, SMR_DW w3 ⟨.DRIVE, md.data⟩ = (r, m1, w4) →
      (r ≠ none → md.data.length = 4 + m1.data.length) := by
    intro r m1 w4 h
    unfold SMR_DW snapshot_module_read at h
    by_cases hl : 4 ≤ md.data.length
    · simp only [hl, if_true, Prod.mk.injEq] at h
      obtain ⟨_, h2, h3⟩ := h
      subst h2 h3
      intro _
      simp only [List.length_drop]
      omega
    · simp only [hl, if_false, Prod.mk.injEq] at h
      obtain ⟨h1, h2, h3⟩ := h
      subst h1 h2 h3
      exact fun h => absurd rfl h
  rcases hsm : SMR_DW w3 ⟨.DRIVE, md.data⟩ with ⟨r, m1, w4⟩
  have d3 := hdw r m1 w4 hsm
  rw [hsm] at hd
  cases r with
  | none => simp at hd
  | some v =>
    simp only [] at hd
    have hl4 := d3 (by simp)
    have hro := read_units_reads_only NUM_DISK_UNITS 0 ⟨m1, w4, e.uninit⟩
    have hco := read_units_consumes NUM_DISK_UNITS 0 ⟨m1, w4, e.uninit⟩
    rcases hru : read_units 1 5 NUM_DISK_UNITS 0 ⟨m1, w4, e.uninit⟩ with ⟨b, st⟩
    rw [hru] at hro hco hd
    cases b with
    | false => simp at hd
    | true =>
      simp only [Option.some.injEq] at hd
      have hc := hco rfl
      simp only [] at hc
      have hshort : st.m.data.length < 4 := by
        unfold drive_record_bytes at hlen
        omega
      obtain ⟨_, _, _, _, _, r6, _⟩ := hro
      have r6a := r6 .attach_detach_clk j (by decide)
      simp only [] at r6a
      have k := read_units_clk_short NUM_DISK_UNITS 0 st hshort
      have q := read_units_ready_reads_ready NUM_DISK_UNITS 0 (read_units_clk NUM_DISK_UNITS 0 st)
      generalize read_units_clk NUM_DISK_UNITS 0 st = B at k q hd
      generalize read_units_ready NUM_DISK_UNITS 0 B = A at q hd
      obtain ⟨_, _, _, _, _, q6, _⟩ := q
      have q6a := q6 .attach_detach_clk j (by decide)
      rw [← hd]
      simp only []
      rw [q6a, k.1, r6a]

/-- C21 (code): when the `DRIVE` module of the current version ends after the
unit records (the section of the attach-detach clocks is absent) and
`drive_snapshot_read_module` returns 0, the `attach_detach_clk` that it stores
into a drive whose unit type is not `DRIVE_TYPE_NONE` is the content of the
local array `attach_detach_clk[]`, which nothing has initialised: it is not a
value of the container. -/
theorem C21_absent_clock_is_uninitialised (c : Cfg) (e : Ext) (s : Snapshot) (wr : World)
    (md : SnapModule)
    (hmod : drive_module s = some md) (hmaj : md.major = 1) (hmin : md.minor = 5)
    (hlen : drive_record_bytes ≤ md.data.length)
    (habs : md.data.length < drive_record_bytes + 4)
    (hret : (drive_snapshot_read_module c e s wr).1 = 0)
    (j : Nat) (hj : j < NUM_DISK_UNITS)
    (ht : ((drive_snapshot_read_module c e s wr).2.units j).sc .type ≠ c.DRIVE_TYPE_NONE) :
    ((drive_snapshot_read_module c e s wr).2.units j).sc .attach_detach_clk
      = e.uninit .attach_detach_clk j := by
  have hhl : (md.data.take drive_record_bytes).length = drive_record_bytes := by
    rw [List.length_take]; omega
  obtain ⟨w2, loc2, sf, hdl⟩ := read_decode_long c e wr (md.data.take drive_record_bytes) hhl
  have h0 := hdl s md (md.data.drop drive_record_bytes) hmod hmaj hmin
    (List.take_append_drop _ _).symm
  generalize hdd : (some _ : Option (World × (Local → Nat → Int) × Int)) = od at h0
  cases od with
  | none => cases hdd
  | some d =>
    have hc := read_decode_absent_clk c e s wr md hmod hmaj hmin habs d h0 j
    obtain ⟨w6, loc, sf1⟩ := d
    rw [read_module_of_decode c e s wr w6 loc sf1 h0] at hret ht ⊢
    obtain ⟨w5, _, hu, _⟩ := read_restore_spec c e s w6 loc sf1 hret
    rw [hu j .type, if_pos hj, clock_applied_type] at ht
    rw [hu j .attach_detach_clk, if_pos hj]
    unfold clock_applied
    rw [if_pos ht]
    simp only [reduceCtorEq, if_false, if_true]
    exact hc

set_option maxRecDepth 100000 in
/-- C21 (witness): the module of `exampleHeadOnly` ends after the unit records
and holds a 1541 in unit 0. Read in an environment whose uninitialised locals
hold 77, the drive of unit 0 gets the attach-detach clock 77; read in one whose
locals hold 0, it gets 0. -/
theorem C21_absent_clock_is_uninitialised_witness :
    drive_module exampleHeadOnly = some ⟨.DRIVE, 1, 5,
      (drive_payload (exampleCfg true) exampleExt exampleDriveWorld).take drive_record_bytes⟩ ∧
    (drive_snapshot_read_module (exampleCfg false) exampleGarbageExt exampleHeadOnly
      exampleWorld).1 = 0 ∧
    ((drive_snapshot_read_module (exampleCfg false) exampleGarbageExt exampleHeadOnly
      exampleWorld).2.units 0).sc .type ≠ (exampleCfg false).DRIVE_TYPE_NONE ∧
    ((drive_snapshot_read_module (exampleCfg false) exampleGarbageExt exampleHeadOnly
      exampleWorld).2.units 0).sc .attach_detach_clk = 77 ∧
    ((drive_snapshot_read_module (exampleCfg false) exampleExt exampleHeadOnly
      exampleWorld).2.units 0).sc .attach_detach_clk = 0 :=
  ⟨rfl, by decide, by decide,
    C21_absent_clock_is_uninitialised (exampleCfg false) exampleGarbageExt exampleHeadOnly
      exampleWorld _ rfl rfl rfl (by decide) (by decide) (by decide) 0 (by decide) (by decide),
    by decide⟩

/-! ## The calls of the writers on their modules -/

/-- The calls of the flat image writer: the creation of its module and, when the
module was created, its close; on every path. -/
theorem write_image_module_trace (c : Cfg) (e : Ext) (s : Snapshot) (w : World) (dnr : Nat) :
    ∃ name, (name = .NOIMAGE dnr ∨ name = .IMAGE dnr) ∧
      (drive_snapshot_write_image_module c e s w dnr).2.2.trace
        = w.trace ++ .snapshot_module_create name IMAGE_SNAP_MAJOR IMAGE_SNAP_MINOR ::
            (if e.create_fails name = true then [] else [.snapshot_module_close name]) := by
  unfold drive_snapshot_write_image_module
  simp only []
  generalize hn : (if ((w.units dnr).image.isNone ||
      decide ((w.units dnr).sc .type = c.DRIVE_TYPE_CMDHD)) = true
    then ModName.NOIMAGE dnr else ModName.IMAGE dnr) = name
  have hname : name = .NOIMAGE dnr ∨ name = .IMAGE dnr := by
    rw [← hn]
    split
    · exact Or.inl rfl
    · exact Or.inr rfl
  have hnm : ∀ (n : Nat) (img : DiskImage) (m : WHandle), m.name = name →
      ∀ tr, (write_image_tracks e img n tr m).name = name := by
    intro n img
    induction n with
    | zero => intro m hm tr; exact hm
    | succ n ih =>
      intro m hm tr
      have hin : ∀ (k sec : Nat) (m0 : WHandle), m0.name = name →
          (write_image_track e img tr k sec m0).2.name = name := by
        intro k
        induction k with
        | zero => intro sec m0 h0; exact h0
        | succ k ihk =>
          intro sec m0 h0
          simp only [write_image_track]
          split
          · apply ihk
            unfold SMW_BA smw
            split <;> exact h0
          · exact h0
      simp only [write_image_tracks]
      have h1 := hin (img.sectorsOn tr + 1) 0 m hm
      rcases hr : write_image_track e img tr (img.sectorsOn tr + 1) 0 m with ⟨sec, m1⟩
      rw [hr] at h1
      simp only
      split
      · exact h1
      · exact ih m1 h1 (tr + 1)
  refine ⟨name, hname, ?_⟩
  unfold snapshot_module_create
  by_cases hcf : e.create_fails name = true
  · simp only [hcf, if_true]
    simp
  · simp only [hcf, Bool.false_eq_true, if_false]
    split
    · simp only [snapshot_module_close_w]
      split <;> (next heq => simp only [Prod.mk.injEq] at heq; rw [← heq.2.2]; simp)
    · next img _ =>
      have h2 := hnm (img.content.length + 1) img
        (SMW_W e ⟨name, IMAGE_SNAP_MAJOR, IMAGE_SNAP_MINOR, [], 0⟩ (img.type : Int)).2
        (by unfold SMW_W smw; split <;> rfl) 1
      simp only [snapshot_module_close_w, h2]
      split <;> (next heq => simp only [Prod.mk.injEq] at heq; rw [← heq.2.2]; simp)

theorem write_gcr_tracks_name (e : Ext) (drive : DiskUnit) :
    ∀ (n i : Nat) (m : WHandle), (write_gcr_tracks e drive n i m).2.name = m.name := by
  intro n
  induction n with
  | zero => intro i m; rfl
  | succ n ih =>
    intro i m
    simp only [write_gcr_tracks, SMW_DW, SMW_BA, smw]
    split
    · next h =>
      split at h <;> (simp only [Prod.mk.injEq] at h; rw [← h.2])
    · next h =>
      have hm1 : ∀ m1, (if e.smw_fails m.name m.nwrites = true then
            (false, { m with nwrites := m.nwrites + 1 })
          else (true, { m with data := m.data ++ leBytes 4 (castU 32 ((match (drive.gcr i).data with
            | some _ => castU 32 (drive.gcr i).size
            | none => 0 : Nat) : Int)), nwrites := m.nwrites + 1 })) = (true, m1) →
          m1.name = m.name := by
        intro m1 hh
        split at hh <;> (simp only [Prod.mk.injEq] at hh; rw [← hh.2])
      have hname := hm1 _ h
      split
      · split
        · next h2 =>
          split at h2 <;> (simp only [Prod.mk.injEq] at h2; rw [← h2.2]; exact hname)
        · next h2 =>
          rw [ih]
          split at h2 <;> (simp only [Prod.mk.injEq] at h2; rw [← h2.2]; exact hname)
      · rw [ih]
        exact hname

/-- The calls of the GCR image writer: the creation of its module and, when the
module was created, its close; on every path. -/
theorem write_gcrimage_module_trace (c : Cfg) (e : Ext) (s : Snapshot) (w : World) (dnr : Nat) :
    (drive_snapshot_write_gcrimage_module c e s w dnr).2.2.trace
      = w.trace ++ .snapshot_module_create (.GCRIMAGE dnr) GCRIMAGE_SNAP_MAJOR
            GCRIMAGE_SNAP_MINOR ::
          (if e.create_fails (.GCRIMAGE dnr) = true then []
            else [.snapshot_module_close (.GCRIMAGE dnr)]) := by
  unfold drive_snapshot_write_gcrimage_module snapshot_module_create
  by_cases hcf : e.create_fails (.GCRIMAGE dnr) = true
  · simp [hcf]
  · simp only [hcf, Bool.false_eq_true, if_false]
    split
    · simp [snapshot_module_close_w, SMW_BA, smw]
      split <;> rfl
    · simp only [SMW_DW, smw, snapshot_module_close_w]
      split
      · next h =>
        split at h <;> (simp only [Prod.mk.injEq] at h; rw [← h.2]; simp)
      · next m1 h =>
        have hn1 : m1.name = .GCRIMAGE dnr := by
          split at h <;> (simp only [Prod.mk.injEq] at h; rw [← h.2])
        have hn2 := write_gcr_tracks_name e (w.units dnr) (c.MAX_TRACKS_1571 * 2) 0 m1
        rcases hr : write_gcr_tracks e (w.units dnr) (c.MAX_TRACKS_1571 * 2) 0 m1 with ⟨i, m2⟩
        rw [hr] at hn2
        simp only at hn2 ⊢
        rw [hn2, hn1]
        split <;> simp

/-- The calls of the P64 image writer: the creation of its module and its
close, which is missing when the module could not be created and when the
serialisation of the flux image fails. -/
theorem write_p64image_module_trace (e : Ext) (s : Snapshot) (w : World) (dnr : Nat) :
    (drive_snapshot_write_p64image_module e s w dnr).2.2.trace
      = w.trace ++ .snapshot_module_create (.P64IMAGE dnr) GCRIMAGE_SNAP_MAJOR
            GCRIMAGE_SNAP_MINOR ::
          (if e.create_fails (.P64IMAGE dnr) = true ∨
              ((w.units dnr).p64.bind e.P64ImageWriteToStream = none ∧ (w.units dnr).p64 ≠ none)
            then [] else [.snapshot_module_close (.P64IMAGE dnr)]) := by
  unfold drive_snapshot_write_p64image_module snapshot_module_create
  by_cases hcf : e.create_fails (.P64IMAGE dnr) = true
  · simp [hcf]
  · simp only [hcf, Bool.false_eq_true, if_false, false_or]
    cases hp : (w.units dnr).p64 with
    | none => simp [snapshot_module_close_w]
    | some img =>
      simp only [Option.some_bind, ne_eq, not_false_eq_true, and_true, reduceCtorEq]
      cases hs : e.P64ImageWriteToStream img with
      | none => simp
      | some stream =>
        simp only [reduceCtorEq, if_false, SMW_DW, SMW_BA, smw, snapshot_module_close_w]
        split
        · next h =>
          split at h <;> (simp only [Prod.mk.injEq] at h; rw [← h.2]; simp)
        · next m1 h =>
          have hn1 : m1.name = .P64IMAGE dnr ∧ m1.nwrites = 1 := by
            split at h <;> (simp only [Prod.mk.injEq] at h; rw [← h.2]; exact ⟨rfl, rfl⟩)
          split
          · next h2 =>
            split at h2 <;> (simp only [Prod.mk.injEq] at h2; rw [← h2.2]; simp [hn1.1])
          · next m2 h2 =>
            have hn2 : m2.name = .P64IMAGE dnr := by
              split at h2 <;> (simp only [Prod.mk.injEq] at h2; rw [← h2.2]; exact hn1.1)
            rw [hn2]
            split <;> (next heq => simp only [Prod.mk.injEq] at heq; rw [← heq.2.2]; simp)

theorem untouched_refl (name : ModName) (w : World) : untouched name w w :=
  ⟨[], by simp, rfl⟩

theorem untouched_trans {name : ModName} {w w1 w2 : World} (h1 : untouched name w w1)
    (h2 : untouched name w1 w2) : untouched name w w2 := by
  obtain ⟨t1, a1, b1⟩ := h1
  obtain ⟨t2, a2, b2⟩ := h2
  exact ⟨t1 ++ t2, by rw [a2, a1, List.append_assoc], by rw [List.filter_append, b1, b2]; rfl⟩

theorem untouched_log {name : ModName} {w w1 : World} (h : untouched name w w1) (ev : Event)
    (hev : of_module name ev = false) : untouched name w (w1.log ev) := by
  obtain ⟨t1, a1, b1⟩ := h
  exact ⟨t1 ++ [ev], by simp [a1], by rw [List.filter_append, b1]; simp [hev]⟩

theorem untouched_of_trace {name : ModName} {w w1 : World} (t : List Event)
    (h : w1.trace = w.trace ++ t) (ht : t.filter (of_module name) = []) : untouched name w w1 :=
  ⟨t, h, ht⟩

theorem write_cpu_modules_untouched (name : ModName) (c : Cfg) (e : Ext) :
    ∀ (n i : Nat) (w : World), untouched name w (write_cpu_modules c e n i w).2 := by
  intro n
  induction n with
  | zero => intro i w; exact untouched_refl _ _
  | succ n ih =>
    intro i w
    simp only [write_cpu_modules]
    split
    · split
      · split
        · exact untouched_log (untouched_refl _ _) _ (by rfl)
        · split
          · exact untouched_log (untouched_log (untouched_refl _ _) _ (by rfl)) _ (by rfl)
          · exact untouched_trans
              (untouched_log (untouched_log (untouched_refl _ _) _ (by rfl)) _ (by rfl)) (ih _ _)
      · split
        · exact untouched_log (untouched_refl _ _) _ (by rfl)
        · split
          · exact untouched_log (untouched_log (untouched_refl _ _) _ (by rfl)) _ (by rfl)
          · exact untouched_trans
              (untouched_log (untouched_log (untouched_refl _ _) _ (by rfl)) _ (by rfl)) (ih _ _)
    · exact ih _ _

theorem write_rom_modules_untouched (name : ModName) (e : Ext) (save_roms : Int) :
    ∀ (n i : Nat) (w : World), untouched name w (write_rom_modules e save_roms n i w).2 := by
  intro n
  induction n with
  | zero => intro i w; exact untouched_refl _ _
  | succ n ih =>
    intro i w
    simp only [write_rom_modules]
    split
    · split
      · exact untouched_log (untouched_refl _ _) _ (by rfl)
      · exact untouched_trans (untouched_log (untouched_refl _ _) _ (by rfl)) (ih _ _)
    · exact ih _ _

theorem write_image_modules_untouched (c : Cfg) (e : Ext) (G P : Nat → Int) :
    ∀ (n d : Nat) (s : Snapshot) (w : World),
      untouched .DRIVE w (write_image_modules c e G P n d s w).2.2 := by
  intro n
  induction n with
  | zero => intro d s w; exact untouched_refl _ _
  | succ n ih =>
    intro d s w
    simp only [write_image_modules]
    have hstep : untouched .DRIVE w
        (if G d > 0 then drive_snapshot_write_gcrimage_module c e s w d
          else if P d > 0 then drive_snapshot_write_p64image_module e s w d
          else drive_snapshot_write_image_module c e s w d).2.2 := by
      split
      · refine untouched_of_trace _ (write_gcrimage_module_trace c e s w d) ?_
        split <;> simp [of_module]
      · split
        · refine untouched_of_trace _ (write_p64image_module_trace e s w d) ?_
          split <;> simp [of_module]
        · obtain ⟨name, hname, ht⟩ := write_image_module_trace c e s w d
          refine untouched_of_trace _ ht ?_
          rcases hname with h | h <;> subst h <;> split <;> simp [of_module]
    generalize (if G d > 0 then drive_snapshot_write_gcrimage_module c e s w d
          else if P d > 0 then drive_snapshot_write_p64image_module e s w d
          else drive_snapshot_write_image_module c e s w d) = r at hstep ⊢
    split
    · exact hstep
    · exact untouched_trans hstep (ih _ _ _)

theorem write_submodules_untouched (c : Cfg) (e : Ext) (s : Snapshot) (w : World)
    (save_disks save_roms : Int) (G P : Nat → Int) :
    untouched .DRIVE w (drive_snapshot_write_submodules c e s w save_disks save_roms G P).2.2 := by
  unfold drive_snapshot_write_submodules
  have h1 := write_cpu_modules_untouched .DRIVE c e NUM_DISK_UNITS 0 w
  rcases hc : write_cpu_modules c e NUM_DISK_UNITS 0 w with ⟨b1, w1⟩
  rw [hc] at h1
  cases b1 with
  | false => exact h1
  | true =>
    simp only
    have h2 : untouched .DRIVE w1
        (if save_disks ≠ 0 then write_image_modules c e G P NUM_DISK_UNITS 0 s w1
          else (true, s, w1)).2.2 := by
      split
      · exact write_image_modules_untouched c e G P _ _ _ _
      · exact untouched_refl _ _
    rcases hi : (if save_disks ≠ 0 then write_image_modules c e G P NUM_DISK_UNITS 0 s w1
          else (true, s, w1)) with ⟨b2, s2, w2⟩
    rw [hi] at h2
    cases b2 with
    | false => exact untouched_trans h1 h2
    | true =>
      simp only
      have h3 := write_rom_modules_untouched .DRIVE e save_roms NUM_DISK_UNITS 0 w2
      rcases hr : write_rom_modules e save_roms NUM_DISK_UNITS 0 w2 with ⟨b3, w3⟩
      rw [hr] at h3
      cases b3 <;> exact untouched_trans h1 (untouched_trans h2 h3)

/-- The calls of `drive_snapshot_write_module` on the module `DRIVE`: its
creation, when the function gets that far, and then, when the module was
created, one close; on every path. -/
theorem write_module_drive_calls (c : Cfg) (e : Ext) (s : Snapshot) (w : World)
    (save_disks save_roms : Int) :
    ∃ t, (drive_snapshot_write_module c e s w save_disks save_roms).2.2.trace = w.trace ++ t ∧
      t.filter (of_module .DRIVE)
        = if e.vdrive_snapshot_module_write < 0 ∨
              (c.libretro = false ∧ w.resources .DriveTrueEmulation = 0) then []
          else .snapshot_module_create .DRIVE DRIVE_SNAP_MAJOR DRIVE_SNAP_MINOR ::
            (if e.create_fails .DRIVE = true then [] else [.snapshot_module_close .DRIVE]) := by
  unfold drive_snapshot_write_module
  simp only []
  by_cases hv : e.vdrive_snapshot_module_write < 0
  · simp only [hv, if_true, true_or]
    exact ⟨[_], rfl, rfl⟩
  · simp only [hv, if_false, false_or]
    by_cases hoff : c.libretro = false ∧ w.resources .DriveTrueEmulation = 0
    · simp only [hoff.1, hoff.2, Bool.not_false, decide_True, Bool.and_self, if_true, and_self]
      exact ⟨[_], rfl, rfl⟩
    · have hcond : (!c.libretro && decide (w.resources .DriveTrueEmulation = 0)) = false := by
        cases hl : c.libretro
        · simp only [Bool.not_false, Bool.true_and, decide_eq_false_iff_not]
          intro h
          exact hoff ⟨hl, h⟩
        · rfl
      simp only [hcond, Bool.false_eq_true, if_false, hoff]
      generalize hst : (if c.libretro = true then (10 : Int)
        else if w.resources .DriveTrueEmulation ≠ 0 then 10 else 8) = start
      unfold snapshot_module_create
      by_cases hcf : e.create_fails .DRIVE = true
      · simp only [hcf, if_true]
        exact ⟨[.vdrive_snapshot_module_write start, .drive_gcr_data_writeback_all,
          .rotation_table_get, .snapshot_module_create .DRIVE DRIVE_SNAP_MAJOR DRIVE_SNAP_MINOR],
          by simp, rfl⟩
      · simp only [hcf, Bool.false_eq_true, if_false]
        have hname : ∀ (ww : World),
            (write_drive_payload c e ww ⟨.DRIVE, DRIVE_SNAP_MAJOR, DRIVE_SNAP_MINOR, [], 0⟩).2.name
              = .DRIVE := by
          intro ww
          have := write_drive_payload_stops c e ww
            ⟨.DRIVE, DRIVE_SNAP_MAJOR, DRIVE_SNAP_MINOR, [], 0⟩
          exact this.1
        have hfive : List.filter (of_module .DRIVE)
            [.vdrive_snapshot_module_write start, .drive_gcr_data_writeback_all,
              .rotation_table_get, .snapshot_module_create .DRIVE DRIVE_SNAP_MAJOR DRIVE_SNAP_MINOR,
              .snapshot_module_close .DRIVE]
            = [.snapshot_module_create .DRIVE DRIVE_SNAP_MAJOR DRIVE_SNAP_MINOR,
                .snapshot_module_close .DRIVE] := rfl
        have hn1 := hname ((((w.log (.vdrive_snapshot_module_write start)).log
          .drive_gcr_data_writeback_all).log .rotation_table_get).log
            (.snapshot_module_create .DRIVE DRIVE_SNAP_MAJOR DRIVE_SNAP_MINOR))
        rcases hp : write_drive_payload c e ((((w.log (.vdrive_snapshot_module_write start)).log
          .drive_gcr_data_writeback_all).log .rotation_table_get).log
            (.snapshot_module_create .DRIVE DRIVE_SNAP_MAJOR DRIVE_SNAP_MINOR))
          ⟨.DRIVE, DRIVE_SNAP_MAJOR, DRIVE_SNAP_MINOR, [], 0⟩ with ⟨ok, m1⟩
        rw [hp] at hn1
        simp only at hn1
        cases ok with
        | false =>
          simp only [snapshot_module_close_w, hn1]
          exact ⟨_, by simp, hfive⟩
        | true =>
          simp only [snapshot_module_close_w, hn1]
          cases hcl : e.close_fails .DRIVE with
          | true =>
            simp only [Bool.not_true]
            exact ⟨_, by simp, hfive⟩
          | false =>
            simp only [Bool.not_false]
            obtain ⟨t, h1, h2⟩ := write_submodules_untouched c e
              (s ++ [⟨.DRIVE, m1.major, m1.minor, m1.data⟩])
              (((((w.log (.vdrive_snapshot_module_write start)).log
                .drive_gcr_data_writeback_all).log .rotation_table_get).log
                  (.snapshot_module_create .DRIVE DRIVE_SNAP_MAJOR DRIVE_SNAP_MINOR)).log
                    (.snapshot_module_close .DRIVE)) save_disks save_roms
              (fun i => if (w.units i).sc .GCR_image_loaded = 0 ∨ save_disks = 0 then 0 else 1)
              (fun i => if (w.units i).sc .P64_image_loaded = 0 ∨ save_disks = 0 then 0 else 1)
            refine ⟨[.vdrive_snapshot_module_write start, .drive_gcr_data_writeback_all,
              .rotation_table_get, .snapshot_module_create .DRIVE DRIVE_SNAP_MAJOR DRIVE_SNAP_MINOR,
              .snapshot_module_close .DRIVE] ++ t, ?_, ?_⟩
            · simp only [log_units] at h1 ⊢
              rw [h1]
              simp
            · rw [List.filter_append, h2, hfive]
              rfl

/-! ## Release of the modules by the writers -/

/-- C22 (code): when the drive holds a flux image whose serialisation by
`P64ImageWriteToStream` fails, `drive_snapshot_write_p64image_module`, which has
created the module `P64IMAGEk`, returns -1 without closing it: the only call it
makes is the `snapshot_module_create`, and the container is as before. -/
theorem C22_p64_writer_returns_without_close (e : Ext) (s : Snapshot) (w : World) (dnr : Nat)
    (img : P64Image) (hp : (w.units dnr).p64 = some img)
    (hs : e.P64ImageWriteToStream img = none)
    (hc : e.create_fails (.P64IMAGE dnr) = false) :
    drive_snapshot_write_p64image_module e s w dnr
      = (-1, s, w.log (.snapshot_module_create (.P64IMAGE dnr) GCRIMAGE_SNAP_MAJOR
          GCRIMAGE_SNAP_MINOR)) := by
  unfold drive_snapshot_write_p64image_module snapshot_module_create
  simp only [hc, Bool.false_eq_true, if_false, hp, hs]

set_option maxRecDepth 100000 in
/-- C22 (witness): unit 0 of `exampleP64World` holds a flux image and the
serialisation fails; the whole `drive_snapshot_write_module` then returns -1 and
the last call it has made is the creation of `P64IMAGE0`. -/
theorem C22_p64_writer_returns_without_close_witness :
    (exampleP64World.units 0).p64 = some ⟨[1, 2, 3]⟩ ∧
    exampleNoStreamExt.P64ImageWriteToStream ⟨[1, 2, 3]⟩ = none ∧
    (drive_snapshot_write_p64image_module exampleNoStreamExt [] exampleP64World 0).1 = -1 ∧
    (drive_snapshot_write_p64image_module exampleNoStreamExt [] exampleP64World 0).2.2.trace
      = [.snapshot_module_create (.P64IMAGE 0) 3 1] ∧
    (drive_snapshot_write_module (exampleCfg true) exampleNoStreamExt [] exampleP64World 1 0).1
      = -1 ∧
    (drive_snapshot_write_module (exampleCfg true) exampleNoStreamExt [] exampleP64World 1
      0).2.2.trace.getLast? = some (.snapshot_module_create (.P64IMAGE 0) 3 1) :=
  ⟨rfl, rfl,
    by rw [C22_p64_writer_returns_without_close exampleNoStreamExt [] exampleP64World 0
      ⟨[1, 2, 3]⟩ rfl rfl rfl],
    by rw [C22_p64_writer_returns_without_close exampleNoStreamExt [] exampleP64World 0
      ⟨[1, 2, 3]⟩ rfl rfl rfl]; rfl,
    by decide, by decide⟩

/-! ## Release of the modules by the readers -/

theorem scope_run_append (t1 t2 : List Event) :
    ∀ a, scope_run a (t1 ++ t2) = (scope_run a t1).bind (fun b => scope_run b t2) := by
  induction t1 with
  | nil => intro a; rfl
  | cons ev t ih =>
    intro a
    simp only [List.cons_append, scope_run]
    cases scope_step a ev with
    | none => rfl
    | some c => simp only [Option.some_bind]; exact ih c

theorem aborted_append_left {t1 : List Event} (t2 : List Event) (h : aborted t1) :
    aborted (t1 ++ t2) := by
  rcases h with h | h
  · exact Or.inl (List.mem_append_left _ h)
  · exact Or.inr (List.mem_append_left _ h)

theorem aborted_append_right (t1 : List Event) {t2 : List Event} (h : aborted t2) :
    aborted (t1 ++ t2) := by
  rcases h with h | h
  · exact Or.inl (List.mem_append_right _ h)
  · exact Or.inr (List.mem_append_right _ h)

theorem tracked_refl (a : Option ModName) (w : World) : tracked a a w w :=
  ⟨[], by simp, Or.inl rfl⟩

theorem tracked_trans {a b d : Option ModName} {w w1 w2 : World}
    (h1 : tracked a b w w1) (h2 : tracked b d w1 w2) : tracked a d w w2 := by
  obtain ⟨t1, e1, r1⟩ := h1
  obtain ⟨t2, e2, r2⟩ := h2
  refine ⟨t1 ++ t2, by rw [e2, e1, List.append_assoc], ?_⟩
  rcases r1 with r1 | r1
  · rcases r2 with r2 | r2
    · left; rw [scope_run_append, r1]; exact r2
    · right; exact aborted_append_right _ r2
  · right; exact aborted_append_left _ r1

theorem tracked_step {a b : Option ModName} {w w1 : World} (h : tracked a b w w1) (ev : Event)
    (d : Option ModName) (hs : scope_step b ev = some d) : tracked a d w (w1.log ev) := by
  obtain ⟨t1, e1, r1⟩ := h
  refine ⟨t1 ++ [ev], by simp [e1], ?_⟩
  rcases r1 with r1 | r1
  · left; rw [scope_run_append, r1]; simp [scope_run, hs]
  · right; exact aborted_append_left _ r1

theorem tracked_log {a b : Option ModName} {w w1 : World} (h : tracked a b w w1) (ev : Event)
    (hs : scope_step b ev = some b) : tracked a b w (w1.log ev) :=
  tracked_step h ev b hs

theorem tracked_same {a b : Option ModName} {w w1 : World} (h : tracked a b w w1) (w2 : World)
    (ht : w2.trace = w1.trace) : tracked a b w w2 := by
  obtain ⟨t1, e1, r1⟩ := h
  exact ⟨t1, by rw [ht, e1], r1⟩

theorem tracked_close {a : Option ModName} {name : ModName} {w w1 : World}
    (h : tracked a (some name) w w1) (m : RHandle) (hm : m.name = name) :
    tracked a none w (snapshot_module_close w1 m) := by
  unfold snapshot_module_close
  exact tracked_step h _ none (by simp [scope_step, hm])

theorem tracked_null {a b d : Option ModName} {w w1 : World} (h : tracked a b w w1) :
    tracked a d w (w1.log .null_dereference) := by
  obtain ⟨t1, e1, _⟩ := h
  exact ⟨t1 ++ [.null_dereference], by simp [e1], Or.inr (Or.inl (by simp))⟩

theorem tracked_double_free {a b d : Option ModName} {w w1 : World} (h : tracked a b w w1) :
    tracked a d w (w1.log .double_free) := by
  obtain ⟨t1, e1, _⟩ := h
  exact ⟨t1 ++ [.double_free], by simp [e1], Or.inr (Or.inr (by simp))⟩

theorem tracked_error {a b : Option ModName} {w w1 : World} (h : tracked a b w w1)
    (err : SnapError) : tracked a b w (snapshot_set_error w1 err) :=
  tracked_same (tracked_log h (.snapshot_set_error err) rfl) _ rfl

theorem tracked_resources {a b : Option ModName} {w w1 : World} (h : tracked a b w w1)
    (r : Resource) (v : Int) : tracked a b w (resources_set_int w1 r v) :=
  tracked_same (tracked_log h (.resources_set_int r v) rfl) _ rfl

theorem tracked_setUnit {a b : Option ModName} {w w1 : World} (h : tracked a b w w1) (i : Nat)
    (u : DiskUnit) : tracked a b w (w1.setUnit i u) :=
  tracked_same h _ rfl

theorem tracked_setField {a b : Option ModName} {w w1 : World} (h : tracked a b w w1) (i : Nat)
    (f : Field) (v : Int) : tracked a b w (w1.setField i f v) :=
  tracked_same h _ rfl

theorem tracked_detach {a b : Option ModName} {w w1 : World} (h : tracked a b w w1)
    (dnr drv : Nat) : tracked a b w (file_system_detach_disk w1 dnr drv) := by
  unfold file_system_detach_disk
  simp only
  split
  · exact tracked_setUnit (tracked_log h _ (by rfl)) _ _
  · exact tracked_log h _ (by rfl)

theorem tracked_gcr_loaded {a b : Option ModName} {w w1 : World} (h : tracked a b w w1)
    (dnr : Nat) : tracked a b w (gcr_loaded w1 dnr) :=
  tracked_same h _ rfl

/-- A sequence of reads of a module leaves the open module as it is. -/
theorem tracked_of_reads (a : Option ModName) (name : ModName) (w w1 : World)
    (h : ∃ t, w1.trace = w.trace ++ t ∧ ∀ ev ∈ t, ∃ nb, ev = Event.snapshot_module_read name nb) :
    tracked a a w w1 := by
  obtain ⟨t, e1, ht⟩ := h
  refine ⟨t, e1, Or.inl ?_⟩
  clear e1
  induction t with
  | nil => rfl
  | cons ev t ih =>
    obtain ⟨nb, rfl⟩ := ht ev (by simp)
    simp only [scope_run, scope_step, Option.some_bind]
    exact ih (fun ev h => ht ev (List.mem_cons_of_mem _ h))

/-- The outcome of `snapshot_module_open`: no module, and none is open; or a
handle of the module asked for, which is then open. -/
theorem open_tracked (s : Snapshot) (w : World) (name : ModName) {a : Option ModName}
    {w0 : World} (h : tracked a none w0 w) :
    ((snapshot_module_open s w name).1 = none ∧
      tracked a none w0 (snapshot_module_open s w name).2) ∨
    (∃ m major minor, (snapshot_module_open s w name).1 = some (m, major, minor) ∧
      m.name = name ∧ tracked a (some name) w0 (snapshot_module_open s w name).2) := by
  unfold snapshot_module_open
  split
  · left; exact ⟨rfl, tracked_log h _ (by rfl)⟩
  · right; exact ⟨_, _, _, rfl, rfl, tracked_step h _ _ (by rfl)⟩

theorem read_sector_data_tracked (a : Option ModName) (st : ImgRead) :
    tracked a a st.w (read_sector_data st).w ∧ (read_sector_data st).m.name = st.m.name := by
  obtain ⟨r, data, hr⟩ := SMR_BA_spec st.w st.m 256
  unfold read_sector_data
  rw [hr]
  cases r <;> exact ⟨tracked_log (tracked_refl _ _) _ (by rfl), rfl⟩

theorem write_sector_live_trace (dnr track sector : Nat) (st st1 : ImgRead)
    (h : write_sector_live dnr track sector st = some st1) :
    st1.w.trace = st.w.trace ∧ st1.m = st.m := by
  unfold write_sector_live at h
  split at h
  · cases h
  · split at h
    · cases h
    · injection h with h
      subst h
      exact ⟨rfl, rfl⟩

theorem read_image_track_tracked (a : Option ModName) (dnr track : Nat) :
    ∀ (fuel sector : Nat) (st : ImgRead),
      tracked a a st.w (read_image_track dnr track fuel sector st).2.w ∧
      (read_image_track dnr track fuel sector st).2.m.name = st.m.name := by
  intro fuel
  induction fuel with
  | zero => intro sector st; exact ⟨tracked_refl _ _, rfl⟩
  | succ fuel ih =>
    intro sector st
    simp only [read_image_track]
    cases h : write_sector_live dnr track sector st with
    | none => exact ⟨tracked_refl _ _, rfl⟩
    | some st1 =>
      simp only
      obtain ⟨h1, h2⟩ := write_sector_live_trace _ _ _ _ _ h
      obtain ⟨h3, h4⟩ := read_sector_data_tracked a st1
      obtain ⟨h5, h6⟩ := ih (sector + 1) (read_sector_data st1)
      refine ⟨tracked_trans (tracked_trans (tracked_same (tracked_refl a st.w) _ h1) h3) h5, ?_⟩
      rw [h6, h4, h2]

theorem read_image_tracks_tracked (a : Option ModName) (dnr : Nat) :
    ∀ (fuel track : Nat) (st : ImgRead),
      tracked a a st.w (read_image_tracks dnr fuel track st).w ∧
      (read_image_tracks dnr fuel track st).m.name = st.m.name := by
  intro fuel
  induction fuel with
  | zero => intro track st; exact ⟨tracked_refl _ _, rfl⟩
  | succ fuel ih =>
    intro track st
    simp only [read_image_tracks]
    have h1 := read_image_track_tracked a dnr track (liveSectorsOn st.w dnr track + 1) 0 st
    cases hr : read_image_track dnr track (liveSectorsOn st.w dnr track + 1) 0 st with
    | mk sector st1 =>
      rw [hr] at h1
      simp only
      split
      · exact h1
      · obtain ⟨h5, h6⟩ := ih (track + 1) st1
        exact ⟨tracked_trans h1.1 h5, h6.trans h1.2⟩

theorem read_image_module_releases (c : Cfg) (e : Ext) (s : Snapshot) (w : World) (dnr : Nat) :
    releases w (drive_snapshot_read_image_module c e s w dnr).2 := by
  unfold releases drive_snapshot_read_image_module
  have ho1 := open_tracked s w (.NOIMAGE dnr) (tracked_refl none w)
  cases h1 : snapshot_module_open s w (.NOIMAGE dnr) with
  | mk r1 w1 =>
    rw [h1] at ho1
    simp only at ho1
    rcases ho1 with ⟨hr1, ho1⟩ | ⟨m, major, minor, hr1, hm, ho1⟩
    · subst hr1
      simp only
      have ho2 := open_tracked s w1 (.IMAGE dnr) ho1
      cases h2 : snapshot_module_open s w1 (.IMAGE dnr) with
      | mk r2 w2 =>
        rw [h2] at ho2
        simp only at ho2
        rcases ho2 with ⟨hr2, ho2⟩ | ⟨m, major, minor, hr2, hm, h02⟩
        · subst hr2
          exact ho2
        · subst hr2
          simp only
          split
          · exact tracked_close (tracked_error h02 _) _ hm
          · split
            · exact tracked_close (tracked_error h02 _) _ hm
            · obtain ⟨r, data, hr⟩ := SMR_W_spec w2 m
              rw [hr]
              cases r with
              | none => exact tracked_close (tracked_log h02 _ (by rfl)) _ hm
              | some word =>
                simp only
                have h03 := tracked_log h02 (.snapshot_module_read m.name 2) (by rfl)
                split
                · exact tracked_close (tracked_log h03 _ (by rfl)) _ hm
                · exact tracked_null h03
                · next len _ =>
                  split
                  · exact tracked_close (tracked_log (tracked_log h03 _ (by rfl)) _ (by rfl)) _ hm
                  · split
                    · exact tracked_close
                        (tracked_log (tracked_log (tracked_log h03 _ (by rfl)) _ (by rfl)) _
                          (by rfl)) _ hm
                    · have h06 := tracked_setUnit
                        (tracked_log (tracked_log (tracked_log h03 .archdep_mkstemp_fd (by rfl))
                          .lib_free (by rfl))
                          (.file_system_attach_disk (dnr + 8) 0 len) (by rfl)) dnr
                        { ((w2.log (.snapshot_module_read m.name 2)).log
                            .archdep_mkstemp_fd |>.log .lib_free |>.log
                              (.file_system_attach_disk (dnr + 8) 0 len)).units dnr with
                          image := (e.file_system_attach_disk (dnr + 8) len
                            (((w2.log (.snapshot_module_read m.name 2)).log
                              .archdep_mkstemp_fd |>.log .lib_free |>.log
                                (.file_system_attach_disk (dnr + 8) 0 len)).units dnr).image).2 }
                      split
                      · exact tracked_double_free (tracked_log h06 _ (by rfl))
                      · obtain ⟨q1, q2⟩ := read_sector_data_tracked (some (ModName.IMAGE dnr))
                          ⟨e.uninit_sector_data, ⟨m.name, data⟩,
                            (((w2.log (.snapshot_module_read m.name 2)).log
                              .archdep_mkstemp_fd |>.log .lib_free |>.log
                                (.file_system_attach_disk (dnr + 8) 0 len)).setUnit dnr
                              { ((w2.log (.snapshot_module_read m.name 2)).log
                                  .archdep_mkstemp_fd |>.log .lib_free |>.log
                                    (.file_system_attach_disk (dnr + 8) 0 len)).units dnr with
                                image := (e.file_system_attach_disk (dnr + 8) len
                                  (((w2.log (.snapshot_module_read m.name 2)).log
                                    .archdep_mkstemp_fd |>.log .lib_free |>.log
                                      (.file_system_attach_disk (dnr + 8) 0 len)).units
                                        dnr).image).2 }).log .zfile_close_action⟩
                        obtain ⟨q3, q4⟩ := read_image_tracks_tracked (some (ModName.IMAGE dnr))
                          dnr _ 1 (read_sector_data _)
                        refine @tracked_close _ (ModName.IMAGE dnr) _ _ (tracked_log ?_ _ (by rfl)) _ ?_
                        · exact tracked_trans (tracked_log h06 _ (by rfl)) (tracked_trans q1 q3)
                        · rw [q4, q2]; exact hm
    · subst hr1
      simp only
      refine tracked_close (tracked_detach ?_ _ _) _ hm
      split
      · exact tracked_detach ho1 _ _
      · exact ho1

theorem read_libretro_filename_tracked (a : Option ModName) :
    ∀ (n i : Nat) (st : NameRead), tracked a a st.w (read_libretro_filename n i st).w := by
  intro n
  induction n with
  | zero => intro i st; exact tracked_refl _ _
  | succ n ih =>
    intro i st
    obtain ⟨r, data, hr⟩ := SMR_B_spec st.w st.m
    simp only [read_libretro_filename, hr]
    have hs := tracked_log (tracked_refl a st.w) (.snapshot_module_read st.m.name 1) (by rfl)
    split
    · split
      · exact hs
      · exact tracked_trans hs (ih _ _)
    · split
      · exact hs
      · exact tracked_trans hs (ih _ _)

/-- The track loop of the GCR reader leaves the module open when it succeeds
and has closed it when it fails. -/
theorem read_gcr_tracks_tracked (c : Cfg) (dnr : Nat) (name : ModName) :
    ∀ (n i : Nat) (st : GcrRead), st.m.name = name →
      tracked (some name) (if (read_gcr_tracks c dnr n i st).1 = true then some name else none)
        st.w (read_gcr_tracks c dnr n i st).2.w := by
  intro n
  induction n with
  | zero => intro i st _; exact tracked_refl _ _
  | succ n ih =>
    intro i st hn
    obtain ⟨r, data, hr⟩ := SMR_DW_spec st.w st.m
    simp only [read_gcr_tracks, hr]
    have hs := tracked_log (tracked_refl (some name) st.w) (.snapshot_module_read st.m.name 4)
      (by rfl)
    cases r with
    | none => exact tracked_close hs _ hn
    | some track_size =>
      simp only
      split
      · exact tracked_close hs _ hn
      · split
        · have h2 := tracked_setUnit hs dnr
            (((st.w.log (.snapshot_module_read st.m.name 4)).units dnr).setTrack i
              ⟨some (gcr_alloc (((st.w.log (.snapshot_module_read st.m.name 4)).units dnr).gcr i)
                track_size), toInt32 track_size⟩)
          obtain ⟨r2, data2, hr2⟩ := SMR_BA_spec
            ((st.w.log (.snapshot_module_read st.m.name 4)).setUnit dnr
              (((st.w.log (.snapshot_module_read st.m.name 4)).units dnr).setTrack i
                ⟨some (gcr_alloc (((st.w.log (.snapshot_module_read st.m.name 4)).units dnr).gcr i)
                  track_size), toInt32 track_size⟩))
            ⟨st.m.name, data⟩ track_size
          simp only [hr2]
          cases r2 with
          | none => exact tracked_close (tracked_log h2 _ (by rfl)) _ hn
          | some bs =>
            simp only
            refine tracked_trans ?_ (ih _ _ hn)
            exact tracked_setUnit (tracked_log h2 _ (by rfl)) _ _
        · refine tracked_trans ?_ (ih _ _ hn)
          exact tracked_setUnit hs _ _

theorem clear_gcr_tracks_tracked (a : Option ModName) (dnr : Nat) (n i : Nat) (w : World) :
    tracked a a w (clear_gcr_tracks dnr n i w) :=
  tracked_same (tracked_refl a w) _ (clear_gcr_tracks_frame dnr n i w).1

theorem read_gcr_body_tracked (c : Cfg) (dnr : Nat) (name : ModName) (st : GcrRead)
    (hn : st.m.name = name) :
    tracked (some name) (if (read_gcr_body c dnr st).1 = true then some name else none)
      st.w (read_gcr_body c dnr st).2.w := by
  obtain ⟨r, data, hr⟩ := SMR_DW_spec st.w st.m
  simp only [read_gcr_body, hr]
  have hs := tracked_log (tracked_refl (some name) st.w) (.snapshot_module_read st.m.name 4)
    (by rfl)
  cases r with
  | none => exact tracked_close hs _ hn
  | some n =>
    simp only
    split
    · exact tracked_close hs _ hn
    · have h1 := read_gcr_tracks_tracked c dnr name n 0
        ⟨⟨st.m.name, data⟩, st.w.log (.snapshot_module_read st.m.name 4)⟩ hn
      cases hres : read_gcr_tracks c dnr n 0
        ⟨⟨st.m.name, data⟩, st.w.log (.snapshot_module_read st.m.name 4)⟩ with
      | mk ok st1 =>
        rw [hres] at h1
        have h2 := tracked_trans hs h1
        cases ok with
        | false => exact h2
        | true => exact tracked_trans h2 (clear_gcr_tracks_tracked _ _ _ _ _)

theorem read_gcrimage_module_releases (c : Cfg) (s : Snapshot) (w : World) (dnr : Nat) :
    releases w (drive_snapshot_read_gcrimage_module c s w dnr).2 := by
  unfold releases drive_snapshot_read_gcrimage_module
  have ho1 := open_tracked s w (.GCRIMAGE dnr) (tracked_refl none w)
  cases h1 : snapshot_module_open s w (.GCRIMAGE dnr) with
  | mk r1 w1 =>
    rw [h1] at ho1
    simp only at ho1
    rcases ho1 with ⟨hr1, ho1⟩ | ⟨m, major, minor, hr1, hm, ho1⟩
    · subst hr1
      exact ho1
    · subst hr1
      simp only
      split
      · exact tracked_close (tracked_error ho1 _) _ hm
      · split
        · exact tracked_close (tracked_error ho1 _) _ hm
        · split
          · have hn := tracked_trans ho1
              (read_libretro_filename_tracked (some (.GCRIMAGE dnr)) c.RETRO_PATH_MAX 0
                ⟨[], m, w1⟩)
            have hnm : (read_libretro_filename c.RETRO_PATH_MAX 0 ⟨[], m, w1⟩).m.name
                = .GCRIMAGE dnr :=
              (read_libretro_filename_frame c.RETRO_PATH_MAX 0 ⟨[], m, w1⟩).1.trans hm
            split
            · refine tracked_gcr_loaded (tracked_close ?_ _ hnm) _
              exact tracked_same hn _ rfl
            · have hc := tracked_close hn
                (read_libretro_filename c.RETRO_PATH_MAX 0 ⟨[], m, w1⟩).m hnm
              have ho2 := open_tracked s
                (snapshot_module_close (read_libretro_filename c.RETRO_PATH_MAX 0 ⟨[], m, w1⟩).w
                  (read_libretro_filename c.RETRO_PATH_MAX 0 ⟨[], m, w1⟩).m) (.GCRIMAGE dnr) hc
              cases h2 : snapshot_module_open s
                (snapshot_module_close (read_libretro_filename c.RETRO_PATH_MAX 0 ⟨[], m, w1⟩).w
                  (read_libretro_filename c.RETRO_PATH_MAX 0 ⟨[], m, w1⟩).m) (.GCRIMAGE dnr) with
              | mk r2 w3 =>
                rw [h2] at ho2
                simp only at ho2
                rcases ho2 with ⟨hr2, ho2⟩ | ⟨m2, a, b, hr2, hm2, h03⟩
                · subst hr2
                  exact tracked_null ho2
                · subst hr2
                  simp only
                  have hb := read_gcr_body_tracked c dnr (.GCRIMAGE dnr) ⟨m2, w3⟩ hm2
                  have hbn := (read_gcr_body_frame c dnr ⟨m2, w3⟩).1
                  cases hres : read_gcr_body c dnr ⟨m2, w3⟩ with
                  | mk ok st =>
                    rw [hres] at hb hbn
                    cases ok with
                    | false => exact tracked_trans h03 hb
                    | true =>
                      exact tracked_gcr_loaded
                        (tracked_close (tracked_trans h03 hb) _ (hbn.trans hm2)) _
          · have hb := read_gcr_body_tracked c dnr (.GCRIMAGE dnr) ⟨m, w1⟩ hm
            have hbn := (read_gcr_body_frame c dnr ⟨m, w1⟩).1
            cases hres : read_gcr_body c dnr ⟨m, w1⟩ with
            | mk ok st =>
              rw [hres] at hb hbn
              cases ok with
              | false => exact tracked_trans ho1 hb
              | true =>
                exact tracked_gcr_loaded (tracked_close (tracked_trans ho1 hb) _ (hbn.trans hm)) _

theorem read_p64image_module_releases (e : Ext) (s : Snapshot) (w : World) (dnr : Nat) :
    releases w (drive_snapshot_read_p64image_module e s w dnr).2 := by
  unfold releases drive_snapshot_read_p64image_module
  have ho1 := open_tracked s w (.P64IMAGE dnr) (tracked_refl none w)
  cases h1 : snapshot_module_open s w (.P64IMAGE dnr) with
  | mk r1 w1 =>
    rw [h1] at ho1
    simp only at ho1
    rcases ho1 with ⟨hr1, ho1⟩ | ⟨m, major, minor, hr1, hm, ho1⟩
    · subst hr1
      exact ho1
    · subst hr1
      simp only
      split
      · exact tracked_close ho1 _ hm
      · split
        · exact tracked_close (tracked_error ho1 _) _ hm
        · split
          · exact tracked_close (tracked_error ho1 _) _ hm
          · obtain ⟨r, data, hr⟩ := SMR_DW_spec w1 m
            rw [hr]
            cases r with
            | none => exact tracked_close (tracked_log ho1 _ (by rfl)) _ hm
            | some size =>
              simp only
              obtain ⟨r2, data2, hr2⟩ := SMR_BA_spec (w1.log (.snapshot_module_read m.name 4))
                ⟨m.name, data⟩ size
              rw [hr2]
              have h2 := tracked_log (tracked_log ho1 (.snapshot_module_read m.name 4) (by rfl))
                (.snapshot_module_read m.name size) (by rfl)
              cases r2 with
              | none => exact tracked_close h2 _ hm
              | some tmpbuf =>
                simp only
                split
                · exact tracked_close h2 _ hm
                · apply tracked_setUnit
                  apply tracked_setField
                  apply tracked_setField
                  apply tracked_setUnit
                  exact tracked_close h2 _ hm

theorem read_image_modules_releases (c : Cfg) (e : Ext) (s : Snapshot) :
    ∀ (n i : Nat) (w : World), releases w (read_image_modules c e s n i w).2 := by
  intro n
  induction n with
  | zero => intro i w; exact tracked_refl _ _
  | succ n ih =>
    intro i w
    simp only [read_image_modules]
    have h1 := read_image_module_releases c e s w i
    have h2 := read_gcrimage_module_releases c s (drive_snapshot_read_image_module c e s w i).2 i
    have h3 := read_p64image_module_releases e s
      (drive_snapshot_read_gcrimage_module c s (drive_snapshot_read_image_module c e s w i).2 i).2
      i
    split
    · exact h1
    · split
      · exact tracked_trans h1 h2
      · split
        · exact tracked_trans h1 (tracked_trans h2 h3)
        · exact tracked_trans h1 (tracked_trans h2 (tracked_trans h3 (ih _ _)))

theorem reads_only_tracked (a : Option ModName) {R : List (RKind × Dest)} {st st1 : RState}
    (h : reads_only R st st1) : tracked a a st.w st1.w ∧ st1.m.name = st.m.name :=
  ⟨tracked_of_reads a st.m.name st.w st1.w h.2.2.2.2.2.2, h.1⟩

theorem read_units_tracked (a : Option ModName) (major minor : Nat) :
    ∀ (n i : Nat) (st : RState),
      tracked a a st.w (read_units major minor n i st).2.w ∧
      (read_units major minor n i st).2.m.name = st.m.name := by
  intro n
  induction n with
  | zero => intro i st; exact ⟨tracked_refl _ _, rfl⟩
  | succ n ih =>
    intro i st
    simp only [read_units]
    have h1 := reads_only_tracked a (read_fields_reads_only (drive_read_layout major minor) i st)
    rcases hs : read_fields (drive_read_layout major minor) i st with ⟨b, st1⟩
    rw [hs] at h1
    cases b with
    | false => exact h1
    | true =>
      obtain ⟨h2, h3⟩ := ih (i + 1) st1
      exact ⟨tracked_trans h1.1 h2, h3.trans h1.2⟩

theorem reconstruct_unit_tracked (a : Option ModName) (c : Cfg) (k : Nat) (b1 b2 : Bool)
    (led : Nat) (w w1 : World) (h : reconstruct_unit c k b1 b2 led w = some w1) :
    tracked a a w w1 := by
  unfold reconstruct_unit at h
  simp only at h
  split at h
  · injection h with h
    subst h
    refine tracked_log (tracked_log (tracked_log (tracked_resources
      (tracked_log (tracked_log ?_ _ (by rfl)) _ (by rfl)) _ _) _ (by rfl)) _ (by rfl)) _ (by rfl)
    split
    · exact tracked_setField (tracked_refl a w) _ _ _
    · exact tracked_refl a w
  · split at h
    · injection h with h
      subst h
      unfold drive_disable
      exact tracked_log (tracked_setField (tracked_log (tracked_refl a w) _ (by rfl)) _ _ _) _
        (by rfl)
    · cases h

theorem reconstruct_tracked (a : Option ModName) (c : Cfg) (w : World) :
    tracked a a w (reconstruct c w).2 := by
  unfold reconstruct
  split
  · exact tracked_refl a w
  · next x h0 =>
    have e0 := reconstruct_unit_tracked a _ _ _ _ _ _ _ h0
    split
    · exact e0
    · next b h1 =>
      have e1 := tracked_trans e0 (reconstruct_unit_tracked a _ _ _ _ _ _ _ h1)
      split
      · exact e1
      · next d h2 =>
        have e2 := tracked_trans e1 (reconstruct_unit_tracked a _ _ _ _ _ _ _ h2)
        split
        · exact e2
        · next g h3 => exact tracked_trans e2 (reconstruct_unit_tracked a _ _ _ _ _ _ _ h3)

theorem clear_parallel_cable_tracked (a : Option ModName) :
    ∀ (n i : Nat) (w : World), tracked a a w (clear_parallel_cable n i w) := by
  intro n
  induction n with
  | zero => intro i w; exact tracked_refl a w
  | succ n ih =>
    intro i w
    simp only [clear_parallel_cable]
    exact tracked_trans (tracked_log (tracked_log (tracked_refl a w) _ (by rfl)) _ (by rfl))
      (ih _ _)

theorem read_cpu_modules_tracked (a : Option ModName) (c : Cfg) (e : Ext) :
    ∀ (n i : Nat) (w : World), tracked a a w (read_cpu_modules c e n i w).2 := by
  intro n
  induction n with
  | zero => intro i w; exact tracked_refl a w
  | succ n ih =>
    intro i w
    simp only [read_cpu_modules]
    split
    · split
      · split
        · exact tracked_log (tracked_refl a w) _ (by rfl)
        · split
          · exact tracked_log (tracked_log (tracked_refl a w) _ (by rfl)) _ (by rfl)
          · exact tracked_trans
              (tracked_log (tracked_log (tracked_refl a w) _ (by rfl)) _ (by rfl)) (ih _ _)
      · split
        · exact tracked_log (tracked_refl a w) _ (by rfl)
        · split
          · exact tracked_log (tracked_log (tracked_refl a w) _ (by rfl)) _ (by rfl)
          · exact tracked_trans
              (tracked_log (tracked_log (tracked_refl a w) _ (by rfl)) _ (by rfl)) (ih _ _)
    · exact ih _ _

theorem read_rom_modules_tracked (a : Option ModName) (e : Ext) :
    ∀ (n i : Nat) (w : World), tracked a a w (read_rom_modules e n i w).2 := by
  intro n
  induction n with
  | zero => intro i w; exact tracked_refl a w
  | succ n ih =>
    intro i w
    simp only [read_rom_modules]
    split
    · exact tracked_log (tracked_refl a w) _ (by rfl)
    · exact tracked_trans (tracked_log (tracked_refl a w) _ (by rfl)) (ih _ _)

theorem apply_clocks_tracked (a : Option ModName) (c : Cfg) (loc : Local → Nat → Int) :
    ∀ (n i : Nat) (w : World), tracked a a w (apply_clocks c loc n i w) := by
  intro n
  induction n with
  | zero => intro i w; exact tracked_refl a w
  | succ n ih =>
    intro i w
    simp only [apply_clocks]
    split
    · refine tracked_trans ?_ (ih _ _)
      exact tracked_setField (tracked_setField (tracked_setField
        (tracked_log (tracked_refl a w) _ (by rfl)) _ _ _) _ _ _) _ _ _
    · exact ih _ _

theorem apply_half_tracks_tracked (a : Option ModName) (c : Cfg) (loc : Local → Nat → Int)
    (sf : Int) :
    ∀ (n i : Nat) (w : World), tracked a a w (apply_half_tracks c loc sf n i w) := by
  intro n
  induction n with
  | zero => intro i w; exact tracked_refl a w
  | succ n ih =>
    intro i w
    simp only [apply_half_tracks]
    exact tracked_trans (tracked_resources (tracked_log (tracked_refl a w) _ (by rfl)) _ _)
      (ih _ _)

theorem read_restore_releases (c : Cfg) (e : Ext) (s : Snapshot) (w : World)
    (loc : Local → Nat → Int) (sf : Int) :
    releases w (drive_snapshot_read_restore c e s w loc sf).2 := by
  unfold releases drive_snapshot_read_restore
  have h1 := reconstruct_tracked none c w
  rcases hr : reconstruct c w with ⟨b, w1⟩
  rw [hr] at h1
  cases b with
  | false => exact h1
  | true =>
    simp only
    have h2 := tracked_trans h1 (clear_parallel_cable_tracked none c.DRIVE_PC_NUM 0 w1)
    have h3 := read_cpu_modules_tracked none c e NUM_DISK_UNITS 0
      (clear_parallel_cable c.DRIVE_PC_NUM 0 w1)
    rcases hc : read_cpu_modules c e NUM_DISK_UNITS 0 (clear_parallel_cable c.DRIVE_PC_NUM 0 w1)
      with ⟨b3, w3⟩
    rw [hc] at h3
    cases b3 with
    | false => exact tracked_trans h2 h3
    | true =>
      simp only
      have h4 := read_image_modules_releases c e s NUM_DISK_UNITS 0 w3
      rcases hi : read_image_modules c e s NUM_DISK_UNITS 0 w3 with ⟨b4, w4⟩
      rw [hi] at h4
      have h04 := tracked_trans (tracked_trans h2 h3) h4
      cases b4 with
      | false => exact h04
      | true =>
        simp only
        have h5 := read_rom_modules_tracked none e NUM_DISK_UNITS 0 w4
        rcases hro : read_rom_modules e NUM_DISK_UNITS 0 w4 with ⟨b5, w5⟩
        rw [hro] at h5
        have h05 := tracked_trans h04 h5
        cases b5 with
        | false => exact h05
        | true =>
          simp only
          have h7 := tracked_trans
            (tracked_trans h05 (apply_clocks_tracked none c loc NUM_DISK_UNITS 0 w5))
            (apply_half_tracks_tracked none c loc sf NUM_DISK_UNITS 0 _)
          have h9 := tracked_log (tracked_log (tracked_log (tracked_log h7 .drive_sound_stop
            (by rfl)) .iec_update_ports_embedded (by rfl)) .drive_update_ui_status (by rfl))
            (.vdrive_snapshot_module_read
              (if c.libretro = true then 10
                else if ((((apply_half_tracks c loc sf NUM_DISK_UNITS 0
                  (apply_clocks c loc NUM_DISK_UNITS 0 w5)).log .drive_sound_stop).log
                    .iec_update_ports_embedded).log .drive_update_ui_status).resources
                      .DriveTrueEmulation ≠ 0 then 10 else 8)) (by rfl)
          split
          · exact h9
          · exact h9

theorem read_module_releases (c : Cfg) (e : Ext) (s : Snapshot) (w : World) :
    releases w (drive_snapshot_read_module c e s w).2 := by
  unfold drive_snapshot_read_module
  have ho1 := open_tracked s w .DRIVE (tracked_refl none w)
  cases h1 : snapshot_module_open s w .DRIVE with
  | mk r1 w1 =>
    rw [h1] at ho1
    simp only at ho1
    rcases ho1 with ⟨hr1, ho1⟩ | ⟨m, major, minor, hr1, hm, ho1⟩
    · subst hr1
      simp only
      split
      · exact ho1
      · exact tracked_resources ho1 _ _
    · subst hr1
      simp only
      have h2 := tracked_log ho1 .drive_gcr_data_writeback_all (by rfl)
      split
      · exact tracked_close (tracked_error h2 _) _ hm
      · split
        · exact tracked_close (tracked_error h2 _) _ hm
        · have h3 : tracked none (some .DRIVE) w
              (if c.libretro = true then w1.log .drive_gcr_data_writeback_all
                else resources_set_int (w1.log .drive_gcr_data_writeback_all)
                  .DriveTrueEmulation 1) := by
            split
            · exact h2
            · exact tracked_resources h2 _ _
          generalize (if c.libretro = true then w1.log .drive_gcr_data_writeback_all
                else resources_set_int (w1.log .drive_gcr_data_writeback_all)
                  .DriveTrueEmulation 1) = w3 at h3 ⊢
          obtain ⟨r, data, hr⟩ := SMR_DW_spec w3 m
          rw [hr]
          have h4 := tracked_log h3 (.snapshot_module_read m.name 4) (by rfl)
          cases r with
          | none => exact tracked_close h4 _ hm
          | some sf =>
            simp only
            have h5 := read_units_tracked (some .DRIVE) major minor NUM_DISK_UNITS 0
              ⟨⟨m.name, data⟩, w3.log (.snapshot_module_read m.name 4), e.uninit⟩
            rcases hu : read_units major minor NUM_DISK_UNITS 0
              ⟨⟨m.name, data⟩, w3.log (.snapshot_module_read m.name 4), e.uninit⟩ with ⟨b, st⟩
            rw [hu] at h5
            simp only at h5
            cases b with
            | false => exact tracked_close (tracked_trans h4 h5.1) _ (h5.2.trans hm)
            | true =>
              simp only
              have h6 := reads_only_tracked (some .DRIVE)
                (reads_only_trans (read_units_clk_reads_only NUM_DISK_UNITS 0 st)
                  (read_units_ready_reads_only NUM_DISK_UNITS 0 _))
              generalize read_units_ready NUM_DISK_UNITS 0 (read_units_clk NUM_DISK_UNITS 0 st)
                = st1 at h6 ⊢
              have h7 := tracked_close (tracked_trans (tracked_trans h4 h5.1) h6.1) st1.m
                ((h6.2.trans h5.2).trans hm)
              exact tracked_trans (tracked_log h7 _ (by rfl)) (read_restore_releases _ _ _ _ _ _)

/-! ## Failed writes into the flat image module -/

/-- C24 (code): the results of the writes into the module `IMAGEk` are not
looked at. For a drive with an image (and a type other than `DRIVE_TYPE_CMDHD`),
when the module can be created and closed, `drive_snapshot_write_image_module`
returns 0 whichever of its writes fail, that of the type word and those of the
sector blocks included. -/
theorem C24_flat_image_write_failure_ignored (c : Cfg) (e : Ext) (s : Snapshot) (w : World)
    (dnr : Nat) (img : DiskImage) (himg : (w.units dnr).image = some img)
    (htype : (w.units dnr).sc .type ≠ c.DRIVE_TYPE_CMDHD)
    (hcreate : e.create_fails (.IMAGE dnr) = false)
    (hclose : e.close_fails (.IMAGE dnr) = false) :
    (drive_snapshot_write_image_module c e s w dnr).1 = 0 := by
  have hname : ∀ (n : Nat) (m : WHandle), m.name = .IMAGE dnr →
      ∀ tr, (write_image_tracks e img n tr m).name = .IMAGE dnr := by
    intro n
    induction n with
    | zero => intro m hm tr; exact hm
    | succ n ih =>
      intro m hm tr
      have hin : ∀ (k sec : Nat) (m0 : WHandle), m0.name = .IMAGE dnr →
          (write_image_track e img tr k sec m0).2.name = .IMAGE dnr := by
        intro k
        induction k with
        | zero => intro sec m0 h0; exact h0
        | succ k ihk =>
          intro sec m0 h0
          simp only [write_image_track]
          split
          · apply ihk
            unfold SMW_BA smw
            split <;> exact h0
          · exact h0
      simp only [write_image_tracks]
      have h1 := hin (img.sectorsOn tr + 1) 0 m hm
      rcases hr : write_image_track e img tr (img.sectorsOn tr + 1) 0 m with ⟨sec, m1⟩
      rw [hr] at h1
      simp only
      split
      · exact h1
      · exact ih m1 h1 (tr + 1)
  unfold drive_snapshot_write_image_module
  simp only [himg, Option.isNone_some, htype, decide_False, Bool.or_self, Bool.false_eq_true,
    if_false, snapshot_module_create, hcreate, snapshot_module_close_w]
  have hn := hname (img.content.length + 1)
    (SMW_W e ⟨.IMAGE dnr, IMAGE_SNAP_MAJOR, IMAGE_SNAP_MINOR, [], 0⟩ (img.type : Int)).2
    (by unfold SMW_W smw; split <;> rfl) 1
  rw [hn, hclose]
  rfl

set_option maxRecDepth 100000 in
/-- C24 (witness): unit 0 of `exampleImageWorld` holds an image and every write
into `IMAGE0` fails: the image writer returns 0, `drive_snapshot_write_module`
called with `save_disks` set returns 0 too, and the container it leaves holds an
`IMAGE0` module without any payload. -/
theorem C24_flat_image_write_failure_ignored_witness :
    (exampleImageWorld.units 0).image = some exampleImage ∧
    (∀ n, exampleImageFailExt.smw_fails (.IMAGE 0) n = true) ∧
    (drive_snapshot_write_image_module (exampleCfg true) exampleImageFailExt [] exampleImageWorld
      0).1 = 0 ∧
    (drive_snapshot_write_module (exampleCfg true) exampleImageFailExt [] exampleImageWorld
      1 0).1 = 0 ∧
    image_module (drive_snapshot_write_module (exampleCfg true) exampleImageFailExt []
      exampleImageWorld 1 0).2.1 0 = some ⟨.IMAGE 0, 1, 0, []⟩ :=
  ⟨rfl, fun _ => rfl,
    C24_flat_image_write_failure_ignored (exampleCfg true) exampleImageFailExt []
      exampleImageWorld 0 exampleImage rfl (by decide) rfl rfl,
    by decide, by decide⟩

/-! ## Failure of a sub-reader -/

/-- One iteration of the loop over the CPU-core and machine-drive sub-readers. -/
theorem read_cpu_modules_step (c : Cfg) (e : Ext) (n i : Nat) (w : World) :
    read_cpu_modules c e (n + 1) i w
      = if (w.units i).sc .enable ≠ 0 then
          if cpu_fatal c e ((w.units i).sc .type) i then
            (false, w.log (cpu_event c ((w.units i).sc .type) i))
          else if machine_fatal c e i then
            (false, (w.log (cpu_event c ((w.units i).sc .type) i)).log
              (.machine_drive_snapshot_read i))
          else read_cpu_modules c e n (i + 1)
            ((w.log (cpu_event c ((w.units i).sc .type) i)).log (.machine_drive_snapshot_read i))
        else read_cpu_modules c e n (i + 1) w := by
  simp only [read_cpu_modules]
  unfold cpu_fatal machine_fatal cpu_event
  by_cases hen : (w.units i).sc .enable ≠ 0
  · simp only [hen, if_true, ne_eq, not_false_eq_true]
    by_cases h65 : is_65c02 c ((w.units i).sc .type) = true
    · simp only [h65, if_true]
      by_cases hc : e.drivecpu65c02_snapshot_read_module i < 0
      · simp [hc]
      · cases hl : c.libretro <;> by_cases hm : e.machine_drive_snapshot_read i < 0 <;>
          simp [hc, hm]
    · simp only [h65, Bool.false_eq_true, if_false]
      cases hl : c.libretro <;> by_cases hc : e.drivecpu_snapshot_read_module i < 0 <;>
        by_cases hm : e.machine_drive_snapshot_read i < 0 <;> simp [hc, hm]
  · simp only [hen, if_false]

theorem after_unit_cpu_event (c : Cfg) (ty : Int) (k i : Nat) (h : i ≤ k) :
    after_unit k (cpu_event c ty i) = false := by
  unfold cpu_event
  split <;> simp [after_unit] <;> omega

theorem cpu_event_ne_machine (c : Cfg) (ty : Int) (k i : Nat) :
    Event.machine_drive_snapshot_read k ≠ cpu_event c ty i := by
  unfold cpu_event
  split <;> simp

/-- The loop over the CPU-core and machine-drive sub-readers stops at a fatal
failure: when the sub-readers of an enabled unit `k` of the loop fail fatally,
the loop returns -1 and has made no call for a later unit. -/
theorem read_cpu_modules_fatal (c : Cfg) (e : Ext) (k : Nat) :
    ∀ (n i : Nat) (w : World), i ≤ k → k < i + n → (w.units k).sc .enable ≠ 0 →
      cpu_fatal c e ((w.units k).sc .type) k ∨ machine_fatal c e k →
      (read_cpu_modules c e n i w).1 = false ∧
      ∃ t, (read_cpu_modules c e n i w).2.trace = w.trace ++ t ∧
        (∀ ev ∈ t, after_unit k ev = false) ∧
        (cpu_fatal c e ((w.units k).sc .type) k → Event.machine_drive_snapshot_read k ∉ t) := by
  intro n
  induction n with
  | zero => intro i w h1 h2; omega
  | succ n ih =>
    intro i w hik hkn hen hf
    have hstep : ∀ (w1 : World) (t1 : List Event), w1.units = w.units →
        w1.trace = w.trace ++ t1 → i < k → (∀ ev ∈ t1, after_unit k ev = false) →
        Event.machine_drive_snapshot_read k ∉ t1 →
        (read_cpu_modules c e n (i + 1) w1).1 = false ∧
        ∃ t, (read_cpu_modules c e n (i + 1) w1).2.trace = w.trace ++ t ∧
          (∀ ev ∈ t, after_unit k ev = false) ∧
          (cpu_fatal c e ((w.units k).sc .type) k →
            Event.machine_drive_snapshot_read k ∉ t) := by
      intro w1 t1 hu ht hlt hall hno
      obtain ⟨r1, t, r2, r3, r4⟩ := ih (i + 1) w1 (by omega) (by omega) (by rw [hu]; exact hen)
        (by rw [hu]; exact hf)
      refine ⟨r1, t1 ++ t, by rw [r2, ht, List.append_assoc], ?_, ?_⟩
      · intro ev hev
        rcases List.mem_append.mp hev with h | h
        · exact hall ev h
        · exact r3 ev h
      · intro hc hm
        rcases List.mem_append.mp hm with h | h
        · exact hno h
        · rw [hu] at r4
          exact r4 hc h
    have hall1 : ∀ ev ∈ [cpu_event c ((w.units i).sc .type) i], after_unit k ev = false := by
      intro ev hev
      simp only [List.mem_singleton] at hev
      subst hev
      exact after_unit_cpu_event c _ k i hik
    have hall2 : ∀ ev ∈ [cpu_event c ((w.units i).sc .type) i,
        Event.machine_drive_snapshot_read i], after_unit k ev = false := by
      intro ev hev
      simp only [List.mem_cons, List.mem_singleton, List.not_mem_nil, or_false] at hev
      rcases hev with h | h
      · subst h; exact after_unit_cpu_event c _ k i hik
      · subst h; simp [after_unit]; omega
    rw [read_cpu_modules_step]
    by_cases hik2 : i = k
    · subst hik2
      rw [if_pos hen]
      by_cases hc : cpu_fatal c e ((w.units i).sc .type) i
      · rw [if_pos hc]
        refine ⟨rfl, [cpu_event c ((w.units i).sc .type) i], rfl, hall1, fun _ => ?_⟩
        simp only [List.mem_singleton]
        exact cpu_event_ne_machine c _ i i
      · have hm : machine_fatal c e i := by
          rcases hf with h | h
          · exact absurd h hc
          · exact h
        rw [if_neg hc, if_pos hm]
        exact ⟨rfl, [cpu_event c ((w.units i).sc .type) i, .machine_drive_snapshot_read i],
          by simp, hall2, fun h => absurd h hc⟩
    · have hlt : i < k := by omega
      have hne : k ≠ i := fun h => hik2 h.symm
      have hno2 : Event.machine_drive_snapshot_read k ∉
          [cpu_event c ((w.units i).sc .type) i, Event.machine_drive_snapshot_read i] := by
        simp only [List.mem_cons, List.mem_singleton, List.not_mem_nil, or_false, not_or]
        exact ⟨cpu_event_ne_machine c _ k i, by simp [hne]⟩
      have hno1 : Event.machine_drive_snapshot_read k ∉
          [cpu_event c ((w.units i).sc .type) i] := by
        simp only [List.mem_singleton]
        exact cpu_event_ne_machine c _ k i
      split
      · split
        · exact ⟨rfl, _, rfl, hall1, fun _ => hno1⟩
        · split
          · exact ⟨rfl, [cpu_event c ((w.units i).sc .type) i, .machine_drive_snapshot_read i],
              by simp, hall2, fun _ => hno2⟩
          · exact hstep _ [cpu_event c ((w.units i).sc .type) i, .machine_drive_snapshot_read i]
              rfl (by simp) hlt hall2 hno2
      · exact hstep w [] rfl (by simp) hlt (by simp) (by simp)

theorem clear_parallel_cable_spec :
    ∀ (n i : Nat) (w : World), (clear_parallel_cable n i w).units = w.units ∧
      ∃ t, (clear_parallel_cable n i w).trace = w.trace ++ t ∧
        ∀ ev ∈ t, ∃ p q, ev = Event.parallel_cable_drive_write p q := by
  intro n
  induction n with
  | zero => intro i w; exact ⟨rfl, [], by simp [clear_parallel_cable], by simp⟩
  | succ n ih =>
    intro i w
    simp only [clear_parallel_cable]
    obtain ⟨h1, t, h2, h3⟩ := ih (i + 1)
      ((w.log (.parallel_cable_drive_write i 0)).log (.parallel_cable_drive_write i 1))
    refine ⟨h1, [.parallel_cable_drive_write i 0, .parallel_cable_drive_write i 1] ++ t,
      by rw [h2]; simp, ?_⟩
    intro ev hev
    simp only [List.cons_append, List.nil_append, List.mem_cons] at hev
    rcases hev with h | h | h
    · exact ⟨_, _, h⟩
    · exact ⟨_, _, h⟩
    · exact h3 ev h

/-- C25 (amended): once the `DRIVE` module is decoded and the four `switch`
statements are passed, a fatal failure of a sub-reader of an enabled unit `k`
makes `drive_snapshot_read_module` return -1 without a call for a later unit,
of an image reader or of a ROM sub-reader, and without the machine-drive
sub-reader of unit `k` when it is the CPU-core sub-reader that failed. Fatal
are: a failure of `drivecpu65c02_snapshot_read_module`; and, in a build without
`__LIBRETRO__`, a failure of `drivecpu_snapshot_read_module` or of
`machine_drive_snapshot_read`. -/
theorem C25_fatal_sub_reader_failure (c : Cfg) (e : Ext) (s : Snapshot) (wr : World)
    (d : World × (Local → Nat → Int) × Int)
    (hd : drive_snapshot_read_decode c e s wr = some d)
    (hrec : (reconstruct c d.1).1 = true)
    (k : Nat) (hk : k < NUM_DISK_UNITS)
    (hen : ((reconstruct c d.1).2.units k).sc .enable ≠ 0)
    (hf : cpu_fatal c e (((reconstruct c d.1).2.units k).sc .type) k ∨ machine_fatal c e k) :
    (drive_snapshot_read_module c e s wr).1 = -1 ∧
    ∃ t, (drive_snapshot_read_module c e s wr).2.trace = (reconstruct c d.1).2.trace ++ t ∧
      (∀ ev ∈ t, after_unit k ev = false) ∧
      (cpu_fatal c e (((reconstruct c d.1).2.units k).sc .type) k →
        Event.machine_drive_snapshot_read k ∉ t) := by
  obtain ⟨w6, loc, sf⟩ := d
  rw [read_module_of_decode c e s wr w6 loc sf hd]
  unfold drive_snapshot_read_restore
  simp only at hrec hen hf ⊢
  rcases hr : reconstruct c w6 with ⟨b, w1⟩
  rw [hr] at hrec hen hf
  simp only at hrec hen hf ⊢
  subst hrec
  simp only
  obtain ⟨p1, tp, p2, p3⟩ := clear_parallel_cable_spec c.DRIVE_PC_NUM 0 w1
  obtain ⟨q1, t, q2, q3, q4⟩ := read_cpu_modules_fatal c e k NUM_DISK_UNITS 0
    (clear_parallel_cable c.DRIVE_PC_NUM 0 w1) (Nat.zero_le _) (by omega)
    (by rw [p1]; exact hen) (by rw [p1]; exact hf)
  rcases hc : read_cpu_modules c e NUM_DISK_UNITS 0 (clear_parallel_cable c.DRIVE_PC_NUM 0 w1)
    with ⟨b3, w3⟩
  rw [hc] at q1 q2
  simp only at q1 q2
  subst q1
  simp only
  refine ⟨trivial, tp ++ t, by rw [q2, p2, List.append_assoc], ?_, ?_⟩
  · intro ev hev
    rcases List.mem_append.mp hev with h | h
    · obtain ⟨p, q, rfl⟩ := p3 ev h
      rfl
    · exact q3 ev h
  · intro hcf hm
    rcases List.mem_append.mp hm with h | h
    · obtain ⟨p, q, hpq⟩ := p3 _ h
      cases hpq
    · rw [p1] at q4
      exact q4 hcf h

set_option maxRecDepth 100000 in
/-- C25 (counterexample): in a build with `__LIBRETRO__` the failures of
`drivecpu_snapshot_read_module` and of `machine_drive_snapshot_read` are
ignored. The module of `exampleSecondWhole` holds a 1541 in unit 1, which the
reconstruction enables; both sub-readers of unit 1 fail, and the call still
returns 0, having gone on with the image readers and the ROM sub-readers. -/
theorem C25_libretro_ignores_sub_reader_failure :
    exampleSubReaderFailExt.drivecpu_snapshot_read_module 1 < 0 ∧
    exampleSubReaderFailExt.machine_drive_snapshot_read 1 < 0 ∧
    (drive_snapshot_read_module (exampleCfg true) exampleSubReaderFailExt exampleSecondWhole
      exampleWorld).1 = 0 ∧
    Event.drivecpu_snapshot_read_module 1 ∈
      (drive_snapshot_read_module (exampleCfg true) exampleSubReaderFailExt exampleSecondWhole
        exampleWorld).2.trace ∧
    Event.machine_drive_snapshot_read 1 ∈
      (drive_snapshot_read_module (exampleCfg true) exampleSubReaderFailExt exampleSecondWhole
        exampleWorld).2.trace ∧
    Event.snapshot_module_open (.IMAGE 2) false ∈
      (drive_snapshot_read_module (exampleCfg true) exampleSubReaderFailExt exampleSecondWhole
        exampleWorld).2.trace ∧
    Event.driverom_snapshot_read 3 ∈
      (drive_snapshot_read_module (exampleCfg true) exampleSubReaderFailExt exampleSecondWhole
        exampleWorld).2.trace := by
  decide

set_option maxRecDepth 100000 in
/-- C25 (witness): the same module and the same failing sub-readers in a build
without `__LIBRETRO__`: the call returns -1. -/
theorem C25_fatal_sub_reader_failure_witness :
    (drive_snapshot_read_decode (exampleCfg false) exampleSubReaderFailExt exampleSecondWhole
      exampleWorld).isSome = true ∧
    cpu_fatal (exampleCfg false) exampleSubReaderFailExt 1541 1 ∧
    (drive_snapshot_read_module (exampleCfg false) exampleSubReaderFailExt exampleSecondWhole
      exampleWorld).1 = -1 ∧
    Event.machine_drive_snapshot_read 1 ∉
      (drive_snapshot_read_module (exampleCfg false) exampleSubReaderFailExt exampleSecondWhole
        exampleWorld).2.trace :=
  ⟨by decide, by decide,
    (C25_fatal_sub_reader_failure (exampleCfg false) exampleSubReaderFailExt exampleSecondWhole
      exampleWorld
      ((drive_snapshot_read_decode (exampleCfg false) exampleSubReaderFailExt exampleSecondWhole
        exampleWorld).getD (exampleWorld, fun _ _ => 0, 0))
      (some_getD_of_isSome _ _ (by decide)) (by decide) 1 (by decide) (by decide)
      (Or.inl (by decide))).1,
    by decide⟩

/-! ## The image readers on a container without image modules -/

/-- C26. When the container holds neither `NOIMAGEk` nor `IMAGEk`,
`drive_snapshot_read_image_module` returns 0 after the two failed opens; when it
holds no `GCRIMAGEk`, `drive_snapshot_read_gcrimage_module` returns 0 after the
failed open; when it holds no `P64IMAGEk`, `drive_snapshot_read_p64image_module`
returns 0 after the failed open, whether the drive has a flux-image object or
not. In each case every unit is as before the call: its image reference, its
image flags and its GCR track buffers are unchanged. -/
theorem C26_absent_image_modules_are_no_op (c : Cfg) (e : Ext) (s : Snapshot) (w : World)
    (k : Nat) :
    (noimage_module s k = none → image_module s k = none →
      (drive_snapshot_read_image_module c e s w k).1 = 0 ∧
      (drive_snapshot_read_image_module c e s w k).2.units = w.units ∧
      (drive_snapshot_read_image_module c e s w k).2.trace
        = w.trace ++ [.snapshot_module_open (.NOIMAGE k) false,
            .snapshot_module_open (.IMAGE k) false]) ∧
    (gcr_module s k = none →
      (drive_snapshot_read_gcrimage_module c s w k).1 = 0 ∧
      (drive_snapshot_read_gcrimage_module c s w k).2.units = w.units ∧
      (drive_snapshot_read_gcrimage_module c s w k).2.trace
        = w.trace ++ [.snapshot_module_open (.GCRIMAGE k) false]) ∧
    (p64_module s k = none →
      (drive_snapshot_read_p64image_module e s w k).1 = 0 ∧
      (drive_snapshot_read_p64image_module e s w k).2.units = w.units ∧
      (drive_snapshot_read_p64image_module e s w k).2.trace
        = w.trace ++ [.snapshot_module_open (.P64IMAGE k) false]) := by
  refine ⟨fun h1 h2 => ?_, fun h => ?_, fun h => ?_⟩
  · unfold noimage_module at h1
    unfold image_module at h2
    unfold drive_snapshot_read_image_module snapshot_module_open
    simp only [h1, h2]
    exact ⟨trivial, rfl, by simp⟩
  · unfold gcr_module at h
    unfold drive_snapshot_read_gcrimage_module snapshot_module_open
    simp only [h]
    exact ⟨trivial, rfl, by simp⟩
  · unfold p64_module at h
    unfold drive_snapshot_read_p64image_module snapshot_module_open
    simp only [h]
    exact ⟨trivial, rfl, by simp⟩

set_option maxRecDepth 100000 in
/-- C26 (witness): the container `exampleWhole` holds the `DRIVE` module only;
unit 0 of `exampleBothWorld` holds a flat image and a flux image, unit 1 of
`exampleWorld` holds neither. -/
theorem C26_absent_image_modules_are_no_op_witness :
    noimage_module exampleWhole 0 = none ∧ image_module exampleWhole 0 = none ∧
    gcr_module exampleWhole 0 = none ∧ p64_module exampleWhole 1 = none ∧
    (exampleWorld.units 1).p64 = none ∧
    (drive_snapshot_read_image_module (exampleCfg true) exampleExt exampleWhole exampleBothWorld
      0).1 = 0 ∧
    (drive_snapshot_read_image_module (exampleCfg true) exampleExt exampleWhole exampleBothWorld
      0).2.units = exampleBothWorld.units ∧
    (drive_snapshot_read_gcrimage_module (exampleCfg true) exampleWhole exampleBothWorld
      0).2.units = exampleBothWorld.units ∧
    (drive_snapshot_read_p64image_module exampleExt exampleWhole exampleWorld 1).1 = 0 :=
  ⟨rfl, rfl, rfl, rfl, rfl,
    ((C26_absent_image_modules_are_no_op (exampleCfg true) exampleExt exampleWhole
      exampleBothWorld 0).1 rfl rfl).1,
    ((C26_absent_image_modules_are_no_op (exampleCfg true) exampleExt exampleWhole
      exampleBothWorld 0).1 rfl rfl).2.1,
    ((C26_absent_image_modules_are_no_op (exampleCfg true) exampleExt exampleWhole
      exampleBothWorld 0).2.1 rfl).2.1,
    ((C26_absent_image_modules_are_no_op (exampleCfg true) exampleExt exampleWhole
      exampleWorld 1).2.2 rfl).1⟩

/-! ## The writer with true drive emulation off -/

set_option maxRecDepth 100000 in
/-- C27 (counterexample): in a build with `__LIBRETRO__` the test of
`drive_true_emulation` is compiled out. With the resource `DriveTrueEmulation`
at 0, `drive_snapshot_write_module` calls `vdrive_snapshot_module_write` with 10
and goes on to create and write the `DRIVE` module. -/
theorem C27_libretro_writes_drive_module_when_off :
    exampleOffWorld.resources .DriveTrueEmulation = 0 ∧
    (drive_snapshot_write_module (exampleCfg true) exampleExt [] exampleOffWorld 0 0).1 = 0 ∧
    (drive_module
      (drive_snapshot_write_module (exampleCfg true) exampleExt [] exampleOffWorld 0 0).2.1).isSome
      = true ∧
    (drive_snapshot_write_module (exampleCfg true) exampleExt [] exampleOffWorld 0 0).2.2.trace
      = [.vdrive_snapshot_module_write 10, .drive_gcr_data_writeback_all, .rotation_table_get,
          .snapshot_module_create .DRIVE 1 5, .snapshot_module_close .DRIVE] := by
  decide

/-- C27 (amended): in a build without `__LIBRETRO__`, when the resource
`DriveTrueEmulation` is 0, `drive_snapshot_write_module` makes one call,
`vdrive_snapshot_module_write(s, 8)`, and returns 0 when that call succeeds (-1
when it fails); the container gets no module from this file and the world is
otherwise unchanged. -/
theorem C27_write_with_emulation_off (c : Cfg) (e : Ext) (s : Snapshot) (w : World)
    (save_disks save_roms : Int) (hlib : c.libretro = false)
    (hoff : w.resources .DriveTrueEmulation = 0) :
    drive_snapshot_write_module c e s w save_disks save_roms
      = (if e.vdrive_snapshot_module_write < 0 then -1 else 0, s,
          w.log (.vdrive_snapshot_module_write 8)) := by
  unfold drive_snapshot_write_module
  simp only [hlib, hoff, Bool.false_eq_true, if_false, ne_eq, not_true_eq_false, Bool.not_false,
    decide_True, Bool.and_self, if_true]
  split <;> rfl

set_option maxRecDepth 100000 in
/-- C27 (witness): `exampleOffWorld` written in a build without `__LIBRETRO__`,
with `save_disks` and `save_roms` set. -/
theorem C27_write_with_emulation_off_witness :
    exampleOffWorld.resources .DriveTrueEmulation = 0 ∧
    (drive_snapshot_write_module (exampleCfg false) exampleExt [] exampleOffWorld 1 1).1 = 0 ∧
    (drive_snapshot_write_module (exampleCfg false) exampleExt [] exampleOffWorld 1 1).2.1 = [] ∧
    (drive_snapshot_write_module (exampleCfg false) exampleExt [] exampleOffWorld 1 1).2.2.trace
      = [.vdrive_snapshot_module_write 8] :=
  ⟨rfl,
    by rw [C27_write_with_emulation_off (exampleCfg false) exampleExt [] exampleOffWorld 1 1
      rfl rfl]; rfl,
    by rw [C27_write_with_emulation_off (exampleCfg false) exampleExt [] exampleOffWorld 1 1
      rfl rfl],
    by rw [C27_write_with_emulation_off (exampleCfg false) exampleExt [] exampleOffWorld 1 1
      rfl rfl]; rfl⟩

/-! ## The layout of the `DRIVE` module -/

theorem drive_unit_fields_sources (c : Cfg) (u : DiskUnit) (ptr : Int) :
    drive_unit_fields c u ptr = drive_unit_sources.map (fun ks => (ks.1, ks.2.eval c u ptr)) :=
  rfl

/-! ## The historical layouts -/

theorem fill_append_left (t x : List Byte) : fill t.length (t ++ x) = t := by
  unfold fill
  rw [List.append_assoc, List.take_left]

theorem toInt32_small (n : Nat) (h : n < 2 ^ 31) : toInt32 n = (n : Int) := by
  unfold toInt32
  rw [if_pos h]

/-- The track loop of the GCR reader on the tracks `L` as the writer lays them
out: it succeeds, consumes their bytes, and leaves in half-track `i + j` the
bytes of `L[j]` (a `NULL` buffer of size 0 when `L[j]` is empty); the other
half-tracks and the other units are as before. -/
theorem read_gcr_tracks_restores (c : Cfg) (dnr : Nat) (name : ModName)
    (hmax : c.NUM_MAX_MEM_BYTES_TRACK < 2 ^ 31) :
    ∀ (L : List (List Byte)) (i : Nat) (rest : List Byte) (w : World),
      (∀ t ∈ L, t.length ≤ c.NUM_MAX_MEM_BYTES_TRACK) →
      ∃ w1, read_gcr_tracks c dnr L.length i
          ⟨⟨name, (L.map gcr_track_bytes).flatten ++ rest⟩, w⟩ = (true, ⟨⟨name, rest⟩, w1⟩) ∧
        (∀ u, u ≠ dnr → w1.units u = w.units u) ∧
        (∀ j, j < i ∨ i + L.length ≤ j → (w1.units dnr).gcr j = (w.units dnr).gcr j) ∧
        (∀ j t, L[j]? = some t →
          (t ≠ [] → ((w1.units dnr).gcr (i + j)).data ≠ none ∧
            ((w1.units dnr).gcr (i + j)).size = (t.length : Int) ∧
            ((w1.units dnr).gcr (i + j)).bytes = t) ∧
          (t = [] → (w1.units dnr).gcr (i + j) = ⟨none, 0⟩)) := by
  intro L
  induction L with
  | nil =>
    intro i rest w _
    refine ⟨w, by simp [read_gcr_tracks], fun _ _ => rfl, fun _ _ => rfl, ?_⟩
    intro j t h
    simp at h
  | cons t L ih =>
    intro i rest w hL
    have ht : t.length ≤ c.NUM_MAX_MEM_BYTES_TRACK := hL t (by simp)
    have ht32 : t.length < 2 ^ 32 := by omega
    have ht31 : t.length < 2 ^ 31 := by omega
    have hL2 : ∀ x ∈ L, x.length ≤ c.NUM_MAX_MEM_BYTES_TRACK :=
      fun x hx => hL x (List.mem_cons_of_mem _ hx)
    have hdata : ((t :: L).map gcr_track_bytes).flatten ++ rest
        = leBytes 4 t.length ++ (t ++ ((L.map gcr_track_bytes).flatten ++ rest)) := by
      simp [gcr_track_bytes, List.append_assoc]
    simp only [List.length_cons, read_gcr_tracks, hdata, SMR_DW_leBytes w name t.length _ ht32]
    have hgt : ¬ t.length > c.NUM_MAX_MEM_BYTES_TRACK := by omega
    simp only [hgt, if_false]
    by_cases h0 : t.length = 0
    · have htn : t = [] := List.length_eq_zero.mp h0
      subst htn
      simp only [List.length_nil, ne_eq, not_true_eq_false, if_false, List.nil_append]
      obtain ⟨w1, h1, h2, h3, h4⟩ := ih (i + 1) rest
        ((w.log (.snapshot_module_read name 4)).setUnit dnr
          (((w.log (.snapshot_module_read name 4)).units dnr).setTrack i ⟨none, toInt32 0⟩)) hL2
      refine ⟨w1, h1, ?_, ?_, ?_⟩
      · intro u hu
        rw [h2 u hu]
        simp [hu]
      · intro j hj
        rw [h3 j (by omega)]
        have hji : j ≠ i := by omega
        simp [hji]
      · intro j x hx
        cases j with
        | zero =>
          simp only [List.getElem?_cons_zero, Option.some.injEq] at hx
          subst hx
          refine ⟨fun h => absurd rfl h, fun _ => ?_⟩
          rw [Nat.add_zero, h3 i (by omega)]
          simp [toInt32]
        | succ j =>
          simp only [List.getElem?_cons_succ] at hx
          have := h4 j x hx
          rw [show i + (j + 1) = i + 1 + j by omega]
          exact this
    · simp only [ne_eq, h0, not_false_eq_true, if_true]
      rw [SMR_BA_append]
      simp only
      obtain ⟨w1, h1, h2, h3, h4⟩ := ih (i + 1) rest
        (((((w.log (.snapshot_module_read name 4)).setUnit dnr
            (((w.log (.snapshot_module_read name 4)).units dnr).setTrack i
              ⟨some (gcr_alloc (((w.log (.snapshot_module_read name 4)).units dnr).gcr i)
                t.length), toInt32 t.length⟩)).log (.snapshot_module_read name t.length)).setUnit
          dnr
          ((((((w.log (.snapshot_module_read name 4)).setUnit dnr
            (((w.log (.snapshot_module_read name 4)).units dnr).setTrack i
              ⟨some (gcr_alloc (((w.log (.snapshot_module_read name 4)).units dnr).gcr i)
                t.length), toInt32 t.length⟩)).log
                  (.snapshot_module_read name t.length)).units dnr).setTrack i
            ⟨some (t ++ (gcr_alloc (((w.log (.snapshot_module_read name 4)).units dnr).gcr i)
              t.length).drop t.length), toInt32 t.length⟩)))) hL2
      refine ⟨w1, h1, ?_, ?_, ?_⟩
      · intro u hu
        rw [h2 u hu]
        simp [hu]
      · intro j hj
        rw [h3 j (by omega)]
        have hji : j ≠ i := by omega
        simp [hji]
      · intro j x hx
        cases j with
        | zero =>
          simp only [List.getElem?_cons_zero, Option.some.injEq] at hx
          subst hx
          refine ⟨fun _ => ?_, fun h => absurd (by rw [h]; rfl) h0⟩
          rw [Nat.add_zero, h3 i (by omega)]
          simp only [log_units, setUnit_units, if_true, setTrack_gcr]
          refine ⟨by simp, toInt32_small _ ht31, ?_⟩
          unfold GcrTrack.bytes
          simp only [toInt32_small _ ht31, Int.toNat_natCast]
          exact fill_append_left _ _
        | succ j =>
          simp only [List.getElem?_cons_succ] at hx
          have := h4 j x hx
          rw [show i + (j + 1) = i + 1 + j by omega]
          exact this

/-- The track loop of the GCR writer when no write fails, for half-tracks whose
size is that of a `uint32_t`: it runs to the end and emits, per half-track, the
length and the bytes of the buffer. -/
theorem write_gcr_tracks_spec (e : Ext) (drive : DiskUnit) (name : ModName)
    (hsmw : ∀ n, e.smw_fails name n = false) :
    ∀ (n i : Nat) (m : WHandle), m.name = name →
      (∀ j, i ≤ j → j < i + n → (drive.gcr j).data ≠ none →
        0 ≤ (drive.gcr j).size ∧ (drive.gcr j).size < 2 ^ 32) →
      ∃ nw, write_gcr_tracks e drive n i m
        = (i + n, ⟨m.name, m.major, m.minor,
            m.data ++ ((List.range' i n).map (fun j => gcr_track_bytes (drive.gcr j).bytes)).flatten,
            nw⟩) := by
  intro n
  induction n with
  | zero =>
    intro i m _ _
    exact ⟨m.nwrites, by simp [write_gcr_tracks]⟩
  | succ n ih =>
    intro i m hm hv
    subst hm
    have hvi := hv i (Nat.le_refl _) (by omega)
    have hrest : ∀ j, i + 1 ≤ j → j < i + 1 + n → (drive.gcr j).data ≠ none →
        0 ≤ (drive.gcr j).size ∧ (drive.gcr j).size < 2 ^ 32 :=
      fun j h1 h2 => hv j (by omega) (by omega)
    simp only [write_gcr_tracks, List.range'_succ, List.map_cons, List.flatten_cons]
    cases hd : (drive.gcr i).data with
    | none =>
      have hb : (drive.gcr i).bytes = [] := by simp [GcrTrack.bytes, hd]
      simp only [SMW_DW, smw, hsmw, Bool.false_eq_true, if_false, ne_eq, not_true_eq_false,
        Nat.cast_zero, hb]
      obtain ⟨nw, h⟩ := ih (i + 1)
        ⟨m.name, m.major, m.minor, m.data ++ leBytes 4 (castU 32 0), m.nwrites + 1⟩ rfl hrest
      refine ⟨nw, ?_⟩
      rw [h]
      simp [gcr_track_bytes, castU, List.append_assoc, Nat.add_assoc]
      omega
    | some d =>
      obtain ⟨h0, h32⟩ := hvi (by rw [hd]; simp)
      obtain ⟨ts, hts⟩ : ∃ ts : Nat, (drive.gcr i).size = (ts : Int) :=
        ⟨(drive.gcr i).size.toNat, (Int.toNat_of_nonneg h0).symm⟩
      have hts32 : ts < 2 ^ 32 := by
        rw [hts] at h32
        exact_mod_cast h32
      have hcast : castU 32 ((ts : Nat) : Int) = ts := by
        rw [castU_natCast, Nat.mod_eq_of_lt hts32]
      have hb : (drive.gcr i).bytes = fill ts d := by
        simp [GcrTrack.bytes, hd, hts]
      simp only [hts, hcast, hb, Option.getD_some]
      by_cases hz : ts = 0
      · subst hz
        simp only [SMW_DW, smw, hsmw, Bool.false_eq_true, if_false, ne_eq, not_true_eq_false,
          Nat.cast_zero]
        obtain ⟨nw, h⟩ := ih (i + 1)
          ⟨m.name, m.major, m.minor, m.data ++ leBytes 4 (castU 32 0), m.nwrites + 1⟩ rfl hrest
        refine ⟨nw, ?_⟩
        rw [h]
        simp [gcr_track_bytes, castU, fill, List.append_assoc, Nat.add_assoc]
        omega
      · simp only [SMW_DW, SMW_BA, smw, hsmw, Bool.false_eq_true, if_false, ne_eq, hz,
          not_false_eq_true, if_true, hcast]
        obtain ⟨nw, h⟩ := ih (i + 1)
          ⟨m.name, m.major, m.minor, m.data ++ leBytes 4 ts ++ fill ts d, m.nwrites + 1 + 1⟩
          rfl hrest
        refine ⟨nw, ?_⟩
        rw [h]
        simp [gcr_track_bytes, fill_length, List.append_assoc, Nat.add_assoc]
        omega

/-- The module that the GCR writer of a build without `__LIBRETRO__` puts into
the container when nothing fails: its payload is the fixed half-track count and
then, per half-track, the length and the bytes of the buffer. -/
theorem write_gcrimage_module_container (c : Cfg) (e : Ext) (s : Snapshot) (w : World)
    (dnr : Nat) (hlib : c.libretro = false)
    (hcount : c.MAX_TRACKS_1571 * 2 < 2 ^ 32)
    (hsz : ∀ j, j < c.MAX_TRACKS_1571 * 2 → ((w.units dnr).gcr j).data ≠ none →
      0 ≤ ((w.units dnr).gcr j).size ∧ ((w.units dnr).gcr j).size < 2 ^ 32)
    (hcreate : e.create_fails (.GCRIMAGE dnr) = false)
    (hsmw : ∀ n, e.smw_fails (.GCRIMAGE dnr) n = false)
    (hclose : e.close_fails (.GCRIMAGE dnr) = false) :
    (drive_snapshot_write_gcrimage_module c e s w dnr).1 = 0 ∧
    (drive_snapshot_write_gcrimage_module c e s w dnr).2.1
      = s ++ [⟨.GCRIMAGE dnr, GCRIMAGE_SNAP_MAJOR, GCRIMAGE_SNAP_MINOR,
          gcr_image_payload c (w.units dnr)⟩] := by
  unfold drive_snapshot_write_gcrimage_module
  simp only [snapshot_module_create, hcreate, Bool.false_eq_true, if_false, hlib, SMW_DW, smw,
    hsmw]
  obtain ⟨nw, h⟩ := write_gcr_tracks_spec e (w.units dnr) (.GCRIMAGE dnr) hsmw
    (c.MAX_TRACKS_1571 * 2) 0
    ⟨.GCRIMAGE dnr, GCRIMAGE_SNAP_MAJOR, GCRIMAGE_SNAP_MINOR,
      [] ++ leBytes 4 (castU 32 ((c.MAX_TRACKS_1571 * 2 : Nat) : Int)), 0 + 1⟩ rfl
    (fun j _ hj => hsz j (by omega))
  rw [h]
  simp only [snapshot_module_close_w, hclose, Bool.not_false, Nat.zero_add, ne_eq,
    not_true_eq_false, decide_False, Bool.not_true, Bool.or_self, Bool.false_eq_true, if_false]
  refine ⟨trivial, ?_⟩
  rw [castU_natCast, Nat.mod_eq_of_lt hcount]
  simp [gcr_image_payload, List.range_eq_range']

theorem clear_gcr_tracks_spec (dnr : Nat) :
    ∀ (n i : Nat) (w : World),
      (∀ j, i ≤ j → j < i + n → (((clear_gcr_tracks dnr n i w).units dnr).gcr j).data = none) ∧
      (∀ j, j < i ∨ i + n ≤ j →
        ((clear_gcr_tracks dnr n i w).units dnr).gcr j = (w.units dnr).gcr j) := by
  intro n
  induction n with
  | zero =>
    intro i w
    exact ⟨fun j h1 h2 => by omega, fun _ _ => rfl⟩
  | succ n ih =>
    intro i w
    simp only [clear_gcr_tracks]
    cases hd : ((w.units dnr).gcr i).data with
    | none =>
      simp only
      obtain ⟨h1, h2⟩ := ih (i + 1) w
      refine ⟨fun j hj1 hj2 => ?_, fun j hj => h2 j (by omega)⟩
      by_cases hji : j = i
      · subst hji
        rw [h2 j (by omega)]
        exact hd
      · exact h1 j (by omega) (by omega)
    | some d =>
      simp only
      obtain ⟨h1, h2⟩ := ih (i + 1) (w.setUnit dnr ((w.units dnr).setTrack i ⟨none, 0⟩))
      refine ⟨fun j hj1 hj2 => ?_, fun j hj => ?_⟩
      · by_cases hji : j = i
        · subst hji
          rw [h2 j (by omega)]
          simp
        · exact h1 j (by omega) (by omega)
      · rw [h2 j (by omega)]
        have hji : j ≠ i := by omega
        simp [hji]

/-- The GCR reader of a build without `__LIBRETRO__` on a module of the current
version whose payload is a count `L.length` within `MAX_GCR_TRACKS` and the
tracks `L`: it returns 0, leaves in half-track `j` the bytes of `L[j]`, and a
`NULL` buffer in the half-tracks from the count up to `MAX_GCR_TRACKS`. -/
theorem read_gcrimage_module_restores (c : Cfg) (s : Snapshot) (w : World) (dnr : Nat)
    (L : List (List Byte)) (hlib : c.libretro = false)
    (hmod : gcr_module s dnr = some ⟨.GCRIMAGE dnr, GCRIMAGE_SNAP_MAJOR, GCRIMAGE_SNAP_MINOR,
      leBytes 4 L.length ++ (L.map gcr_track_bytes).flatten⟩)
    (hcount : L.length ≤ c.MAX_GCR_TRACKS) (hcount32 : L.length < 2 ^ 32)
    (hmax : c.NUM_MAX_MEM_BYTES_TRACK < 2 ^ 31)
    (hL : ∀ t ∈ L, t.length ≤ c.NUM_MAX_MEM_BYTES_TRACK) :
    (drive_snapshot_read_gcrimage_module c s w dnr).1 = 0 ∧
    (∀ j t, L[j]? = some t →
      (t ≠ [] → (((drive_snapshot_read_gcrimage_module c s w dnr).2.units dnr).gcr j).data ≠ none ∧
        (((drive_snapshot_read_gcrimage_module c s w dnr).2.units dnr).gcr j).size
          = (t.length : Int) ∧
        (((drive_snapshot_read_gcrimage_module c s w dnr).2.units dnr).gcr j).bytes = t) ∧
      (t = [] →
        ((drive_snapshot_read_gcrimage_module c s w dnr).2.units dnr).gcr j = ⟨none, 0⟩)) ∧
    (∀ j, L.length ≤ j → j < c.MAX_GCR_TRACKS →
      (((drive_snapshot_read_gcrimage_module c s w dnr).2.units dnr).gcr j).data = none) := by
  unfold drive_snapshot_read_gcrimage_module
  rw [open_gcr_some s w dnr _ hmod]
  have hb : snapshot_version_is_bigger GCRIMAGE_SNAP_MAJOR GCRIMAGE_SNAP_MINOR
      GCRIMAGE_SNAP_MAJOR GCRIMAGE_SNAP_MINOR = false := by decide
  have hs : snapshot_version_is_smaller GCRIMAGE_SNAP_MAJOR GCRIMAGE_SNAP_MINOR
      GCRIMAGE_SNAP_MAJOR GCRIMAGE_SNAP_MINOR = false := by decide
  simp only [hb, hs, hlib, Bool.false_eq_true, if_false]
  obtain ⟨w1, r1, r2, r3, r4⟩ := read_gcr_tracks_restores c dnr (.GCRIMAGE dnr) hmax L 0 []
    ((w.log (.snapshot_module_open (.GCRIMAGE dnr) true)).log
      (.snapshot_module_read (.GCRIMAGE dnr) 4)) hL
  have hbody : read_gcr_body c dnr
      ⟨⟨.GCRIMAGE dnr, leBytes 4 L.length ++ (L.map gcr_track_bytes).flatten⟩,
        w.log (.snapshot_module_open (.GCRIMAGE dnr) true)⟩
      = (true, ⟨⟨.GCRIMAGE dnr, []⟩,
          clear_gcr_tracks dnr (c.MAX_GCR_TRACKS - L.length) L.length w1⟩) := by
    unfold read_gcr_body
    simp only [SMR_DW_leBytes _ _ _ _ hcount32]
    have hgt : ¬ L.length > c.MAX_GCR_TRACKS := by omega
    simp only [hgt, if_false]
    rw [List.append_nil] at r1
    rw [r1]
  rw [hbody]
  simp only [gcr_loaded_gcr, close_units]
  obtain ⟨c1, c2⟩ := clear_gcr_tracks_spec dnr (c.MAX_GCR_TRACKS - L.length) L.length w1
  refine ⟨trivial, ?_, ?_⟩
  · intro j t hj
    have hjl : j < L.length := by
      rcases Nat.lt_or_ge j L.length with h | h
      · exact h
      · rw [List.getElem?_eq_none h] at hj
        cases hj
    rw [c2 j (Or.inl hjl)]
    have := r4 j t hj
    rw [Nat.zero_add] at this
    exact this
  · intro j h1 h2
    exact c1 j h1 (by omega)

theorem gcr_module_appended (s : Snapshot) (dnr : Nat) (md : SnapModule)
    (hfresh : gcr_module s dnr = none) (hname : md.name = .GCRIMAGE dnr) :
    gcr_module (s ++ [md]) dnr = some md := by
  unfold gcr_module at hfresh ⊢
  rw [List.find?_append, hfresh]
  simp [hname]

theorem GcrTrack.bytes_length_le (t : GcrTrack) (n : Nat)
    (h : t.data ≠ none → 0 ≤ t.size ∧ t.size ≤ (n : Int)) : t.bytes.length ≤ n := by
  unfold GcrTrack.bytes
  cases hd : t.data with
  | none => simp
  | some d =>
    simp only [fill_length]
    have := h (by rw [hd]; simp)
    omega

set_option maxRecDepth 100000 in
/-- C28 (counterexample): in a build with `__LIBRETRO__` the GCR writer emits
the name of the disk, not the tracks. Unit 0 of `exampleGcrWorld` has the bytes
7, 8 in half-track 0 and a disk named `A`: the module written starts with
`___A`; the reader takes it for a file name, returns 0, stores the name in
`dc_savestate_filename` and leaves the half-tracks of the reading drive as they
were, here `NULL`. -/
theorem C28_libretro_writes_name_not_tracks :
    (exampleGcrWorld.units 0).gcr 0 = ⟨some [7, 8], 2⟩ ∧
    (drive_snapshot_write_gcrimage_module (exampleCfg true) exampleNamedExt [] exampleGcrWorld
      0).1 = 0 ∧
    ((gcr_module (drive_snapshot_write_gcrimage_module (exampleCfg true) exampleNamedExt []
      exampleGcrWorld 0).2.1 0).map (fun md => md.data.take 5)) = some [95, 95, 95, 65, 0] ∧
    (drive_snapshot_read_gcrimage_module (exampleCfg true)
      (drive_snapshot_write_gcrimage_module (exampleCfg true) exampleNamedExt [] exampleGcrWorld
        0).2.1 exampleWorld 0).1 = 0 ∧
    ((drive_snapshot_read_gcrimage_module (exampleCfg true)
      (drive_snapshot_write_gcrimage_module (exampleCfg true) exampleNamedExt [] exampleGcrWorld
        0).2.1 exampleWorld 0).2.units 0).gcr 0 = ⟨none, 0⟩ ∧
    (drive_snapshot_read_gcrimage_module (exampleCfg true)
      (drive_snapshot_write_gcrimage_module (exampleCfg true) exampleNamedExt [] exampleGcrWorld
        0).2.1 exampleWorld 0).2.dc_savestate_filename = [65] := by
  decide

/-- C28 (amended): in a build without `__LIBRETRO__`, when nothing fails,
`drive_snapshot_write_gcrimage_module` puts into the container a module whose
payload is the fixed half-track count `MAX_TRACKS_1571 * 2` and then, per
half-track below that count, the byte length (0 if the buffer is absent)
followed by that many raw bytes. When the buffers present below the count have
a size within `NUM_MAX_MEM_BYTES_TRACK` and the container held no `GCRIMAGEk`
before, `drive_snapshot_read_gcrimage_module` on the result returns 0 and
leaves every half-track below the count that had a buffer that was not empty
with the same size and the same bytes, every half-track below the count that
was absent or empty with a `NULL` buffer and size 0, and every half-track from
the count up to `MAX_GCR_TRACKS` with a `NULL` buffer. The hypotheses on the
constants are facts of the headers. -/
theorem C28_gcr_tracks_round_trip (c : Cfg) (e : Ext) (s : Snapshot) (w wr : World) (dnr : Nat)
    (hlib : c.libretro = false)
    (hcount : c.MAX_TRACKS_1571 * 2 ≤ c.MAX_GCR_TRACKS)
    (hcount32 : c.MAX_GCR_TRACKS < 2 ^ 32)
    (hmax : c.NUM_MAX_MEM_BYTES_TRACK < 2 ^ 31)
    (hsz : ∀ j, j < c.MAX_TRACKS_1571 * 2 → ((w.units dnr).gcr j).data ≠ none →
      0 ≤ ((w.units dnr).gcr j).size ∧
      ((w.units dnr).gcr j).size ≤ (c.NUM_MAX_MEM_BYTES_TRACK : Int))
    (hcreate : e.create_fails (.GCRIMAGE dnr) = false)
    (hsmw : ∀ n, e.smw_fails (.GCRIMAGE dnr) n = false)
    (hclose : e.close_fails (.GCRIMAGE dnr) = false)
    (hfresh : gcr_module s dnr = none) :
    (drive_snapshot_write_gcrimage_module c e s w dnr).1 = 0 ∧
    (drive_snapshot_write_gcrimage_module c e s w dnr).2.1
      = s ++ [⟨.GCRIMAGE dnr, GCRIMAGE_SNAP_MAJOR, GCRIMAGE_SNAP_MINOR,
          gcr_image_payload c (w.units dnr)⟩] ∧
    (drive_snapshot_read_gcrimage_module c
      (drive_snapshot_write_gcrimage_module c e s w dnr).2.1 wr dnr).1 = 0 ∧
    (∀ j, j < c.MAX_TRACKS_1571 * 2 →
      restored_track ((w.units dnr).gcr j)
        (((drive_snapshot_read_gcrimage_module c
          (drive_snapshot_write_gcrimage_module c e s w dnr).2.1 wr dnr).2.units dnr).gcr j)) ∧
    (∀ j, c.MAX_TRACKS_1571 * 2 ≤ j → j < c.MAX_GCR_TRACKS →
      (((drive_snapshot_read_gcrimage_module c
        (drive_snapshot_write_gcrimage_module c e s w dnr).2.1 wr dnr).2.units dnr).gcr j).data
        = none) := by
  have hsz32 : ∀ j, j < c.MAX_TRACKS_1571 * 2 → ((w.units dnr).gcr j).data ≠ none →
      0 ≤ ((w.units dnr).gcr j).size ∧ ((w.units dnr).gcr j).size < 2 ^ 32 := by
    intro j hj hd
    obtain ⟨h0, h1⟩ := hsz j hj hd
    refine ⟨h0, ?_⟩
    have : (c.NUM_MAX_MEM_BYTES_TRACK : Int) < 2 ^ 31 := by exact_mod_cast hmax
    omega
  obtain ⟨hw1, hw2⟩ := write_gcrimage_module_container c e s w dnr hlib (by omega) hsz32 hcreate
    hsmw hclose
  refine ⟨hw1, hw2, ?_⟩
  rw [hw2]
  have hLlen : ((List.range (c.MAX_TRACKS_1571 * 2)).map
      (fun i => ((w.units dnr).gcr i).bytes)).length = c.MAX_TRACKS_1571 * 2 := by simp
  have hpay : gcr_image_payload c (w.units dnr)
      = leBytes 4 ((List.range (c.MAX_TRACKS_1571 * 2)).map
          (fun i => ((w.units dnr).gcr i).bytes)).length ++
        (((List.range (c.MAX_TRACKS_1571 * 2)).map
          (fun i => ((w.units dnr).gcr i).bytes)).map gcr_track_bytes).flatten := by
    rw [hLlen]
    simp [gcr_image_payload, List.map_map, Function.comp_def]
  have hmod := gcr_module_appended s dnr ⟨.GCRIMAGE dnr, GCRIMAGE_SNAP_MAJOR, GCRIMAGE_SNAP_MINOR,
      gcr_image_payload c (w.units dnr)⟩ hfresh rfl
  rw [hpay] at hmod
  obtain ⟨r1, r2, r3⟩ := read_gcrimage_module_restores c _ wr dnr _ hlib hmod
    (by rw [hLlen]; exact hcount) (by rw [hLlen]; omega) hmax
    (by
      intro t ht
      obtain ⟨i, hi, rfl⟩ := List.mem_map.mp ht
      exact GcrTrack.bytes_length_le _ _ (hsz i (List.mem_range.mp hi)))
  rw [← hpay] at r1 r2 r3
  refine ⟨r1, ?_, ?_⟩
  · intro j hj
    have hget : ((List.range (c.MAX_TRACKS_1571 * 2)).map
        (fun i => ((w.units dnr).gcr i).bytes))[j]? = some ((w.units dnr).gcr j).bytes := by
      simp [hj]
    obtain ⟨q1, q2⟩ := r2 j _ hget
    unfold restored_track
    cases hd : ((w.units dnr).gcr j).data with
    | none =>
      have hb : ((w.units dnr).gcr j).bytes = [] := by simp [GcrTrack.bytes, hd]
      simp only [ne_eq, not_true_eq_false, false_and, if_false]
      exact q2 hb
    | some d =>
      obtain ⟨h0, h1⟩ := hsz j hj (by rw [hd]; simp)
      have hb : ((w.units dnr).gcr j).bytes = fill ((w.units dnr).gcr j).size.toNat d := by
        simp [GcrTrack.bytes, hd]
      by_cases hz : ((w.units dnr).gcr j).size = 0
      · have hb0 : ((w.units dnr).gcr j).bytes = [] := by
          rw [hb, hz]
          rfl
        simp only [hz, ne_eq, not_true_eq_false, and_false, if_false]
        exact q2 hb0
      · have hne : ((w.units dnr).gcr j).bytes ≠ [] := by
          intro h
          have hl := congrArg List.length h
          rw [hb, fill_length] at hl
          simp only [List.length_nil] at hl
          omega
        obtain ⟨p1, p2, p3⟩ := q1 hne
        have hlen : (((w.units dnr).gcr j).bytes.length : Int) = ((w.units dnr).gcr j).size := by
          rw [hb, fill_length]
          exact Int.toNat_of_nonneg h0
        rw [if_pos ⟨by simp, hz⟩]
        exact ⟨p1, by rw [p2, hlen], p3⟩
  · intro j h1 h2
    exact r3 j (by rw [hLlen]; exact h1) h2

set_option maxRecDepth 100000 in
/-- C28 (witness): `exampleGcrWorld` written in a build without `__LIBRETRO__`
into an empty container and read back into `exampleWorld`: half-track 0 of
unit 0 holds the bytes 7, 8 again, half-track 1 is `NULL`. -/
theorem C28_gcr_tracks_round_trip_witness :
    (exampleCfg false).MAX_TRACKS_1571 * 2 ≤ (exampleCfg false).MAX_GCR_TRACKS ∧
    (exampleGcrWorld.units 0).gcr 0 = ⟨some [7, 8], 2⟩ ∧
    (drive_snapshot_read_gcrimage_module (exampleCfg false)
      (drive_snapshot_write_gcrimage_module (exampleCfg false) exampleExt [] exampleGcrWorld
        0).2.1 exampleWorld 0).1 = 0 ∧
    restored_track ((exampleGcrWorld.units 0).gcr 0)
      (((drive_snapshot_read_gcrimage_module (exampleCfg false)
        (drive_snapshot_write_gcrimage_module (exampleCfg false) exampleExt [] exampleGcrWorld
          0).2.1 exampleWorld 0).2.units 0).gcr 0) ∧
    restored_track ((exampleGcrWorld.units 0).gcr 1)
      (((drive_snapshot_read_gcrimage_module (exampleCfg false)
        (drive_snapshot_write_gcrimage_module (exampleCfg false) exampleExt [] exampleGcrWorld
          0).2.1 exampleWorld 0).2.units 0).gcr 1) := by
  have hsz : ∀ j, j < (exampleCfg false).MAX_TRACKS_1571 * 2 →
      ((exampleGcrWorld.units 0).gcr j).data ≠ none →
      0 ≤ ((exampleGcrWorld.units 0).gcr j).size ∧
      ((exampleGcrWorld.units 0).gcr j).size ≤ ((exampleCfg false).NUM_MAX_MEM_BYTES_TRACK : Int) := by
    intro j _ hd
    by_cases hj : j = 0
    · subst hj
      decide
    · exfalso
      apply hd
      simp [exampleGcrWorld, hj]
  have h := C28_gcr_tracks_round_trip (exampleCfg false) exampleExt [] exampleGcrWorld
    exampleWorld 0 rfl (by decide) (by decide) (by decide) hsz rfl (fun _ => rfl) rfl rfl
  exact ⟨by decide, rfl, h.2.2.1, h.2.2.2.1 0 (by decide), h.2.2.2.1 1 (by decide)⟩

/-! ## The type tag of a flat image module -/

theorem open_image_some (s : Snapshot) (w : World) (dnr : Nat) (md : SnapModule)
    (h : image_module s dnr = some md) :
    snapshot_module_open s w (.IMAGE dnr) =
      (some (⟨.IMAGE dnr, md.data⟩, md.major, md.minor),
        w.log (.snapshot_module_open (.IMAGE dnr) true)) := by
  unfold snapshot_module_open
  unfold image_module at h
  rw [h]

theorem open_noimage_none (s : Snapshot) (w : World) (dnr : Nat)
    (h : noimage_module s dnr = none) :
    snapshot_module_open s w (.NOIMAGE dnr)
      = (none, w.log (.snapshot_module_open (.NOIMAGE dnr) false)) := by
  unfold snapshot_module_open
  unfold noimage_module at h
  rw [h]

/-- The flat image reader up to its `switch (word)`, for a container without
`NOIMAGEk` whose `IMAGEk` module has the current version and begins with the
type word: what it does for each outcome of the `switch`. -/
theorem read_image_module_switch (c : Cfg) (e : Ext) (s : Snapshot) (w : World) (dnr : Nat)
    (md : SnapModule) (hno : noimage_module s dnr = none) (hmod : image_module s dnr = some md)
    (hmaj : md.major = IMAGE_SNAP_MAJOR) (hmin : md.minor = IMAGE_SNAP_MINOR)
    (word : Nat) (rest : List Byte) (hword : word < 2 ^ 16)
    (hdata : md.data = leBytes 2 word ++ rest) :
    (image_len c (w.units dnr) word = none →
      (drive_snapshot_read_image_module c e s w dnr).1 = -1 ∧
      (drive_snapshot_read_image_module c e s w dnr).2.units = w.units ∧
      (drive_snapshot_read_image_module c e s w dnr).2.trace
        = w.trace ++ [Event.snapshot_module_open (.NOIMAGE dnr) false,
            Event.snapshot_module_open (.IMAGE dnr) true,
            Event.snapshot_module_read (.IMAGE dnr) 2, Event.log_error,
            Event.snapshot_module_close (.IMAGE dnr)]) ∧
    (∀ len, image_len c (w.units dnr) word = some (some len) →
      ∃ t, (drive_snapshot_read_image_module c e s w dnr).2.trace
        = w.trace ++ ([Event.snapshot_module_open (.NOIMAGE dnr) false,
            Event.snapshot_module_open (.IMAGE dnr) true,
            Event.snapshot_module_read (.IMAGE dnr) 2, Event.archdep_mkstemp_fd] ++ t) ∧
        (e.archdep_mkstemp_fd = true → e.grow_file = true →
          (∃ t1, t = Event.lib_free :: Event.file_system_attach_disk (dnr + 8) 0 len :: t1) ∧
          (0 ≤ (e.file_system_attach_disk (dnr + 8) len (w.units dnr).image).1 →
            (drive_snapshot_read_image_module c e s w dnr).1 = 0))) := by
  unfold drive_snapshot_read_image_module
  rw [open_noimage_none s w dnr hno]
  simp only []
  rw [open_image_some s _ dnr md hmod, hmaj, hmin]
  have hb : snapshot_version_is_bigger IMAGE_SNAP_MAJOR IMAGE_SNAP_MINOR IMAGE_SNAP_MAJOR
      IMAGE_SNAP_MINOR = false := by decide
  have hs : snapshot_version_is_smaller IMAGE_SNAP_MAJOR IMAGE_SNAP_MINOR IMAGE_SNAP_MAJOR
      IMAGE_SNAP_MINOR = false := by decide
  simp only [hb, hs, Bool.false_eq_true, if_false]
  rw [hdata, SMR_W_leBytes _ _ word rest hword]
  simp only [log_units]
  constructor
  · intro hl
    rw [hl]
    simp [snapshot_module_close, World.log]
  · intro len hl
    rw [hl]
    simp only []
    by_cases hmk : e.archdep_mkstemp_fd = true
    · by_cases hg : e.grow_file = true
      · simp only [hmk, hg, Bool.not_true, Bool.false_eq_true, if_false, log_units]
        by_cases hr : (e.file_system_attach_disk (dnr + 8) len (w.units dnr).image).1 < 0
        · rw [if_pos hr]
          refine ⟨[Event.lib_free, Event.file_system_attach_disk (dnr + 8) 0 len,
            Event.log_error, Event.double_free], by simp [World.log],
            fun _ _ => ⟨⟨_, rfl⟩, fun h0 => by omega⟩⟩
        · rw [if_neg hr]
          simp only []
          generalize hW :
            (((((((w.log (Event.snapshot_module_open (ModName.NOIMAGE dnr) false)).log
              (Event.snapshot_module_open (ModName.IMAGE dnr) true)).log
              (Event.snapshot_module_read (ModName.IMAGE dnr) 2)).log
              Event.archdep_mkstemp_fd).log Event.lib_free).log
              (Event.file_system_attach_disk (dnr + 8) 0 len)).setUnit dnr
              { sc := (w.units dnr).sc,
                image := (e.file_system_attach_disk (dnr + 8) len (w.units dnr).image).2,
                gcr := (w.units dnr).gcr, p64 := (w.units dnr).p64 }).log
              Event.zfile_close_action = w7
          have ht7 : w7.trace = w.trace ++ [Event.snapshot_module_open (.NOIMAGE dnr) false,
              Event.snapshot_module_open (.IMAGE dnr) true,
              Event.snapshot_module_read (.IMAGE dnr) 2, Event.archdep_mkstemp_fd,
              Event.lib_free, Event.file_system_attach_disk (dnr + 8) 0 len,
              Event.zfile_close_action] := by
            rw [← hW]
            simp [World.log]
          generalize hst0 : read_sector_data ⟨e.uninit_sector_data, ⟨.IMAGE dnr, rest⟩, w7⟩ = st0
          have e0 : evolves w7 st0.w := by
            rw [← hst0]
            exact read_sector_data_evolves ⟨e.uninit_sector_data, ⟨.IMAGE dnr, rest⟩, w7⟩
          have key : ∀ fuel : Nat, ∃ t,
              (snapshot_module_close
                ((read_image_tracks dnr fuel 1 st0).w.log (.vdrive_bam_reread_bam (dnr + 8) 0))
                (read_image_tracks dnr fuel 1 st0).m).trace
                = w.trace ++ ([Event.snapshot_module_open (.NOIMAGE dnr) false,
                  Event.snapshot_module_open (.IMAGE dnr) true,
                  Event.snapshot_module_read (.IMAGE dnr) 2, Event.archdep_mkstemp_fd] ++ t) ∧
              (True → True →
                (∃ t1, t = Event.lib_free :: Event.file_system_attach_disk (dnr + 8) 0 len :: t1) ∧
                (0 ≤ (e.file_system_attach_disk (dnr + 8) len (w.units dnr).image).1 →
                  True)) := by
            intro fuel
            obtain ⟨t1, ht1⟩ := (evolves_trans e0 (read_image_tracks_evolves dnr fuel 1 st0)).2
            refine ⟨Event.lib_free :: Event.file_system_attach_disk (dnr + 8) 0 len ::
              Event.zfile_close_action :: (t1 ++ [Event.vdrive_bam_reread_bam (dnr + 8) 0,
                Event.snapshot_module_close (read_image_tracks dnr fuel 1 st0).m.name]), ?_,
              fun _ _ => ⟨⟨_, rfl⟩, fun _ => trivial⟩⟩
            rw [close_trace, log_trace, ht1, ht7]
            simp only [List.append_assoc, List.cons_append, List.nil_append]
          exact key _
      · have hg2 : e.grow_file = false := by simpa using hg
        simp only [hmk, hg2, Bool.not_true, Bool.not_false, Bool.false_eq_true, if_false, if_true]
        exact ⟨[Event.log_error, Event.lib_free, Event.snapshot_module_close (.IMAGE dnr)],
          by simp [snapshot_module_close, World.log], fun _ h => by cases h⟩
    · have hmk2 : e.archdep_mkstemp_fd = false := by simpa using hmk
      simp only [hmk2, Bool.not_false, if_true]
      exact ⟨[Event.log_error, Event.snapshot_module_close (.IMAGE dnr)],
        by simp [snapshot_module_close, World.log], fun h => by cases h⟩

/-- C31. For a container without `NOIMAGEk` whose `IMAGEk` module has the
current version and begins with a type word, `drive_snapshot_read_image_module`
gets past its `switch` exactly when the word is 1581, 8050, 8250 or 9000. For
every other word it logs an error, closes the module and returns -1: the calls
made are the two opens, the read of the word, `log_error` and the close, so
that no temporary file is made and no image attached, and the units are as
before. For 1581, 8050 and 8250 (and for 9000 on a unit that holds an image) it
calls `archdep_mkstemp_fd` and, when the file can be made and grown, frees the
file name and attaches a file of exactly `D81_FILE_SIZE`, `D80_FILE_SIZE` and
`D82_FILE_SIZE` bytes (of `tracks * sectors * 256` bytes for 9000), and it
returns 0 when the attach succeeds. -/
theorem C31_flat_image_type_tags (c : Cfg) (e : Ext) (s : Snapshot) (w : World) (dnr : Nat)
    (md : SnapModule) (hno : noimage_module s dnr = none) (hmod : image_module s dnr = some md)
    (hmaj : md.major = IMAGE_SNAP_MAJOR) (hmin : md.minor = IMAGE_SNAP_MINOR)
    (word : Nat) (rest : List Byte) (hword : word < 2 ^ 16)
    (hdata : md.data = leBytes 2 word ++ rest) :
    (image_len c (w.units dnr) word ≠ none ↔ word ∈ [1581, 8050, 8250, 9000]) ∧
    (word ∉ [1581, 8050, 8250, 9000] →
      (drive_snapshot_read_image_module c e s w dnr).1 = -1 ∧
      (drive_snapshot_read_image_module c e s w dnr).2.units = w.units ∧
      (drive_snapshot_read_image_module c e s w dnr).2.trace
        = w.trace ++ [Event.snapshot_module_open (.NOIMAGE dnr) false,
            Event.snapshot_module_open (.IMAGE dnr) true,
            Event.snapshot_module_read (.IMAGE dnr) 2, Event.log_error,
            Event.snapshot_module_close (.IMAGE dnr)]) ∧
    (∀ len : Int,
      ((word = 1581 ∧ len = c.D81_FILE_SIZE) ∨ (word = 8050 ∧ len = c.D80_FILE_SIZE) ∨
        (word = 8250 ∧ len = c.D82_FILE_SIZE) ∨
        (∃ img, word = 9000 ∧ (w.units dnr).image = some img ∧
          len = img.tracks * img.sectors * 256)) →
      ∃ t, (drive_snapshot_read_image_module c e s w dnr).2.trace
        = w.trace ++ ([Event.snapshot_module_open (.NOIMAGE dnr) false,
            Event.snapshot_module_open (.IMAGE dnr) true,
            Event.snapshot_module_read (.IMAGE dnr) 2, Event.archdep_mkstemp_fd] ++ t) ∧
        (e.archdep_mkstemp_fd = true → e.grow_file = true →
          (∃ t1, t = Event.lib_free :: Event.file_system_attach_disk (dnr + 8) 0 len :: t1) ∧
          (0 ≤ (e.file_system_attach_disk (dnr + 8) len (w.units dnr).image).1 →
            (drive_snapshot_read_image_module c e s w dnr).1 = 0))) := by
  obtain ⟨hrej, hacc⟩ := read_image_module_switch c e s w dnr md hno hmod hmaj hmin word rest
    hword hdata
  have hiff : image_len c (w.units dnr) word ≠ none ↔ word ∈ [1581, 8050, 8250, 9000] := by
    unfold image_len
    simp only [List.mem_cons, List.mem_singleton, List.not_mem_nil, or_false]
    by_cases h1 : word = 1581
    · simp [h1]
    · by_cases h2 : word = 8050
      · simp [h2]
      · by_cases h3 : word = 8250
        · simp [h3]
        · by_cases h4 : word = 9000
          · simp only [h4]
            cases (w.units dnr).image <;> simp
          · simp [h1, h2, h3, h4]
  refine ⟨hiff, ?_, ?_⟩
  · intro hn
    exact hrej (by
      by_contra hne
      exact hn (hiff.mp hne))
  · intro len hlen
    apply hacc len
    unfold image_len
    rcases hlen with ⟨h1, h2⟩ | ⟨h1, h2⟩ | ⟨h1, h2⟩ | ⟨img, h1, h2, h3⟩
    · simp [h1, h2]
    · simp [h1, h2]
    · simp [h1, h2]
    · simp [h1, h2, h3]

set_option maxRecDepth 100000 in
/-- C31 (witness): the module `IMAGE0` of `exampleTagged`, whose type word is
1541, is rejected. -/
theorem C31_flat_image_type_tags_witness :
    noimage_module exampleTagged 0 = none ∧
    image_module exampleTagged 0 = some ⟨.IMAGE 0, 1, 0, leBytes 2 1541⟩ ∧
    1541 ∉ [1581, 8050, 8250, 9000] ∧
    (drive_snapshot_read_image_module (exampleCfg false) exampleExt exampleTagged exampleWorld
      0).1 = -1 :=
  ⟨by decide, by decide, by decide,
    ((C31_flat_image_type_tags (exampleCfg false) exampleExt exampleTagged exampleWorld 0
      ⟨.IMAGE 0, 1, 0, leBytes 2 1541⟩ (by decide) (by decide) (by decide) (by decide) 1541 []
      (by decide) (by decide)).2.1 (by decide)).1⟩

/-! ## The order in which the flat image writer emits the sectors -/

/-- The inner loop of the writer on an existing track, when no write fails, for
any fuel that exceeds the number of sectors left: it stops at the end of the
track, having appended the blocks of the sectors from `s` on, one write each. -/
theorem write_image_track_exact (e : Ext) (img : DiskImage) (pre trs : List (List (List Byte)))
    (tr : List (List Byte)) (hc : img.content = pre ++ tr :: trs) :
    ∀ (fuel s : Nat) (m : WHandle), (∀ n, e.smw_fails m.name n = false) →
      s ≤ tr.length → tr.length - s < fuel →
      write_image_track e img (pre.length + 1) fuel s m
        = (tr.length, ⟨m.name, m.major, m.minor,
            m.data ++ ((tr.drop s).map (fill 256)).flatten, m.nwrites + (tr.length - s)⟩) := by
  intro fuel
  induction fuel with
  | zero => intro s m _ _ h; omega
  | succ fuel ih =>
    intro s m hw hs hf
    simp only [write_image_track, disk_image_read_sector_of img pre trs tr hc]
    by_cases hlt : s < tr.length
    · have hget : tr[s]? = some tr[s] := List.getElem?_eq_getElem hlt
      simp only [hget, Option.map_some', SMW_BA, smw, hw, Bool.false_eq_true, if_false]
      rw [ih (s + 1) ⟨m.name, m.major, m.minor, m.data ++ fill 256 tr[s], m.nwrites + 1⟩ hw
        (by omega) (by omega), List.drop_eq_getElem_cons hlt]
      simp only [List.map_cons, List.flatten_cons, List.append_assoc]
      congr 2
      omega
    · have hs2 : s = tr.length := by omega
      subst hs2
      simp only [List.getElem?_eq_none (le_refl _), Option.map_none', List.drop_length,
        List.map_nil, List.flatten_nil, List.append_nil, Nat.sub_self, Nat.add_zero]

/-- The outer loop of the writer, when no write fails and no track is empty,
for any fuel that exceeds the number of tracks left: it appends the blocks of
all remaining tracks, one write each, and stops. -/
theorem write_image_tracks_exact (e : Ext) (img : DiskImage) :
    ∀ (trs pre : List (List (List Byte))) (fuel : Nat) (m : WHandle),
      img.content = pre ++ trs → (∀ n, e.smw_fails m.name n = false) →
      (∀ tr ∈ trs, tr ≠ []) → trs.length < fuel →
      write_image_tracks e img fuel (pre.length + 1) m
        = ⟨m.name, m.major, m.minor,
            m.data ++ (trs.map (fun tr => (tr.map (fill 256)).flatten)).flatten,
            m.nwrites + (trs.map List.length).sum⟩ := by
  intro trs
  induction trs with
  | nil =>
    intro pre fuel m hc _ _ hf
    obtain ⟨fuel, rfl⟩ : ∃ k, fuel = k + 1 := ⟨fuel - 1, by simp at hf; omega⟩
    have hlen : pre.length = img.content.length := by rw [hc]; simp
    simp only [write_image_tracks, hlen]
    have : img.sectorsOn (img.content.length + 1) = 0 := by
      unfold DiskImage.sectorsOn; simp
    simp only [this, write_image_track, disk_image_read_sector_end]
    simp only [Nat.zero_add, if_true, List.map_nil, List.flatten_nil, List.append_nil,
      List.sum_nil, Nat.add_zero]
  | cons tr trs ih =>
    intro pre fuel m hc hw hne hf
    obtain ⟨fuel, rfl⟩ : ∃ k, fuel = k + 1 := ⟨fuel - 1, by simp at hf; omega⟩
    simp only [write_image_tracks, sectorsOn_of img pre trs tr hc]
    rw [write_image_track_exact e img pre trs tr hc (tr.length + 1) 0 m hw (by omega) (by omega)]
    have htr : tr ≠ [] := hne tr (List.mem_cons_self _ _)
    have hlen : tr.length ≠ 0 := fun h0 => htr (List.length_eq_zero.mp h0)
    simp only [hlen, if_false]
    have h2 := ih (pre ++ [tr]) fuel
      ⟨m.name, m.major, m.minor, m.data ++ ((tr.drop 0).map (fill 256)).flatten,
        m.nwrites + (tr.length - 0)⟩
      (by rw [hc]; simp) hw (fun x hx => hne x (List.mem_cons_of_mem _ hx))
      (by simp at hf; omega)
    simp only [List.length_append, List.length_singleton] at h2
    rw [h2]
    simp only [List.drop_zero, List.map_cons, List.flatten_cons, List.append_assoc,
      List.sum_cons, Nat.sub_zero, Nat.add_assoc]

/-- The blocks of a track are those of its sectors 0, 1, ... as
`disk_image_read_sector` returns them. -/
theorem track_blocks_by_address (img : DiskImage) (pre trs : List (List (List Byte)))
    (tr : List (List Byte)) (hc : img.content = pre ++ tr :: trs) :
    tr.map (fill 256)
      = ((List.range (img.sectorsOn (pre.length + 1))).map
          (fun sct => (pre.length + 1, sct))).map
          (fun a => (disk_image_read_sector img a.1 a.2).getD []) := by
  rw [sectorsOn_of img pre trs tr hc]
  apply List.ext_getElem
  · simp
  · intro i h1 h2
    simp only [List.getElem_map, List.getElem_range,
      disk_image_read_sector_of img pre trs tr hc]
    have hi : i < tr.length := by simpa using h1
    rw [List.getElem?_eq_getElem hi]
    rfl

theorem image_blocks_by_address_from (img : DiskImage) :
    ∀ (trs pre : List (List (List Byte))), img.content = pre ++ trs →
      (trs.map (List.map (fill 256))).flatten
        = ((List.range' (pre.length + 1) trs.length).flatMap
            (fun t => (List.range (img.sectorsOn t)).map (fun sct => (t, sct)))).map
            (fun a => (disk_image_read_sector img a.1 a.2).getD []) := by
  intro trs
  induction trs with
  | nil => intro pre _; rfl
  | cons tr trs ih =>
    intro pre hc
    have h2 := ih (pre ++ [tr]) (by rw [hc]; simp)
    simp only [List.length_append, List.length_singleton] at h2
    simp only [List.map_cons, List.flatten_cons, List.length_cons, List.range'_succ,
      List.flatMap_cons, List.map_append]
    rw [h2, track_blocks_by_address img pre trs tr hc]

/-- The blocks that the writer emits are those of the sectors at the addresses
(1,0), (1,1), ..., (T, S(T)-1), in that order. -/
theorem image_blocks_by_address (img : DiskImage) :
    image_blocks img
      = (sector_addresses img).map (fun a => (disk_image_read_sector img a.1 a.2).getD []) := by
  have h := image_blocks_by_address_from img img.content [] (by simp)
  simpa [image_blocks, sector_addresses] using h

theorem disk_image_read_sector_isSome (img : DiskImage) (t sct : Nat) :
    (disk_image_read_sector img t sct).isSome = true
      ↔ (1 ≤ t ∧ t ≤ img.content.length ∧ sct < img.sectorsOn t) := by
  unfold disk_image_read_sector DiskImage.sectorsOn
  by_cases h0 : t = 0
  · simp [h0]
  · simp only [h0, if_false]
    by_cases h1 : t - 1 < img.content.length
    · rw [List.getElem?_eq_getElem h1]
      simp only [Option.map_some', Option.getD_some, Option.isSome_map']
      by_cases h2 : sct < (img.content[t - 1]).length
      · rw [List.getElem?_eq_getElem h2]
        simp only [Option.isSome_some, true_iff]
        exact ⟨by omega, by omega, h2⟩
      · rw [List.getElem?_eq_none (by omega)]
        simp only [Option.isSome_none, Bool.false_eq_true, false_iff, not_and]
        intro _ _
        exact h2
    · rw [List.getElem?_eq_none (by omega)]
      simp only [Option.isSome_none, Bool.false_eq_true, Option.map_none', Option.getD_none,
        false_iff, not_and]
      intro _ _
      omega

/-- The addresses are in ascending (track, sector) order. -/
theorem sector_addresses_ascending (img : DiskImage) :
    (sector_addresses img).Pairwise (fun a b => a.1 < b.1 ∨ (a.1 = b.1 ∧ a.2 < b.2)) := by
  unfold sector_addresses
  rw [List.flatMap_def, List.pairwise_flatten]
  constructor
  · intro l hl
    obtain ⟨t, _, rfl⟩ := List.mem_map.mp hl
    rw [List.pairwise_map]
    exact (List.pairwise_lt_range _).imp (fun h => Or.inr ⟨rfl, h⟩)
  · rw [List.pairwise_map]
    refine (List.pairwise_lt_range' 1 img.content.length).imp ?_
    intro a b hab x hx y hy
    obtain ⟨_, _, rfl⟩ := List.mem_map.mp hx
    obtain ⟨_, _, rfl⟩ := List.mem_map.mp hy
    exact Or.inl hab

/-- C32. For an image of `T` tracks in which reading the sector (t, s) succeeds
exactly when `1 <= t <= T` and `s < S(t)`, with `S(t) >= 1` for every such `t`,
attached to a unit that is not a CMD HD, when the module can be created and no
write fails: the loops of `drive_snapshot_write_image_module` terminate, with
the same result for every bound on the number of iterations that exceeds `T`;
the last track visited is `T + 1`, whose sector 0 cannot be read; the module
written holds, after the type word, exactly the blocks of the sectors (1,0),
(1,1), ..., (T, S(T)-1) in that order, 256 bytes each, one write per sector. -/
theorem C32_flat_writer_order_and_termination (c : Cfg) (e : Ext) (s : Snapshot) (w : World)
    (dnr : Nat) (img : DiskImage) (himg : (w.units dnr).image = some img)
    (htype : (w.units dnr).sc .type ≠ c.DRIVE_TYPE_CMDHD)
    (hne : ∀ tr ∈ img.content, tr ≠ [])
    (hcreate : e.create_fails (.IMAGE dnr) = false)
    (hsmw : ∀ n, e.smw_fails (.IMAGE dnr) n = false) :
    (∀ t sct, (disk_image_read_sector img t sct).isSome = true
      ↔ (1 ≤ t ∧ t ≤ img.content.length ∧ sct < img.sectorsOn t)) ∧
    (∀ t, 1 ≤ t → t ≤ img.content.length → 1 ≤ img.sectorsOn t) ∧
    (∀ (fuel : Nat) (m : WHandle), m.name = .IMAGE dnr → img.content.length < fuel →
      write_image_tracks e img fuel 1 m
        = ⟨m.name, m.major, m.minor, m.data ++ (image_blocks img).flatten,
            m.nwrites + (image_blocks img).length⟩) ∧
    (∀ (fuel : Nat) (m : WHandle),
      write_image_track e img (img.content.length + 1) (fuel + 1) 0 m = (0, m)) ∧
    (drive_snapshot_write_image_module c e s w dnr).2.1
      = s ++ [⟨.IMAGE dnr, IMAGE_SNAP_MAJOR, IMAGE_SNAP_MINOR,
          leBytes 2 (castU 16 (img.type : Int)) ++ (image_blocks img).flatten⟩] ∧
    image_blocks img
      = (sector_addresses img).map (fun a => (disk_image_read_sector img a.1 a.2).getD []) ∧
    (sector_addresses img).Pairwise (fun a b => a.1 < b.1 ∨ (a.1 = b.1 ∧ a.2 < b.2)) ∧
    (∀ b ∈ image_blocks img, b.length = 256) := by
  refine ⟨disk_image_read_sector_isSome img, ?_, ?_, ?_,
    write_image_module_container c e s w dnr img himg htype hne hcreate hsmw,
    image_blocks_by_address img, sector_addresses_ascending img, image_blocks_length img⟩
  · intro t h1 h2
    unfold DiskImage.sectorsOn
    have h0 : t ≠ 0 := by omega
    have hlt : t - 1 < img.content.length := by omega
    rw [if_neg h0, List.getElem?_eq_getElem hlt]
    simp only [Option.map_some', Option.getD_some]
    have := hne _ (List.getElem_mem hlt)
    exact Nat.one_le_iff_ne_zero.mpr (fun hz => this (List.length_eq_zero.mp hz))
  · intro fuel m hm hf
    have h := write_image_tracks_exact e img img.content [] fuel m (by simp)
      (by rw [hm]; exact hsmw) hne hf
    simp only [List.length_nil, Nat.zero_add] at h
    rw [h, image_blocks_flatten]
    congr 2
    unfold image_blocks
    simp only [List.length_flatten, List.map_map]
    congr 1
    apply List.map_congr_left
    intro tr _
    simp
  · intro fuel m
    simp only [write_image_track, disk_image_read_sector_end]

set_option maxRecDepth 100000 in
/-- C32 (witness): the image of unit 0 of `exampleImageWorld`, of two tracks
with two sectors and one sector. -/
theorem C32_flat_writer_order_and_termination_witness :
    (exampleImageWorld.units 0).image = some exampleImage ∧
    sector_addresses exampleImage = [(1, 0), (1, 1), (2, 0)] ∧
    (drive_snapshot_write_image_module (exampleCfg false) exampleExt [] exampleImageWorld 0).2.1
      = [] ++ [⟨.IMAGE 0, IMAGE_SNAP_MAJOR, IMAGE_SNAP_MINOR,
          leBytes 2 (castU 16 (exampleImage.type : Int)) ++ (image_blocks exampleImage).flatten⟩] :=
  ⟨by decide, by decide,
    (C32_flat_writer_order_and_termination (exampleCfg false) exampleExt [] exampleImageWorld 0
      exampleImage (by decide) (by decide) (by decide) (by decide)
      (by intro n; rfl)).2.2.2.2.1⟩

/-! ## The half-tracks after a successful read of a GCR image -/

/-- The track loop of the GCR reader leaves the half-tracks below its starting
index as they are. -/
theorem read_gcr_tracks_below (c : Cfg) (dnr : Nat) :
    ∀ (n i : Nat) (st : GcrRead) (j : Nat), j < i →
      ((read_gcr_tracks c dnr n i st).2.w.units dnr).gcr j = (st.w.units dnr).gcr j := by
  intro n
  induction n with
  | zero => intro i st j _; rfl
  | succ n ih =>
    intro i st j hj
    obtain ⟨r, data, hr⟩ := SMR_DW_spec st.w st.m
    simp only [read_gcr_tracks, hr]
    have hji : j ≠ i := by omega
    cases r with
    | none => rfl
    | some track_size =>
      simp only []
      split
      · rfl
      · split
        · obtain ⟨r2, data2, hr2⟩ := SMR_BA_spec
            ((st.w.log (.snapshot_module_read st.m.name 4)).setUnit dnr
              (((st.w.log (.snapshot_module_read st.m.name 4)).units dnr).setTrack i
                ⟨some (gcr_alloc (((st.w.log (.snapshot_module_read st.m.name 4)).units dnr).gcr i)
                  track_size), toInt32 track_size⟩))
            ⟨st.m.name, data⟩ track_size
          rw [hr2]
          cases r2 with
          | none => simp [hji]
          | some bs =>
            simp only []
            rw [ih (i + 1) _ j (by omega)]
            simp [hji]
        · rw [ih (i + 1) _ j (by omega)]
          simp [hji]

/-- The track loop of the GCR reader, when it succeeds, on a payload that
holds the half-tracks `tracks` and then the length `L` of the next half-track:
that half-track gets the size `L`, and a `NULL` buffer exactly when `L` is 0;
`L` is within `NUM_MAX_MEM_BYTES_TRACK`. -/
theorem read_gcr_tracks_declared (c : Cfg) (dnr : Nat) (name : ModName) (L : Nat)
    (rest : List Byte) (hL : L < 2 ^ 32) :
    ∀ (tracks : List (List Byte)) (n i : Nat) (w : World),
      (∀ t ∈ tracks, t.length < 2 ^ 32) → tracks.length < n →
      (read_gcr_tracks c dnr n i
        ⟨⟨name, (tracks.map gcr_track_bytes).flatten ++ (leBytes 4 L ++ rest)⟩, w⟩).1 = true →
      L ≤ c.NUM_MAX_MEM_BYTES_TRACK ∧
      (((read_gcr_tracks c dnr n i
        ⟨⟨name, (tracks.map gcr_track_bytes).flatten ++ (leBytes 4 L ++ rest)⟩, w⟩).2.w.units
          dnr).gcr (i + tracks.length)).size = toInt32 L ∧
      ((((read_gcr_tracks c dnr n i
        ⟨⟨name, (tracks.map gcr_track_bytes).flatten ++ (leBytes 4 L ++ rest)⟩, w⟩).2.w.units
          dnr).gcr (i + tracks.length)).data = none ↔ L = 0) := by
  intro tracks
  induction tracks with
  | nil =>
    intro n i w _ hn h
    obtain ⟨n, rfl⟩ : ∃ k, n = k + 1 := ⟨n - 1, by simp at hn; omega⟩
    simp only [List.map_nil, List.flatten_nil, List.nil_append, List.length_nil,
      Nat.add_zero] at h ⊢
    simp only [read_gcr_tracks, SMR_DW_leBytes _ _ _ _ hL] at h ⊢
    by_cases hex : L > c.NUM_MAX_MEM_BYTES_TRACK
    · rw [if_pos hex] at h
      cases h
    · rw [if_neg hex] at h ⊢
      refine ⟨by omega, ?_⟩
      by_cases h0 : L ≠ 0
      · rw [if_pos h0] at h ⊢
        obtain ⟨r2, data2, hr2⟩ := SMR_BA_spec
          ((w.log (.snapshot_module_read name 4)).setUnit dnr
            (((w.log (.snapshot_module_read name 4)).units dnr).setTrack i
              ⟨some (gcr_alloc (((w.log (.snapshot_module_read name 4)).units dnr).gcr i) L),
                toInt32 L⟩))
          ⟨name, rest⟩ L
        rw [hr2] at h ⊢
        cases r2 with
        | none => cases h
        | some bs =>
          simp only [] at h ⊢
          rw [read_gcr_tracks_below c dnr n (i + 1) _ i (by omega)]
          simp [h0]
      · have hz : L = 0 := by simpa using h0
        rw [if_neg h0] at h ⊢
        rw [read_gcr_tracks_below c dnr n (i + 1) _ i (by omega)]
        simp [hz]
  | cons t ts ih =>
    intro n i w ht hn h
    obtain ⟨n, rfl⟩ : ∃ k, n = k + 1 := ⟨n - 1, by simp at hn; omega⟩
    have htl : t.length < 2 ^ 32 := ht t (List.mem_cons_self _ _)
    have hts : ∀ x ∈ ts, x.length < 2 ^ 32 := fun x hx => ht x (List.mem_cons_of_mem _ hx)
    have hlen : i + (t :: ts).length = (i + 1) + ts.length := by simp; omega
    rw [hlen]
    simp only [List.map_cons, List.flatten_cons, gcr_track_bytes, List.append_assoc] at h ⊢
    simp only [read_gcr_tracks, SMR_DW_leBytes _ _ _ _ htl] at h ⊢
    by_cases hex : t.length > c.NUM_MAX_MEM_BYTES_TRACK
    · rw [if_pos hex] at h
      cases h
    · rw [if_neg hex] at h ⊢
      by_cases h0 : t.length ≠ 0
      · rw [if_pos h0] at h ⊢
        rw [SMR_BA_append] at h ⊢
        simp only [] at h ⊢
        exact ih n (i + 1) _ hts (by simp at hn; omega) h
      · have hz : t = [] := List.length_eq_zero.mp (by simpa using h0)
        subst hz
        rw [if_neg h0] at h ⊢
        simp only [List.nil_append] at h ⊢
        exact ih n (i + 1) _ hts (by simp at hn; omega) h

/-- The track data part of the GCR reader, when it succeeds, on a payload that
declares `n` half-tracks: the half-tracks from `n` up to `MAX_GCR_TRACKS` have a
`NULL` buffer, and a half-track below `n` whose length the payload declares as
`L` has the size `L` and a `NULL` buffer exactly when `L` is 0. -/
theorem read_gcr_body_declared (c : Cfg) (dnr : Nat) (name : ModName) (n : Nat)
    (rest : List Byte) (w : World) (hn : n < 2 ^ 32)
    (h : (read_gcr_body c dnr ⟨⟨name, leBytes 4 n ++ rest⟩, w⟩).1 = true) :
    n ≤ c.MAX_GCR_TRACKS ∧
    (∀ i, n ≤ i → i < c.MAX_GCR_TRACKS →
      (((read_gcr_body c dnr ⟨⟨name, leBytes 4 n ++ rest⟩, w⟩).2.w.units dnr).gcr i).data
        = none) ∧
    (∀ (tracks : List (List Byte)) (L : Nat) (rest1 : List Byte),
      tracks.length < n → (∀ t ∈ tracks, t.length < 2 ^ 32) → L < 2 ^ 32 →
      rest = (tracks.map gcr_track_bytes).flatten ++ (leBytes 4 L ++ rest1) →
      L ≤ c.NUM_MAX_MEM_BYTES_TRACK ∧
      (((read_gcr_body c dnr ⟨⟨name, leBytes 4 n ++ rest⟩, w⟩).2.w.units dnr).gcr
        tracks.length).size = toInt32 L ∧
      ((((read_gcr_body c dnr ⟨⟨name, leBytes 4 n ++ rest⟩, w⟩).2.w.units dnr).gcr
        tracks.length).data = none ↔ L = 0)) := by
  simp only [read_gcr_body, SMR_DW_leBytes _ _ _ _ hn] at h ⊢
  by_cases hex : n > c.MAX_GCR_TRACKS
  · rw [if_pos hex] at h
    cases h
  · rw [if_neg hex] at h ⊢
    rcases hres : read_gcr_tracks c dnr n 0 ⟨⟨name, rest⟩, w.log (.snapshot_module_read name 4)⟩
      with ⟨ok, st1⟩
    rw [hres] at h
    cases ok with
    | false => cases h
    | true =>
      simp only []
      obtain ⟨c1, c2⟩ := clear_gcr_tracks_spec dnr (c.MAX_GCR_TRACKS - n) n st1.w
      refine ⟨by omega, fun i h1 h2 => c1 i h1 (by omega), ?_⟩
      intro tracks L rest1 hlen ht hL hrest
      subst hrest
      have hd := read_gcr_tracks_declared c dnr name L rest1 hL tracks n 0
        (w.log (.snapshot_module_read name 4)) ht hlen (by rw [hres])
      rw [hres] at hd
      simp only [Nat.zero_add] at hd
      rw [c2 tracks.length (Or.inl hlen)]
      exact hd

/-- A payload that declares a half-track count below 2^24 is not taken for a
file name by the `__LIBRETRO__` reader: its fourth byte is 0. -/
theorem count_payload_not_name (n : Nat) (rest : List Byte) (hn : n < 2 ^ 24) :
    libretro_name_payload (leBytes 4 n ++ rest) = false := by
  have h3 : n / 256 / 256 / 256 % 256 = 0 := by omega
  simp [leBytes, libretro_name_payload, Fin.ext_iff, h3]

/-- A successful read of a `GCRIMAGEk` module that the reader does not take for
a file name is a successful run of the track data part on the payload of the
module, followed by the close and the three assignments. -/
theorem read_gcrimage_by_body (c : Cfg) (s : Snapshot) (w : World) (dnr : Nat) (md : SnapModule)
    (h : gcr_module s dnr = some md)
    (hname : c.libretro = true → libretro_name_payload md.data = false)
    (hret : (drive_snapshot_read_gcrimage_module c s w dnr).1 = 0) :
    ∃ w0, (read_gcr_body c dnr ⟨⟨.GCRIMAGE dnr, md.data⟩, w0⟩).1 = true ∧
      ∀ u, ((drive_snapshot_read_gcrimage_module c s w dnr).2.units u).gcr
        = ((read_gcr_body c dnr ⟨⟨.GCRIMAGE dnr, md.data⟩, w0⟩).2.w.units u).gcr := by
  revert hret
  unfold drive_snapshot_read_gcrimage_module
  rw [open_gcr_some s w dnr md h]
  simp only
  split
  · intro hret; simp at hret
  · split
    · intro hret; simp at hret
    · cases hl : c.libretro with
      | false =>
        simp only [Bool.false_eq_true, if_false]
        intro hret
        refine ⟨w.log (.snapshot_module_open (.GCRIMAGE dnr) true), ?_, ?_⟩
        · rcases hres : read_gcr_body c dnr
            ⟨⟨.GCRIMAGE dnr, md.data⟩, w.log (.snapshot_module_open (.GCRIMAGE dnr) true)⟩
            with ⟨ok, st1⟩
          rw [hres] at hret
          cases ok with
          | false => simp at hret
          | true => rfl
        · intro u
          rcases hres : read_gcr_body c dnr
            ⟨⟨.GCRIMAGE dnr, md.data⟩, w.log (.snapshot_module_open (.GCRIMAGE dnr) true)⟩
            with ⟨ok, st1⟩
          rw [hres] at hret
          cases ok with
          | false => simp at hret
          | true => simp
      | true =>
        simp only [if_true]
        have hnil := read_libretro_filename_nil (.GCRIMAGE dnr) md.data
          (w.log (.snapshot_module_open (.GCRIMAGE dnr) true)) (hname hl) c.RETRO_PATH_MAX
        simp only [hnil, ne_eq, not_true_eq_false, if_false]
        rw [open_gcr_some s _ dnr md h]
        simp only
        generalize ((snapshot_module_close
              (read_libretro_filename c.RETRO_PATH_MAX 0
                ⟨[], ⟨.GCRIMAGE dnr, md.data⟩,
                  w.log (.snapshot_module_open (.GCRIMAGE dnr) true)⟩).w
              (read_libretro_filename c.RETRO_PATH_MAX 0
                ⟨[], ⟨.GCRIMAGE dnr, md.data⟩,
                  w.log (.snapshot_module_open (.GCRIMAGE dnr) true)⟩).m).log
              (.snapshot_module_open (.GCRIMAGE dnr) true)) = w0
        intro hret
        refine ⟨w0, ?_, ?_⟩
        · rcases hres : read_gcr_body c dnr ⟨⟨.GCRIMAGE dnr, md.data⟩, w0⟩ with ⟨ok, st1⟩
          rw [hres] at hret
          cases ok with
          | false => simp at hret
          | true => rfl
        · intro u
          rcases hres : read_gcr_body c dnr ⟨⟨.GCRIMAGE dnr, md.data⟩, w0⟩ with ⟨ok, st1⟩
          rw [hres] at hret
          cases ok with
          | false => simp at hret
          | true => simp

theorem leBytes_4_inj (n n1 : Nat) (rest rest1 : List Byte) (hn : n < 2 ^ 32)
    (hn1 : n1 < 2 ^ 32) (h : leBytes 4 n ++ rest = leBytes 4 n1 ++ rest1) :
    n = n1 ∧ rest = rest1 := by
  obtain ⟨h1, h2⟩ := List.append_inj h (by rw [leBytes_length, leBytes_length])
  refine ⟨?_, h2⟩
  have := congrArg leNat h1
  rw [leNat_leBytes, leNat_leBytes] at this
  rw [Nat.mod_eq_of_lt (by simpa using hn), Nat.mod_eq_of_lt (by simpa using hn1)] at this
  exact this

/-- C33. After a successful `drive_snapshot_read_gcrimage_module` of a module
that declares `n <= MAX_GCR_TRACKS` half-tracks (with `MAX_GCR_TRACKS` below
2^24 and `NUM_MAX_MEM_BYTES_TRACK` below 2^31, as in the headers), every
half-track with index in `[n, MAX_GCR_TRACKS)` has a `NULL` data buffer, and
every half-track with index below `n` has the size that the module declares for
it and a `NULL` buffer exactly when that length is 0; in both builds. -/
theorem C33_gcr_tail_tracks_cleared (c : Cfg) (s : Snapshot) (w : World) (dnr : Nat)
    (md : SnapModule) (hmod : gcr_module s dnr = some md) (n : Nat)
    (hdecl : declares_count md.data n) (hn : n ≤ c.MAX_GCR_TRACKS)
    (hmaxg : c.MAX_GCR_TRACKS < 2 ^ 24) (hmax : c.NUM_MAX_MEM_BYTES_TRACK < 2 ^ 31)
    (hret : (drive_snapshot_read_gcrimage_module c s w dnr).1 = 0) :
    (∀ i, n ≤ i → i < c.MAX_GCR_TRACKS →
      (((drive_snapshot_read_gcrimage_module c s w dnr).2.units dnr).gcr i).data = none) ∧
    (∀ i L, declares_track_length md.data i L →
      i < n ∧
      (((drive_snapshot_read_gcrimage_module c s w dnr).2.units dnr).gcr i).size = L ∧
      ((((drive_snapshot_read_gcrimage_module c s w dnr).2.units dnr).gcr i).data = none
        ↔ L = 0)) := by
  obtain ⟨rest, hn32, hdata⟩ := hdecl
  have hname : c.libretro = true → libretro_name_payload md.data = false := by
    intro _
    rw [hdata]
    exact count_payload_not_name n rest (by omega)
  obtain ⟨w0, hb, hg⟩ := read_gcrimage_by_body c s w dnr md hmod hname hret
  rw [hdata] at hb hg
  obtain ⟨_, b1, b2⟩ := read_gcr_body_declared c dnr (.GCRIMAGE dnr) n rest w0 hn32 hb
  refine ⟨fun i h1 h2 => ?_, ?_⟩
  · rw [hg dnr]
    exact b1 i h1 h2
  · rintro i L ⟨n1, tracks, rest1, hn1, hlen, hi, ht, hL, hd⟩
    rw [hdata] at hd
    obtain ⟨e1, e2⟩ := leBytes_4_inj n n1 _ _ hn32 hn1 hd
    subst e1
    obtain ⟨d1, d2, d3⟩ := b2 tracks L rest1 (by omega) ht hL e2
    rw [hlen] at d2 d3
    rw [hg dnr]
    exact ⟨hi, by rw [d2]; exact toInt32_small L (by omega), d3⟩

set_option maxRecDepth 100000 in
/-- C33 (witness): the module `GCRIMAGE0` of `exampleGcrImage`, which declares
2 half-tracks, read into `exampleGcrWorld` in a build with `__LIBRETRO__`. -/
theorem C33_gcr_tail_tracks_cleared_witness :
    gcr_module exampleGcrImage 0
      = some ⟨.GCRIMAGE 0, 3, 1, leBytes 4 2 ++ (gcr_track_bytes [7, 8] ++ gcr_track_bytes [])⟩ ∧
    declares_count (leBytes 4 2 ++ (gcr_track_bytes [7, 8] ++ gcr_track_bytes [])) 2 ∧
    (drive_snapshot_read_gcrimage_module (exampleCfg true) exampleGcrImage exampleGcrWorld 0).1
      = 0 ∧
    (∀ i, 2 ≤ i → i < (exampleCfg true).MAX_GCR_TRACKS →
      (((drive_snapshot_read_gcrimage_module (exampleCfg true) exampleGcrImage exampleGcrWorld
        0).2.units 0).gcr i).data = none) :=
  ⟨by decide, ⟨_, by decide, rfl⟩, by decide,
    (C33_gcr_tail_tracks_cleared (exampleCfg true) exampleGcrImage exampleGcrWorld 0
      ⟨.GCRIMAGE 0, 3, 1, leBytes 4 2 ++ (gcr_track_bytes [7, 8] ++ gcr_track_bytes [])⟩
      (by decide) 2 ⟨_, by decide, rfl⟩ (by decide) (by decide) (by decide) (by decide)).1⟩

/-! ## The flag that a restored flux image sets -/

/-- C34 (counterexample): a successful read of a `P64IMAGEk` module does not set
`GCR_image_loaded`. Unit 0 of `exampleBothWorld` has `GCR_image_loaded = 0`; the
read of the module `P64IMAGE0` of `exampleP64Image` returns 0 and leaves
`GCR_image_loaded = 0`; the flag it has set is `P64_image_loaded`. -/
theorem C34_p64_read_leaves_gcr_flag :
    p64_module exampleP64Image 0 ≠ none ∧
    (drive_snapshot_read_p64image_module exampleExt exampleP64Image exampleBothWorld 0).1 = 0 ∧
    ((drive_snapshot_read_p64image_module exampleExt exampleP64Image exampleBothWorld
      0).2.units 0).sc .GCR_image_loaded = 0 ∧
    ((drive_snapshot_read_p64image_module exampleExt exampleP64Image exampleBothWorld
      0).2.units 0).sc .P64_image_loaded = 1 := by
  decide

/-- C34 (amended). After a successful read of a `P64IMAGEk` module by
`drive_snapshot_read_p64image_module` (the module is present and the call
returns 0) the unit has `P64_image_loaded = 1` and
`complicated_image_loaded = 1`, its `GCR_image_loaded` is as before the call,
and its flat-image reference is `NULL`. -/
theorem C34_p64_read_sets_p64_flag (e : Ext) (s : Snapshot) (w : World) (dnr : Nat)
    (hm : p64_module s dnr ≠ none)
    (h0 : (drive_snapshot_read_p64image_module e s w dnr).1 = 0) :
    ((drive_snapshot_read_p64image_module e s w dnr).2.units dnr).sc .P64_image_loaded = 1 ∧
    ((drive_snapshot_read_p64image_module e s w dnr).2.units dnr).sc .complicated_image_loaded
      = 1 ∧
    ((drive_snapshot_read_p64image_module e s w dnr).2.units dnr).sc .GCR_image_loaded
      = (w.units dnr).sc .GCR_image_loaded ∧
    ((drive_snapshot_read_p64image_module e s w dnr).2.units dnr).image = none := by
  obtain ⟨md, hmd⟩ := Option.ne_none_iff_exists'.mp hm
  revert h0
  unfold drive_snapshot_read_p64image_module
  rw [open_p64_some s w dnr md hmd]
  simp only [log_units]
  cases (w.units dnr).p64 with
  | none => intro h0; simp at h0
  | some img =>
    simp only []
    split
    · intro h0; simp at h0
    · split
      · intro h0; simp at h0
      · obtain ⟨r, data, hsm⟩ := SMR_DW_spec (w.log (.snapshot_module_open (.P64IMAGE dnr) true))
          ⟨.P64IMAGE dnr, md.data⟩
        rw [hsm]
        cases r with
        | none => intro h0; simp at h0
        | some size =>
          simp only []
          obtain ⟨r2, data2, hba⟩ := SMR_BA_spec
            ((w.log (.snapshot_module_open (.P64IMAGE dnr) true)).log
              (.snapshot_module_read (.P64IMAGE dnr) 4)) ⟨.P64IMAGE dnr, data⟩ size
          rw [hba]
          cases r2 with
          | none => intro h0; simp at h0
          | some tmpbuf =>
            simp only []
            cases e.P64ImageReadFromStream img tmpbuf with
            | none => intro h0; simp at h0
            | some img1 =>
              intro _
              simp

set_option maxRecDepth 100000 in
/-- C34 (witness): the module `P64IMAGE0` of `exampleP64Image` read into
`exampleBothWorld`. -/
theorem C34_p64_read_sets_p64_flag_witness :
    p64_module exampleP64Image 0 ≠ none ∧
    (drive_snapshot_read_p64image_module exampleExt exampleP64Image exampleBothWorld 0).1 = 0 ∧
    ((drive_snapshot_read_p64image_module exampleExt exampleP64Image exampleBothWorld
      0).2.units 0).sc .P64_image_loaded = 1 :=
  ⟨by decide, by decide,
    (C34_p64_read_sets_p64_flag exampleExt exampleP64Image exampleBothWorld 0 (by decide)
      (by decide)).1⟩

/-! ## The versions of the `DRIVE` module that are decoded -/

/-- The two version checks of the `DRIVE` reader are both passed by the version
(`DRIVE_SNAP_MAJOR`, `DRIVE_SNAP_MINOR`) and by no other. -/
theorem version_checks_iff (major minor : Nat) :
    (snapshot_version_is_bigger major minor DRIVE_SNAP_MAJOR DRIVE_SNAP_MINOR = false ∧
      snapshot_version_is_smaller major minor DRIVE_SNAP_MAJOR DRIVE_SNAP_MINOR = false)
      ↔ (major = DRIVE_SNAP_MAJOR ∧ minor = DRIVE_SNAP_MINOR) := by
  unfold snapshot_version_is_bigger snapshot_version_is_smaller DRIVE_SNAP_MAJOR DRIVE_SNAP_MINOR
  constructor
  · rintro ⟨h1, h2⟩
    by_cases a1 : major > 1
    · simp [a1] at h1
    · by_cases a2 : major < 1
      · simp [a2] at h2
      · have hm : major = 1 := by omega
        subst hm
        by_cases a3 : minor > 5
        · simp [a3] at h1
        · by_cases a4 : minor < 5
          · simp [a4] at h2
          · exact ⟨rfl, by omega⟩
  · rintro ⟨rfl, rfl⟩
    simp

theorem tracked_grows {a b : Option ModName} {w w1 : World} (h : tracked a b w w1) :
    ∃ t, w1.trace = w.trace ++ t := by
  obtain ⟨t, ht, _⟩ := h
  exact ⟨t, ht⟩

/-- The calls of the `DRIVE` reader on a module of the current version: after
the open and the write-back, and the setting of `DriveTrueEmulation` in a build
without `__LIBRETRO__`, the timing factor is read. -/
theorem read_module_reads (c : Cfg) (e : Ext) (s : Snapshot) (w : World) (md : SnapModule)
    (h : drive_module s = some md) (hmaj : md.major = 1) (hmin : md.minor = 5) :
    ∃ t, (drive_snapshot_read_module c e s w).2.trace
      = w.trace ++ ([Event.snapshot_module_open .DRIVE true, Event.drive_gcr_data_writeback_all] ++
          ((if c.libretro = true then []
            else [Event.resources_set_int .DriveTrueEmulation 1]) ++
          (Event.snapshot_module_read .DRIVE 4 :: t))) := by
  unfold drive_snapshot_read_module
  rw [open_drive_some s w md h, hmaj, hmin]
  have hb : snapshot_version_is_bigger 1 5 DRIVE_SNAP_MAJOR DRIVE_SNAP_MINOR = false := by decide
  have hs : snapshot_version_is_smaller 1 5 DRIVE_SNAP_MAJOR DRIVE_SNAP_MINOR = false := by
    decide
  simp only [hb, hs, Bool.false_eq_true, if_false]
  obtain ⟨w3, hw3, ht3⟩ : ∃ w3,
      (if c.libretro = true then
        (w.log (.snapshot_module_open .DRIVE true)).log .drive_gcr_data_writeback_all
      else resources_set_int
        ((w.log (.snapshot_module_open .DRIVE true)).log .drive_gcr_data_writeback_all)
        .DriveTrueEmulation 1) = w3 ∧
      w3.trace = w.trace ++ ([Event.snapshot_module_open .DRIVE true,
        Event.drive_gcr_data_writeback_all] ++
          (if c.libretro = true then []
            else [Event.resources_set_int .DriveTrueEmulation 1])) := by
    refine ⟨_, rfl, ?_⟩
    split <;> simp [resources_set_int, World.log]
  rw [hw3]
  obtain ⟨r, data, hsm⟩ := SMR_DW_spec w3 ⟨.DRIVE, md.data⟩
  rw [hsm]
  have key : ∀ (x : Int × World), (∃ u, x.2.trace = (w3.log (.snapshot_module_read .DRIVE 4)).trace ++ u) →
      ∃ t, x.2.trace = w.trace ++ ([Event.snapshot_module_open .DRIVE true,
          Event.drive_gcr_data_writeback_all] ++
          ((if c.libretro = true then []
            else [Event.resources_set_int .DriveTrueEmulation 1]) ++
          (Event.snapshot_module_read .DRIVE 4 :: t))) := by
    rintro x ⟨u, hu⟩
    refine ⟨u, ?_⟩
    rw [hu, log_trace, ht3]
    simp only [List.append_assoc, List.singleton_append]
  apply key
  cases r with
  | none => exact ⟨_, rfl⟩
  | some sf =>
    simp only []
    have h1 := (read_units_tracked none 1 5 NUM_DISK_UNITS 0
      ⟨⟨.DRIVE, data⟩, w3.log (.snapshot_module_read .DRIVE 4), e.uninit⟩).1
    rcases hru : read_units 1 5 NUM_DISK_UNITS 0
      ⟨⟨.DRIVE, data⟩, w3.log (.snapshot_module_read .DRIVE 4), e.uninit⟩ with ⟨b, st⟩
    rw [hru] at h1
    simp only [] at h1
    obtain ⟨t1, ht1⟩ := tracked_grows h1
    cases b with
    | false =>
      simp only []
      exact ⟨t1 ++ [Event.snapshot_module_close st.m.name],
        by rw [close_trace, ht1, List.append_assoc]⟩
    | true =>
      simp only []
      obtain ⟨t2, ht2⟩ := tracked_grows (reads_only_tracked none
        (read_units_clk_reads_only NUM_DISK_UNITS 0 st)).1
      obtain ⟨t3, ht3⟩ := tracked_grows (reads_only_tracked none
        (read_units_ready_reads_only NUM_DISK_UNITS 0 (read_units_clk NUM_DISK_UNITS 0 st))).1
      obtain ⟨t4, ht4⟩ := tracked_grows (read_restore_releases c e s
        ((snapshot_module_close
          (read_units_ready NUM_DISK_UNITS 0 (read_units_clk NUM_DISK_UNITS 0 st)).w
          (read_units_ready NUM_DISK_UNITS 0 (read_units_clk NUM_DISK_UNITS 0 st)).m).log
          (.rotation_table_set ((List.range NUM_DISK_UNITS).map (fun i =>
            (read_units_ready NUM_DISK_UNITS 0
              (read_units_clk NUM_DISK_UNITS 0 st)).loc .rotation_table_ptr i))))
        (read_units_ready NUM_DISK_UNITS 0 (read_units_clk NUM_DISK_UNITS 0 st)).loc
        (toInt32 sf))
      refine ⟨t1 ++ (t2 ++ (t3 ++ ([Event.snapshot_module_close .DRIVE] ++
        ([Event.rotation_table_set ((List.range NUM_DISK_UNITS).map (fun i =>
            (read_units_ready NUM_DISK_UNITS 0
              (read_units_clk NUM_DISK_UNITS 0 st)).loc .rotation_table_ptr i))] ++ t4)))), ?_⟩
      have hn : (read_units_ready NUM_DISK_UNITS 0 (read_units_clk NUM_DISK_UNITS 0 st)).m.name
          = .DRIVE := by
        rw [(read_units_ready_reads_only NUM_DISK_UNITS 0 _).1,
          (read_units_clk_reads_only NUM_DISK_UNITS 0 _).1]
        have := (read_units_tracked none 1 5 NUM_DISK_UNITS 0
          ⟨⟨.DRIVE, data⟩, w3.log (.snapshot_module_read .DRIVE 4), e.uninit⟩).2
        rw [hru] at this
        exact this
      rw [ht4, log_trace, close_trace, ht3, ht2, ht1, hn]
      simp only [List.append_assoc]

/-- A successful decoding is one of a module of the current version. -/
theorem read_decode_version (c : Cfg) (e : Ext) (s : Snapshot) (w : World) (md : SnapModule)
    (h : drive_module s = some md) (d : World × (Local → Nat → Int) × Int)
    (hd : drive_snapshot_read_decode c e s w = some d) :
    md.major = DRIVE_SNAP_MAJOR ∧ md.minor = DRIVE_SNAP_MINOR := by
  unfold drive_snapshot_read_decode at hd
  rw [open_drive_some s w md h] at hd
  simp only [] at hd
  apply (version_checks_iff md.major md.minor).mp
  by_cases hb : snapshot_version_is_bigger md.major md.minor DRIVE_SNAP_MAJOR DRIVE_SNAP_MINOR
      = true
  · rw [if_pos hb] at hd; cases hd
  · by_cases hs : snapshot_version_is_smaller md.major md.minor DRIVE_SNAP_MAJOR DRIVE_SNAP_MINOR
        = true
    · rw [if_neg hb, if_pos hs] at hd; cases hd
    · exact ⟨by simpa using hb, by simpa using hs⟩

/-- The historical chains are selected for the versions 1.0 to 1.3 only. -/
theorem drive_read_layout_historical (major minor : Nat)
    (h : drive_read_layout major minor ≠ layout_current) :
    major = 1 ∧ minor < 4 := by
  unfold drive_read_layout snapshot_version_is_equal at h
  by_cases h0 : major = 1 ∧ minor = 0
  · omega
  · by_cases h1 : major = 1 ∧ minor = 1
    · omega
    · by_cases h2 : major = 1 ∧ minor = 2
      · omega
      · by_cases h3 : major = 1 ∧ minor = 3
        · omega
        · simp [h0, h1, h2, h3] at h

/-- C35. The `DRIVE` reader gets past its two version checks if and only if the
version of the module is exactly (`DRIVE_SNAP_MAJOR`, `DRIVE_SNAP_MINOR`) =
(1, 5): the checks are both passed for that version alone; the timing factor,
the first field of the module, is read for that version alone; a version that
passes the checks selects the chain of the final branch (the current layout);
a version that selects one of the chains for 1.0, 1.1, 1.2 or 1.3 is rejected as
incompatible, so that these chains are never run; and every successful decoding
is one of a module of version (1, 5). -/
theorem C35_only_version_1_5_is_decoded (c : Cfg) (e : Ext) (s : Snapshot) (w : World)
    (md : SnapModule) (h : drive_module s = some md) :
    ((snapshot_version_is_bigger md.major md.minor DRIVE_SNAP_MAJOR DRIVE_SNAP_MINOR = false ∧
      snapshot_version_is_smaller md.major md.minor DRIVE_SNAP_MAJOR DRIVE_SNAP_MINOR = false)
        ↔ (md.major = 1 ∧ md.minor = 5)) ∧
    (∃ t, (drive_snapshot_read_module c e s w).2.trace = w.trace ++ t ∧
      (Event.snapshot_module_read .DRIVE 4 ∈ t ↔ (md.major = 1 ∧ md.minor = 5))) ∧
    (md.major = 1 ∧ md.minor = 5 → drive_read_layout md.major md.minor = layout_current) ∧
    (drive_read_layout md.major md.minor ≠ layout_current →
      drive_snapshot_read_module c e s w = (-1, rejected w .SNAPSHOT_MODULE_INCOMPATIBLE)) ∧
    (∀ d, drive_snapshot_read_decode c e s w = some d → md.major = 1 ∧ md.minor = 5) := by
  have hiff := version_checks_iff md.major md.minor
  refine ⟨hiff, ?_, ?_, ?_, ?_⟩
  · by_cases hv : md.major = 1 ∧ md.minor = 5
    · obtain ⟨t, ht⟩ := read_module_reads c e s w md h hv.1 hv.2
      refine ⟨_, ht, ?_⟩
      simp [hv]
    · have hn : ¬ (snapshot_version_is_bigger md.major md.minor DRIVE_SNAP_MAJOR
            DRIVE_SNAP_MINOR = false ∧
          snapshot_version_is_smaller md.major md.minor DRIVE_SNAP_MAJOR DRIVE_SNAP_MINOR
            = false) := fun hp => hv (hiff.mp hp)
      by_cases hb : snapshot_version_is_bigger md.major md.minor DRIVE_SNAP_MAJOR
          DRIVE_SNAP_MINOR = true
      · rw [read_module_bigger c e s w md h hb]
        refine ⟨_, rfl, ?_⟩
        simp [hv]
      · have hb2 : snapshot_version_is_bigger md.major md.minor DRIVE_SNAP_MAJOR
            DRIVE_SNAP_MINOR = false := by simpa using hb
        have hs : snapshot_version_is_smaller md.major md.minor DRIVE_SNAP_MAJOR
            DRIVE_SNAP_MINOR = true := by
          by_contra hs
          exact hn ⟨hb2, by simpa using hs⟩
        rw [read_module_smaller c e s w md h hb2 hs]
        refine ⟨_, rfl, ?_⟩
        simp [hv]
  · rintro ⟨h1, h2⟩
    rw [h1, h2]
    rfl
  · intro hl
    obtain ⟨h1, h2⟩ := drive_read_layout_historical md.major md.minor hl
    apply read_module_smaller c e s w md h
    · simp [snapshot_version_is_bigger, h1, DRIVE_SNAP_MAJOR, DRIVE_SNAP_MINOR]
      omega
    · simp [snapshot_version_is_smaller, h1, DRIVE_SNAP_MAJOR, DRIVE_SNAP_MINOR]
      omega
  · intro d hd
    exact read_decode_version c e s w md h d hd

/-- C35 (witness): the module of `exampleTruncated`, of version (1, 5). -/
theorem C35_only_version_1_5_is_decoded_witness :
    drive_module exampleTruncated = some ⟨.DRIVE, 1, 5, leBytes 4 0 ++ (leBytes 4 0 ++ [1])⟩ ∧
    ∃ t, (drive_snapshot_read_module (exampleCfg false) exampleExt exampleTruncated
        exampleWorld).2.trace = exampleWorld.trace ++ t ∧
      (Event.snapshot_module_read .DRIVE 4 ∈ t ↔ ((1 : Nat) = 1 ∧ (5 : Nat) = 5)) :=
  ⟨by decide,
    (C35_only_version_1_5_is_decoded (exampleCfg false) exampleExt exampleTruncated exampleWorld
      ⟨.DRIVE, 1, 5, leBytes 4 0 ++ (leBytes 4 0 ++ [1])⟩ (by decide)).2.1⟩

/-! ## The random seed of the rotation -/

theorem clock_applied_other (c : Cfg) (loc : Local → Nat → Int) (w : World) (j : Nat) (f : Field)
    (hf : f ∉ clock_members) : clock_applied c loc w j f = (w.units j).sc f := by
  simp only [clock_members, List.mem_cons, List.mem_singleton, List.not_mem_nil, or_false,
    not_or] at hf
  unfold clock_applied
  split
  · rw [if_neg hf.1, if_neg hf.2.1, if_neg hf.2.2]
  · rfl

theorem castU_8_eq (v : Int) : (castU 8 v : Int) = v % 256 := by
  unfold castU
  rw [Int.toNat_of_nonneg (Int.emod_nonneg v (by norm_num))]
  norm_num

/-- The value that the current layout stores in `snap_seed` when it reads the
record that the writer emits for the unit `u`. -/
theorem seed_decoded (c : Cfg) (u : DiskUnit) (r x : Int) :
    (decoded layout_ready (drive_unit_fields_ready u) (.live .snap_seed)).getD
      ((decoded layout_current (drive_unit_fields c u r) (.live .snap_seed)).getD x)
      = u.sc .snap_seed % 256 := by
  simp [decoded, layout_ready, layout_current, drive_unit_fields, drive_unit_fields_ready,
    RKind.conv, WKind.width]
  have h0 : (0 : Int) ≤ (castU 8 (u.sc .snap_seed) : Int) := Int.ofNat_nonneg _
  have h1 : (castU 8 (u.sc .snap_seed) : Int) < 2 ^ 8 := by
    exact_mod_cast castU_lt 8 (u.sc .snap_seed)
  rw [toInt32_castU _ (by omega) (by omega)]
  exact castU_8_eq _

/-- C36. The writer serializes the random seed of the rotation as the 32-bit
value of `(uint8_t)(drive->snap_seed)`, the seed mod 256. When
`drive_snapshot_write_module` writes the module and returns 0 and
`drive_snapshot_read_module` on the container written returns 0, the restored
`snap_seed` of every unit is the original seed mod 256, which is the original
seed if and only if that was in the range 0..255. Every other 32-bit rotation
counter is written with the member itself as the value of `SMW_DW`, and is
restored to the original value whenever that is within the 32-bit range of the
member. -/
theorem C36_seed_is_truncated (c : Cfg) (e : Ext) (ww wr : World)
    (save_disks save_roms : Int)
    (hdrive : c.libretro = true ∨ ww.resources .DriveTrueEmulation ≠ 0)
    (hw : (drive_snapshot_write_module c e [] ww save_disks save_roms).1 = 0)
    (hr : (drive_snapshot_read_module c e
      (drive_snapshot_write_module c e [] ww save_disks save_roms).2.1 wr).1 = 0)
    (i : Nat) (hi : i < NUM_DISK_UNITS) :
    (drive_unit_fields c (ww.units i) (e.rotation_table_get i))[22]?
      = some (WKind.DW, ((castU 8 ((ww.units i).sc .snap_seed) : Nat) : Int)) ∧
    (castU 8 ((ww.units i).sc .snap_seed) : Int) = (ww.units i).sc .snap_seed % 256 ∧
    ((drive_snapshot_read_module c e
      (drive_snapshot_write_module c e [] ww save_disks save_roms).2.1 wr).2.units i).sc
        .snap_seed = (ww.units i).sc .snap_seed % 256 ∧
    (((drive_snapshot_read_module c e
      (drive_snapshot_write_module c e [] ww save_disks save_roms).2.1 wr).2.units i).sc
        .snap_seed = (ww.units i).sc .snap_seed
      ↔ (0 ≤ (ww.units i).sc .snap_seed ∧ (ww.units i).sc .snap_seed < 256)) ∧
    (∀ f ∈ rotation_counters,
      (WKind.DW, (ww.units i).sc f) ∈ drive_unit_fields c (ww.units i) (e.rotation_table_get i) ∧
      member_hi f - member_lo f = 2 ^ 32 ∧
      (member_lo f ≤ (ww.units i).sc f → (ww.units i).sc f < member_hi f →
        ((drive_snapshot_read_module c e
          (drive_snapshot_write_module c e [] ww save_disks save_roms).2.1 wr).2.units i).sc f
          = (ww.units i).sc f)) := by
  obtain ⟨tail, hc⟩ := write_module_container c e ww save_disks save_roms hdrive hw
  rw [hc] at hr ⊢
  obtain ⟨w6, loc, w5, hu, hl, ev, hsc, _⟩ := read_written_module c e ww wr tail hr
  have hseed : ((drive_snapshot_read_module c e
      (⟨.DRIVE, DRIVE_SNAP_MAJOR, DRIVE_SNAP_MINOR, drive_payload c e ww⟩ :: tail) wr).2.units
        i).sc .snap_seed = (ww.units i).sc .snap_seed % 256 := by
    rw [hsc i .snap_seed, if_pos hi, clock_applied_other c loc w5 i _ (by decide),
      ev.1 i .snap_seed (by decide), hu i .snap_seed hi]
    exact seed_decoded c _ _ _
  refine ⟨rfl, castU_8_eq _, hseed, ?_, ?_⟩
  · rw [hseed]
    constructor
    · intro h
      have := Int.emod_nonneg ((ww.units i).sc .snap_seed) (by norm_num : (256 : Int) ≠ 0)
      have := Int.emod_lt_of_pos ((ww.units i).sc .snap_seed) (by norm_num : (0 : Int) < 256)
      omega
    · rintro ⟨h0, h1⟩
      exact Int.emod_eq_of_lt h0 h1
  · intro f hf
    have hmem : ∀ g, g ∈ rotation_counters →
        g ∈ direct_members ∧ ¬ config_flag g ∧ g ∉ clock_members ∧
        member_hi g - member_lo g = 2 ^ 32 := by decide
    obtain ⟨m1, m2, m3, m4⟩ := hmem f hf
    refine ⟨?_, m4, ?_⟩
    · simp only [rotation_counters, List.mem_cons, List.mem_singleton, List.not_mem_nil,
        or_false] at hf
      rcases hf with rfl | rfl | rfl | rfl | rfl | rfl | rfl | rfl | rfl | rfl | rfl | rfl |
        rfl | rfl | rfl | rfl | rfl | rfl | rfl <;>
      simp [drive_unit_fields]
    · intro h0 h1
      rw [hsc i f, if_pos hi, clock_applied_other c loc w5 i f m3, ev.1 i f m2, hu i f hi]
      exact direct_member_decoded c _ _ _ f m1 ⟨h0, h1⟩

set_option maxRecDepth 100000 in
/-- C36 (witness): the unit 0 of `exampleSeedWorld`, whose seed is 0x1234, is
written and read back into `exampleWorld`: the restored seed is 0x34. -/
theorem C36_seed_is_truncated_witness :
    ((exampleCfg false).libretro = true ∨
      exampleSeedWorld.resources .DriveTrueEmulation ≠ 0) ∧
    (drive_snapshot_write_module (exampleCfg false) exampleExt [] exampleSeedWorld 0 0).1 = 0 ∧
    (drive_snapshot_read_module (exampleCfg false) exampleExt
      (drive_snapshot_write_module (exampleCfg false) exampleExt [] exampleSeedWorld 0 0).2.1
      exampleWorld).1 = 0 ∧
    (exampleSeedWorld.units 0).sc .snap_seed = 4660 ∧
    ((drive_snapshot_read_module (exampleCfg false) exampleExt
      (drive_snapshot_write_module (exampleCfg false) exampleExt [] exampleSeedWorld 0 0).2.1
      exampleWorld).2.units 0).sc .snap_seed = (exampleSeedWorld.units 0).sc .snap_seed % 256 :=
  ⟨by decide, by decide, by decide, by decide,
    (C36_seed_is_truncated (exampleCfg false) exampleExt exampleSeedWorld exampleWorld 0 0
      (by decide) (by decide) (by decide) 0 (by decide)).2.2.1⟩

/-! ## The combined word of the half-track and the side -/

theorem castU_16_eq (v : Int) : (castU 16 v : Int) = v % 2 ^ 16 := by
  unfold castU
  rw [Int.toNat_of_nonneg (Int.emod_nonneg v (by norm_num))]

/-- The pair that the half-track loop computes from the combined word of a
double-sided drive is the pair written exactly when the half-track is at most
`DRIVE_HALFTRACKS_1571 + 1` on side 0, or at least 2 on side 1. -/
theorem decode_half_track_double (c : Cfg) (ty h s : Int) (hd : double_sided c ty)
    (hs : s = 0 ∨ s = 1) :
    decode_half_track c ty (h + s * c.DRIVE_HALFTRACKS_1571) = (h, s)
      ↔ ((s = 0 ∧ h ≤ c.DRIVE_HALFTRACKS_1571 + 1) ∨ (s = 1 ∧ 2 ≤ h)) := by
  unfold double_sided at hd
  unfold decode_half_track
  rw [if_pos hd]
  rcases hs with rfl | rfl
  · rw [Int.zero_mul, Int.add_zero]
    by_cases hh : h > c.DRIVE_HALFTRACKS_1571 + 1
    · rw [if_pos hh]
      simp only [Prod.mk.injEq]
      constructor
      · rintro ⟨_, h1⟩; omega
      · rintro (⟨_, h1⟩ | ⟨h1, _⟩) <;> omega
    · rw [if_neg hh]
      exact ⟨fun _ => Or.inl ⟨rfl, by omega⟩, fun _ => rfl⟩
  · rw [Int.one_mul]
    by_cases hh : h + c.DRIVE_HALFTRACKS_1571 > c.DRIVE_HALFTRACKS_1571 + 1
    · rw [if_pos hh]
      simp only [Prod.mk.injEq, and_true, one_ne_zero, false_and, true_and, false_or]
      omega
    · rw [if_neg hh]
      simp only [Prod.mk.injEq, zero_ne_one, and_false, one_ne_zero, false_and, true_and,
        false_or, false_iff]
      omega

/-- For a drive that is not double-sided the half-track loop passes the word
unchanged and the side 0. -/
theorem decode_half_track_single (c : Cfg) (ty h s : Int) (hd : ¬ double_sided c ty) :
    decode_half_track c ty (h + s * c.DRIVE_HALFTRACKS_1571)
      = (h + s * c.DRIVE_HALFTRACKS_1571, 0) ∧
    (decode_half_track c ty (h + s * c.DRIVE_HALFTRACKS_1571) = (h, s) ↔ s = 0) := by
  unfold double_sided at hd
  unfold decode_half_track
  rw [if_neg hd]
  refine ⟨rfl, ?_⟩
  simp only [Prod.mk.injEq]
  constructor
  · rintro ⟨_, h1⟩; exact h1.symm
  · rintro rfl
    simp

/-- C37. With `H = DRIVE_HALFTRACKS_1571`, the writer emits for the half-track
`h` and the side `s` of a unit the 16-bit word `(h + s * H) mod 2^16`. When
`drive_snapshot_write_module` writes the module and returns 0 and
`drive_snapshot_read_module` on the container written returns 0, the reader
calls `drive_set_half_track` for the unit with the pair it computes from that
word and the restored type. When `0 <= h + s * H < 2^16`: for a unit of type
1570, 1571 or 1571CR with `s` in {0, 1} that pair is `(h, s)` if and only if
`s = 0` and `h <= H + 1`, or `s = 1` and `h >= 2`; for a unit of any other type
the pair is the word and the side 0, which is `(h, s)` if and only if `s = 0`. -/
theorem C37_half_track_and_side_encoding (c : Cfg) (e : Ext) (ww wr : World)
    (save_disks save_roms : Int)
    (hdrive : c.libretro = true ∨ ww.resources .DriveTrueEmulation ≠ 0)
    (hw : (drive_snapshot_write_module c e [] ww save_disks save_roms).1 = 0)
    (hr : (drive_snapshot_read_module c e
      (drive_snapshot_write_module c e [] ww save_disks save_roms).2.1 wr).1 = 0)
    (i : Nat) (hi : i < NUM_DISK_UNITS) :
    (drive_unit_fields c (ww.units i) (e.rotation_table_get i))[3]?
      = some (WKind.W, (ww.units i).sc .current_half_track
          + (ww.units i).sc .side * c.DRIVE_HALFTRACKS_1571) ∧
    (castU 16 ((ww.units i).sc .current_half_track
        + (ww.units i).sc .side * c.DRIVE_HALFTRACKS_1571) : Int)
      = ((ww.units i).sc .current_half_track
        + (ww.units i).sc .side * c.DRIVE_HALFTRACKS_1571) % 2 ^ 16 ∧
    (∃ t, (drive_snapshot_read_module c e
        (drive_snapshot_write_module c e [] ww save_disks save_roms).2.1 wr).2.trace
          = wr.trace ++ t ∧
      Event.drive_set_half_track
        (decode_half_track c
          (((drive_snapshot_read_module c e
            (drive_snapshot_write_module c e [] ww save_disks save_roms).2.1 wr).2.units i).sc
              .type)
          (castU 16 ((ww.units i).sc .current_half_track
            + (ww.units i).sc .side * c.DRIVE_HALFTRACKS_1571))).1
        (decode_half_track c
          (((drive_snapshot_read_module c e
            (drive_snapshot_write_module c e [] ww save_disks save_roms).2.1 wr).2.units i).sc
              .type)
          (castU 16 ((ww.units i).sc .current_half_track
            + (ww.units i).sc .side * c.DRIVE_HALFTRACKS_1571))).2 i ∈ t) ∧
    (0 ≤ (ww.units i).sc .current_half_track + (ww.units i).sc .side * c.DRIVE_HALFTRACKS_1571 →
      (ww.units i).sc .current_half_track + (ww.units i).sc .side * c.DRIVE_HALFTRACKS_1571
        < 2 ^ 16 →
      ∀ ty : Int,
        (double_sided c ty → ((ww.units i).sc .side = 0 ∨ (ww.units i).sc .side = 1) →
          (decode_half_track c ty
              (castU 16 ((ww.units i).sc .current_half_track
                + (ww.units i).sc .side * c.DRIVE_HALFTRACKS_1571))
            = ((ww.units i).sc .current_half_track, (ww.units i).sc .side)
            ↔ (((ww.units i).sc .side = 0 ∧
                (ww.units i).sc .current_half_track ≤ c.DRIVE_HALFTRACKS_1571 + 1) ∨
              ((ww.units i).sc .side = 1 ∧ 2 ≤ (ww.units i).sc .current_half_track)))) ∧
        (¬ double_sided c ty →
          decode_half_track c ty
              (castU 16 ((ww.units i).sc .current_half_track
                + (ww.units i).sc .side * c.DRIVE_HALFTRACKS_1571))
            = ((ww.units i).sc .current_half_track
                + (ww.units i).sc .side * c.DRIVE_HALFTRACKS_1571, 0) ∧
          (decode_half_track c ty
              (castU 16 ((ww.units i).sc .current_half_track
                + (ww.units i).sc .side * c.DRIVE_HALFTRACKS_1571))
            = ((ww.units i).sc .current_half_track, (ww.units i).sc .side)
            ↔ (ww.units i).sc .side = 0))) := by
  obtain ⟨tail, hc⟩ := write_module_container c e ww save_disks save_roms hdrive hw
  rw [hc] at hr ⊢
  obtain ⟨w6, loc, w5, hu, hl, ev, hsc, t, ht, _, hht⟩ := read_written_module c e ww wr tail hr
  have hloc := local_decoded c (ww.units i) (e.rotation_table_get i) (fun l => e.uninit l i)
  refine ⟨rfl, castU_16_eq _, ⟨t, ht, ?_⟩, ?_⟩
  · have h := hht i hi
    rw [hl _ i hi, hloc.2.2.2.1] at h
    rw [hsc i .type, if_pos hi, clock_applied_type]
    exact h
  · intro h0 h1 ty
    rw [castU_of_range 16 _ h0 h1]
    exact ⟨fun hd hs => decode_half_track_double c ty _ _ hd hs,
      fun hd => decode_half_track_single c ty _ _ hd⟩

set_option maxRecDepth 100000 in
/-- C37 (witness): the 1571 of `exampleSideWorld`, on half-track 40 of side 1,
is written and read back into `exampleWorld`. -/
theorem C37_half_track_and_side_encoding_witness :
    ((exampleCfg false).libretro = true ∨
      exampleSideWorld.resources .DriveTrueEmulation ≠ 0) ∧
    (drive_snapshot_write_module (exampleCfg false) exampleExt [] exampleSideWorld 0 0).1 = 0 ∧
    (drive_snapshot_read_module (exampleCfg false) exampleExt
      (drive_snapshot_write_module (exampleCfg false) exampleExt [] exampleSideWorld 0 0).2.1
      exampleWorld).1 = 0 ∧
    (drive_unit_fields (exampleCfg false) (exampleSideWorld.units 0)
        (exampleExt.rotation_table_get 0))[3]?
      = some (WKind.W, (exampleSideWorld.units 0).sc .current_half_track
          + (exampleSideWorld.units 0).sc .side * (exampleCfg false).DRIVE_HALFTRACKS_1571) :=
  ⟨by decide, by decide, by decide,
    (C37_half_track_and_side_encoding (exampleCfg false) exampleExt exampleSideWorld exampleWorld
      0 0 (by decide) (by decide) (by decide) 0 (by decide)).1⟩

/-! ## The clocks of the units without drive -/

/-- The decoding part of the reader, when it succeeds, has changed no scalar
member but those that the current layout and the trailing loops read in place. -/
theorem read_decode_keeps (c : Cfg) (e : Ext) (s : Snapshot) (wr : World)
    (d : World × (Local → Nat → Int) × Int)
    (hd : drive_snapshot_read_decode c e s wr = some d) :
    ∀ j f, Dest.live f ∉ (layout_current ++ layout_trailing).map Prod.snd →
      (d.1.units j).sc f = (wr.units j).sc f := by
  intro j f hf
  unfold drive_snapshot_read_decode at hd
  rcases hopen : snapshot_module_open s wr .DRIVE with ⟨r, w1⟩
  have hu1 : w1.units = wr.units := by
    unfold snapshot_module_open at hopen
    split at hopen <;> (simp only [Prod.mk.injEq] at hopen; rw [← hopen.2]; rfl)
  rw [hopen] at hd
  cases r with
  | none => simp at hd
  | some x =>
    obtain ⟨m, major, minor⟩ := x
    simp only [] at hd
    by_cases hb : snapshot_version_is_bigger major minor DRIVE_SNAP_MAJOR DRIVE_SNAP_MINOR = true
    · rw [if_pos hb] at hd; cases hd
    · rw [if_neg hb] at hd
      by_cases hs : snapshot_version_is_smaller major minor DRIVE_SNAP_MAJOR DRIVE_SNAP_MINOR
          = true
      · rw [if_pos hs] at hd; cases hd
      · rw [if_neg hs] at hd
        obtain ⟨hmaj, hmin⟩ := (version_checks_iff major minor).mp
          ⟨by simpa using hb, by simpa using hs⟩
        unfold DRIVE_SNAP_MAJOR at hmaj
        unfold DRIVE_SNAP_MINOR at hmin
        subst hmaj hmin
        obtain ⟨w3, hw3, hu3⟩ : ∃ w3,
            (if c.libretro = true then w1.log Event.drive_gcr_data_writeback_all
              else resources_set_int (w1.log Event.drive_gcr_data_writeback_all)
                Resource.DriveTrueEmulation 1) = w3 ∧ w3.units = wr.units := by
          refine ⟨_, rfl, ?_⟩
          split <;> exact hu1
        rw [hw3] at hd
        obtain ⟨r, data, hsm⟩ := SMR_DW_spec w3 m
        rw [hsm] at hd
        cases r with
        | none => simp at hd
        | some v =>
          simp only [] at hd
          have hro := read_units_reads_only NUM_DISK_UNITS 0
            ⟨⟨m.name, data⟩, w3.log (.snapshot_module_read m.name 4), e.uninit⟩
          rcases hru : read_units 1 5 NUM_DISK_UNITS 0
            ⟨⟨m.name, data⟩, w3.log (.snapshot_module_read m.name 4), e.uninit⟩ with ⟨b, st⟩
          rw [hru] at hd hro
          cases b with
          | false => simp at hd
          | true =>
            simp only [Option.some.injEq] at hd
            rw [← hd]
            simp only [log_units, close_units]
            have h1 := (read_units_ready_reads_only NUM_DISK_UNITS 0
              (read_units_clk NUM_DISK_UNITS 0 st)).2.1 j f
              (fun hh => hf (by simp only [List.map_append, List.mem_append]; exact Or.inr hh))
            have h2 := (read_units_clk_reads_only NUM_DISK_UNITS 0 st).2.1 j f
              (fun hh => hf (by simp only [List.map_append, List.mem_append]; exact Or.inr hh))
            have h3 := hro.2.1 j f
              (fun hh => hf (by simp only [List.map_append, List.mem_append]; exact Or.inl hh))
            simp only [log_units] at h3
            rw [h1, h2, h3, hu3]

/-- C38. In the apply phase of `drive_snapshot_read_module`, when the call
returns 0: a unit whose restored type is `DRIVE_TYPE_NONE` keeps the
`attach_clk`, `detach_clk` and `attach_detach_clk` it had before the call (the
values decoded for it are discarded), and a unit of any other type has the three
members set to the values decoded for the same unit index. -/
theorem C38_clocks_applied_to_present_drives (c : Cfg) (e : Ext) (s : Snapshot) (wr : World)
    (d : World × (Local → Nat → Int) × Int)
    (hd : drive_snapshot_read_decode c e s wr = some d)
    (hr : (drive_snapshot_read_module c e s wr).1 = 0) (j : Nat) (hj : j < NUM_DISK_UNITS) :
    ((drive_snapshot_read_module c e s wr).2.units j).sc .type = (d.1.units j).sc .type ∧
    ((d.1.units j).sc .type = c.DRIVE_TYPE_NONE →
      ∀ f ∈ clock_members,
        ((drive_snapshot_read_module c e s wr).2.units j).sc f = (wr.units j).sc f) ∧
    ((d.1.units j).sc .type ≠ c.DRIVE_TYPE_NONE →
      ((drive_snapshot_read_module c e s wr).2.units j).sc .attach_clk = d.2.1 .attach_clk j ∧
      ((drive_snapshot_read_module c e s wr).2.units j).sc .detach_clk = d.2.1 .detach_clk j ∧
      ((drive_snapshot_read_module c e s wr).2.units j).sc .attach_detach_clk
        = d.2.1 .attach_detach_clk j) := by
  have hk := read_decode_keeps c e s wr _ hd j
  obtain ⟨w6, loc, sf⟩ := d
  simp only [] at hk ⊢
  rw [read_module_of_decode c e s wr w6 loc sf hd] at hr ⊢
  obtain ⟨w5, ev, hsc, _⟩ := read_restore_spec c e s w6 loc sf hr
  have hty : (w5.units j).sc .type = (w6.units j).sc .type := ev.1 j .type (by decide)
  refine ⟨?_, ?_, ?_⟩
  · rw [hsc j .type, if_pos hj, clock_applied_type, hty]
  · intro hn f hf
    rw [hsc j f, if_pos hj]
    unfold clock_applied
    rw [hty, if_neg (by simpa using hn)]
    have hcm : ∀ g, g ∈ clock_members → ¬ config_flag g ∧
        Dest.live g ∉ (layout_current ++ layout_trailing).map Prod.snd := by decide
    rw [ev.1 j f (hcm f hf).1]
    exact hk f (hcm f hf).2
  · intro hn
    refine ⟨?_, ?_, ?_⟩
    · rw [hsc j .attach_clk, if_pos hj]
      unfold clock_applied
      rw [hty, if_pos hn, if_pos rfl]
    · rw [hsc j .detach_clk, if_pos hj]
      unfold clock_applied
      rw [hty, if_pos hn, if_neg (by decide), if_pos rfl]
    · rw [hsc j .attach_detach_clk, if_pos hj]
      unfold clock_applied
      rw [hty, if_pos hn, if_neg (by decide), if_neg (by decide), if_pos rfl]

set_option maxRecDepth 100000 in
/-- C38 (witness): the container `exampleWhole` read into `exampleWorld`: unit 0
is a 1541 and gets the attach clock decoded for it; unit 1 has no drive. -/
theorem C38_clocks_applied_to_present_drives_witness :
    (drive_snapshot_read_decode (exampleCfg true) exampleExt exampleWhole exampleWorld).isSome
      = true ∧
    (drive_snapshot_read_module (exampleCfg true) exampleExt exampleWhole exampleWorld).1 = 0 ∧
    (((drive_snapshot_read_decode (exampleCfg true) exampleExt exampleWhole exampleWorld).getD
        (exampleWorld, fun _ _ => 0, 0)).1.units 0).sc .type ≠ (exampleCfg true).DRIVE_TYPE_NONE ∧
    ((drive_snapshot_read_module (exampleCfg true) exampleExt exampleWhole exampleWorld).2.units
        0).sc .attach_clk
      = ((drive_snapshot_read_decode (exampleCfg true) exampleExt exampleWhole exampleWorld).getD
        (exampleWorld, fun _ _ => 0, 0)).2.1 .attach_clk 0 :=
  ⟨by decide, by decide, by decide,
    ((C38_clocks_applied_to_present_drives (exampleCfg true) exampleExt exampleWhole exampleWorld
      ((drive_snapshot_read_decode (exampleCfg true) exampleExt exampleWhole exampleWorld).getD
        (exampleWorld, fun _ _ => 0, 0))
      (some_getD_of_isSome _ _ (by decide)) (by decide) 0 (by decide)).2.2 (by decide)).1⟩

/-! ## The file name module of the `__LIBRETRO__` build -/

theorem SMR_B_cons (w : World) (name : ModName) (x : Byte) (rest : List Byte) :
    SMR_B w ⟨name, x :: rest⟩ = (some x.val, ⟨name, rest⟩, w.log (.snapshot_module_read name 1)) := by
  simp [SMR_B, snapshot_module_read, leNat]

/-- The local `filename` of the `__LIBRETRO__` writer for a name without `NUL`
that fits: `"___"`, the name, and zeros up to `RETRO_PATH_MAX` bytes. -/
theorem libretro_filename_of_name (c : Cfg) (e : Ext) (dnr : Nat)
    (hnul : ∀ b ∈ e.disk_basename dnr, b ≠ 0)
    (hlen : (e.disk_basename dnr).length + 3 < c.RETRO_PATH_MAX) :
    libretro_filename c e dnr
      = [95, 95, 95] ++ (e.disk_basename dnr ++
          (0 : Byte) :: List.replicate (c.RETRO_PATH_MAX - 4 - (e.disk_basename dnr).length) 0) := by
  unfold libretro_filename fill
  have htw : (e.disk_basename dnr).takeWhile (fun b => b ≠ 0) = e.disk_basename dnr := by
    rw [List.takeWhile_eq_self_iff]
    intro x hx
    simpa using hnul x hx
  have hl3 : ([95, 95, 95] ++ e.disk_basename dnr : List Byte).length
      = (e.disk_basename dnr).length + 3 := by
    simp only [List.length_append, List.length_cons, List.length_nil]
    omega
  have h1 : ([95, 95, 95] ++ e.disk_basename dnr : List Byte).take (c.RETRO_PATH_MAX - 1)
      = [95, 95, 95] ++ e.disk_basename dnr :=
    List.take_of_length_le (by rw [hl3]; omega)
  rw [htw, h1, List.take_append_eq_append_take, List.take_of_length_le (by rw [hl3]; omega),
    List.take_replicate, hl3]
  have hk : min (c.RETRO_PATH_MAX - ((e.disk_basename dnr).length + 3)) c.RETRO_PATH_MAX
      = (c.RETRO_PATH_MAX - 4 - (e.disk_basename dnr).length) + 1 := by
    omega
  rw [hk, List.replicate_succ, List.append_assoc]

/-- The file name loop of the `__LIBRETRO__` reader past the three underscores,
on a name without `NUL` followed by a zero byte: it collects the name. -/
theorem read_libretro_filename_name (name : ModName) (rest : List Byte) :
    ∀ (b : List Byte) (n i : Nat) (acc : List Byte) (w : World),
      3 ≤ i → b.length < n → (∀ x ∈ b, x ≠ 0) →
      (read_libretro_filename n i ⟨acc, ⟨name, b ++ (0 : Byte) :: rest⟩, w⟩).filename
        = acc ++ b := by
  intro b
  induction b with
  | nil =>
    intro n i acc w hi hn _
    obtain ⟨n, rfl⟩ : ∃ k, n = k + 1 := ⟨n - 1, by simp at hn; omega⟩
    have h3 : ¬ i < 3 := by omega
    simp [read_libretro_filename, SMR_B_cons, h3]
  | cons x xs ih =>
    intro n i acc w hi hn hx
    obtain ⟨n, rfl⟩ : ∃ k, n = k + 1 := ⟨n - 1, by simp at hn; omega⟩
    have h3 : ¬ i < 3 := by omega
    have hx0 : x ≠ 0 := hx x (List.mem_cons_self _ _)
    have hv : x.val ≠ 0 := fun h => hx0 (Fin.ext h)
    have hof : (Fin.ofNat x.val : Byte) = x := by
      apply Fin.ext
      simp [Fin.ofNat, Nat.mod_eq_of_lt x.isLt]
    simp only [read_libretro_filename, List.cons_append, SMR_B_cons, Option.getD_some, h3,
      if_false, hv, hof]
    rw [ih n (i + 1) (acc ++ [x]) _ (by omega) (by simp at hn; omega)
      (fun y hy => hx y (List.mem_cons_of_mem _ hy))]
    simp

/-- The file name loop of the `__LIBRETRO__` reader on a payload that starts
with `"___"`, a name without `NUL` and a zero byte. -/
theorem read_libretro_filename_payload (name : ModName) (b rest : List Byte) (n : Nat)
    (w : World) (hn : b.length + 3 < n) (hb : ∀ x ∈ b, x ≠ 0) :
    (read_libretro_filename n 0
      ⟨[], ⟨name, [95, 95, 95] ++ (b ++ (0 : Byte) :: rest)⟩, w⟩).filename = b := by
  obtain ⟨n, rfl⟩ : ∃ k, n = k + 3 := ⟨n - 3, by omega⟩
  have h95 : ((95 : Byte) : Nat) = 95 := rfl
  simp only [read_libretro_filename, List.cons_append, List.nil_append, SMR_B_cons,
    Option.getD_some, h95, ne_eq, not_true_eq_false, if_false, Nat.lt_irrefl, Nat.zero_add,
    show (0 : Nat) < 3 from by decide, show (1 : Nat) < 3 from by decide,
    show (2 : Nat) < 3 from by decide, if_true]
  rw [read_libretro_filename_name name rest b n _ [] _ (by omega) (by omega) hb]
  simp

/-- The module that the GCR writer of a build with `__LIBRETRO__` puts into the
container when the module can be created and the write does not fail: its
payload is the local `filename`, and the call returns 0. -/
theorem write_gcrimage_module_libretro (c : Cfg) (e : Ext) (s : Snapshot) (w : World)
    (dnr : Nat) (hlib : c.libretro = true)
    (hcreate : e.create_fails (.GCRIMAGE dnr) = false)
    (hsmw : e.smw_fails (.GCRIMAGE dnr) 0 = false) :
    (drive_snapshot_write_gcrimage_module c e s w dnr).1 = 0 ∧
    (drive_snapshot_write_gcrimage_module c e s w dnr).2.1
      = s ++ [⟨.GCRIMAGE dnr, GCRIMAGE_SNAP_MAJOR, GCRIMAGE_SNAP_MINOR,
          libretro_filename c e dnr⟩] := by
  unfold drive_snapshot_write_gcrimage_module
  simp [snapshot_module_create, hcreate, hlib, SMW_BA, smw, hsmw, snapshot_module_close_w]

/-- The `__LIBRETRO__` reader on a module of the current version whose payload
is `"___"`, a name without `NUL` that is not empty, and a zero byte. -/
theorem read_gcrimage_module_name (c : Cfg) (s : Snapshot) (w : World) (dnr : Nat)
    (hlib : c.libretro = true) (b rest : List Byte)
    (hmod : gcr_module s dnr = some ⟨.GCRIMAGE dnr, GCRIMAGE_SNAP_MAJOR, GCRIMAGE_SNAP_MINOR,
      [95, 95, 95] ++ (b ++ (0 : Byte) :: rest)⟩)
    (hne : b ≠ []) (hnul : ∀ x ∈ b, x ≠ 0) (hlen : b.length + 3 < c.RETRO_PATH_MAX) :
    (drive_snapshot_read_gcrimage_module c s w dnr).1 = 0 ∧
    (drive_snapshot_read_gcrimage_module c s w dnr).2.dc_savestate_filename = b ∧
    (∀ u, ((drive_snapshot_read_gcrimage_module c s w dnr).2.units u).gcr = (w.units u).gcr) ∧
    ((drive_snapshot_read_gcrimage_module c s w dnr).2.units dnr).sc .GCR_image_loaded = 1 ∧
    ((drive_snapshot_read_gcrimage_module c s w dnr).2.units dnr).image = none := by
  unfold drive_snapshot_read_gcrimage_module
  rw [open_gcr_some s w dnr _ hmod]
  have hb : snapshot_version_is_bigger GCRIMAGE_SNAP_MAJOR GCRIMAGE_SNAP_MINOR
      GCRIMAGE_SNAP_MAJOR GCRIMAGE_SNAP_MINOR = false := by decide
  have hs : snapshot_version_is_smaller GCRIMAGE_SNAP_MAJOR GCRIMAGE_SNAP_MINOR
      GCRIMAGE_SNAP_MAJOR GCRIMAGE_SNAP_MINOR = false := by decide
  simp only [hb, hs, Bool.false_eq_true, if_false, hlib, if_true]
  have hf := read_libretro_filename_payload (.GCRIMAGE dnr) b rest c.RETRO_PATH_MAX
    (w.log (.snapshot_module_open (.GCRIMAGE dnr) true)) hlen hnul
  obtain ⟨_, n2, _⟩ := read_libretro_filename_frame c.RETRO_PATH_MAX 0
    ⟨[], ⟨.GCRIMAGE dnr, [95, 95, 95] ++ (b ++ (0 : Byte) :: rest)⟩,
      w.log (.snapshot_module_open (.GCRIMAGE dnr) true)⟩
  generalize read_libretro_filename c.RETRO_PATH_MAX 0
    ⟨[], ⟨.GCRIMAGE dnr, [95, 95, 95] ++ (b ++ (0 : Byte) :: rest)⟩,
      w.log (.snapshot_module_open (.GCRIMAGE dnr) true)⟩ = nr at hf n2 ⊢
  rw [hf, if_pos hne]
  refine ⟨rfl, ?_, ?_, ?_, gcr_loaded_image _ _⟩
  · simp only [gcr_loaded]
    exact List.take_of_length_le (by omega)
  · intro u
    rw [gcr_loaded_gcr]
    simp only [close_units, n2, log_units]
  · simp [gcr_loaded]

/-- C39. In a build with `__LIBRETRO__`, when the module can be created and the
write does not fail, `drive_snapshot_write_gcrimage_module` returns 0 and puts
into the container a `GCRIMAGEk` module whose payload is exactly
`RETRO_PATH_MAX` bytes: `"___"` followed by the basename of the disk of the
unit, cut to fit and zero padded; no half-track count and no track bytes. For
every basename that is not empty, holds no `NUL` byte and is shorter than
`RETRO_PATH_MAX - 3` bytes, `drive_snapshot_read_gcrimage_module` applied to
the container written (which held no `GCRIMAGEk` before) returns 0, sets
`dc_savestate_filename` to exactly that basename, leaves every GCR track buffer
as it was, sets `GCR_image_loaded = 1` and the flat-image reference to `NULL`. -/
theorem C39_libretro_gcr_module_holds_name (c : Cfg) (e : Ext) (s : Snapshot) (ww wr : World)
    (dnr : Nat) (hlib : c.libretro = true)
    (hcreate : e.create_fails (.GCRIMAGE dnr) = false)
    (hsmw : e.smw_fails (.GCRIMAGE dnr) 0 = false)
    (hfresh : gcr_module s dnr = none) :
    (drive_snapshot_write_gcrimage_module c e s ww dnr).1 = 0 ∧
    (drive_snapshot_write_gcrimage_module c e s ww dnr).2.1
      = s ++ [⟨.GCRIMAGE dnr, GCRIMAGE_SNAP_MAJOR, GCRIMAGE_SNAP_MINOR,
          libretro_filename c e dnr⟩] ∧
    (libretro_filename c e dnr).length = c.RETRO_PATH_MAX ∧
    (e.disk_basename dnr ≠ [] → (∀ b ∈ e.disk_basename dnr, b ≠ 0) →
      (e.disk_basename dnr).length + 3 < c.RETRO_PATH_MAX →
      libretro_filename c e dnr
        = [95, 95, 95] ++ (e.disk_basename dnr ++
            (0 : Byte) :: List.replicate (c.RETRO_PATH_MAX - 4 - (e.disk_basename dnr).length) 0) ∧
      (drive_snapshot_read_gcrimage_module c
        (drive_snapshot_write_gcrimage_module c e s ww dnr).2.1 wr dnr).1 = 0 ∧
      (drive_snapshot_read_gcrimage_module c
        (drive_snapshot_write_gcrimage_module c e s ww dnr).2.1 wr dnr).2.dc_savestate_filename
          = e.disk_basename dnr ∧
      (∀ u, ((drive_snapshot_read_gcrimage_module c
        (drive_snapshot_write_gcrimage_module c e s ww dnr).2.1 wr dnr).2.units u).gcr
          = (wr.units u).gcr) ∧
      ((drive_snapshot_read_gcrimage_module c
        (drive_snapshot_write_gcrimage_module c e s ww dnr).2.1 wr dnr).2.units dnr).sc
          .GCR_image_loaded = 1 ∧
      ((drive_snapshot_read_gcrimage_module c
        (drive_snapshot_write_gcrimage_module c e s ww dnr).2.1 wr dnr).2.units dnr).image
          = none) := by
  obtain ⟨h1, h2⟩ := write_gcrimage_module_libretro c e s ww dnr hlib hcreate hsmw
  refine ⟨h1, h2, fill_length _ _, ?_⟩
  intro hne hnul hlen
  have hfn := libretro_filename_of_name c e dnr hnul hlen
  refine ⟨hfn, ?_⟩
  rw [h2]
  apply read_gcrimage_module_name c _ wr dnr hlib (e.disk_basename dnr)
    (List.replicate (c.RETRO_PATH_MAX - 4 - (e.disk_basename dnr).length) 0) ?_ hne hnul hlen
  rw [← hfn]
  exact gcr_module_appended s dnr _ hfresh rfl

set_option maxRecDepth 100000 in
/-- C39 (witness): the disk of unit 0 is named `A`; the module written for
`exampleGcrWorld` is read into `exampleWorld`. -/
theorem C39_libretro_gcr_module_holds_name_witness :
    (exampleCfg true).libretro = true ∧
    exampleNamedExt.disk_basename 0 = [65] ∧
    (drive_snapshot_read_gcrimage_module (exampleCfg true)
      (drive_snapshot_write_gcrimage_module (exampleCfg true) exampleNamedExt [] exampleGcrWorld
        0).2.1 exampleWorld 0).2.dc_savestate_filename = exampleNamedExt.disk_basename 0 :=
  ⟨by decide, by decide,
    ((C39_libretro_gcr_module_holds_name (exampleCfg true) exampleNamedExt [] exampleGcrWorld
      exampleWorld 0 (by decide) (by decide) (by decide) (by decide)).2.2.2 (by decide)
      (by decide) (by decide)).2.2.1⟩

/-! ## The paths on which the flat image reader leaves its module open -/

/-- C23 (code): the flat image reader does not close its module on two of its
paths. For a container without `NOIMAGEk` whose `IMAGEk` module has the current
version and begins with a type word: when the type is accepted, the temporary
file is made and grown and `file_system_attach_disk` fails, the calls made are
the two opens, the read of the word, `archdep_mkstemp_fd`, the free of the file
name, the attach, `log_error` and the second free of the file name, with which
the run ends; when the word is 9000 and the unit holds no image, the run ends
with the dereference of `drive->image`. In both cases the module `IMAGEk` is
never closed: it is still open after the last call. -/
theorem C23_flat_reader_leaves_module_open (c : Cfg) (e : Ext) (s : Snapshot) (w : World)
    (dnr : Nat) (md : SnapModule) (hno : noimage_module s dnr = none)
    (hmod : image_module s dnr = some md)
    (hmaj : md.major = IMAGE_SNAP_MAJOR) (hmin : md.minor = IMAGE_SNAP_MINOR)
    (word : Nat) (rest : List Byte) (hword : word < 2 ^ 16)
    (hdata : md.data = leBytes 2 word ++ rest) :
    (∀ len, image_len c (w.units dnr) word = some (some len) →
      e.archdep_mkstemp_fd = true → e.grow_file = true →
      (e.file_system_attach_disk (dnr + 8) len (w.units dnr).image).1 < 0 →
      (drive_snapshot_read_image_module c e s w dnr).2.trace
        = w.trace ++ [Event.snapshot_module_open (.NOIMAGE dnr) false,
            Event.snapshot_module_open (.IMAGE dnr) true,
            Event.snapshot_module_read (.IMAGE dnr) 2, Event.archdep_mkstemp_fd,
            Event.lib_free, Event.file_system_attach_disk (dnr + 8) 0 len, Event.log_error,
            Event.double_free] ∧
      scope_run none [Event.snapshot_module_open (.NOIMAGE dnr) false,
            Event.snapshot_module_open (.IMAGE dnr) true,
            Event.snapshot_module_read (.IMAGE dnr) 2, Event.archdep_mkstemp_fd,
            Event.lib_free, Event.file_system_attach_disk (dnr + 8) 0 len, Event.log_error,
            Event.double_free] = some (some (.IMAGE dnr))) ∧
    (image_len c (w.units dnr) word = some none →
      (drive_snapshot_read_image_module c e s w dnr).2.trace
        = w.trace ++ [Event.snapshot_module_open (.NOIMAGE dnr) false,
            Event.snapshot_module_open (.IMAGE dnr) true,
            Event.snapshot_module_read (.IMAGE dnr) 2, Event.null_dereference] ∧
      scope_run none [Event.snapshot_module_open (.NOIMAGE dnr) false,
            Event.snapshot_module_open (.IMAGE dnr) true,
            Event.snapshot_module_read (.IMAGE dnr) 2, Event.null_dereference]
          = some (some (.IMAGE dnr))) := by
  unfold drive_snapshot_read_image_module
  rw [open_noimage_none s w dnr hno]
  simp only []
  rw [open_image_some s _ dnr md hmod, hmaj, hmin]
  have hb : snapshot_version_is_bigger IMAGE_SNAP_MAJOR IMAGE_SNAP_MINOR IMAGE_SNAP_MAJOR
      IMAGE_SNAP_MINOR = false := by decide
  have hs : snapshot_version_is_smaller IMAGE_SNAP_MAJOR IMAGE_SNAP_MINOR IMAGE_SNAP_MAJOR
      IMAGE_SNAP_MINOR = false := by decide
  simp only [hb, hs, Bool.false_eq_true, if_false]
  rw [hdata, SMR_W_leBytes _ _ word rest hword]
  simp only [log_units]
  constructor
  · intro len hl hmk hg hr
    rw [hl]
    simp only [hmk, hg, Bool.not_true, Bool.false_eq_true, if_false, log_units]
    rw [if_pos hr]
    refine ⟨by simp [World.log], ?_⟩
    simp [scope_run, scope_step]
  · intro hl
    rw [hl]
    refine ⟨by simp [World.log], ?_⟩
    simp [scope_run, scope_step]

set_option maxRecDepth 100000 in
/-- C23 (witness): the module `IMAGE0` of `exampleFlat1581` read in an
environment in which the attach fails. -/
theorem C23_flat_reader_leaves_module_open_witness :
    noimage_module exampleFlat1581 0 = none ∧
    image_module exampleFlat1581 0 = some ⟨.IMAGE 0, 1, 0, leBytes 2 1581⟩ ∧
    (drive_snapshot_read_image_module (exampleCfg false) exampleAttachFailExt exampleFlat1581
      exampleWorld 0).2.trace
      = exampleWorld.trace ++ [Event.snapshot_module_open (.NOIMAGE 0) false,
          Event.snapshot_module_open (.IMAGE 0) true,
          Event.snapshot_module_read (.IMAGE 0) 2, Event.archdep_mkstemp_fd,
          Event.lib_free, Event.file_system_attach_disk (0 + 8) 0 (exampleCfg false).D81_FILE_SIZE,
          Event.log_error, Event.double_free] :=
  ⟨by decide, by decide,
    ((C23_flat_reader_leaves_module_open (exampleCfg false) exampleAttachFailExt exampleFlat1581
      exampleWorld 0 ⟨.IMAGE 0, 1, 0, leBytes 2 1581⟩ (by decide) (by decide) (by decide)
      (by decide) 1581 [] (by decide) (by decide)).1 (exampleCfg false).D81_FILE_SIZE
      (by decide) (by decide) (by decide) (by decide)).1⟩

/-! ## The `DRIVE` module as the writer emits it and the reader consumes it -/

theorem smr_field_trace (k : RKind) (d : Dest) (i : Nat) (st : RState) :
    (smr_field k d i st).2.w.trace
      = st.w.trace ++ [Event.snapshot_module_read st.m.name k.width] ∧
    (smr_field k d i st).2.m.name = st.m.name := by
  unfold smr_field snapshot_module_read
  split
  · next h =>
    split at h
    · simp only [Prod.mk.injEq] at h
      obtain ⟨_, h2, h3⟩ := h
      subst h2 h3
      cases d <;> exact ⟨rfl, rfl⟩
    · simp at h
  · next h =>
    split at h
    · simp at h
    · simp only [Prod.mk.injEq] at h
      obtain ⟨_, h2, h3⟩ := h
      subst h2 h3
      exact ⟨rfl, rfl⟩

/-- A chain of reads that succeeds has made its reads, in order. -/
theorem read_fields_trace :
    ∀ (R : List (RKind × Dest)) (i : Nat) (st : RState), (read_fields R i st).1 = true →
      (read_fields R i st).2.w.trace
        = st.w.trace ++ R.map (fun kd => Event.snapshot_module_read st.m.name kd.1.width) ∧
      (read_fields R i st).2.m.name = st.m.name := by
  intro R
  induction R with
  | nil => intro i st _; simp [read_fields]
  | cons kd R ih =>
    intro i st h
    obtain ⟨k, d⟩ := kd
    obtain ⟨t1, n1⟩ := smr_field_trace k d i st
    simp only [read_fields] at h ⊢
    rcases hs : smr_field k d i st with ⟨b, st1⟩
    rw [hs] at h t1 n1
    cases b with
    | false => simp at h
    | true =>
      simp only [] at h t1 n1 ⊢
      obtain ⟨t2, n2⟩ := ih i st1 h
      rw [t2, n2, t1, n1]
      simp

theorem read_units_trace :
    ∀ (n i : Nat) (st : RState), (read_units 1 5 n i st).1 = true →
      (read_units 1 5 n i st).2.w.trace
        = st.w.trace ++ (List.replicate n
            (layout_current.map
              (fun kd => Event.snapshot_module_read st.m.name kd.1.width))).flatten ∧
      (read_units 1 5 n i st).2.m.name = st.m.name := by
  intro n
  induction n with
  | zero => intro i st _; simp [read_units]
  | succ n ih =>
    intro i st h
    simp only [read_units, drive_read_layout_current] at h ⊢
    have h1 := read_fields_trace layout_current i st
    rcases hs : read_fields layout_current i st with ⟨b, st1⟩
    rw [hs] at h h1
    cases b with
    | false => simp at h
    | true =>
      simp only [] at h h1 ⊢
      obtain ⟨t1, n1⟩ := h1 trivial
      obtain ⟨t2, n2⟩ := ih (i + 1) st1 h
      rw [t2, n2, t1, n1, List.replicate_succ, List.flatten_cons, List.append_assoc]
      exact ⟨rfl, rfl⟩

theorem read_units_clk_trace :
    ∀ (n i : Nat) (st : RState),
      (read_units_clk n i st).w.trace
        = st.w.trace ++ (List.replicate n
            (layout_clk.map
              (fun kd => Event.snapshot_module_read st.m.name kd.1.width))).flatten ∧
      (read_units_clk n i st).m.name = st.m.name := by
  intro n
  induction n with
  | zero => intro i st; simp [read_units_clk]
  | succ n ih =>
    intro i st
    simp only [read_units_clk]
    obtain ⟨t1, n1⟩ := smr_field_trace .DW (.loc .attach_detach_clk) i st
    obtain ⟨t2, n2⟩ := ih (i + 1) (smr_field .DW (.loc .attach_detach_clk) i st).2
    rw [t2, n2, t1, n1, List.replicate_succ, List.flatten_cons, List.append_assoc]
    exact ⟨rfl, rfl⟩

theorem read_units_ready_trace :
    ∀ (n i : Nat) (st : RState),
      (read_units_ready n i st).w.trace
        = st.w.trace ++ (List.replicate n
            (layout_ready.map
              (fun kd => Event.snapshot_module_read st.m.name kd.1.width))).flatten ∧
      (read_units_ready n i st).m.name = st.m.name := by
  intro n
  induction n with
  | zero => intro i st; simp [read_units_ready]
  | succ n ih =>
    intro i st
    simp only [read_units_ready]
    obtain ⟨t1, n1⟩ := smr_field_trace .B_INT (.live .byte_ready_edge) i st
    obtain ⟨t2, n2⟩ := smr_field_trace .B_INT (.live .byte_ready_active) i
      (smr_field .B_INT (.live .byte_ready_edge) i st).2
    obtain ⟨t3, n3⟩ := ih (i + 1) (smr_field .B_INT (.live .byte_ready_active) i
      (smr_field .B_INT (.live .byte_ready_edge) i st).2).2
    rw [t3, n3, t2, n2, t1, n1, List.replicate_succ, List.flatten_cons, List.append_assoc]
    simp [layout_ready]

/-- The calls of the decoding part of the reader, when it succeeds: the open, the
write-back, the setting of `DriveTrueEmulation` in a build without
`__LIBRETRO__`, the reads of the module in the order of the current layout, the
close and `rotation_table_set`. -/
theorem read_decode_trace (c : Cfg) (e : Ext) (s : Snapshot) (wr : World)
    (d : World × (Local → Nat → Int) × Int)
    (hd : drive_snapshot_read_decode c e s wr = some d) :
    d.1.trace = wr.trace ++
      ([Event.snapshot_module_open .DRIVE true, Event.drive_gcr_data_writeback_all] ++
        ((if c.libretro = true then [] else [Event.resources_set_int .DriveTrueEmulation 1]) ++
          (drive_reads ++ [Event.snapshot_module_close .DRIVE,
            Event.rotation_table_set
              ((List.range NUM_DISK_UNITS).map (fun i => d.2.1 .rotation_table_ptr i))]))) := by
  unfold drive_snapshot_read_decode at hd
  rcases hopen : snapshot_module_open s wr .DRIVE with ⟨r, w1⟩
  have ho : (r = none ∨ ∃ data major minor, r = some (⟨.DRIVE, data⟩, major, minor)) ∧
      w1.trace = wr.trace ++ [Event.snapshot_module_open .DRIVE r.isSome] := by
    unfold snapshot_module_open at hopen
    split at hopen <;>
      (simp only [Prod.mk.injEq] at hopen; obtain ⟨h1, h2⟩ := hopen; subst h1 h2)
    · exact ⟨Or.inl rfl, rfl⟩
    · exact ⟨Or.inr ⟨_, _, _, rfl⟩, rfl⟩
  rw [hopen] at hd
  obtain ⟨hr, ht1⟩ := ho
  rcases hr with rfl | ⟨data, major, minor, rfl⟩
  · simp at hd
  · simp only [] at hd
    by_cases hb : snapshot_version_is_bigger major minor DRIVE_SNAP_MAJOR DRIVE_SNAP_MINOR = true
    · rw [if_pos hb] at hd; cases hd
    · rw [if_neg hb] at hd
      by_cases hs : snapshot_version_is_smaller major minor DRIVE_SNAP_MAJOR DRIVE_SNAP_MINOR
          = true
      · rw [if_pos hs] at hd; cases hd
      · rw [if_neg hs] at hd
        obtain ⟨hmaj, hmin⟩ := (version_checks_iff major minor).mp
          ⟨by simpa using hb, by simpa using hs⟩
        unfold DRIVE_SNAP_MAJOR at hmaj
        unfold DRIVE_SNAP_MINOR at hmin
        subst hmaj hmin
        obtain ⟨w3, hw3, ht3⟩ : ∃ w3,
            (if c.libretro = true then w1.log Event.drive_gcr_data_writeback_all
              else resources_set_int (w1.log Event.drive_gcr_data_writeback_all)
                Resource.DriveTrueEmulation 1) = w3 ∧
            w3.trace = wr.trace ++ ([Event.snapshot_module_open .DRIVE true,
              Event.drive_gcr_data_writeback_all] ++
              (if c.libretro = true then []
                else [Event.resources_set_int .DriveTrueEmulation 1])) := by
          refine ⟨_, rfl, ?_⟩
          split <;> simp [resources_set_int, World.log, ht1]
        rw [hw3] at hd
        obtain ⟨r, data1, hsm⟩ := SMR_DW_spec w3 ⟨.DRIVE, data⟩
        rw [hsm] at hd
        cases r with
        | none => simp at hd
        | some v =>
          simp only [] at hd
          have hu := read_units_trace NUM_DISK_UNITS 0
            ⟨⟨.DRIVE, data1⟩, w3.log (.snapshot_module_read .DRIVE 4), e.uninit⟩
          rcases hru : read_units 1 5 NUM_DISK_UNITS 0
            ⟨⟨.DRIVE, data1⟩, w3.log (.snapshot_module_read .DRIVE 4), e.uninit⟩ with ⟨b, st⟩
          rw [hru] at hd hu
          cases b with
          | false => simp at hd
          | true =>
            simp only [Option.some.injEq] at hd
            obtain ⟨u1, u2⟩ := hu rfl
            simp only [] at u1 u2
            obtain ⟨c1, c2⟩ := read_units_clk_trace NUM_DISK_UNITS 0 st
            obtain ⟨r1, r2⟩ := read_units_ready_trace NUM_DISK_UNITS 0
              (read_units_clk NUM_DISK_UNITS 0 st)
            rw [← hd]
            simp only [log_trace, close_trace]
            rw [r1, r2, c1, c2, u1, u2, log_trace, ht3]
            simp only [drive_reads, chain_reads, List.append_assoc, List.cons_append,
              List.nil_append, List.singleton_append]

/-- The decoding part of the reader, run on a container that starts with the
current-version `DRIVE` module holding the payload of the world `ww`, succeeds:
the timing factor is the one written, and every member and local array that the
layouts read holds the value written at the same place. -/
theorem read_decode_decodes (c : Cfg) (e : Ext) (ww wr : World) (tail : Snapshot) :
    ∃ w6 loc,
      drive_snapshot_read_decode c e
          (⟨.DRIVE, DRIVE_SNAP_MAJOR, DRIVE_SNAP_MINOR, drive_payload c e ww⟩ :: tail) wr
        = some (w6, loc, toInt32 (castU 32 (ww.resources .MachineVideoStandard))) ∧
      (∀ j f, j < NUM_DISK_UNITS → (w6.units j).sc f
        = (decoded layout_ready (drive_unit_fields_ready (ww.units j)) (.live f)).getD
            ((decoded layout_current
              (drive_unit_fields c (ww.units j) (e.rotation_table_get j)) (.live f)).getD
              ((wr.units j).sc f))) ∧
      (∀ l j, j < NUM_DISK_UNITS → loc l j
        = (decoded layout_clk (drive_unit_fields_clk (ww.units j)) (.loc l)).getD
            ((decoded layout_current
              (drive_unit_fields c (ww.units j) (e.rotation_table_get j)) (.loc l)).getD
              (e.uninit l j))) := by
  generalize hp : drive_payload c e ww = payload
  have hmod : drive_module
      (⟨.DRIVE, DRIVE_SNAP_MAJOR, DRIVE_SNAP_MINOR, payload⟩ :: tail)
      = some ⟨.DRIVE, DRIVE_SNAP_MAJOR, DRIVE_SNAP_MINOR, payload⟩ := by
    simp [drive_module]
  unfold drive_snapshot_read_decode
  rw [open_drive_some _ _ _ hmod]
  have hb : snapshot_version_is_bigger DRIVE_SNAP_MAJOR DRIVE_SNAP_MINOR DRIVE_SNAP_MAJOR
      DRIVE_SNAP_MINOR = false := by decide
  have hs : snapshot_version_is_smaller DRIVE_SNAP_MAJOR DRIVE_SNAP_MINOR DRIVE_SNAP_MAJOR
      DRIVE_SNAP_MINOR = false := by decide
  simp only [hb, hs, Bool.false_eq_true, if_false]
  obtain ⟨w3, hw3, hu3, t3, ht3⟩ : ∃ w3,
      (if c.libretro = true then
        (wr.log (.snapshot_module_open .DRIVE true)).log .drive_gcr_data_writeback_all
      else resources_set_int
        ((wr.log (.snapshot_module_open .DRIVE true)).log .drive_gcr_data_writeback_all)
        .DriveTrueEmulation 1) = w3 ∧ w3.units = wr.units ∧ ∃ t, w3.trace = wr.trace ++ t := by
    refine ⟨_, rfl, ?_, ?_⟩
    · split <;> rfl
    · split
      · simp only [log_trace, List.append_assoc]
        exact ⟨_, rfl⟩
      · simp only [resources_set_int, log_trace, List.append_assoc]
        exact ⟨_, rfl⟩
  rw [hw3]
  have hW : ∀ j, layout_current.map (fun kd => kd.1.width)
      = (drive_unit_fields c (ww.units j) (e.rotation_table_get j)).map (fun kv => kv.1.width) :=
    fun _ => rfl
  have hWc : ∀ j, layout_clk.map (fun kd => kd.1.width)
      = (drive_unit_fields_clk (ww.units j)).map (fun kv => kv.1.width) := fun _ => rfl
  have hWr : ∀ j, layout_ready.map (fun kd => kd.1.width)
      = (drive_unit_fields_ready (ww.units j)).map (fun kv => kv.1.width) := fun _ => rfl
  obtain ⟨wA, locA, hA, uA, lA, -, -, tA, htA⟩ := iter_units_spec .DRIVE layout_current
    (fun j => drive_unit_fields c (ww.units j) (e.rotation_table_get j))
    (fun i st => (read_fields layout_current i st).2)
    (fun i rest w loc => current_step .DRIVE _ (hW i) i rest w loc)
    NUM_DISK_UNITS 0
    (encode_units (fun i => drive_unit_fields_clk (ww.units i)) NUM_DISK_UNITS 0 ++
      encode_units (fun i => drive_unit_fields_ready (ww.units i)) NUM_DISK_UNITS 0)
    (w3.log (.snapshot_module_read .DRIVE 4)) e.uninit
  obtain ⟨wB, locB, hB, uB, lB, -, -, tB, htB⟩ := iter_units_spec .DRIVE layout_clk
    (fun j => drive_unit_fields_clk (ww.units j))
    (fun i st => (read_fields [(.DW, .loc .attach_detach_clk)] i st).2)
    (fun i rest w loc => clk_step .DRIVE _ (hWc i) i rest w loc)
    NUM_DISK_UNITS 0
    (encode_units (fun i => drive_unit_fields_ready (ww.units i)) NUM_DISK_UNITS 0)
    wA locA
  obtain ⟨wC, locC, hC, uC, lC, -, -, tC, htC⟩ := iter_units_spec .DRIVE layout_ready
    (fun j => drive_unit_fields_ready (ww.units j))
    (fun i st => (smr_field .B_INT (.live .byte_ready_active) i
            (smr_field .B_INT (.live .byte_ready_edge) i st).2).2)
    (fun i rest w loc => ready_step .DRIVE _ (hWr i) i rest w loc)
    NUM_DISK_UNITS 0 [] wB locB
  rw [List.append_nil] at hC
  have h15 : read_units DRIVE_SNAP_MAJOR DRIVE_SNAP_MINOR = read_units 1 5 := rfl
  rw [← hp, drive_payload, SMR_DW_leBytes _ _ _ _ (castU_lt 32 _)]
  simp only []
  rw [h15, read_units_eq_iter .DRIVE _ hW, hA]
  simp only []
  rw [read_units_clk_eq_iter, hB, read_units_ready_eq_iter, hC]
  refine ⟨_, _, rfl, ?_, ?_⟩
  · intro j f hj
    have hj2 : 0 ≤ j ∧ j < 0 + NUM_DISK_UNITS := ⟨Nat.zero_le j, by omega⟩
    have hclk : decoded layout_clk (drive_unit_fields_clk (ww.units j)) (.live f) = none := by
      simp [decoded, layout_clk, drive_unit_fields_clk]
    show (wC.units j).sc f = _
    rw [uC j, if_pos hj2, uB j, if_pos hj2, uA j, if_pos hj2]
    simp only [decoded_unit, hclk, Option.getD_none, log_units, hu3]
  · intro l j hj
    have hj2 : 0 ≤ j ∧ j < 0 + NUM_DISK_UNITS := ⟨Nat.zero_le j, by omega⟩
    have hrdy : decoded layout_ready (drive_unit_fields_ready (ww.units j)) (.loc l) = none := by
      simp [decoded, layout_ready, drive_unit_fields_ready]
    show locC l j = _
    rw [lC l j, if_pos hj2, lB l j, if_pos hj2, lA l j, if_pos hj2]
    simp only [hrdy, Option.getD_none]

/-- The payload that the writer emits is the payload as the specification words
it. -/
theorem drive_payload_eq_spec (c : Cfg) (e : Ext) (w : World) :
    drive_payload c e w = spec_drive_payload c e w := rfl

/-- The tables of the two chains: widths and places as the specification lists
them, and the correspondence of the places read with the places written. -/
theorem layout_tables_agree :
    drive_unit_sources.map (fun ks => 8 * ks.1.width) = spec_record_widths ∧
    layout_current.map (fun kd => 8 * kd.1.width) = spec_record_widths ∧
    layouts_agree drive_unit_sources layout_current = true ∧
    (drive_unit_sources.map Prod.snd).take 23 = spec_record_places ∧
    (drive_unit_sources.map Prod.snd).drop 23
      = [.member .snap_speed_zone, .member .snap_ue7_dcba, .member .snap_ue7_counter,
          .member .snap_uf4_counter, .member .snap_fr_randcount, .member .snap_filter_counter,
          .member .snap_filter_state, .member .snap_filter_last_state, .member .snap_write_flux,
          .member .snap_PulseHeadPosition, .member .snap_xorShift32, .member .snap_so_delay,
          .member .snap_cycle_index, .member .snap_ref_advance, .member .snap_req_ref_cycles] ∧
    drive_unit_sources_clk.map (fun ks => 8 * ks.1.width) = [32] ∧
    layouts_agree drive_unit_sources_clk layout_clk = true ∧
    drive_unit_sources_ready.map (fun ks => 8 * ks.1.width) = [8, 8] ∧
    layouts_agree drive_unit_sources_ready layout_ready = true ∧
    drive_read_layout DRIVE_SNAP_MAJOR DRIVE_SNAP_MINOR = layout_current ∧
    (∀ (c : Cfg) (u : DiskUnit) (ptr : Int),
      drive_unit_fields c u ptr
        = drive_unit_sources.map (fun ks => (ks.1, ks.2.eval c u ptr)) ∧
      drive_unit_fields_clk u
        = drive_unit_sources_clk.map (fun ks => (ks.1, ks.2.eval c u ptr)) ∧
      drive_unit_fields_ready u
        = drive_unit_sources_ready.map (fun ks => (ks.1, ks.2.eval c u ptr))) :=
  ⟨by decide, by decide, by decide, by decide, by decide, by decide, by decide, by decide,
    by decide, by decide, fun _ _ _ => ⟨rfl, rfl, rfl⟩⟩

theorem emitted_length (c : Cfg) (u : DiskUnit) (ptr : Int) (W : List (WKind × Src)) :
    (emitted c u ptr W).length = (W.map (fun ks => ks.1.width)).sum := by
  unfold emitted
  rw [List.length_flatten, List.map_map]
  congr 1
  apply List.map_congr_left
  intro ks _
  simp [leBytes_length]

set_option maxRecDepth 100000 in
theorem spec_drive_payload_length (c : Cfg) (e : Ext) (w : World) :
    (spec_drive_payload c e w).length * 8 = spec_drive_widths.sum := by
  have h : spec_drive_widths.sum = 3904 := by decide
  have h1 : (drive_unit_sources.map (fun ks => ks.1.width)).sum = 115 := by decide
  have h2 : (drive_unit_sources_clk.map (fun ks => ks.1.width)).sum = 4 := by decide
  have h3 : (drive_unit_sources_ready.map (fun ks => ks.1.width)).sum = 2 := by decide
  rw [h]
  simp [spec_drive_payload, NUM_DISK_UNITS, List.range_succ, emitted_length, leBytes_length,
    h1, h2, h3]

/-- The reader, when its decoding part succeeds, has made the calls of the
decoding part and then those of the reconstruction. -/
theorem read_module_trace (c : Cfg) (e : Ext) (s : Snapshot) (wr : World)
    (d : World × (Local → Nat → Int) × Int)
    (hd : drive_snapshot_read_decode c e s wr = some d) :
    ∃ t, (drive_snapshot_read_module c e s wr).2.trace = wr.trace ++
      ([Event.snapshot_module_open .DRIVE true, Event.drive_gcr_data_writeback_all] ++
        ((if c.libretro = true then [] else [Event.resources_set_int .DriveTrueEmulation 1]) ++
          (drive_reads ++ ([Event.snapshot_module_close .DRIVE,
            Event.rotation_table_set
              ((List.range NUM_DISK_UNITS).map (fun i => d.2.1 .rotation_table_ptr i))]
            ++ t)))) := by
  have ht := read_decode_trace c e s wr d hd
  obtain ⟨w6, loc, sf⟩ := d
  rw [read_module_of_decode c e s wr w6 loc sf hd]
  obtain ⟨t, h, -⟩ := read_restore_releases c e s w6 loc sf
  refine ⟨t, ?_⟩
  rw [h, ht]
  simp only [List.append_assoc]

set_option maxRecDepth 100000 in
/-- C29. When `drive_snapshot_write_module` writes the `DRIVE` module (build with
`__LIBRETRO__`, or true drive emulation on) and returns 0, the module it emits
is the current-version `DRIVE` module whose payload is, in this order: the
single leading 32-bit timing factor; then, unit after unit, the record of the
unit; then, across all units, one attach-detach clock per unit; then, across all
units, the byte-ready edge and active bytes per unit. The record has the 38
widths that the specification lists, from the attach clock of 32 bits to the 15
further counters of 32 bits; its first 23 places are those that the
specification names, the 15 further counters run from `snap_speed_zone` to
`snap_req_ref_cycles`; the payload has exactly the bytes of these widths.
`drive_snapshot_read_module`, whenever its current-version branch decodes a
module, has made between the open and the close of the module exactly the reads
of these widths in this order (after the open, the write-back and, without
`__LIBRETRO__`, the setting of `DriveTrueEmulation`), each read storing into the
place that corresponds to the write at the same position. On the module that the
writer emitted the decoding succeeds from any world: the timing factor decoded
is the one written, and every member and local array that the layouts read holds
the value written at the same position. -/
theorem C29_writer_and_reader_layouts_agree (c : Cfg) (e : Ext) (ww : World)
    (save_disks save_roms : Int)
    (hdrive : c.libretro = true ∨ ww.resources .DriveTrueEmulation ≠ 0)
    (hw : (drive_snapshot_write_module c e [] ww save_disks save_roms).1 = 0) :
    (∃ tail, (drive_snapshot_write_module c e [] ww save_disks save_roms).2.1
      = ⟨.DRIVE, DRIVE_SNAP_MAJOR, DRIVE_SNAP_MINOR, spec_drive_payload c e ww⟩ :: tail) ∧
    (spec_drive_payload c e ww).length * 8 = spec_drive_widths.sum ∧
    drive_unit_sources.map (fun ks => 8 * ks.1.width) = spec_record_widths ∧
    layout_current.map (fun kd => 8 * kd.1.width) = spec_record_widths ∧
    (drive_unit_sources.map Prod.snd).take 23 = spec_record_places ∧
    (drive_unit_sources.map Prod.snd).drop 23
      = [.member .snap_speed_zone, .member .snap_ue7_dcba, .member .snap_ue7_counter,
          .member .snap_uf4_counter, .member .snap_fr_randcount, .member .snap_filter_counter,
          .member .snap_filter_state, .member .snap_filter_last_state, .member .snap_write_flux,
          .member .snap_PulseHeadPosition, .member .snap_xorShift32, .member .snap_so_delay,
          .member .snap_cycle_index, .member .snap_ref_advance, .member .snap_req_ref_cycles] ∧
    drive_unit_sources_clk = [(.DW, .member .attach_detach_clk)] ∧
    drive_unit_sources_ready
      = [(.B, .member .byte_ready_edge), (.B, .member .byte_ready_active)] ∧
    drive_reads.filterMap drive_read_bits = spec_drive_widths ∧
    drive_read_layout DRIVE_SNAP_MAJOR DRIVE_SNAP_MINOR = layout_current ∧
    layouts_agree drive_unit_sources layout_current = true ∧
    layouts_agree drive_unit_sources_clk layout_clk = true ∧
    layouts_agree drive_unit_sources_ready layout_ready = true ∧
    (∀ (s : Snapshot) (wr : World) (d : World × (Local → Nat → Int) × Int),
      drive_snapshot_read_decode c e s wr = some d →
      ∃ t, (drive_snapshot_read_module c e s wr).2.trace = wr.trace ++
        ([Event.snapshot_module_open .DRIVE true, Event.drive_gcr_data_writeback_all] ++
          ((if c.libretro = true then []
              else [Event.resources_set_int .DriveTrueEmulation 1]) ++
            (drive_reads ++ ([Event.snapshot_module_close .DRIVE,
              Event.rotation_table_set
                ((List.range NUM_DISK_UNITS).map (fun i => d.2.1 .rotation_table_ptr i))]
              ++ t))))) ∧
    (∀ wr : World, ∃ w6 loc,
      drive_snapshot_read_decode c e
          (drive_snapshot_write_module c e [] ww save_disks save_roms).2.1 wr
        = some (w6, loc, toInt32 (castU 32 (ww.resources .MachineVideoStandard))) ∧
      (∀ j f, j < NUM_DISK_UNITS → (w6.units j).sc f
        = (decoded layout_ready (drive_unit_fields_ready (ww.units j)) (.live f)).getD
            ((decoded layout_current
              (drive_unit_fields c (ww.units j) (e.rotation_table_get j)) (.live f)).getD
              ((wr.units j).sc f))) ∧
      (∀ l j, j < NUM_DISK_UNITS → loc l j
        = (decoded layout_clk (drive_unit_fields_clk (ww.units j)) (.loc l)).getD
            ((decoded layout_current
              (drive_unit_fields c (ww.units j) (e.rotation_table_get j)) (.loc l)).getD
              (e.uninit l j)))) ∧
    (∀ (u : DiskUnit) (ptr : Int),
      drive_unit_fields c u ptr
        = drive_unit_sources.map (fun ks => (ks.1, ks.2.eval c u ptr)) ∧
      drive_unit_fields_clk u
        = drive_unit_sources_clk.map (fun ks => (ks.1, ks.2.eval c u ptr)) ∧
      drive_unit_fields_ready u
        = drive_unit_sources_ready.map (fun ks => (ks.1, ks.2.eval c u ptr))) := by
  obtain ⟨tail, hc⟩ := write_module_container c e ww save_disks save_roms hdrive hw
  obtain ⟨t1, t2, t3, t4, t5, -, t7, -, t9, t10, t11⟩ := layout_tables_agree
  refine ⟨⟨tail, by rw [hc, drive_payload_eq_spec]⟩, spec_drive_payload_length c e ww, t1, t2,
    t4, t5, rfl, rfl, by decide, t10, t3, t7, t9,
    fun s wr d hd => read_module_trace c e s wr d hd, ?_, fun u ptr => t11 c u ptr⟩
  intro wr
  rw [hc]
  exact read_decode_decodes c e ww wr tail

set_option maxRecDepth 100000 in
/-- C29 (witness): the 1541 drive of `exampleDriveWorld`, written in a build
without `__LIBRETRO__`: the module emitted holds the payload as the
specification words it. -/
theorem C29_writer_and_reader_layouts_agree_witness :
    ((exampleCfg false).libretro = true ∨
      exampleDriveWorld.resources .DriveTrueEmulation ≠ 0) ∧
    (drive_snapshot_write_module (exampleCfg false) exampleExt [] exampleDriveWorld 0 0).1 = 0 ∧
    ∃ tail, (drive_snapshot_write_module (exampleCfg false) exampleExt [] exampleDriveWorld 0 0).2.1
      = ⟨.DRIVE, DRIVE_SNAP_MAJOR, DRIVE_SNAP_MINOR,
          spec_drive_payload (exampleCfg false) exampleExt exampleDriveWorld⟩ :: tail :=
  ⟨by decide, by decide,
    (C29_writer_and_reader_layouts_agree (exampleCfg false) exampleExt exampleDriveWorld 0 0
      (by decide) (by decide)).1⟩
end DriveSnapshot
